import Mathlib

/-! # universeII: image manager, event waits, DMA channel and interrupt handler

A shallow embedding of `driver/universeII.c` (Tundra Universe II PCI-to-VME
bridge driver).  The driver's global variables become the fields of `State`,
every entry point becomes a function `State → … → Int × State` and every
call into the kernel whose outcome the driver cannot determine
(`copy_from_user`, `pci_bus_alloc_resource`, `ioremap`, `kmalloc`, the way
`schedule()` returns, what the DMA engine leaves in its registers) becomes an
explicit argument.  List nodes live in a table from addresses to nodes; a
case that follows `next` pointers returns a `Res`, which tells a returned
value from the dereference of an invalid pointer.  The tables of the driver
are total functions of their index; where the index a piece of code uses
matters, the code reports it (`IrqTrace.slots`, `getImageReads`,
`WindowResult.accesses`).  The interrupt handler, the one place that indexes
`irq_device` with an unchecked value, accesses the slot that the C expression
designates in the row-by-row layout of the table (`irqRow`, `irqCol`).

C `unsigned int` / `u32` values are natural numbers; arithmetic on them is
reduced modulo `2^32` where the C code computes in 32 bits.
-/

namespace UniverseII

/-! ## Machine arithmetic -/

/-- Conversion to `u32`: reduction modulo `2^32`. -/
def u32 (n : Nat) : Nat := n % 4294967296

/-- The `u32` sum `a + b`. -/
def add32 (a b : Nat) : Nat := (a + b) % 4294967296

/-- The `u32` negation `-a`. -/
def neg32 (a : Nat) : Nat := (4294967296 - a % 4294967296) % 4294967296

/-- The `u32` difference `a - b`. -/
def sub32 (a b : Nat) : Nat := (a % 4294967296 + (4294967296 - b % 4294967296)) % 4294967296

/-- The `u32` complement `~a`. -/
def not32 (a : Nat) : Nat := 4294967295 - a % 4294967296

/-! ## Constants of the source -/

def MAX_IMAGE : Nat := 8
def MAX_MINOR : Nat := 17
def CONTROL_MINOR : Nat := 8
def DMA_MINOR : Nat := 9
/-- Size of one slave image buffer. -/
def PCI_BUF_SIZE : Nat := 0x20000

/-- Kernel errno values used by `universeII_open`. -/
def EBUSY : Int := 16
def ENODEV : Int := 19
/-- Kernel resource flag `IORESOURCE_MEM`. -/
def IORESOURCE_MEM : Nat := 0x200

/-! ## Bridge registers

The register offsets (`LSI0_CTL`, `LINT_EN`, …) are macros of `universeII.h`,
which is not among the sources.  They are kept symbolic: every macro name is
one register, and `OFF0` is the register at offset `0`, which the tables
`aCTL`, `aBS`, `aBD`, `aTO` name at the two unused indices 8 and 9. -/

inductive Reg
  | OFF0
  | LSI0_CTL | LSI1_CTL | LSI2_CTL | LSI3_CTL | LSI4_CTL | LSI5_CTL | LSI6_CTL | LSI7_CTL
  | VSI0_CTL | VSI1_CTL | VSI2_CTL | VSI3_CTL | VSI4_CTL | VSI5_CTL | VSI6_CTL | VSI7_CTL
  | LSI0_BS | LSI1_BS | LSI2_BS | LSI3_BS | LSI4_BS | LSI5_BS | LSI6_BS | LSI7_BS
  | VSI0_BS | VSI1_BS | VSI2_BS | VSI3_BS | VSI4_BS | VSI5_BS | VSI6_BS | VSI7_BS
  | LSI0_BD | LSI1_BD | LSI2_BD | LSI3_BD | LSI4_BD | LSI5_BD | LSI6_BD | LSI7_BD
  | VSI0_BD | VSI1_BD | VSI2_BD | VSI3_BD | VSI4_BD | VSI5_BD | VSI6_BD | VSI7_BD
  | LSI0_TO | LSI1_TO | LSI2_TO | LSI3_TO | LSI4_TO | LSI5_TO | LSI6_TO | LSI7_TO
  | VSI0_TO | VSI1_TO | VSI2_TO | VSI3_TO | VSI4_TO | VSI5_TO | VSI6_TO | VSI7_TO
  | V1_STATID | V2_STATID | V3_STATID | V4_STATID | V5_STATID | V6_STATID | V7_STATID
  | MAILBOX0 | MAILBOX1 | MAILBOX2 | MAILBOX3
  | LINT_EN | LINT_STAT | LINT_MAP0 | LINT_MAP1 | LINT_MAP2
  | VINT_EN | STATID | V_AMERR | VAERR | PCI_CSR | MISC_CTL | MAST_CTL
  | DCTL | DTBC | DLA | DVA | DCPP | DGCS
  deriving DecidableEq, Repr

open Reg

/-- Table `aCTL[18]`; an index past the table is read as `0`. -/
def aCTL : Nat → Reg
  | 0 => LSI0_CTL | 1 => LSI1_CTL | 2 => LSI2_CTL | 3 => LSI3_CTL
  | 4 => LSI4_CTL | 5 => LSI5_CTL | 6 => LSI6_CTL | 7 => LSI7_CTL
  | 10 => VSI0_CTL | 11 => VSI1_CTL | 12 => VSI2_CTL | 13 => VSI3_CTL
  | 14 => VSI4_CTL | 15 => VSI5_CTL | 16 => VSI6_CTL | 17 => VSI7_CTL
  | _ => OFF0

/-- Table `aBS[18]`. -/
def aBS : Nat → Reg
  | 0 => LSI0_BS | 1 => LSI1_BS | 2 => LSI2_BS | 3 => LSI3_BS
  | 4 => LSI4_BS | 5 => LSI5_BS | 6 => LSI6_BS | 7 => LSI7_BS
  | 10 => VSI0_BS | 11 => VSI1_BS | 12 => VSI2_BS | 13 => VSI3_BS
  | 14 => VSI4_BS | 15 => VSI5_BS | 16 => VSI6_BS | 17 => VSI7_BS
  | _ => OFF0

/-- Table `aBD[18]`. -/
def aBD : Nat → Reg
  | 0 => LSI0_BD | 1 => LSI1_BD | 2 => LSI2_BD | 3 => LSI3_BD
  | 4 => LSI4_BD | 5 => LSI5_BD | 6 => LSI6_BD | 7 => LSI7_BD
  | 10 => VSI0_BD | 11 => VSI1_BD | 12 => VSI2_BD | 13 => VSI3_BD
  | 14 => VSI4_BD | 15 => VSI5_BD | 16 => VSI6_BD | 17 => VSI7_BD
  | _ => OFF0

/-- Table `aTO[18]`. -/
def aTO : Nat → Reg
  | 0 => LSI0_TO | 1 => LSI1_TO | 2 => LSI2_TO | 3 => LSI3_TO
  | 4 => LSI4_TO | 5 => LSI5_TO | 6 => LSI6_TO | 7 => LSI7_TO
  | 10 => VSI0_TO | 11 => VSI1_TO | 12 => VSI2_TO | 13 => VSI3_TO
  | 14 => VSI4_TO | 15 => VSI5_TO | 16 => VSI6_TO | 17 => VSI7_TO
  | _ => OFF0

/-- Table `aVIrq[7]`. -/
def aVIrq : Nat → Reg
  | 0 => V1_STATID | 1 => V2_STATID | 2 => V3_STATID | 3 => V4_STATID
  | 4 => V5_STATID | 5 => V6_STATID | 6 => V7_STATID
  | _ => OFF0

/-- Table `mbx[4]`. -/
def mbx : Nat → Reg
  | 0 => MAILBOX0 | 1 => MAILBOX1 | 2 => MAILBOX2 | 3 => MAILBOX3
  | _ => OFF0

/-! ## Data model -/

/-- The fields of the kernel's `struct resource` that the driver sets.
`name` records whether the name pointer is set. -/
structure resource where
  start : Nat
  end_ : Nat
  name : Bool
  flags : Nat
  deriving DecidableEq, Repr

/-- Result of `memset(&res, 0, sizeof(res))`. -/
def resource.zero : resource :=
  { start := 0, end_ := 0, name := false, flags := 0 }

/-- Image descriptor `image_desc_t`; pointers are numbers, `0` is `NULL`. -/
structure image_desc_t where
  phys_start : Nat
  phys_end : Nat
  size : Nat
  vBase : Nat
  opened : Nat
  okToWrite : Nat
  slaveBuf : Nat
  buffer : Nat
  masterRes : resource
  deriving DecidableEq, Repr

/-- Entry `irq_device_t` of the interrupt table. -/
structure irq_device_t where
  ok : Nat
  vmeAddrSt : Nat
  vmeValSt : Nat
  vmeAddrCl : Nat
  vmeValCl : Nat
  timeout : Nat
  deriving DecidableEq, Repr

/-- Entry `mbx_device_t` of the mailbox table. -/
structure mbx_device_t where
  timeout : Nat
  deriving DecidableEq, Repr

/-- Counters `driver_stats_t`. -/
structure driver_stats_t where
  reads : Nat
  writes : Nat
  ioctls : Nat
  irqs : Nat
  berrs : Nat
  dmaErrors : Nat
  timeouts : Nat
  deriving DecidableEq, Repr

/-- Hardware command packet `dcp_t` inside a list node. -/
structure dcp_t where
  dctl : Nat
  dtbc : Nat
  dla : Nat
  dva : Nat
  dcpp : Nat
  deriving DecidableEq, Repr

/-- Node `struct kcp` of a command-packet list; `next` is a pointer to a
node, `0` for `NULL`. -/
structure kcp where
  dcp : dcp_t
  pciStart : Nat
  next : Nat
  deriving DecidableEq, Repr

/-- Entry `struct cpl` of the table of command-packet lists. -/
structure cpl where
  free : Nat
  commandPacket : Nat
  start : Nat
  deriving DecidableEq, Repr

/-- The global variables of the DMA channel: `dmaBuf` and `dmaHandle` are the
kernel address and the bus address of the 128 KiB DMA buffer. -/
structure dma_vars where
  dmaBuf : Nat
  dmaHandle : Nat
  dmaBufSize : Nat
  dma_dctl : Nat
  dma_in_use : Nat
  dma_blt_berr : Nat
  deriving DecidableEq, Repr

/-- Entry `vme_Berr_t` of the ring of logged VMEbus errors (declared in
`vmeioctl.h`): the fields the driver assigns. -/
structure vme_Berr_t where
  valid : Nat
  merr : Nat
  AM : Nat
  address : Nat
  deriving DecidableEq, Repr

/-- The driver's global state.  `regs` is the register file behind
`baseaddr`, modelled as storing what is written; `resTree i` tells whether
`image[i].masterRes` is linked into the kernel's PCI resource tree, that is
whether the image holds its PCI range; `vmeWrites` lists the entry and exit
writes of the interrupt code, `writel` calls through a mapped image window,
as `(value, address)`, latest first (the transfers of `universeII_read` and
`universeII_write` through a window report their accesses themselves);
`packets p` is the list node that `kmalloc` has placed at address `p`, and
`none` where no node is allocated (never allocated, or freed by `kfree`);
`vmeBerrList` is the ring of the last 32 logged VMEbus errors. -/
structure State where
  img_ovl : Int
  image : Nat → image_desc_t
  resTree : Nat → Bool
  irq_device : Nat → Nat → irq_device_t
  mbx_device : Nat → mbx_device_t
  statistics : driver_stats_t
  regs : Reg → Nat
  vmeWrites : List (Nat × Nat)
  dma : dma_vars
  cpLists : Nat → cpl
  packets : Nat → Option kcp
  vmeBerrList : Nat → vme_Berr_t

/-- Register read `readl(baseaddr + r)`. -/
def readl (st : State) (r : Reg) : Nat := st.regs r

/-- Register write `writel(v, baseaddr + r)`. -/
def writel (v : Nat) (r : Reg) (st : State) : State :=
  { st with regs := fun x => if x = r then u32 v else st.regs x }

/-- Assignment to fields of `image[i]`. -/
def setImage (st : State) (i : Nat) (f : image_desc_t → image_desc_t) : State :=
  { st with image := fun j => if j = i then f (st.image i) else st.image j }

/-- Assignment to fields of `irq_device[l][s]`. -/
def setIrq (st : State) (l s : Nat) (f : irq_device_t → irq_device_t) : State :=
  { st with irq_device := fun i j =>
      if i = l ∧ j = s then f (st.irq_device l s) else st.irq_device i j }

/-- Assignment to fields of `mbx_device[n]`. -/
def setMbx (st : State) (n : Nat) (f : mbx_device_t → mbx_device_t) : State :=
  { st with mbx_device := fun j => if j = n then f (st.mbx_device n) else st.mbx_device j }

/-- Linking (`b = true`) or unlinking (`b = false`) of `image[i].masterRes`
in the PCI resource tree. -/
def setResTree (st : State) (i : Nat) (b : Bool) : State :=
  { st with resTree := fun j => if j = i then b else st.resTree j }

/-- A `writel(v, addr)` through a mapped image window. -/
def vmeWritel (v addr : Nat) (st : State) : State :=
  { st with vmeWrites := (v, addr) :: st.vmeWrites }

/-- Statement `statistics.ioctls++`. -/
def countIoctl (st : State) : State :=
  { st with statistics := { st.statistics with ioctls := st.statistics.ioctls + 1 } }

/-- Statement `statistics.timeouts++`. -/
def countTimeout (st : State) : State :=
  { st with statistics := { st.statistics with timeouts := st.statistics.timeouts + 1 } }

/-- Statement `statistics.reads++`. -/
def countRead (st : State) : State :=
  { st with statistics := { st.statistics with reads := st.statistics.reads + 1 } }

/-- Statement `statistics.writes++`. -/
def countWrite (st : State) : State :=
  { st with statistics := { st.statistics with writes := st.statistics.writes + 1 } }

/-- Statement `statistics.dmaErrors++`. -/
def countDmaError (st : State) : State :=
  { st with statistics := { st.statistics with dmaErrors := st.statistics.dmaErrors + 1 } }

/-- Assignment to the global variables of the DMA channel. -/
def setDma (st : State) (f : dma_vars → dma_vars) : State :=
  { st with dma := f st.dma }

/-- Assignment to fields of `cpLists[i]`. -/
def setCpl (st : State) (i : Nat) (f : cpl → cpl) : State :=
  { st with cpLists := fun j => if j = i then f (st.cpLists i) else st.cpLists j }

/-- The node at address `p` becomes `v`: `some n` after `kmalloc` or an
assignment through the pointer, `none` after `kfree`. -/
def setPacket (st : State) (p : Nat) (v : Option kcp) : State :=
  { st with packets := fun q => if q = p then v else st.packets q }

/-- Assignment to fields of `vmeBerrList[i]`. -/
def setBerr (st : State) (i : Nat) (f : vme_Berr_t → vme_Berr_t) : State :=
  { st with vmeBerrList := fun j => if j = i then f (st.vmeBerrList i) else st.vmeBerrList j }

/-- Statement `statistics.irqs++`. -/
def countIrq (st : State) : State :=
  { st with statistics := { st.statistics with irqs := st.statistics.irqs + 1 } }

/-- Statement `statistics.berrs++`. -/
def countBerr (st : State) : State :=
  { st with statistics := { st.statistics with berrs := st.statistics.berrs + 1 } }

/-- The chip changes its registers: they show `hw`. -/
def setRegs (st : State) (hw : Reg → Nat) : State :=
  { st with regs := hw }

/-! ## Timer callbacks -/

/-- Timer callback `VIRQ_timeout` of slot `irq_device[l][s]`. -/
def VIRQ_timeout (st : State) (l s : Nat) : State :=
  countTimeout (setIrq st l s fun d => { d with timeout := 1 })

/-- Timer callback `MBX_timeout` of mailbox `n`. -/
def MBX_timeout (st : State) (n : Nat) : State :=
  countTimeout (setMbx st n fun d => { d with timeout := 1 })

/-! ## open and release -/

/-- Function `universeII_open` on the device file with the given minor. -/
def universeII_open (st : State) (minor : Nat) : Int × State :=
  if minor > MAX_MINOR then (-ENODEV, st)
  else if minor = CONTROL_MINOR ∨ minor = DMA_MINOR then
    (0, setImage st minor fun d => { d with opened := d.opened + 1 })
  else if (st.image minor).opened ≠ 1 then (-EBUSY, st)
  else (0, setImage st minor fun d => { d with opened := 2, buffer := 0 })

/-- The pair `release_resource(&image[minor].masterRes)`,
`memset(&image[minor].masterRes, 0, …)`. -/
def releaseMaster (st : State) (minor : Nat) : State :=
  setImage (setResTree st minor false) minor fun d => { d with masterRes := resource.zero }

/-- The unmapping block at the head of `universeII_release`. -/
def releaseUnmap (st : State) (minor : Nat) : State :=
  if (st.image minor).vBase ≠ 0 then
    let st1 := setImage st minor fun d => { d with vBase := 0 }
    if minor < MAX_IMAGE ∧ (st1.image minor).masterRes.start ≠ 0 then
      releaseMaster st1 minor
    else st1
  else st

/-- The two nested loops at the end of `universeII_release`, over
`irq_device[i][j]` with `i < 7` and `j < 256`.  An iteration reads and writes
only the entry it visits, so the loops are given entry by entry. -/
def freeIrqsOf (st : State) (minor : Nat) : State :=
  { st with irq_device := fun i j =>
      if i < 7 ∧ j < 256 ∧ (st.irq_device i j).ok = minor + 1 then
        { st.irq_device i j with ok := 0 }
      else st.irq_device i j }

/-- Function `universeII_release`. -/
def universeII_release (st : State) (minor : Nat) : Int × State :=
  let st1 := releaseUnmap st minor
  let st2 := setImage st1 minor fun d =>
    { d with opened := 0, okToWrite := 0, phys_start := 0, phys_end := 0, size := 0 }
  let st3 := if minor > 9 ∧ minor < 18 then
      setImage st2 minor fun d => { d with buffer := 0 }
    else st2
  (0, freeIrqsOf st3 minor)

/-! ## ioctl: images -/

/-- User argument `image_regs_t` of `IOCTL_SET_IMAGE` (`vmeioctl.h` is not
among the sources; `ms` is an `int`, `base` and `size` are `unsigned int`
and are reduced modulo `2^32` where they are used). -/
structure image_regs_t where
  ms : Int
  base : Nat
  size : Nat
  deriving DecidableEq, Repr

/-- The overlap loop of `IOCTL_SET_IMAGE`, `for (i = 0; i < MAX_IMAGE; i++)`:
`n` iterations remain, `i` is the loop variable; the result is the index at
which the loop returns `-6`, if it does. -/
def overlapScan (st : State) (minor : Nat) (iRegs : image_regs_t) : Nat → Nat → Option Nat
  | 0, _ => none
  | n + 1, i =>
    if (st.image i).opened = 2 ∧ i ≠ minor then
      let imageStart := add32 (readl st (aBS i)) (readl st (aTO i))
      let imageEnd := add32 (readl st (aBD i)) (readl st (aTO i))
      if ¬ (add32 iRegs.base iRegs.size ≤ imageStart ∨ u32 iRegs.base ≥ imageEnd) then some i
      else overlapScan st minor iRegs n (i + 1)
    else overlapScan st minor iRegs n (i + 1)

/-- The master/slave block of `IOCTL_SET_IMAGE` that obtains the local
window: either the early return, or the state and `pciBase`.  `alloc` is the
outcome of `pci_bus_alloc_resource`: `none` for a failure, `some p` for a
range starting at `p`. -/
def setImageWindow (st : State) (minor : Nat) (iRegs : image_regs_t) (alloc : Option Nat) :
    (Int × State) ⊕ (State × Nat) :=
  if iRegs.ms = 0 then
    let st1 := setImage st minor fun d =>
      { d with masterRes :=
          { name := true, start := 0, end_ := u32 iRegs.size, flags := IORESOURCE_MEM } }
    match alloc with
    | none => Sum.inl (-3, st1)
    | some p =>
      let st2 := setImage (setResTree st1 minor true) minor fun d =>
        { d with masterRes := { d.masterRes with start := p, end_ := p + u32 iRegs.size - 1 } }
      Sum.inr (st2, u32 (st2.image minor).masterRes.start)
  else if minor < 10 then Sum.inl (-4, st)
  else if (st.image minor).slaveBuf = 0 then Sum.inl (-5, st)
  else Sum.inr (st, 0)

/-- The register programming of `IOCTL_SET_IMAGE`. -/
def setImageRegs (st : State) (minor : Nat) (iRegs : image_regs_t) (pciBase : Nat) : State :=
  if iRegs.ms = 0 then
    writel (add32 (neg32 pciBase) iRegs.base) (aTO minor)
      (writel (add32 pciBase iRegs.size) (aBD minor)
        (writel pciBase (aBS minor) st))
  else
    writel (sub32 (st.image minor).buffer iRegs.base) (aTO minor)
      (writel (add32 iRegs.base iRegs.size) (aBD minor)
        (writel iRegs.base (aBS minor) st))

/-- Case `IOCTL_SET_IMAGE` of `universeII_ioctl`.  `arg` is the structure
delivered by `copy_from_user` (`none` when the copy fails), `alloc` the
outcome of `pci_bus_alloc_resource`, `remap` the pointer returned by
`ioremap` (`0` for `NULL`).  The `iounmap` of an earlier mapping has no
effect on the state kept here. -/
def IOCTL_SET_IMAGE (st : State) (minor : Nat) (arg : Option image_regs_t)
    (alloc : Option Nat) (remap : Nat) : Int × State :=
  match arg with
  | none => (-1, st)
  | some iRegs =>
    if iRegs.ms < 0 ∨ iRegs.ms > 1 then (-1, st)
    else if (st.image minor).opened ≠ 2 then (-2, st)
    else
      match setImageWindow st minor iRegs alloc with
      | Sum.inl r => r
      | Sum.inr (st1, pciBase) =>
        if st1.img_ovl = 0 ∧ (overlapScan st1 minor iRegs MAX_IMAGE 0).isSome then
          (-6, if iRegs.ms = 0 then releaseMaster st1 minor else st1)
        else
          let st2 := setImageRegs st1 minor iRegs pciBase
          let st3 := setImage st2 minor fun d => { d with okToWrite := 1, opened := 3 }
          let st4 := setImage st3 minor fun d =>
            { d with phys_start := readl st3 (aBS minor), phys_end := readl st3 (aBD minor),
                     size := sub32 (readl st3 (aBD minor)) (readl st3 (aBS minor)) }
          let st5 := setImage st4 minor fun d => { d with vBase := remap }
          if remap = 0 then
            let st6 := setImage st5 minor fun d => { d with okToWrite := 0, opened := 2 }
            (-7, if iRegs.ms = 0 then releaseMaster st6 minor else st6)
          else (0, st5)

/-- The search loop of `IOCTL_GET_IMAGE`,
`while ((image[i + offset].opened) && (i < MAX_IMAGE)) i++;`, run for at most
`fuel` tests of the condition from the value `i`.  -/
def getImageScan (st : State) (offset : Nat) : Nat → Nat → Nat
  | 0, i => i
  | fuel + 1, i =>
    if (st.image (i + offset)).opened ≠ 0 ∧ i < MAX_IMAGE then
      getImageScan st offset fuel (i + 1)
    else i

/-- Case `IOCTL_GET_IMAGE` of `universeII_ioctl`.  The loop leaves as soon as
`i` reaches `MAX_IMAGE`, so `MAX_IMAGE + 1` tests of its condition suffice. -/
def IOCTL_GET_IMAGE (st : State) (arg : Nat) : Int × State :=
  if arg > 1 then (-1, st)
  else
    let offset := if arg ≠ 0 then 10 else 0
    let i := getImageScan st offset (MAX_IMAGE + 1) 0
    if i ≥ MAX_IMAGE then (-2, st)
    else (((i + offset : Nat) : Int), setImage st (i + offset) fun d => { d with opened := 1 })

/-! ## ioctl: VME interrupts -/

/-- User argument `irq_setup_t` of `IOCTL_SET_IRQ` and `IOCTL_FREE_IRQ`
(declared in `vmeioctl.h`): level and status-ID are `int`, the addresses and
values of the entry and exit writes are `u32`. -/
structure irq_setup_t where
  vmeIrq : Int
  vmeStatus : Int
  vmeAddrSt : Nat
  vmeValSt : Nat
  vmeAddrCl : Nat
  vmeValCl : Nat
  deriving DecidableEq, Repr

/-- User argument `irq_wait_t` of `IOCTL_WAIT_IRQ` (declared in
`vmeioctl.h`); `timeout` is in milliseconds. -/
structure irq_wait_t where
  irqLevel : Int
  statusID : Int
  timeout : Int
  deriving DecidableEq, Repr

/-- The way a `schedule()` of `IOCTL_WAIT_IRQ` comes to an end: the waiter is
woken by `irq_handler`, or the slot's timer runs `VIRQ_timeout`. -/
inductive WaitEnd
  | wake
  | timer
  deriving DecidableEq, Repr

/-- The way a `schedule()` of `IOCTL_WAIT_MBX` comes to an end: the mailbox
is written with `val` from the VME side and `irq_handler` wakes the waiter,
or the mailbox timer runs `MBX_timeout`. -/
inductive MbxEnd
  | wake (val : Nat)
  | timer
  deriving DecidableEq, Repr

/-- Case `IOCTL_SET_IRQ` of `universeII_ioctl`. -/
def IOCTL_SET_IRQ (st : State) (minor : Nat) (arg : Option irq_setup_t) : Int × State :=
  match arg with
  | none => (-1, st)
  | some isetup =>
    let virq : Int := isetup.vmeIrq - 1
    let vstatid : Int := isetup.vmeStatus
    if virq < 0 ∨ virq > 6 ∨ vstatid < 0 ∨ vstatid > 255 then (-1, st)
    else
      let l := virq.toNat
      let s := vstatid.toNat
      if (st.irq_device l s).ok ≠ 0 then (-2, st)
      else
        let toffset := readl st (aTO minor)
        let base := readl st (aBS minor)
        if isetup.vmeAddrSt ≠ 0 ∧
            (sub32 isetup.vmeAddrSt toffset < (st.image minor).phys_start ∨
             sub32 isetup.vmeAddrSt toffset > (st.image minor).phys_end) then (-3, st)
        else
          let st1 :=
            if isetup.vmeAddrSt ≠ 0 then
              setIrq st l s fun d =>
                { d with vmeAddrSt := (st.image minor).vBase +
                           sub32 (sub32 isetup.vmeAddrSt toffset) base,
                         vmeValSt := isetup.vmeValSt }
            else setIrq st l s fun d => { d with vmeAddrSt := 0 }
          if isetup.vmeAddrCl ≠ 0 ∧
              (sub32 isetup.vmeAddrCl toffset < (st1.image minor).phys_start ∨
               sub32 isetup.vmeAddrCl toffset > (st1.image minor).phys_end) then (-3, st1)
          else
            let st2 :=
              if isetup.vmeAddrCl ≠ 0 then
                setIrq st1 l s fun d =>
                  { d with vmeAddrCl := (st1.image minor).vBase +
                             sub32 (sub32 isetup.vmeAddrCl toffset) base,
                           vmeValCl := isetup.vmeValCl }
              else setIrq st1 l s fun d => { d with vmeAddrCl := 0 }
            (0, setIrq st2 l s fun d => { d with ok := minor + 1 })

/-- Case `IOCTL_FREE_IRQ` of `universeII_ioctl`. -/
def IOCTL_FREE_IRQ (st : State) (arg : Option irq_setup_t) : Int × State :=
  match arg with
  | none => (-1, st)
  | some isetup =>
    let virq : Int := isetup.vmeIrq - 1
    let vstatid : Int := isetup.vmeStatus
    if virq < 0 ∨ virq > 6 ∨ vstatid < 0 ∨ vstatid > 255 then (-1, st)
    else if (st.irq_device virq.toNat vstatid.toNat).ok = 0 then (-2, st)
    else (0, setIrq st virq.toNat vstatid.toNat fun d => { d with ok := 0 })

/-- Case `IOCTL_WAIT_IRQ` of `universeII_ioctl`; `ev` tells how `schedule()`
returns.  A timer that was not started (`timeout ≤ 0`) cannot fire. -/
def IOCTL_WAIT_IRQ (st : State) (arg : Option irq_wait_t) (ev : WaitEnd) : Int × State :=
  match arg with
  | none => (-1, st)
  | some irqData =>
    let vmeIrq : Int := irqData.irqLevel - 1
    let vmeStatus : Int := irqData.statusID
    if vmeIrq < 0 ∨ vmeIrq > 6 ∨ vmeStatus < 0 ∨ vmeStatus > 255 then (-1, st)
    else
      let l := vmeIrq.toNat
      let s := vmeStatus.toNat
      if (st.irq_device l s).ok = 0 then (-1, st)
      else
        let st1 := if irqData.timeout > 0 then setIrq st l s fun d => { d with timeout := 0 } else st
        let st2 :=
          if (st1.irq_device l s).vmeAddrSt ≠ 0 then
            vmeWritel (st1.irq_device l s).vmeValSt (st1.irq_device l s).vmeAddrSt st1
          else st1
        let st3 :=
          match ev with
          | WaitEnd.wake => st2
          | WaitEnd.timer => if irqData.timeout > 0 then VIRQ_timeout st2 l s else st2
        if irqData.timeout > 0 ∧ (st3.irq_device l s).timeout ≠ 0 then (-2, st3)
        else (0, st3)

/-! ## ioctl: mailboxes -/

/-- The test `readl(baseaddr + LINT_STAT) & ~(0x10000 << mbxNr)` of
`IOCTL_WAIT_MBX`: when it is nonzero, the call does not `schedule()`. -/
def mbxSkipsWait (st : State) (mbxNr : Nat) : Bool :=
  decide (readl st LINT_STAT &&& not32 (0x10000 <<< mbxNr) ≠ 0)

/-- Case `IOCTL_WAIT_MBX` of `universeII_ioctl`; `ev` tells how `schedule()`
returns when it is called.  The third component tells whether the call
blocked in `schedule()`. -/
def IOCTL_WAIT_MBX (st : State) (arg : Nat) (ev : MbxEnd) : Int × State × Bool :=
  let mbxNr := arg &&& 0x3
  let lintEn := readl st LINT_EN
  let st1 := writel (lintEn &&& not32 (0x10000 <<< mbxNr)) LINT_EN st
  let st2 := writel 0 (mbx mbxNr) st1
  let st3 := writel lintEn LINT_EN st2
  let st4 := setMbx st3 mbxNr fun d => { d with timeout := 0 }
  let blocks := !(mbxSkipsWait st4 mbxNr)
  let st5 :=
    if blocks then
      match ev with
      | MbxEnd.wake val => writel val (mbx mbxNr) st4
      | MbxEnd.timer => MBX_timeout st4 mbxNr
    else st4
  if (st5.mbx_device mbxNr).timeout ≠ 0 then (-1, st5, blocks)
  else ((readl st5 (mbx mbxNr) : Int), st5, blocks)

/-! ## The ioctl entry point -/

/-- Commands of `universeII_ioctl` together with their user argument and the
outcomes of the kernel calls they make. -/
inductive Cmd
  | SET_IMAGE (arg : Option image_regs_t) (alloc : Option Nat) (remap : Nat)
  | GET_IMAGE (arg : Nat)
  | SET_IRQ (arg : Option irq_setup_t)
  | FREE_IRQ (arg : Option irq_setup_t)
  | WAIT_IRQ (arg : Option irq_wait_t) (ev : WaitEnd)
  | WAIT_MBX (arg : Nat) (ev : MbxEnd)

/-- Function `universeII_ioctl` on the device file with the given minor. -/
def universeII_ioctl (st : State) (minor : Nat) (cmd : Cmd) : Int × State :=
  let st0 := countIoctl st
  match cmd with
  | Cmd.SET_IMAGE arg alloc remap => IOCTL_SET_IMAGE st0 minor arg alloc remap
  | Cmd.GET_IMAGE arg => IOCTL_GET_IMAGE st0 arg
  | Cmd.SET_IRQ arg => IOCTL_SET_IRQ st0 minor arg
  | Cmd.FREE_IRQ arg => IOCTL_FREE_IRQ st0 arg
  | Cmd.WAIT_IRQ arg ev => IOCTL_WAIT_IRQ st0 arg ev
  | Cmd.WAIT_MBX arg ev => ((IOCTL_WAIT_MBX st0 arg ev).1, (IOCTL_WAIT_MBX st0 arg ev).2.1)

/-! ## The DMA channel -/

/-- The `u32` product `a * b`. -/
def mul32 (a b : Nat) : Nat := (a * b) % 4294967296

/-- The padding `(((addr & 0x7) + 0x8) - (pci & 0x7)) & 0x7` that
`universeII_read`, `universeII_write` and `IOCTL_ADD_DCP` compute from a VME
address and a local address. -/
def alignOffset (addr pci : Nat) : Nat :=
  (((addr &&& 0x7) + 0x8) - (pci &&& 0x7)) &&& 0x7

/-- What the DMA engine and the DMA timer have done when a `schedule()` of
`execDMA` returns: `dgcs` and `dtbc` are the contents of the registers `DGCS`
and `DTBC`, `timeout` tells whether `DMA_timer` fired, and `processed p`
whether the engine has set the processed bit (bit 1 of `dcpp`) in the list
node at address `p`. -/
structure DmaRun where
  dgcs : Nat
  dtbc : Nat
  timeout : Bool
  processed : Nat → Bool

/-- The engine sets the processed bit in the nodes it has worked off. -/
def markProcessed (st : State) (processed : Nat → Bool) : State :=
  { st with packets := fun p =>
      match st.packets p with
      | some n =>
        if processed p then some { n with dcp := { n.dcp with dcpp := n.dcp.dcpp ||| 0x2 } }
        else some n
      | none => none }

/-- Timer callback `DMA_timeout`. -/
def DMA_timeout (st : State) : State := countTimeout st

/-- Function `execDMA`: the write to `DGCS` starts the engine; when
`schedule()` returns, the registers and the list nodes are as `run` tells. -/
def execDMA (st : State) (chain : Nat) (run : DmaRun) : State :=
  let st1 := writel (0x80006F0F ||| chain) DGCS st
  let st2 := writel run.dtbc DTBC (writel run.dgcs DGCS (markProcessed st1 run.processed))
  if run.timeout then DMA_timeout st2 else st2

/-- Function `testAndClearDMAErrors`. -/
def testAndClearDMAErrors (st : State) : Int × State :=
  let tmp := readl st DGCS
  if tmp &&& 0x00000800 = 0 then
    let st1 := if tmp &&& 0x00008000 ≠ 0 then writel 0x40000000 DGCS st else st
    let st2 := writel 0x00006F00 DGCS st1
    (((tmp &&& 0x0000E700 : Nat) : Int), countDmaError st2)
  else (0, st)

/-- User argument `dma_param_t` of a read or write on the DMA minor
(declared in `vmeioctl.h`, which is not among the sources); the fields are
taken as 32-bit values. -/
structure dma_param_t where
  addr : Nat
  count : Nat
  vas : Nat
  vdw : Nat
  dma_ctl : Nat
  bufNr : Nat
  deriving DecidableEq, Repr

/-- The local address `pci = dmaHandle + dmaBufSize * dmaParam.bufNr` of a
one-shot transfer, an `unsigned int`. -/
def dmaPci (st : State) (dmaParam : dma_param_t) : Nat :=
  add32 st.dma.dmaHandle (mul32 st.dma.dmaBufSize dmaParam.bufNr)

/-- The variable `offset` of a one-shot transfer: `0` when the low three bits
of the two addresses agree, the padding otherwise. -/
def dmaOffset (dmaParam : dma_param_t) (pci : Nat) : Nat :=
  if pci &&& 0x7 = dmaParam.addr &&& 0x7 then 0 else alignOffset dmaParam.addr pci

/-- Case `DMA_MINOR` of `universeII_read`.  `arg` is the structure delivered
by `__copy_from_user` (`none` when the copy fails).  The bound
`dmaHandle + PCI_BUF_SIZE` is computed in `dma_addr_t` and does not wrap. -/
def universeII_read_dma (st : State) (arg : Option dma_param_t) (run : DmaRun) : Int × State :=
  let st0 := countRead st
  match arg with
  | none => (-1, st0)
  | some dmaParam =>
    if add32 (mul32 st0.dma.dmaBufSize dmaParam.bufNr) dmaParam.count > PCI_BUF_SIZE then
      (-1, st0)
    else
      let st1 := setDma st0 fun d =>
        { d with dma_dctl := u32 (dmaParam.dma_ctl ||| dmaParam.vas ||| dmaParam.vdw) }
      let pci := dmaPci st1 dmaParam
      if pci < st1.dma.dmaHandle ∨
          add32 pci dmaParam.count > st1.dma.dmaHandle + PCI_BUF_SIZE then (-2, st1)
      else if readl st1 DGCS &&& 0x00008000 ≠ 0 then (0, st1)
      else
        let st2 := writel st1.dma.dma_dctl DCTL st1
        let st3 := writel dmaParam.count DTBC st2
        let st4 := writel dmaParam.addr DVA st3
        let offset := dmaOffset dmaParam pci
        let st5 := writel (pci + offset) DLA st4
        let st6 := execDMA st5 0 run
        let res := (testAndClearDMAErrors st6).1
        let st7 := (testAndClearDMAErrors st6).2
        let res2 :=
          if st7.dma.dma_blt_berr ≠ 0 ∧ res = 0x200 then
            if u32 dmaParam.count > readl st7 DTBC then 0 else res
          else res
        if res2 ≠ 0 then (-1, st7) else ((offset : Int), st7)

/-- Case `DMA_MINOR` of `universeII_write`. -/
def universeII_write_dma (st : State) (arg : Option dma_param_t) (run : DmaRun) : Int × State :=
  let st0 := countWrite st
  match arg with
  | none => (-1, st0)
  | some dmaParam =>
    if add32 (mul32 st0.dma.dmaBufSize dmaParam.bufNr) dmaParam.count > PCI_BUF_SIZE then
      (-1, st0)
    else
      let st1 := setDma st0 fun d =>
        { d with dma_dctl := u32 (dmaParam.dma_ctl ||| dmaParam.vas ||| dmaParam.vdw) }
      let pci := dmaPci st1 dmaParam
      if pci < st1.dma.dmaHandle ∨
          add32 pci dmaParam.count > st1.dma.dmaHandle + PCI_BUF_SIZE then (-2, st1)
      else if readl st1 DGCS &&& 0x00008000 ≠ 0 then (0, st1)
      else
        let st2 := writel (0x80000000 ||| st1.dma.dma_dctl) DCTL st1
        let st3 := writel dmaParam.count DTBC st2
        let st4 := writel dmaParam.addr DVA st3
        let offset := dmaOffset dmaParam pci
        let st5 := writel (pci + offset) DLA st4
        let st6 := execDMA st5 0 run
        let res := (testAndClearDMAErrors st6).1
        let st7 := (testAndClearDMAErrors st6).2
        if res ≠ 0 then (-1, st7) else ((offset : Int), st7)

/-- The two range checks of a one-shot transfer (lines 663 and 672 of the
source for a read, 848 and 857 for a write) let the request through. -/
def dmaAccepted (st : State) (dmaParam : dma_param_t) : Prop :=
  ¬ (add32 (mul32 st.dma.dmaBufSize dmaParam.bufNr) dmaParam.count > PCI_BUF_SIZE) ∧
  ¬ (dmaPci st dmaParam < st.dma.dmaHandle ∨
      add32 (dmaPci st dmaParam) dmaParam.count > st.dma.dmaHandle + PCI_BUF_SIZE)

/-- The engine is idle: the `ACT` bit `0x8000` of `DGCS` is clear. -/
def dmaIdle (st : State) : Prop := readl st DGCS &&& 0x00008000 = 0

/-- The value of `testAndClearDMAErrors` after a run of the engine. -/
def dmaErrorCode (run : DmaRun) : Int :=
  if u32 run.dgcs &&& 0x00000800 = 0 then ((u32 run.dgcs &&& 0x0000E700 : Nat) : Int) else 0

/-- Case `IOCTL_REQUEST_DMA` of `universeII_ioctl`; `arg` is an
`unsigned long`, `dmaBufSize` an `unsigned int`. -/
def IOCTL_REQUEST_DMA (st : State) (arg : Nat) : Int × State :=
  if st.dma.dma_in_use ≠ 0 ∨ st.dma.dmaBuf = 0 then (0, st)
  else
    let st1 :=
      if arg ≠ 0 then setDma st fun d => { d with dmaBufSize := u32 (PCI_BUF_SIZE / arg) }
      else setDma st fun d => { d with dmaBufSize := 0 }
    (1, setDma st1 fun d => { d with dma_in_use := 1 })

/-- Case `IOCTL_RELEASE_DMA` of `universeII_ioctl`. -/
def IOCTL_RELEASE_DMA (st : State) : Int × State :=
  (0, setDma st fun d => { d with dma_in_use := 0, dma_blt_berr := 0 })

/-- Case `IOCTL_DMA_BLT_BERR` of `universeII_ioctl`. -/
def IOCTL_DMA_BLT_BERR (st : State) : Int × State :=
  (0, setDma st fun d => { d with dma_blt_berr := 1 })

/-! ## Command-packet lists -/

/-- Result of a case that follows `next` pointers: the value it returns, or
`invalid` when it dereferences `NULL` or a pointer to a node that is not
allocated, or `unfinished` when a loop has not ended after `fuel` steps. -/
inductive Res (α : Type)
  | ok (a : α)
  | invalid
  | unfinished

/-- The returned value, if the call returns. -/
def Res.val (r : Res (Int × State)) : Option Int :=
  match r with
  | Res.ok a => some a.1
  | _ => none

/-- The state after the call, `st` if the call does not return. -/
def Res.state (r : Res (Int × State)) (st : State) : State :=
  match r with
  | Res.ok a => a.2
  | _ => st

/-- Whether the call dereferences an invalid pointer. -/
def Res.isInvalid {α : Type} (r : Res α) : Bool :=
  match r with
  | Res.invalid => true
  | _ => false

/-- The node a pointer refers to: none for `NULL` and for an address at which
no node is allocated. -/
def packetAt (st : State) (p : Nat) : Option kcp :=
  if p = 0 then none else st.packets p

/-- The all-zero list node. -/
def kcp.zero : kcp :=
  { dcp := { dctl := 0, dtbc := 0, dla := 0, dva := 0, dcpp := 0 }, pciStart := 0, next := 0 }

/-- User argument `list_packet_t` of `IOCTL_ADD_DCP` (declared in
`vmeioctl.h`); the fields are taken as 32-bit values. -/
structure list_packet_t where
  list : Nat
  dctl : Nat
  dtbc : Nat
  dva : Nat
  deriving DecidableEq, Repr

/-- The loop `while (ptr->next != NULL) ptr = ptr->next;` of `IOCTL_ADD_DCP`,
for at most `fuel` tests, from `ptr`: the last node of the list. -/
def findTail (st : State) : Nat → Nat → Res Nat
  | 0, _ => Res.unfinished
  | fuel + 1, ptr =>
    match packetAt st ptr with
    | none => Res.invalid
    | some n => if n.next ≠ 0 then findTail st fuel n.next else Res.ok ptr

/-- The second half of `IOCTL_ADD_DCP`, from "fill newP command packet" on.
`ptr` is `NULL` (the list was empty) or the former last node. -/
def addDcpFill (st : State) (lpacket : list_packet_t) (newP ptr : Nat) : Res (Int × State) :=
  match packetAt st newP with
  | none => Res.invalid
  | some n =>
    let n1 : kcp :=
      { n with next := 0,
               dcp := { n.dcp with dctl := u32 lpacket.dctl, dtbc := u32 lpacket.dtbc,
                                   dva := u32 lpacket.dva, dcpp := 0x00000001 } }
    let st1 := setPacket st newP (some n1)
    if ptr = 0 then
      let dla := u32 st1.dma.dmaHandle
      let offset := alignOffset (u32 lpacket.dva) dla
      if add32 (add32 dla offset) lpacket.dtbc > st1.dma.dmaHandle + PCI_BUF_SIZE then
        Res.invalid
      else
        Res.ok ((offset : Int), setPacket st1 newP (some
          { n1 with dcp := { n1.dcp with dla := add32 dla offset },
                    pciStart := add32 dla offset }))
    else
      match packetAt st1 ptr with
      | none => Res.invalid
      | some t =>
        let dla := add32 t.pciStart t.dcp.dtbc
        let offset := alignOffset (u32 lpacket.dva) dla
        if add32 (add32 dla offset) lpacket.dtbc > st1.dma.dmaHandle + PCI_BUF_SIZE then
          let st2 := setPacket st1 ptr (some { t with next := 0 })
          let st3 := setPacket st2 ptr (some
            { t with next := 0, dcp := { t.dcp with dcpp := 0x00000001 } })
          Res.ok (-1, setPacket st3 newP none)
        else
          match packetAt st1 newP with
          | none => Res.invalid
          | some n2 =>
            Res.ok ((offset : Int), setPacket st1 newP (some
              { n2 with dcp := { n2.dcp with dla := add32 dla offset },
                        pciStart := add32 dla offset }))

/-- Case `IOCTL_ADD_DCP` of `universeII_ioctl`.  `arg` is the structure
delivered by `copy_from_user`, `newP` the pointer returned by `kmalloc`
(the contents of the fresh node do not matter: every field is assigned
before a successful return), `busAddr` the bus address returned by
`pci_map_single` / `dma_map_single` for the new node. -/
def IOCTL_ADD_DCP (st : State) (arg : Option list_packet_t) (newP busAddr fuel : Nat) :
    Res (Int × State) :=
  match arg with
  | none => Res.ok (-1, st)
  | some lpacket =>
    let st1 := if newP ≠ 0 then setPacket st newP (some kcp.zero) else st
    let ptr := (st1.cpLists lpacket.list).commandPacket
    if ptr = 0 then
      let st2 := setCpl st1 lpacket.list fun c =>
        { c with commandPacket := newP, start := busAddr }
      addDcpFill st2 lpacket newP 0
    else
      match findTail st1 fuel ptr with
      | Res.invalid => Res.invalid
      | Res.unfinished => Res.unfinished
      | Res.ok tail =>
        match packetAt st1 tail with
        | none => Res.invalid
        | some t =>
          let st2 := setPacket st1 tail (some
            { t with next := newP, dcp := { t.dcp with dcpp := u32 busAddr } })
          if u32 busAddr &&& 0x0000001F ≠ 0 then
            Res.ok (-1, setPacket st2 newP none)
          else
            let st3 := setPacket st2 tail (some
              { t with next := newP,
                       dcp := { t.dcp with dcpp := u32 busAddr &&& 0xFFFFFFFE } })
            addDcpFill st3 lpacket newP tail

/-- The loop of `IOCTL_EXEC_DCP` over the list, `while (scan != NULL)`, for
at most `fuel` tests, from the node `scan` with `n` nodes already counted:
the value the case returns (`0` after the loop, `n` from inside). -/
def scanProcessed (st : State) : Nat → Nat → Nat → Res Int
  | 0, _, _ => Res.unfinished
  | fuel + 1, scan, n =>
    if scan = 0 then Res.ok 0
    else
      match packetAt st scan with
      | none => Res.invalid
      | some k =>
        if k.dcp.dcpp &&& 0x00000002 = 0 then Res.ok ((n + 1 : Nat) : Int)
        else scanProcessed st fuel k.next (n + 1)

/-- Case `IOCTL_EXEC_DCP` of `universeII_ioctl`. -/
def IOCTL_EXEC_DCP (st : State) (arg : Nat) (run : DmaRun) (fuel : Nat) : Res (Int × State) :=
  if readl st DGCS &&& 0x00008000 ≠ 0 then Res.ok (-1, st)
  else
    let st1 := writel 0 DTBC st
    let st2 := writel (st1.cpLists arg).start DCPP st1
    let st3 := execDMA st2 0x08000000 run
    let res := (testAndClearDMAErrors st3).1
    let st4 := (testAndClearDMAErrors st3).2
    if res ≠ 0 then Res.ok (-2, st4)
    else
      match scanProcessed st4 fuel (st4.cpLists arg).commandPacket 0 with
      | Res.ok r => Res.ok (r, st4)
      | Res.invalid => Res.invalid
      | Res.unfinished => Res.unfinished

/-- The loop that frees the nodes of a list, `while (search != NULL)`, in
`IOCTL_DEL_DCL` and `IOCTL_RESET_ALL`, for at most `fuel` tests. -/
def freeChain : Nat → Nat → State → Res State
  | 0, _, _ => Res.unfinished
  | fuel + 1, search, st =>
    if search = 0 then Res.ok st
    else
      match packetAt st search with
      | none => Res.invalid
      | some k => freeChain fuel k.next (setPacket st search none)

/-- Case `IOCTL_DEL_DCL` of `universeII_ioctl`. -/
def IOCTL_DEL_DCL (st : State) (arg fuel : Nat) : Res (Int × State) :=
  match freeChain fuel (st.cpLists arg).commandPacket st with
  | Res.ok st1 => Res.ok (0, setCpl st1 arg fun c => { c with commandPacket := 0, free := 1 })
  | Res.invalid => Res.invalid
  | Res.unfinished => Res.unfinished

/-- The loop `for (i = 0; i < 256; i++) if (cpLists[i].free) break;` of
`IOCTL_NEW_DCP`: `n` iterations remain. -/
def newDcpScan (st : State) : Nat → Nat → Nat
  | 0, i => i
  | n + 1, i => if (st.cpLists i).free ≠ 0 then i else newDcpScan st n (i + 1)

/-- Case `IOCTL_NEW_DCP` of `universeII_ioctl`. -/
def IOCTL_NEW_DCP (st : State) : Int × State :=
  let i := newDcpScan st 256 0
  if i > 255 then (-1, st)
  else ((i : Int), setCpl st i fun c => { c with free := 0 })

/-! ## The full reset -/

/-- The loop of `IOCTL_RESET_ALL` over the interrupt table,
`irq_device[i][j].ok = 0` for `i < 7` and `j < 256`, entry by entry. -/
def freeAllIrqs (st : State) : State :=
  { st with irq_device := fun i j =>
      if i < 7 ∧ j < 256 then { st.irq_device i j with ok := 0 } else st.irq_device i j }

/-- The seven assignments `statistics.… = 0` of `IOCTL_RESET_ALL`. -/
def clearStatistics (st : State) : State :=
  { st with statistics :=
      { reads := 0, writes := 0, ioctls := 0, irqs := 0, berrs := 0, dmaErrors := 0,
        timeouts := 0 } }

/-- The loop "remove all existing command packet lists" of
`IOCTL_RESET_ALL`, `for (i = 0; i < 256; i++)`: `n` iterations remain.  As in
the source, the body tests `cpLists[i].free` and then works on
`cpLists[arg]`. -/
def resetLists (arg fuel : Nat) : Nat → Nat → State → Res State
  | 0, _, st => Res.ok st
  | n + 1, i, st =>
    if (st.cpLists i).free = 0 then
      let search := (st.cpLists arg).commandPacket
      let st1 := setCpl st arg fun c => { c with commandPacket := 0, free := 1 }
      match freeChain fuel search st1 with
      | Res.ok st2 => resetLists arg fuel n (i + 1) st2
      | Res.invalid => Res.invalid
      | Res.unfinished => Res.unfinished
    else resetLists arg fuel n (i + 1) st

/-- The body of the loop "free all images" of `IOCTL_RESET_ALL` for the
index `i`. -/
def resetImage (st : State) (i : Nat) : State :=
  let st1 := writel 0x00800000 (aCTL (i + 10)) (writel 0x00800000 (aCTL i) st)
  let st2 :=
    if (st1.image i).vBase ≠ 0 then
      let s1 := setImage st1 i fun d => { d with vBase := 0 }
      if (s1.image i).masterRes.start ≠ 0 then releaseMaster s1 i else s1
    else st1
  setImage st2 i fun d => { d with opened := 0, okToWrite := 0 }

/-- The loop "free all images" of `IOCTL_RESET_ALL`,
`for (i = 0; i < MAX_IMAGE; i++)`: `n` iterations remain. -/
def resetImages : Nat → Nat → State → State
  | 0, _, st => st
  | n + 1, i, st => resetImages n (i + 1) (resetImage st i)

/-- Case `IOCTL_RESET_ALL` of `universeII_ioctl`.  `dgcs` is what the engine
shows in `DGCS` after the stop request and the delay. -/
def IOCTL_RESET_ALL (st : State) (arg dgcs fuel : Nat) : Res (Int × State) :=
  let st1 := writel (0xF9000000 ||| readl st PCI_CSR) PCI_CSR st
  let error : Int :=
    if st1.dma.dma_in_use ≠ 0 ∧ u32 dgcs &&& 0x8000 ≠ 0 then -1 else 0
  let st2 :=
    if st1.dma.dma_in_use ≠ 0 then
      setDma (writel 0x00006F00 DGCS (writel dgcs DGCS (writel 0x40000000 DGCS st1)))
        fun d => { d with dma_in_use := 0, dma_blt_berr := 0 }
    else st1
  match resetLists arg fuel 256 0 st2 with
  | Res.invalid => Res.invalid
  | Res.unfinished => Res.unfinished
  | Res.ok st3 =>
    let st4 := writel 0x000005FE LINT_EN (freeAllIrqs st3)
    Res.ok (error, clearStatistics (resetImages MAX_IMAGE 0 st4))

/-! ## The ioctl entry point: DMA commands and the full reset -/

/-- Commands of `universeII_ioctl` that concern the DMA channel and the
command-packet lists, and the full reset, with their user argument and the
outcomes of the kernel calls and of the hardware. -/
inductive DmaCmd
  | REQUEST_DMA (arg : Nat)
  | RELEASE_DMA
  | DMA_BLT_BERR
  | NEW_DCP
  | ADD_DCP (arg : Option list_packet_t) (newP busAddr : Nat)
  | EXEC_DCP (arg : Nat) (run : DmaRun)
  | DEL_DCL (arg : Nat)
  | RESET_ALL (arg dgcs : Nat)

/-- Function `universeII_ioctl` for the commands of `DmaCmd`; `fuel` bounds
the loops over list nodes. -/
def universeII_ioctl_dma (st : State) (cmd : DmaCmd) (fuel : Nat) : Res (Int × State) :=
  let st0 := countIoctl st
  match cmd with
  | DmaCmd.REQUEST_DMA arg => Res.ok (IOCTL_REQUEST_DMA st0 arg)
  | DmaCmd.RELEASE_DMA => Res.ok (IOCTL_RELEASE_DMA st0)
  | DmaCmd.DMA_BLT_BERR => Res.ok (IOCTL_DMA_BLT_BERR st0)
  | DmaCmd.NEW_DCP => Res.ok (IOCTL_NEW_DCP st0)
  | DmaCmd.ADD_DCP arg newP busAddr => IOCTL_ADD_DCP st0 arg newP busAddr fuel
  | DmaCmd.EXEC_DCP arg run => IOCTL_EXEC_DCP st0 arg run fuel
  | DmaCmd.DEL_DCL arg => IOCTL_DEL_DCL st0 arg fuel
  | DmaCmd.RESET_ALL arg dgcs => IOCTL_RESET_ALL st0 arg dgcs fuel

/-! ## State after loading the driver -/

/-- The all-zero image descriptor. -/
def image_desc_t.zero : image_desc_t :=
  { phys_start := 0, phys_end := 0, size := 0, vBase := 0, opened := 0, okToWrite := 0,
    slaveBuf := 0, buffer := 0, masterRes := resource.zero }

/-- The driver state that `universeII_probe` leaves behind (from "Clear all
image descriptors" to its end).  `regs` is the register file after the chip
bring-up, `slave i` the outcome `(virtAddr, handle)` of the allocation of the
coherent buffer of slave image `i`, with `virtAddr = 0` for a failure, and
`dmabuf` the outcome `(virtAddr, handle)` of the allocation of the DMA buffer
(when it fails, `universeII_probe` gives up and the driver is not loaded).
The 256 entries of `cpLists` are set free and empty. -/
def probe_state (img_ovl : Int) (regs : Reg → Nat) (slave : Nat → Nat × Nat)
    (dmabuf : Nat × Nat) : State :=
  { img_ovl := img_ovl
    image := fun i =>
      if 10 ≤ i ∧ i < 18 then
        if (slave i).1 = 0 then image_desc_t.zero
        else { image_desc_t.zero with buffer := (slave i).2, slaveBuf := (slave i).1 }
      else image_desc_t.zero
    resTree := fun _ => false
    irq_device := fun _ _ =>
      { ok := 0, vmeAddrSt := 0, vmeValSt := 0, vmeAddrCl := 0, vmeValCl := 0, timeout := 0 }
    mbx_device := fun _ => { timeout := 0 }
    statistics :=
      { reads := 0, writes := 0, ioctls := 0, irqs := 0, berrs := 0, dmaErrors := 0,
        timeouts := 0 }
    regs := regs
    vmeWrites := []
    dma :=
      { dmaBuf := dmabuf.1, dmaHandle := dmabuf.2, dmaBufSize := 0, dma_dctl := 0,
        dma_in_use := 0, dma_blt_berr := 0 }
    cpLists := fun _ => { free := 1, commandPacket := 0, start := 0 }
    packets := fun _ => none
    vmeBerrList := fun _ => { valid := 0, merr := 0, AM := 0, address := 0 } }

/-! ## Runs of acquire, open and close -/

/-- The state after `k` successive `IOCTL_GET_IMAGE` requests with argument
`arg`, issued on the device file with minor `c`. -/
def acquireState (st : State) (c arg : Nat) : Nat → State
  | 0 => st
  | k + 1 => (universeII_ioctl (acquireState st c arg k) c (Cmd.GET_IMAGE arg)).2

/-- The value returned by request number `k` (counted from 0) of that run. -/
def acquireResult (st : State) (c arg k : Nat) : Int :=
  (universeII_ioctl (acquireState st c arg k) c (Cmd.GET_IMAGE arg)).1

/-- The state after the device files of the minors `off`, …, `off + k - 1`
have each been opened and closed, in this order. -/
def openCloseState (st : State) (off : Nat) : Nat → State
  | 0 => st
  | k + 1 =>
    (universeII_release (universeII_open (openCloseState st off k) (off + k)).2 (off + k)).2

/-! ## Entry points as steps -/

/-- The entry points of the driver that work on single images and single
interrupt slots, with their arguments: the file operations `ioctl` (for the
commands of `Cmd`), `open` and `release`, and the two timer callbacks.  The
DMA transfers and the commands of `DmaCmd`, among them the full reset
`IOCTL_RESET_ALL`, which frees every master image and every interrupt slot,
are modelled apart, in `universeII_read_dma`, `universeII_write_dma` and
`universeII_ioctl_dma`. -/
inductive Op
  | ioctl (minor : Nat) (cmd : Cmd)
  | open_ (minor : Nat)
  | release (minor : Nat)
  | virq_timeout (l s : Nat)
  | mbx_timeout (n : Nat)

/-- The state after one entry point has run. -/
def exec (st : State) : Op → State
  | Op.ioctl minor cmd => (universeII_ioctl st minor cmd).2
  | Op.open_ minor => (universeII_open st minor).2
  | Op.release minor => (universeII_release st minor).2
  | Op.virq_timeout l s => VIRQ_timeout st l s
  | Op.mbx_timeout n => MBX_timeout st n

/-- The kernel hands out PCI memory from `PCIBIOS_MIN_MEM` upwards: a range
returned by `pci_bus_alloc_resource` does not start at address 0. -/
def Op.allocSane : Op → Prop
  | Op.ioctl _ (Cmd.SET_IMAGE _ (some p) _) => p ≠ 0
  | _ => True

/-- A master image that holds a PCI range is Configured, mapped, and its
resource record has a nonzero start. -/
def MasterResInv (st : State) : Prop :=
  ∀ m, m < 8 → st.resTree m = true →
    (st.image m).opened = 3 ∧ (st.image m).vBase ≠ 0 ∧ (st.image m).masterRes.start ≠ 0

/-- The steps that the interrupt slot `(l, s)` with owner field `owner` may
be freed by: `IOCTL_FREE_IRQ` for level `l + 1` and status-ID `s`, and the
release of the minor `owner - 1`. -/
def Op.mayFree (l s owner : Nat) : Op → Prop
  | Op.ioctl _ (Cmd.FREE_IRQ (some isetup)) =>
    isetup.vmeIrq - 1 = (l : Int) ∧ isetup.vmeStatus = (s : Int)
  | Op.release minor => minor + 1 = owner
  | _ => False

/-! ## Example states -/

/-- A loaded driver with overlap checking enabled (`img_ovl = 0`), all
registers reading `0`, the slave buffer of image `i` at bus address
`0x2000000 + 0x20000 * i` and the DMA buffer at bus address `0x3000000`. -/
def exampleBoot : State :=
  probe_state 0 (fun _ => 0) (fun i => (0xC0000000 + 0x20000 * i, 0x2000000 + 0x20000 * i))
    (0xC8000000, 0x3000000)

/-- Image A of the overlap example: master, VME range `[0x1000, 0x2000)`. -/
def imageA : image_regs_t := { ms := 0, base := 0x1000, size := 0x1000 }

/-- Image B of the overlap example: master, VME range `[0x1800, 0x2800)`. -/
def imageB : image_regs_t := { ms := 0, base := 0x1800, size := 0x1000 }

/-- Image A is acquired, opened and configured on minor 0 (PCI range at
`0x80000000`, window mapped at `0xD0000000`). -/
def exampleAConfigured : State :=
  let s1 := (universeII_ioctl exampleBoot CONTROL_MINOR (Cmd.GET_IMAGE 0)).2
  let s2 := (universeII_open s1 0).2
  (universeII_ioctl s2 0 (Cmd.SET_IMAGE (some imageA) (some 0x80000000) 0xD0000000)).2

/-- After image A, a second master image is acquired and opened on minor 1. -/
def exampleBReserved : State :=
  let s1 := (universeII_ioctl exampleAConfigured CONTROL_MINOR (Cmd.GET_IMAGE 0)).2
  (universeII_open s1 1).2

/-- Minor 0 is acquired and opened; nothing is configured yet. -/
def exampleAReserved : State :=
  let s1 := (universeII_ioctl exampleBoot CONTROL_MINOR (Cmd.GET_IMAGE 0)).2
  (universeII_open s1 0).2

/-- A slave image is acquired (slot 10) and its device file opened. -/
def exampleSlaveReserved : State :=
  let s1 := (universeII_ioctl exampleBoot CONTROL_MINOR (Cmd.GET_IMAGE 1)).2
  (universeII_open s1 10).2

/-- Image B has been configured on minor 1 as well (the call the overlap
check lets through). -/
def exampleBConfigured : State :=
  (universeII_ioctl exampleBReserved 1
    (Cmd.SET_IMAGE (some imageB) (some 0x80010000) 0xD0010000)).2

/-- Request to arm level 3, status-ID 5, without entry or exit write. -/
def exampleSetup : irq_setup_t :=
  { vmeIrq := 3, vmeStatus := 5, vmeAddrSt := 0, vmeValSt := 0, vmeAddrCl := 0, vmeValCl := 0 }

/-- The slot of level 3, status-ID 5 has been armed through minor 0. -/
def exampleArmed : State :=
  (universeII_ioctl exampleAConfigured 0 (Cmd.SET_IRQ (some exampleSetup))).2

/-- Wait request for level 3, status-ID 5 with a timeout of 100 ms. -/
def exampleWait : irq_wait_t := { irqLevel := 3, statusID := 5, timeout := 100 }

/-- Mailbox 0 is enabled in `LINT_EN`; `LINT_STAT` shows the DMA status bit
`0x100` and no mailbox bit. -/
def exampleMbxOtherPending : State :=
  writel 0x100 LINT_STAT (writel 0x115FE LINT_EN exampleBoot)

/-- Mailbox 0 is enabled in `LINT_EN`; `LINT_STAT` shows the status bit of
mailbox 0, `0x10000`, and nothing else. -/
def exampleMbxOwnPending : State :=
  writel 0x10000 LINT_STAT (writel 0x115FE LINT_EN exampleBoot)


instance (st : State) (dmaParam : dma_param_t) : Decidable (dmaAccepted st dmaParam) := by
  unfold dmaAccepted; infer_instance

instance (st : State) : Decidable (dmaIdle st) := by
  unfold dmaIdle; infer_instance

/-- The DMA channel has been requested with four buffer slices
(`dmaBufSize = 0x8000`). -/
def exampleDmaOwned : State := (IOCTL_REQUEST_DMA exampleBoot 4).2

/-- A transfer of `0x100` bytes at VME address `0x10005` through slice 1. -/
def exampleDmaParam : dma_param_t :=
  { addr := 0x10005, count := 0x100, vas := 0, vdw := 0, dma_ctl := 0, bufNr := 1 }

/-- A run of the engine that ends with the done bit `0x800` of `DGCS` set,
nothing left in `DTBC`, and every list node processed. -/
def exampleRunDone : DmaRun :=
  { dgcs := 0x00000800, dtbc := 0, timeout := false, processed := fun _ => true }

/-- List 0 has been created with `IOCTL_NEW_DCP`. -/
def exampleListNew : State := (IOCTL_NEW_DCP exampleDmaOwned).2

/-- A list segment of `0x100` bytes at VME address `0x10005` for list 0. -/
def examplePacket : list_packet_t := { list := 0, dctl := 0, dtbc := 0x100, dva := 0x10005 }


/-- A transfer of `0x10000` bytes at VME address `0x10000` through slice 0;
with four slices a slice has `0x8000` bytes. -/
def exampleDmaTwoSlices : dma_param_t :=
  { addr := 0x10000, count := 0x10000, vas := 0, vdw := 0, dma_ctl := 0, bufNr := 0 }

/-- A transfer of `0x8001` bytes through slice 3, the last of four. -/
def exampleDmaPastPool : dma_param_t :=
  { addr := 0x10000, count := 0x8001, vas := 0, vdw := 0, dma_ctl := 0, bufNr := 3 }


/-- A transfer of the whole pool, `0x20000` bytes, at VME address `0x10005`
through slice 0. -/
def exampleDmaWholePool : dma_param_t :=
  { addr := 0x10005, count := 0x20000, vas := 0, vdw := 0, dma_ctl := 0, bufNr := 0 }

/-- The channel is owned and the engine is active: `DGCS` shows the `ACT`
bit `0x8000`. -/
def exampleDmaBusy : State := writel 0x00008000 DGCS exampleDmaOwned

/-- A transfer of `0x100` bytes at VME address `0x10000` through slice 1; the
low three bits of the two addresses agree. -/
def exampleDmaAligned : dma_param_t :=
  { addr := 0x10000, count := 0x100, vas := 0, vdw := 0, dma_ctl := 0, bufNr := 1 }

/-- The channel is owned and the permissive mode has been switched on with
`IOCTL_DMA_BLT_BERR`. -/
def exampleDmaPermissive : State := (IOCTL_DMA_BLT_BERR exampleDmaOwned).2

/-- A run of the engine that ends with a VME bus error (`DGCS` shows `0x200`
and not the done bit) after `0x80` of `0x100` bytes. -/
def exampleRunBerr : DmaRun :=
  { dgcs := 0x00000200, dtbc := 0x80, timeout := false, processed := fun _ => false }


/-- A list segment of `0xFFFFFFF8` bytes at VME address `0` for list 0. -/
def examplePacketWrap : list_packet_t := { list := 0, dctl := 0, dtbc := 0xFFFFFFF8, dva := 0 }

/-- A list segment of `0x20001` bytes, one more than the pool holds, at VME
address `0` for list 0. -/
def examplePacketPastPool : list_packet_t := { list := 0, dctl := 0, dtbc := 0x20001, dva := 0 }

/-- List 0 holds one segment: the node at address `0x1000`, mapped at bus
address `0x4000000`. -/
def exampleListOne : State :=
  Res.state (IOCTL_ADD_DCP exampleListNew (some examplePacket) 0x1000 0x4000000 8) exampleListNew

/-- The fields `next` and `dcp.dcpp` of the node at `p`, and `none` if no
node is allocated there. -/
def linkOf (st : State) (p : Nat) : Option (Nat × Nat) :=
  (packetAt st p).map fun n => (n.next, n.dcp.dcpp)

/-- The fields `pciStart` and `dcp.dtbc` of the node at `p`, and `none` if no
node is allocated there. -/
def extentOf (st : State) (p : Nat) : Option (Nat × Nat) :=
  (packetAt st p).map fun n => (n.pciStart, n.dcp.dtbc)


/-- The list that starts at `p` consists of the nodes `ks`, in append order:
each is allocated, each is linked to the next, and the last has
`next = NULL`. -/
def IsChain (st : State) : Nat → List kcp → Prop
  | p, [] => p = 0
  | p, k :: ks => p ≠ 0 ∧ st.packets p = some k ∧ IsChain st k.next ks

instance (st : State) (p : Nat) (ks : List kcp) : Decidable (IsChain st p ks) := by
  induction ks generalizing p with
  | nil => unfold IsChain; infer_instance
  | cons k ks ih => unfold IsChain; infer_instance

/-- List 0 holds three segments: the nodes at `0x1000`, `0x2000` and
`0x3000`, mapped at the bus addresses `0x4000000`, `0x4000020` and
`0x4000040`. -/
def exampleListThree : State :=
  let s2 := Res.state (IOCTL_ADD_DCP exampleListOne (some examplePacket) 0x2000 0x4000020 8)
    exampleListOne
  Res.state (IOCTL_ADD_DCP s2 (some examplePacket) 0x3000 0x4000040 8) s2

/-- A run of the engine without error status in which the node at `0x2000`
is not processed. -/
def exampleRunSkipSecond : DmaRun :=
  { dgcs := 0x00000800, dtbc := 0, timeout := false, processed := fun p => p != 0x2000 }

/-- A run of the engine that ends with the VME error bit `0x200` of `DGCS`
set and the done bit clear. -/
def exampleRunError : DmaRun :=
  { dgcs := 0x00000200, dtbc := 0, timeout := false, processed := fun _ => false }

/-- The three nodes of list 0 after `exampleRunSkipSecond`. -/
def exampleNodesSkipSecond : List kcp :=
  [ { dcp := { dctl := 0, dtbc := 0x100, dla := 0x3000005, dva := 0x10005, dcpp := 0x4000022 },
      pciStart := 0x3000005, next := 0x2000 },
    { dcp := { dctl := 0, dtbc := 0x100, dla := 0x3000105, dva := 0x10005, dcpp := 0x4000040 },
      pciStart := 0x3000105, next := 0x3000 },
    { dcp := { dctl := 0, dtbc := 0x100, dla := 0x3000205, dva := 0x10005, dcpp := 0x3 },
      pciStart := 0x3000205, next := 0 } ]

/-- The three nodes of list 0 after `exampleRunDone`. -/
def exampleNodesDone : List kcp :=
  [ { dcp := { dctl := 0, dtbc := 0x100, dla := 0x3000005, dva := 0x10005, dcpp := 0x4000022 },
      pciStart := 0x3000005, next := 0x2000 },
    { dcp := { dctl := 0, dtbc := 0x100, dla := 0x3000105, dva := 0x10005, dcpp := 0x4000042 },
      pciStart := 0x3000105, next := 0x3000 },
    { dcp := { dctl := 0, dtbc := 0x100, dla := 0x3000205, dva := 0x10005, dcpp := 0x3 },
      pciStart := 0x3000205, next := 0 } ]


/-- Slave image of the reset example: VME range `[0x100000, 0x110000)`. -/
def imageS : image_regs_t := { ms := 1, base := 0x100000, size := 0x10000 }

/-- The slave image of slot 10 has been configured on minor 10. -/
def exampleSlaveConfigured : State :=
  (universeII_ioctl exampleSlaveReserved 10 (Cmd.SET_IMAGE (some imageS) none 0xD0100000)).2


/-- The state `st'` differs from `st` at most in the table of lists and in
the list nodes. -/
def ListFrame (st st' : State) : Prop :=
  st'.img_ovl = st.img_ovl ∧ st'.image = st.image ∧ st'.resTree = st.resTree ∧
  st'.irq_device = st.irq_device ∧ st'.mbx_device = st.mbx_device ∧
  st'.statistics = st.statistics ∧ st'.regs = st.regs ∧ st'.vmeWrites = st.vmeWrites ∧
  st'.dma = st.dma ∧ st'.vmeBerrList = st.vmeBerrList


/-! ## The interrupt handler -/

/-- A call `wake_up_interruptible` of `irq_handler`, named by the wait queue
it is made on: `irqWait` of the slot in row `l` and column `s` of
`irq_device`, `dmaWait`, `mbx_device[n].mbxWait` or `vmeWait`. -/
inductive Wake
  | irq (l s : Nat)
  | dma
  | mbx (n : Nat)
  | vme
  deriving DecidableEq, Repr

/-- The loop `for (i = 7; i > 0; i--) if (status & (1 << i)) break;` of
`irq_handler`, entered with the loop variable at the argument: the value of
`i` after the loop. -/
def irqLevelScan (status : Nat) : Nat → Nat
  | 0 => 0
  | i + 1 => if status &&& (1 <<< (i + 1)) ≠ 0 then i + 1 else irqLevelScan status i

/-- The loop `for (i = 0; i < 4; i++) if (status & (0x10000 << i)) …` of
`irq_handler`: `n` iterations remain; the wake-ups it makes, in order. -/
def mbxWakeLoop (status : Nat) : Nat → Nat → List Wake
  | 0, _ => []
  | n + 1, i =>
    (if status &&& (0x10000 <<< i) ≠ 0 then [Wake.mbx i] else []) ++ mbxWakeLoop status n (i + 1)

/-- What a call of `irq_handler` does besides changing the state: whether it
returns `IRQ_HANDLED`, the wake-ups it makes in order, the indices `i` of the
registers `aVIrq[i]` it reads, and the index pairs `(i, statVme)` of the
expressions `irq_device[i][statVme]` with which it accesses the table. -/
structure IrqTrace where
  handled : Bool
  wakes : List Wake
  statidReads : List Nat
  slots : List (Nat × Nat)
  deriving DecidableEq, Repr

/-- Row of the slot that the expression `irq_device[i][j]` designates.  The
table `irq_device[7][256]` is laid out row by row, so the expression
designates element number `256 * i + j` of the table: for `j < 256` the slot
of row `i` and column `j`, for a larger `j` a slot of a later row. -/
def irqRow (i j : Nat) : Nat := (256 * i + j) / 256

/-- Column of the slot that the expression `irq_device[i][j]` designates. -/
def irqCol (i j : Nat) : Nat := (256 * i + j) % 256

/-- The block "VMEbus interrupt" of `irq_handler`, for the masked status
`status`.  The value `statVme` of the status/ID register indexes the table
unmasked: the slot accessed is the one that `irq_device[i][statVme]`
designates, `irq_device[irqRow i statVme][irqCol i statVme]`.  When element
number `256 * i + statVme` lies past the end of the table (`7 * 256`
elements) the handler reads memory that is not part of the table and of
which the state holds nothing; the result then records the access in the
last component and gives the block up to that access. -/
def irq_vme (st : State) (status : Nat) : State × List Wake × List Nat × List (Nat × Nat) :=
  if status &&& 0x00FE ≠ 0 then
    let i := irqLevelScan status 7
    if i ≠ 0 then
      let i := i - 1
      let statVme := readl st (aVIrq i)
      if statVme &&& 0x100 ≠ 0 then (st, [], [i], [])
      else if 7 * 256 ≤ 256 * i + statVme then (st, [], [i], [(i, statVme)])
      else if (st.irq_device (irqRow i statVme) (irqCol i statVme)).ok ≠ 0 then
        let st1 :=
          if (st.irq_device (irqRow i statVme) (irqCol i statVme)).vmeAddrCl ≠ 0 then
            vmeWritel (st.irq_device (irqRow i statVme) (irqCol i statVme)).vmeValCl
              (st.irq_device (irqRow i statVme) (irqCol i statVme)).vmeAddrCl st
          else st
        (st1, [Wake.irq (irqRow i statVme) (irqCol i statVme)], [i], [(i, statVme)])
      else (st, [], [i], [(i, statVme)])
    else (st, [], [], [])
  else (st, [], [], [])

/-- The block "VMEBus error" of `irq_handler`, entered when bit `0x0400` of
the masked status is set. -/
def irq_berr (st : State) : State :=
  let statVme := readl st V_AMERR
  if statVme &&& 0x00800000 ≠ 0 then
    let k := st.statistics.berrs &&& 0x1F
    let st1 :=
      if statVme &&& 0x01000000 ≠ 0 then setBerr st k fun b => { b with merr := 1 } else st
    let st2 := setBerr st1 k fun b => { b with valid := 1 }
    let st3 := setBerr st2 k fun b => { b with AM := (statVme >>> 26) &&& 0x3f }
    let st4 := setBerr st3 k fun b => { b with address := readl st3 VAERR }
    writel 0x00800000 V_AMERR (countBerr st4)
  else st

/-- Function `irq_handler`. -/
def irq_handler (st : State) : IrqTrace × State :=
  let enable := readl st LINT_EN
  let status := readl st LINT_STAT &&& enable
  if status = 0 then
    ({ handled := false, wakes := [], statidReads := [], slots := [] }, st)
  else
    let st1 := countIrq st
    let v := irq_vme st1 status
    let st2 := v.1
    let wDma := if status &&& 0x0100 ≠ 0 then [Wake.dma] else []
    let wMbx := if status &&& 0xF0000 ≠ 0 then mbxWakeLoop status 4 0 else []
    let wVme := if status &&& 0x1000 ≠ 0 then [Wake.vme] else []
    let st3 := if status &&& 0x0400 ≠ 0 then irq_berr st2 else st2
    ({ handled := true, wakes := v.2.1 ++ wDma ++ wMbx ++ wVme, statidReads := v.2.2.1,
       slots := v.2.2.2 },
     writel status LINT_STAT st3)

/-- A run of interrupts: before each call of `irq_handler` the chip shows the
next register file of `hws`. -/
def irqRun (st : State) : List (Reg → Nat) → State
  | [] => st
  | hw :: hws => irqRun (irq_handler (setRegs st hw)).2 hws

/-- The call of `irq_handler` with the registers `hw` logs a bus error: the
bus-error bit `0x0400` is pending and enabled, and the log-valid bit
`0x00800000` of `V_AMERR` is set. -/
def logsBerr (hw : Reg → Nat) : Prop :=
  (hw LINT_STAT &&& hw LINT_EN) &&& 0x0400 ≠ 0 ∧ hw V_AMERR &&& 0x00800000 ≠ 0

instance (hw : Reg → Nat) : Decidable (logsBerr hw) := by
  unfold logsBerr; infer_instance

/-- The block of `universeII_probe` that runs after `request_irq` has
succeeded (lines 2303 to 2306 of the source). -/
def probe_irq_setup (st : State) : State :=
  writel 0 LINT_MAP2 (writel 0 LINT_MAP1 (writel 0 LINT_MAP0 (writel 0x000015FE LINT_EN st)))


/-- Request to arm level 4, status-ID 9 with the exit write of `0x77` to the
VME address `0x1010`, which lies in image A. -/
def exampleSetupCl : irq_setup_t :=
  { vmeIrq := 4, vmeStatus := 9, vmeAddrSt := 0, vmeValSt := 0, vmeAddrCl := 0x1010,
    vmeValCl := 0x77 }

/-- Besides the slot of level 3, status-ID 5 the slot of level 4, status-ID 9
has been armed through minor 0, with an exit write. -/
def exampleArmedCl : State :=
  (universeII_ioctl exampleArmed 0 (Cmd.SET_IRQ (some exampleSetupCl))).2

/-- The interrupts are enabled as after loading (`LINT_EN = 0x15FE`), the
levels 3 and 4 are pending (`LINT_STAT = 0x18`), and the status/ID registers
of the levels 3 and 4 show `5` and `9`. -/
def exampleIrqPending : State :=
  writel 9 V4_STATID (writel 5 V3_STATID (writel 0x18 LINT_STAT
    (writel 0x000015FE LINT_EN exampleArmedCl)))

/-- As `exampleIrqPending`, but the status/ID register of level 4 shows a bus
error during the acknowledge cycle (bit 8). -/
def exampleIrqIackError : State := writel 0x109 V4_STATID exampleIrqPending

/-- As `exampleIrqPending`, but the status/ID register of level 4 shows the
status-ID `10`, whose slot is free. -/
def exampleIrqFreeSlot : State := writel 10 V4_STATID exampleIrqPending


/-- The ring entry that `irq_handler` writes for a bus error logged with the
registers `hw`, over the entry `old`. -/
def berrEntry (hw : Reg → Nat) (old : vme_Berr_t) : vme_Berr_t :=
  { valid := 1
    merr := if hw V_AMERR &&& 0x01000000 ≠ 0 then 1 else old.merr
    AM := (hw V_AMERR >>> 26) &&& 0x3f
    address := hw VAERR }

/-- The register files of `hws` with which `irq_handler` logs a bus error, in
order. -/
def loggedBerrs (hws : List (Reg → Nat)) : List (Reg → Nat) :=
  hws.filter fun hw => decide (logsBerr hw)


/-- The registers at bus error number `j` of the example run: the bus-error
interrupt is pending and enabled, `V_AMERR` shows a valid log with the
address-modifier code `0x2D`, and `VAERR` shows the address `0x1000 + 4 * j`. -/
def exampleBerrHw (j : Nat) : Reg → Nat
  | LINT_EN => 0x000015FE
  | LINT_STAT => 0x0400
  | V_AMERR => 0xB4800000
  | VAERR => 0x1000 + 4 * j
  | _ => 0

/-- Forty bus errors in a row. -/
def exampleBerrRun : List (Reg → Nat) := (List.range 40).map exampleBerrHw


/-! ## Reads and writes through an image window -/

/-- Function `testAndClearBERR`. -/
def testAndClearBERR (st : State) : Int × State :=
  let tmp := readl st PCI_CSR
  if tmp &&& 0x08000000 ≠ 0 then (1, countBerr (writel tmp PCI_CSR st)) else (0, st)

/-- What the bus and the user buffer do during a transfer through an image
window: `csr i` is what `PCI_CSR` shows after access number `i` (counted
from 0), and `copyFails i` tells whether the copy between the user buffer
and the kernel for element number `i` fails. -/
structure BusRun where
  csr : Nat → Nat
  copyFails : Nat → Bool

/-- Outcome of a read or write through an image window: the value returned,
the file position `*ppos` after the call, the state, and the offsets in the
window of the accesses made, in order. -/
structure WindowResult where
  ret : Int
  pos : Nat
  st : State
  accesses : List Nat

/-- The loops `for (i = 0; i < count; i++)` of `universeII_read` for the
access width `w` (`readb`, `readw` or `readl`); `n` iterations remain, `i` is
the loop variable, `o` the offset of the first access in the window.  The
first component tells whether the loop was left by a `return`; the second is
the value returned, or `okcount` at the end of the loop. -/
def windowReadLoop (run : BusRun) (w o : Nat) :
    Nat → Nat → Int → State → List Nat → Bool × Int × State × List Nat
  | 0, _, okcount, st, acc => (false, okcount, st, acc)
  | n + 1, i, okcount, st, acc =>
    let acc1 := acc ++ [o + w * i]
    let st1 := writel (run.csr i) PCI_CSR st
    let berr := (testAndClearBERR st1).1
    let st2 := (testAndClearBERR st1).2
    if berr ≠ 0 then (true, okcount, st2, acc1)
    else if run.copyFails i then (true, -1, st2, acc1)
    else windowReadLoop run w o n (i + 1) (okcount + w) st2 acc1

/-- The loops of `universeII_write` for the access width `w` (`writeb`,
`writew` or `writel`); the copy from the user buffer comes before the
access. -/
def windowWriteLoop (run : BusRun) (w o : Nat) :
    Nat → Nat → Int → State → List Nat → Bool × Int × State × List Nat
  | 0, _, okcount, st, acc => (false, okcount, st, acc)
  | n + 1, i, okcount, st, acc =>
    if run.copyFails i then (true, -1, st, acc)
    else
      let acc1 := acc ++ [o + w * i]
      let st1 := writel (run.csr i) PCI_CSR st
      let berr := (testAndClearBERR st1).1
      let st2 := (testAndClearBERR st1).2
      if berr ≠ 0 then (true, okcount, st2, acc1)
      else windowWriteLoop run w o n (i + 1) (okcount + w) st2 acc1

/-- The tail of `universeII_read` and `universeII_write` after a loop:
a `return` inside the loop leaves `*ppos` as it is, otherwise
`*ppos += count; return okcount;` with the divided `count`. -/
def windowFinish (pos count : Nat) (r : Bool × Int × State × List Nat) : WindowResult :=
  if r.1 then { ret := r.2.1, pos := pos, st := r.2.2.1, accesses := r.2.2.2 }
  else { ret := r.2.1, pos := pos + count, st := r.2.2.1, accesses := r.2.2.2 }

/-- Case `default` of `universeII_read`: the device file of an image, with
the file position `pos` and the byte count `count`.  The sum
`(*ppos & 0x0FFFFFFF) + count` is computed in 64 bits and does not wrap for
the counts the kernel passes on. -/
def universeII_read_window (st : State) (minor pos count : Nat) (run : BusRun) : WindowResult :=
  let st0 := countRead st
  if (st0.image minor).okToWrite ≠ 0 then
    if (pos &&& 0x0FFFFFFF) + count > (st0.image minor).size then
      { ret := -1, pos := pos, st := st0, accesses := [] }
    else
      let o := pos &&& 0x0FFFFFFF
      let dw := (pos >>> 28) &&& 0xF
      if dw = 1 then windowFinish pos count (windowReadLoop run 1 o count 0 0 st0 [])
      else if dw = 2 then
        windowFinish pos (count / 2) (windowReadLoop run 2 o (count / 2) 0 0 st0 [])
      else if dw = 4 then
        windowFinish pos (count / 4) (windowReadLoop run 4 o (count / 4) 0 0 st0 [])
      else { ret := 0, pos := pos + count, st := st0, accesses := [] }
  else { ret := 0, pos := pos + count, st := st0, accesses := [] }

/-- Case `default` of `universeII_write`. -/
def universeII_write_window (st : State) (minor pos count : Nat) (run : BusRun) :
    WindowResult :=
  let st0 := countWrite st
  if (st0.image minor).okToWrite ≠ 0 then
    if (pos &&& 0x0FFFFFFF) + count > (st0.image minor).size then
      { ret := -1, pos := pos, st := st0, accesses := [] }
    else
      let o := pos &&& 0x0FFFFFFF
      let dw := (pos >>> 28) &&& 0xF
      if dw = 1 then windowFinish pos count (windowWriteLoop run 1 o count 0 0 st0 [])
      else if dw = 2 then
        windowFinish pos (count / 2) (windowWriteLoop run 2 o (count / 2) 0 0 st0 [])
      else if dw = 4 then
        windowFinish pos (count / 4) (windowWriteLoop run 4 o (count / 4) 0 0 st0 [])
      else { ret := 0, pos := pos + count, st := st0, accesses := [] }
  else { ret := 0, pos := pos + count, st := st0, accesses := [] }

/-- Access number `i` raises a bus error: `PCI_CSR` shows the bit `S_TA`
(`0x08000000`) after it. -/
def raisesBerr (run : BusRun) (i : Nat) : Prop := u32 (run.csr i) &&& 0x08000000 ≠ 0

instance (run : BusRun) (i : Nat) : Decidable (raisesBerr run i) := by
  unfold raisesBerr; infer_instance


/-- A bus on which access number 2 raises a bus error and every copy
succeeds. -/
def exampleBusRun : BusRun :=
  { csr := fun i => if i = 2 then 0x08000000 else 0, copyFails := fun _ => false }

/-- A bus without bus errors; every copy succeeds. -/
def exampleBusQuiet : BusRun := { csr := fun _ => 0, copyFails := fun _ => false }


/-! ## Index traces and further examples -/

/-- The indices `i + offset` at which the search loop of `IOCTL_GET_IMAGE`,
`while ((image[i + offset].opened) && (i < MAX_IMAGE)) i++;`, reads the image
table, in order, for at most `fuel` tests from the value `i`: each test reads
`image[i + offset].opened` first and compares `i` with `MAX_IMAGE` only if
that field is not `0`. -/
def getImageReads (st : State) (offset : Nat) : Nat → Nat → List Nat
  | 0, _ => []
  | fuel + 1, i =>
    (i + offset) ::
      (if (st.image (i + offset)).opened ≠ 0 ∧ i < MAX_IMAGE then
         getImageReads st offset fuel (i + 1)
       else [])

/-- All eight slave images have been acquired. -/
def exampleSlavesTaken : State := acquireState exampleBoot CONTROL_MINOR 1 8

/-- All eight master images have been acquired. -/
def exampleMastersTaken : State := acquireState exampleBoot CONTROL_MINOR 0 8

/-- List 0 holds one segment; list 1 has been created with `IOCTL_NEW_DCP`
and holds one segment, the node at `0x2000`, mapped at `0x4000020`. -/
def exampleTwoLists : State :=
  let s1 := (IOCTL_NEW_DCP exampleListOne).2
  Res.state (IOCTL_ADD_DCP s1 (some { examplePacket with list := 1 }) 0x2000 0x4000020 8) s1

/-- A run of the engine after which `DGCS` shows neither the done bit nor
any other status bit. -/
def exampleRunNoStatus : DmaRun :=
  { dgcs := 0, dtbc := 0x100, timeout := false, processed := fun _ => true }

/-- A list segment of `0x100` bytes at VME address `0x10005` for the list ID
`256`. -/
def examplePacket256 : list_packet_t := { examplePacket with list := 256 }

/-- As `exampleIrqPending`, but the status/ID register of level 4 shows
`0x209`: bit 9 is set and bit 8 is clear. -/
def exampleIrqWide : State := writel 0x209 V4_STATID exampleIrqPending

/-- The loaded driver with the interrupts enabled as `universeII_probe`
enables them. -/
def exampleBootIrq : State := probe_irq_setup exampleBoot

/-- The loaded driver after a full reset. -/
def exampleAfterReset : State :=
  Res.state (universeII_ioctl_dma exampleBootIrq (DmaCmd.RESET_ALL 0 0) 8) exampleBootIrq


/-! ## The shape of a command-packet list -/

/-- The list that starts at `p` consists of the nodes at the addresses
`xs.map (·.1)`, in this order, where `xs.map (·.2)` are their bus addresses:
every node but the last has `next` at its successor, `dcpp` equal to the bus
address of its successor and the last-packet bit (bit 0 of `dcpp`) clear; the
last node has `next = NULL` and `dcpp = 1`. -/
def ChainShape (st : State) : Nat → List (Nat × Nat) → Prop
  | p, [] => p = 0
  | p, [x] => p = x.1 ∧ linkOf st p = some (0, 1)
  | p, x :: y :: rest =>
    p = x.1 ∧ linkOf st p = some (y.1, y.2) ∧ y.2 &&& 0x1 = 0 ∧ ChainShape st y.1 (y :: rest)

instance (st : State) (p : Nat) (xs : List (Nat × Nat)) : Decidable (ChainShape st p xs) := by
  induction xs generalizing p with
  | nil => unfold ChainShape; infer_instance
  | cons x rest ih =>
    cases rest with
    | nil => unfold ChainShape; infer_instance
    | cons y rest => unfold ChainShape; infer_instance

/-- A run of `IOCTL_ADD_DCP` calls for list `l` that all succeed: each entry
of the list gives the segment, the address of the node that `kmalloc`
returns and the bus address the node is mapped at.  The result is `none` if
one of the calls does not return or returns `-1`. -/
def addRun (st : State) (l fuel : Nat) : List (list_packet_t × Nat × Nat) → Option State
  | [] => some st
  | c :: rest =>
    match IOCTL_ADD_DCP st (some { c.1 with list := l }) c.2.1 c.2.2 fuel with
    | Res.ok r => if r.1 = -1 then none else addRun r.2 l fuel rest
    | _ => none

/-- The three calls that build `exampleListThree` from `exampleListNew`. -/
def exampleThreeCalls : List (list_packet_t × Nat × Nat) :=
  [(examplePacket, 0x1000, 0x4000000), (examplePacket, 0x2000, 0x4000020),
   (examplePacket, 0x3000, 0x4000040)]


/-- Slot 10, a slave image, has been acquired, opened and configured as a
master image (`ms = 0`): it holds the PCI range at `0x80000000`. -/
def exampleMasterOnSlave : State :=
  (universeII_ioctl exampleSlaveReserved 10
    (Cmd.SET_IMAGE (some imageA) (some 0x80000000) 0xD0000000)).2

/-- Request to arm level 6, status-ID 9 with the exit write of `0x77` to the
VME address `0x1010`, which lies in image A. -/
def exampleSetupSix : irq_setup_t :=
  { vmeIrq := 6, vmeStatus := 9, vmeAddrSt := 0, vmeValSt := 0, vmeAddrCl := 0x1010,
    vmeValCl := 0x77 }

/-- Besides the slot of level 3, status-ID 5 the slot of level 6, status-ID 9
has been armed through minor 0; the interrupts are enabled as after loading,
level 4 is pending (`LINT_STAT = 0x10`) and its status/ID register shows
`0x209`. -/
def exampleIrqAlias : State :=
  writel 0x209 V4_STATID (writel 0x10 LINT_STAT (writel 0x000015FE LINT_EN
    (universeII_ioctl exampleArmed 0 (Cmd.SET_IRQ (some exampleSetupSix))).2))

/-- A bus without bus errors on which the copy of element number 1 fails. -/
def exampleBusCopyFails : BusRun := { csr := fun _ => 0, copyFails := fun i => decide (i = 1) }

/-- The address `dla` from which `IOCTL_ADD_DCP` computes the padding of a
new segment of list `l` (lines 1665 to 1668 of the source), in the state
before the call: `dmaHandle` when the list is empty, and otherwise
`ptr->pciStart + ptr->dcp.dtbc` for the last node `ptr` of the list, the
address that follows the last segment.  The result is `none` if the walk to
the last node does not end at a node within `fuel` steps. -/
def addDcpBase (st : State) (l fuel : Nat) : Option Nat :=
  if (st.cpLists l).commandPacket = 0 then some (u32 st.dma.dmaHandle)
  else
    match findTail st fuel (st.cpLists l).commandPacket with
    | Res.ok tail =>
      match packetAt st tail with
      | some t => some (add32 t.pciStart t.dcp.dtbc)
      | none => none
    | _ => none

/-- A list segment of `0x100` bytes at VME address `0x20002` for list 0. -/
def examplePacketTwo : list_packet_t := { list := 0, dctl := 0, dtbc := 0x100, dva := 0x20002 }

/-! # Theorems -/

/-! ## Projections of the state updates -/

@[simp] theorem readl_eq (st : State) (r : Reg) : readl st r = st.regs r := rfl

@[simp] theorem writel_img_ovl (st : State) (v : Nat) (r : Reg) :
    (writel v r st).img_ovl = st.img_ovl := rfl

@[simp] theorem writel_image (st : State) (v : Nat) (r : Reg) :
    (writel v r st).image = st.image := rfl

@[simp] theorem writel_resTree (st : State) (v : Nat) (r : Reg) :
    (writel v r st).resTree = st.resTree := rfl

@[simp] theorem writel_irq_device (st : State) (v : Nat) (r : Reg) :
    (writel v r st).irq_device = st.irq_device := rfl

@[simp] theorem writel_mbx_device (st : State) (v : Nat) (r : Reg) :
    (writel v r st).mbx_device = st.mbx_device := rfl

@[simp] theorem writel_statistics (st : State) (v : Nat) (r : Reg) :
    (writel v r st).statistics = st.statistics := rfl

@[simp] theorem writel_regs (st : State) (v : Nat) (r : Reg) :
    (writel v r st).regs = (fun x => if x = r then u32 v else st.regs x) := rfl

@[simp] theorem writel_vmeWrites (st : State) (v : Nat) (r : Reg) :
    (writel v r st).vmeWrites = st.vmeWrites := rfl

@[simp] theorem setImage_img_ovl (st : State) (i : Nat) (f : image_desc_t → image_desc_t) :
    (setImage st i f).img_ovl = st.img_ovl := rfl

@[simp] theorem setImage_image (st : State) (i : Nat) (f : image_desc_t → image_desc_t) :
    (setImage st i f).image = (fun j => if j = i then f (st.image i) else st.image j) := rfl

@[simp] theorem setImage_resTree (st : State) (i : Nat) (f : image_desc_t → image_desc_t) :
    (setImage st i f).resTree = st.resTree := rfl

@[simp] theorem setImage_irq_device (st : State) (i : Nat) (f : image_desc_t → image_desc_t) :
    (setImage st i f).irq_device = st.irq_device := rfl

@[simp] theorem setImage_mbx_device (st : State) (i : Nat) (f : image_desc_t → image_desc_t) :
    (setImage st i f).mbx_device = st.mbx_device := rfl

@[simp] theorem setImage_statistics (st : State) (i : Nat) (f : image_desc_t → image_desc_t) :
    (setImage st i f).statistics = st.statistics := rfl

@[simp] theorem setImage_regs (st : State) (i : Nat) (f : image_desc_t → image_desc_t) :
    (setImage st i f).regs = st.regs := rfl

@[simp] theorem setImage_vmeWrites (st : State) (i : Nat) (f : image_desc_t → image_desc_t) :
    (setImage st i f).vmeWrites = st.vmeWrites := rfl

@[simp] theorem setIrq_img_ovl (st : State) (l s : Nat) (f : irq_device_t → irq_device_t) :
    (setIrq st l s f).img_ovl = st.img_ovl := rfl

@[simp] theorem setIrq_image (st : State) (l s : Nat) (f : irq_device_t → irq_device_t) :
    (setIrq st l s f).image = st.image := rfl

@[simp] theorem setIrq_resTree (st : State) (l s : Nat) (f : irq_device_t → irq_device_t) :
    (setIrq st l s f).resTree = st.resTree := rfl

@[simp] theorem setIrq_irq_device (st : State) (l s : Nat) (f : irq_device_t → irq_device_t) :
    (setIrq st l s f).irq_device = (fun i j => if i = l ∧ j = s then f (st.irq_device l s) else st.irq_device i j) := rfl

@[simp] theorem setIrq_mbx_device (st : State) (l s : Nat) (f : irq_device_t → irq_device_t) :
    (setIrq st l s f).mbx_device = st.mbx_device := rfl

@[simp] theorem setIrq_statistics (st : State) (l s : Nat) (f : irq_device_t → irq_device_t) :
    (setIrq st l s f).statistics = st.statistics := rfl

@[simp] theorem setIrq_regs (st : State) (l s : Nat) (f : irq_device_t → irq_device_t) :
    (setIrq st l s f).regs = st.regs := rfl

@[simp] theorem setIrq_vmeWrites (st : State) (l s : Nat) (f : irq_device_t → irq_device_t) :
    (setIrq st l s f).vmeWrites = st.vmeWrites := rfl

@[simp] theorem setMbx_img_ovl (st : State) (n : Nat) (f : mbx_device_t → mbx_device_t) :
    (setMbx st n f).img_ovl = st.img_ovl := rfl

@[simp] theorem setMbx_image (st : State) (n : Nat) (f : mbx_device_t → mbx_device_t) :
    (setMbx st n f).image = st.image := rfl

@[simp] theorem setMbx_resTree (st : State) (n : Nat) (f : mbx_device_t → mbx_device_t) :
    (setMbx st n f).resTree = st.resTree := rfl

@[simp] theorem setMbx_irq_device (st : State) (n : Nat) (f : mbx_device_t → mbx_device_t) :
    (setMbx st n f).irq_device = st.irq_device := rfl

@[simp] theorem setMbx_mbx_device (st : State) (n : Nat) (f : mbx_device_t → mbx_device_t) :
    (setMbx st n f).mbx_device = (fun j => if j = n then f (st.mbx_device n) else st.mbx_device j) := rfl

@[simp] theorem setMbx_statistics (st : State) (n : Nat) (f : mbx_device_t → mbx_device_t) :
    (setMbx st n f).statistics = st.statistics := rfl

@[simp] theorem setMbx_regs (st : State) (n : Nat) (f : mbx_device_t → mbx_device_t) :
    (setMbx st n f).regs = st.regs := rfl

@[simp] theorem setMbx_vmeWrites (st : State) (n : Nat) (f : mbx_device_t → mbx_device_t) :
    (setMbx st n f).vmeWrites = st.vmeWrites := rfl

@[simp] theorem setResTree_img_ovl (st : State) (i : Nat) (b : Bool) :
    (setResTree st i b).img_ovl = st.img_ovl := rfl

@[simp] theorem setResTree_image (st : State) (i : Nat) (b : Bool) :
    (setResTree st i b).image = st.image := rfl

@[simp] theorem setResTree_resTree (st : State) (i : Nat) (b : Bool) :
    (setResTree st i b).resTree = (fun j => if j = i then b else st.resTree j) := rfl

@[simp] theorem setResTree_irq_device (st : State) (i : Nat) (b : Bool) :
    (setResTree st i b).irq_device = st.irq_device := rfl

@[simp] theorem setResTree_mbx_device (st : State) (i : Nat) (b : Bool) :
    (setResTree st i b).mbx_device = st.mbx_device := rfl

@[simp] theorem setResTree_statistics (st : State) (i : Nat) (b : Bool) :
    (setResTree st i b).statistics = st.statistics := rfl

@[simp] theorem setResTree_regs (st : State) (i : Nat) (b : Bool) :
    (setResTree st i b).regs = st.regs := rfl

@[simp] theorem setResTree_vmeWrites (st : State) (i : Nat) (b : Bool) :
    (setResTree st i b).vmeWrites = st.vmeWrites := rfl

@[simp] theorem vmeWritel_img_ovl (st : State) (v addr : Nat) :
    (vmeWritel v addr st).img_ovl = st.img_ovl := rfl

@[simp] theorem vmeWritel_image (st : State) (v addr : Nat) :
    (vmeWritel v addr st).image = st.image := rfl

@[simp] theorem vmeWritel_resTree (st : State) (v addr : Nat) :
    (vmeWritel v addr st).resTree = st.resTree := rfl

@[simp] theorem vmeWritel_irq_device (st : State) (v addr : Nat) :
    (vmeWritel v addr st).irq_device = st.irq_device := rfl

@[simp] theorem vmeWritel_mbx_device (st : State) (v addr : Nat) :
    (vmeWritel v addr st).mbx_device = st.mbx_device := rfl

@[simp] theorem vmeWritel_statistics (st : State) (v addr : Nat) :
    (vmeWritel v addr st).statistics = st.statistics := rfl

@[simp] theorem vmeWritel_regs (st : State) (v addr : Nat) :
    (vmeWritel v addr st).regs = st.regs := rfl

@[simp] theorem vmeWritel_vmeWrites (st : State) (v addr : Nat) :
    (vmeWritel v addr st).vmeWrites = ((v, addr) :: st.vmeWrites) := rfl

@[simp] theorem countIoctl_img_ovl (st : State) :
    (countIoctl st).img_ovl = st.img_ovl := rfl

@[simp] theorem countIoctl_image (st : State) :
    (countIoctl st).image = st.image := rfl

@[simp] theorem countIoctl_resTree (st : State) :
    (countIoctl st).resTree = st.resTree := rfl

@[simp] theorem countIoctl_irq_device (st : State) :
    (countIoctl st).irq_device = st.irq_device := rfl

@[simp] theorem countIoctl_mbx_device (st : State) :
    (countIoctl st).mbx_device = st.mbx_device := rfl

@[simp] theorem countIoctl_statistics (st : State) :
    (countIoctl st).statistics = { st.statistics with ioctls := st.statistics.ioctls + 1 } := rfl

@[simp] theorem countIoctl_regs (st : State) :
    (countIoctl st).regs = st.regs := rfl

@[simp] theorem countIoctl_vmeWrites (st : State) :
    (countIoctl st).vmeWrites = st.vmeWrites := rfl

@[simp] theorem countTimeout_img_ovl (st : State) :
    (countTimeout st).img_ovl = st.img_ovl := rfl

@[simp] theorem countTimeout_image (st : State) :
    (countTimeout st).image = st.image := rfl

@[simp] theorem countTimeout_resTree (st : State) :
    (countTimeout st).resTree = st.resTree := rfl

@[simp] theorem countTimeout_irq_device (st : State) :
    (countTimeout st).irq_device = st.irq_device := rfl

@[simp] theorem countTimeout_mbx_device (st : State) :
    (countTimeout st).mbx_device = st.mbx_device := rfl

@[simp] theorem countTimeout_statistics (st : State) :
    (countTimeout st).statistics = { st.statistics with timeouts := st.statistics.timeouts + 1 } := rfl

@[simp] theorem countTimeout_regs (st : State) :
    (countTimeout st).regs = st.regs := rfl

@[simp] theorem countTimeout_vmeWrites (st : State) :
    (countTimeout st).vmeWrites = st.vmeWrites := rfl

@[simp] theorem freeIrqsOf_img_ovl (st : State) (minor : Nat) :
    (freeIrqsOf st minor).img_ovl = st.img_ovl := rfl

@[simp] theorem freeIrqsOf_image (st : State) (minor : Nat) :
    (freeIrqsOf st minor).image = st.image := rfl

@[simp] theorem freeIrqsOf_resTree (st : State) (minor : Nat) :
    (freeIrqsOf st minor).resTree = st.resTree := rfl

@[simp] theorem freeIrqsOf_irq_device (st : State) (minor : Nat) :
    (freeIrqsOf st minor).irq_device = (fun i j => if i < 7 ∧ j < 256 ∧ (st.irq_device i j).ok = minor + 1 then { st.irq_device i j with ok := 0 } else st.irq_device i j) := rfl

@[simp] theorem freeIrqsOf_mbx_device (st : State) (minor : Nat) :
    (freeIrqsOf st minor).mbx_device = st.mbx_device := rfl

@[simp] theorem freeIrqsOf_statistics (st : State) (minor : Nat) :
    (freeIrqsOf st minor).statistics = st.statistics := rfl

@[simp] theorem freeIrqsOf_regs (st : State) (minor : Nat) :
    (freeIrqsOf st minor).regs = st.regs := rfl

@[simp] theorem freeIrqsOf_vmeWrites (st : State) (minor : Nat) :
    (freeIrqsOf st minor).vmeWrites = st.vmeWrites := rfl

@[simp] theorem writel_dma (st : State) (v : Nat) (r : Reg) :
    (writel v r st).dma = st.dma := rfl

@[simp] theorem writel_cpLists (st : State) (v : Nat) (r : Reg) :
    (writel v r st).cpLists = st.cpLists := rfl

@[simp] theorem writel_packets (st : State) (v : Nat) (r : Reg) :
    (writel v r st).packets = st.packets := rfl

@[simp] theorem setImage_dma (st : State) (i : Nat) (f : image_desc_t → image_desc_t) :
    (setImage st i f).dma = st.dma := rfl

@[simp] theorem setImage_cpLists (st : State) (i : Nat) (f : image_desc_t → image_desc_t) :
    (setImage st i f).cpLists = st.cpLists := rfl

@[simp] theorem setImage_packets (st : State) (i : Nat) (f : image_desc_t → image_desc_t) :
    (setImage st i f).packets = st.packets := rfl

@[simp] theorem setIrq_dma (st : State) (l s : Nat) (f : irq_device_t → irq_device_t) :
    (setIrq st l s f).dma = st.dma := rfl

@[simp] theorem setIrq_cpLists (st : State) (l s : Nat) (f : irq_device_t → irq_device_t) :
    (setIrq st l s f).cpLists = st.cpLists := rfl

@[simp] theorem setIrq_packets (st : State) (l s : Nat) (f : irq_device_t → irq_device_t) :
    (setIrq st l s f).packets = st.packets := rfl

@[simp] theorem setMbx_dma (st : State) (n : Nat) (f : mbx_device_t → mbx_device_t) :
    (setMbx st n f).dma = st.dma := rfl

@[simp] theorem setMbx_cpLists (st : State) (n : Nat) (f : mbx_device_t → mbx_device_t) :
    (setMbx st n f).cpLists = st.cpLists := rfl

@[simp] theorem setMbx_packets (st : State) (n : Nat) (f : mbx_device_t → mbx_device_t) :
    (setMbx st n f).packets = st.packets := rfl

@[simp] theorem setResTree_dma (st : State) (i : Nat) (b : Bool) :
    (setResTree st i b).dma = st.dma := rfl

@[simp] theorem setResTree_cpLists (st : State) (i : Nat) (b : Bool) :
    (setResTree st i b).cpLists = st.cpLists := rfl

@[simp] theorem setResTree_packets (st : State) (i : Nat) (b : Bool) :
    (setResTree st i b).packets = st.packets := rfl

@[simp] theorem vmeWritel_dma (st : State) (v addr : Nat) :
    (vmeWritel v addr st).dma = st.dma := rfl

@[simp] theorem vmeWritel_cpLists (st : State) (v addr : Nat) :
    (vmeWritel v addr st).cpLists = st.cpLists := rfl

@[simp] theorem vmeWritel_packets (st : State) (v addr : Nat) :
    (vmeWritel v addr st).packets = st.packets := rfl

@[simp] theorem countIoctl_dma (st : State) :
    (countIoctl st).dma = st.dma := rfl

@[simp] theorem countIoctl_cpLists (st : State) :
    (countIoctl st).cpLists = st.cpLists := rfl

@[simp] theorem countIoctl_packets (st : State) :
    (countIoctl st).packets = st.packets := rfl

@[simp] theorem countTimeout_dma (st : State) :
    (countTimeout st).dma = st.dma := rfl

@[simp] theorem countTimeout_cpLists (st : State) :
    (countTimeout st).cpLists = st.cpLists := rfl

@[simp] theorem countTimeout_packets (st : State) :
    (countTimeout st).packets = st.packets := rfl

@[simp] theorem freeIrqsOf_dma (st : State) (minor : Nat) :
    (freeIrqsOf st minor).dma = st.dma := rfl

@[simp] theorem freeIrqsOf_cpLists (st : State) (minor : Nat) :
    (freeIrqsOf st minor).cpLists = st.cpLists := rfl

@[simp] theorem freeIrqsOf_packets (st : State) (minor : Nat) :
    (freeIrqsOf st minor).packets = st.packets := rfl

@[simp] theorem countRead_img_ovl (st : State) :
    (countRead st).img_ovl = st.img_ovl := rfl

@[simp] theorem countRead_image (st : State) :
    (countRead st).image = st.image := rfl

@[simp] theorem countRead_resTree (st : State) :
    (countRead st).resTree = st.resTree := rfl

@[simp] theorem countRead_irq_device (st : State) :
    (countRead st).irq_device = st.irq_device := rfl

@[simp] theorem countRead_mbx_device (st : State) :
    (countRead st).mbx_device = st.mbx_device := rfl

@[simp] theorem countRead_statistics (st : State) :
    (countRead st).statistics = { st.statistics with reads := st.statistics.reads + 1 } := rfl

@[simp] theorem countRead_regs (st : State) :
    (countRead st).regs = st.regs := rfl

@[simp] theorem countRead_vmeWrites (st : State) :
    (countRead st).vmeWrites = st.vmeWrites := rfl

@[simp] theorem countRead_dma (st : State) :
    (countRead st).dma = st.dma := rfl

@[simp] theorem countRead_cpLists (st : State) :
    (countRead st).cpLists = st.cpLists := rfl

@[simp] theorem countRead_packets (st : State) :
    (countRead st).packets = st.packets := rfl

@[simp] theorem countWrite_img_ovl (st : State) :
    (countWrite st).img_ovl = st.img_ovl := rfl

@[simp] theorem countWrite_image (st : State) :
    (countWrite st).image = st.image := rfl

@[simp] theorem countWrite_resTree (st : State) :
    (countWrite st).resTree = st.resTree := rfl

@[simp] theorem countWrite_irq_device (st : State) :
    (countWrite st).irq_device = st.irq_device := rfl

@[simp] theorem countWrite_mbx_device (st : State) :
    (countWrite st).mbx_device = st.mbx_device := rfl

@[simp] theorem countWrite_statistics (st : State) :
    (countWrite st).statistics = { st.statistics with writes := st.statistics.writes + 1 } := rfl

@[simp] theorem countWrite_regs (st : State) :
    (countWrite st).regs = st.regs := rfl

@[simp] theorem countWrite_vmeWrites (st : State) :
    (countWrite st).vmeWrites = st.vmeWrites := rfl

@[simp] theorem countWrite_dma (st : State) :
    (countWrite st).dma = st.dma := rfl

@[simp] theorem countWrite_cpLists (st : State) :
    (countWrite st).cpLists = st.cpLists := rfl

@[simp] theorem countWrite_packets (st : State) :
    (countWrite st).packets = st.packets := rfl

@[simp] theorem countDmaError_img_ovl (st : State) :
    (countDmaError st).img_ovl = st.img_ovl := rfl

@[simp] theorem countDmaError_image (st : State) :
    (countDmaError st).image = st.image := rfl

@[simp] theorem countDmaError_resTree (st : State) :
    (countDmaError st).resTree = st.resTree := rfl

@[simp] theorem countDmaError_irq_device (st : State) :
    (countDmaError st).irq_device = st.irq_device := rfl

@[simp] theorem countDmaError_mbx_device (st : State) :
    (countDmaError st).mbx_device = st.mbx_device := rfl

@[simp] theorem countDmaError_statistics (st : State) :
    (countDmaError st).statistics = { st.statistics with dmaErrors := st.statistics.dmaErrors + 1 } := rfl

@[simp] theorem countDmaError_regs (st : State) :
    (countDmaError st).regs = st.regs := rfl

@[simp] theorem countDmaError_vmeWrites (st : State) :
    (countDmaError st).vmeWrites = st.vmeWrites := rfl

@[simp] theorem countDmaError_dma (st : State) :
    (countDmaError st).dma = st.dma := rfl

@[simp] theorem countDmaError_cpLists (st : State) :
    (countDmaError st).cpLists = st.cpLists := rfl

@[simp] theorem countDmaError_packets (st : State) :
    (countDmaError st).packets = st.packets := rfl

@[simp] theorem setDma_img_ovl (st : State) (f : dma_vars → dma_vars) :
    (setDma st f).img_ovl = st.img_ovl := rfl

@[simp] theorem setDma_image (st : State) (f : dma_vars → dma_vars) :
    (setDma st f).image = st.image := rfl

@[simp] theorem setDma_resTree (st : State) (f : dma_vars → dma_vars) :
    (setDma st f).resTree = st.resTree := rfl

@[simp] theorem setDma_irq_device (st : State) (f : dma_vars → dma_vars) :
    (setDma st f).irq_device = st.irq_device := rfl

@[simp] theorem setDma_mbx_device (st : State) (f : dma_vars → dma_vars) :
    (setDma st f).mbx_device = st.mbx_device := rfl

@[simp] theorem setDma_statistics (st : State) (f : dma_vars → dma_vars) :
    (setDma st f).statistics = st.statistics := rfl

@[simp] theorem setDma_regs (st : State) (f : dma_vars → dma_vars) :
    (setDma st f).regs = st.regs := rfl

@[simp] theorem setDma_vmeWrites (st : State) (f : dma_vars → dma_vars) :
    (setDma st f).vmeWrites = st.vmeWrites := rfl

@[simp] theorem setDma_dma (st : State) (f : dma_vars → dma_vars) :
    (setDma st f).dma = f st.dma := rfl

@[simp] theorem setDma_cpLists (st : State) (f : dma_vars → dma_vars) :
    (setDma st f).cpLists = st.cpLists := rfl

@[simp] theorem setDma_packets (st : State) (f : dma_vars → dma_vars) :
    (setDma st f).packets = st.packets := rfl

@[simp] theorem setCpl_img_ovl (st : State) (i : Nat) (f : cpl → cpl) :
    (setCpl st i f).img_ovl = st.img_ovl := rfl

@[simp] theorem setCpl_image (st : State) (i : Nat) (f : cpl → cpl) :
    (setCpl st i f).image = st.image := rfl

@[simp] theorem setCpl_resTree (st : State) (i : Nat) (f : cpl → cpl) :
    (setCpl st i f).resTree = st.resTree := rfl

@[simp] theorem setCpl_irq_device (st : State) (i : Nat) (f : cpl → cpl) :
    (setCpl st i f).irq_device = st.irq_device := rfl

@[simp] theorem setCpl_mbx_device (st : State) (i : Nat) (f : cpl → cpl) :
    (setCpl st i f).mbx_device = st.mbx_device := rfl

@[simp] theorem setCpl_statistics (st : State) (i : Nat) (f : cpl → cpl) :
    (setCpl st i f).statistics = st.statistics := rfl

@[simp] theorem setCpl_regs (st : State) (i : Nat) (f : cpl → cpl) :
    (setCpl st i f).regs = st.regs := rfl

@[simp] theorem setCpl_vmeWrites (st : State) (i : Nat) (f : cpl → cpl) :
    (setCpl st i f).vmeWrites = st.vmeWrites := rfl

@[simp] theorem setCpl_dma (st : State) (i : Nat) (f : cpl → cpl) :
    (setCpl st i f).dma = st.dma := rfl

@[simp] theorem setCpl_cpLists (st : State) (i : Nat) (f : cpl → cpl) :
    (setCpl st i f).cpLists = (fun j => if j = i then f (st.cpLists i) else st.cpLists j) := rfl

@[simp] theorem setCpl_packets (st : State) (i : Nat) (f : cpl → cpl) :
    (setCpl st i f).packets = st.packets := rfl

@[simp] theorem setPacket_img_ovl (st : State) (p : Nat) (v : Option kcp) :
    (setPacket st p v).img_ovl = st.img_ovl := rfl

@[simp] theorem setPacket_image (st : State) (p : Nat) (v : Option kcp) :
    (setPacket st p v).image = st.image := rfl

@[simp] theorem setPacket_resTree (st : State) (p : Nat) (v : Option kcp) :
    (setPacket st p v).resTree = st.resTree := rfl

@[simp] theorem setPacket_irq_device (st : State) (p : Nat) (v : Option kcp) :
    (setPacket st p v).irq_device = st.irq_device := rfl

@[simp] theorem setPacket_mbx_device (st : State) (p : Nat) (v : Option kcp) :
    (setPacket st p v).mbx_device = st.mbx_device := rfl

@[simp] theorem setPacket_statistics (st : State) (p : Nat) (v : Option kcp) :
    (setPacket st p v).statistics = st.statistics := rfl

@[simp] theorem setPacket_regs (st : State) (p : Nat) (v : Option kcp) :
    (setPacket st p v).regs = st.regs := rfl

@[simp] theorem setPacket_vmeWrites (st : State) (p : Nat) (v : Option kcp) :
    (setPacket st p v).vmeWrites = st.vmeWrites := rfl

@[simp] theorem setPacket_dma (st : State) (p : Nat) (v : Option kcp) :
    (setPacket st p v).dma = st.dma := rfl

@[simp] theorem setPacket_cpLists (st : State) (p : Nat) (v : Option kcp) :
    (setPacket st p v).cpLists = st.cpLists := rfl

@[simp] theorem setPacket_packets (st : State) (p : Nat) (v : Option kcp) :
    (setPacket st p v).packets = (fun q => if q = p then v else st.packets q) := rfl

@[simp] theorem markProcessed_img_ovl (st : State) (processed : Nat → Bool) :
    (markProcessed st processed).img_ovl = st.img_ovl := rfl

@[simp] theorem markProcessed_image (st : State) (processed : Nat → Bool) :
    (markProcessed st processed).image = st.image := rfl

@[simp] theorem markProcessed_resTree (st : State) (processed : Nat → Bool) :
    (markProcessed st processed).resTree = st.resTree := rfl

@[simp] theorem markProcessed_irq_device (st : State) (processed : Nat → Bool) :
    (markProcessed st processed).irq_device = st.irq_device := rfl

@[simp] theorem markProcessed_mbx_device (st : State) (processed : Nat → Bool) :
    (markProcessed st processed).mbx_device = st.mbx_device := rfl

@[simp] theorem markProcessed_statistics (st : State) (processed : Nat → Bool) :
    (markProcessed st processed).statistics = st.statistics := rfl

@[simp] theorem markProcessed_regs (st : State) (processed : Nat → Bool) :
    (markProcessed st processed).regs = st.regs := rfl

@[simp] theorem markProcessed_vmeWrites (st : State) (processed : Nat → Bool) :
    (markProcessed st processed).vmeWrites = st.vmeWrites := rfl

@[simp] theorem markProcessed_dma (st : State) (processed : Nat → Bool) :
    (markProcessed st processed).dma = st.dma := rfl

@[simp] theorem markProcessed_cpLists (st : State) (processed : Nat → Bool) :
    (markProcessed st processed).cpLists = st.cpLists := rfl

@[simp] theorem freeAllIrqs_img_ovl (st : State) :
    (freeAllIrqs st).img_ovl = st.img_ovl := rfl

@[simp] theorem freeAllIrqs_image (st : State) :
    (freeAllIrqs st).image = st.image := rfl

@[simp] theorem freeAllIrqs_resTree (st : State) :
    (freeAllIrqs st).resTree = st.resTree := rfl

@[simp] theorem freeAllIrqs_irq_device (st : State) :
    (freeAllIrqs st).irq_device = (fun i j => if i < 7 ∧ j < 256 then { st.irq_device i j with ok := 0 } else st.irq_device i j) := rfl

@[simp] theorem freeAllIrqs_mbx_device (st : State) :
    (freeAllIrqs st).mbx_device = st.mbx_device := rfl

@[simp] theorem freeAllIrqs_statistics (st : State) :
    (freeAllIrqs st).statistics = st.statistics := rfl

@[simp] theorem freeAllIrqs_regs (st : State) :
    (freeAllIrqs st).regs = st.regs := rfl

@[simp] theorem freeAllIrqs_vmeWrites (st : State) :
    (freeAllIrqs st).vmeWrites = st.vmeWrites := rfl

@[simp] theorem freeAllIrqs_dma (st : State) :
    (freeAllIrqs st).dma = st.dma := rfl

@[simp] theorem freeAllIrqs_cpLists (st : State) :
    (freeAllIrqs st).cpLists = st.cpLists := rfl

@[simp] theorem freeAllIrqs_packets (st : State) :
    (freeAllIrqs st).packets = st.packets := rfl

@[simp] theorem clearStatistics_img_ovl (st : State) :
    (clearStatistics st).img_ovl = st.img_ovl := rfl

@[simp] theorem clearStatistics_image (st : State) :
    (clearStatistics st).image = st.image := rfl

@[simp] theorem clearStatistics_resTree (st : State) :
    (clearStatistics st).resTree = st.resTree := rfl

@[simp] theorem clearStatistics_irq_device (st : State) :
    (clearStatistics st).irq_device = st.irq_device := rfl

@[simp] theorem clearStatistics_mbx_device (st : State) :
    (clearStatistics st).mbx_device = st.mbx_device := rfl

@[simp] theorem clearStatistics_statistics (st : State) :
    (clearStatistics st).statistics = { reads := 0, writes := 0, ioctls := 0, irqs := 0, berrs := 0, dmaErrors := 0, timeouts := 0 } := rfl

@[simp] theorem clearStatistics_regs (st : State) :
    (clearStatistics st).regs = st.regs := rfl

@[simp] theorem clearStatistics_vmeWrites (st : State) :
    (clearStatistics st).vmeWrites = st.vmeWrites := rfl

@[simp] theorem clearStatistics_dma (st : State) :
    (clearStatistics st).dma = st.dma := rfl

@[simp] theorem clearStatistics_cpLists (st : State) :
    (clearStatistics st).cpLists = st.cpLists := rfl

@[simp] theorem clearStatistics_packets (st : State) :
    (clearStatistics st).packets = st.packets := rfl

@[simp] theorem writel_vmeBerrList (st : State) (v : Nat) (r : Reg) :
    (writel v r st).vmeBerrList = st.vmeBerrList := rfl

@[simp] theorem setImage_vmeBerrList (st : State) (i : Nat) (f : image_desc_t → image_desc_t) :
    (setImage st i f).vmeBerrList = st.vmeBerrList := rfl

@[simp] theorem setIrq_vmeBerrList (st : State) (l s : Nat) (f : irq_device_t → irq_device_t) :
    (setIrq st l s f).vmeBerrList = st.vmeBerrList := rfl

@[simp] theorem setMbx_vmeBerrList (st : State) (n : Nat) (f : mbx_device_t → mbx_device_t) :
    (setMbx st n f).vmeBerrList = st.vmeBerrList := rfl

@[simp] theorem setResTree_vmeBerrList (st : State) (i : Nat) (b : Bool) :
    (setResTree st i b).vmeBerrList = st.vmeBerrList := rfl

@[simp] theorem vmeWritel_vmeBerrList (st : State) (v addr : Nat) :
    (vmeWritel v addr st).vmeBerrList = st.vmeBerrList := rfl

@[simp] theorem countIoctl_vmeBerrList (st : State) :
    (countIoctl st).vmeBerrList = st.vmeBerrList := rfl

@[simp] theorem countTimeout_vmeBerrList (st : State) :
    (countTimeout st).vmeBerrList = st.vmeBerrList := rfl

@[simp] theorem freeIrqsOf_vmeBerrList (st : State) (minor : Nat) :
    (freeIrqsOf st minor).vmeBerrList = st.vmeBerrList := rfl

@[simp] theorem countRead_vmeBerrList (st : State) :
    (countRead st).vmeBerrList = st.vmeBerrList := rfl

@[simp] theorem countWrite_vmeBerrList (st : State) :
    (countWrite st).vmeBerrList = st.vmeBerrList := rfl

@[simp] theorem countDmaError_vmeBerrList (st : State) :
    (countDmaError st).vmeBerrList = st.vmeBerrList := rfl

@[simp] theorem setDma_vmeBerrList (st : State) (f : dma_vars → dma_vars) :
    (setDma st f).vmeBerrList = st.vmeBerrList := rfl

@[simp] theorem setCpl_vmeBerrList (st : State) (i : Nat) (f : cpl → cpl) :
    (setCpl st i f).vmeBerrList = st.vmeBerrList := rfl

@[simp] theorem setPacket_vmeBerrList (st : State) (p : Nat) (v : Option kcp) :
    (setPacket st p v).vmeBerrList = st.vmeBerrList := rfl

@[simp] theorem markProcessed_vmeBerrList (st : State) (processed : Nat → Bool) :
    (markProcessed st processed).vmeBerrList = st.vmeBerrList := rfl

@[simp] theorem freeAllIrqs_vmeBerrList (st : State) :
    (freeAllIrqs st).vmeBerrList = st.vmeBerrList := rfl

@[simp] theorem clearStatistics_vmeBerrList (st : State) :
    (clearStatistics st).vmeBerrList = st.vmeBerrList := rfl

@[simp] theorem setBerr_img_ovl (st : State) (i : Nat) (f : vme_Berr_t → vme_Berr_t) :
    (setBerr st i f).img_ovl = st.img_ovl := rfl

@[simp] theorem setBerr_image (st : State) (i : Nat) (f : vme_Berr_t → vme_Berr_t) :
    (setBerr st i f).image = st.image := rfl

@[simp] theorem setBerr_resTree (st : State) (i : Nat) (f : vme_Berr_t → vme_Berr_t) :
    (setBerr st i f).resTree = st.resTree := rfl

@[simp] theorem setBerr_irq_device (st : State) (i : Nat) (f : vme_Berr_t → vme_Berr_t) :
    (setBerr st i f).irq_device = st.irq_device := rfl

@[simp] theorem setBerr_mbx_device (st : State) (i : Nat) (f : vme_Berr_t → vme_Berr_t) :
    (setBerr st i f).mbx_device = st.mbx_device := rfl

@[simp] theorem setBerr_statistics (st : State) (i : Nat) (f : vme_Berr_t → vme_Berr_t) :
    (setBerr st i f).statistics = st.statistics := rfl

@[simp] theorem setBerr_regs (st : State) (i : Nat) (f : vme_Berr_t → vme_Berr_t) :
    (setBerr st i f).regs = st.regs := rfl

@[simp] theorem setBerr_vmeWrites (st : State) (i : Nat) (f : vme_Berr_t → vme_Berr_t) :
    (setBerr st i f).vmeWrites = st.vmeWrites := rfl

@[simp] theorem setBerr_dma (st : State) (i : Nat) (f : vme_Berr_t → vme_Berr_t) :
    (setBerr st i f).dma = st.dma := rfl

@[simp] theorem setBerr_cpLists (st : State) (i : Nat) (f : vme_Berr_t → vme_Berr_t) :
    (setBerr st i f).cpLists = st.cpLists := rfl

@[simp] theorem setBerr_packets (st : State) (i : Nat) (f : vme_Berr_t → vme_Berr_t) :
    (setBerr st i f).packets = st.packets := rfl

@[simp] theorem setBerr_vmeBerrList (st : State) (i : Nat) (f : vme_Berr_t → vme_Berr_t) :
    (setBerr st i f).vmeBerrList = (fun j => if j = i then f (st.vmeBerrList i) else st.vmeBerrList j) := rfl

@[simp] theorem countIrq_img_ovl (st : State) :
    (countIrq st).img_ovl = st.img_ovl := rfl

@[simp] theorem countIrq_image (st : State) :
    (countIrq st).image = st.image := rfl

@[simp] theorem countIrq_resTree (st : State) :
    (countIrq st).resTree = st.resTree := rfl

@[simp] theorem countIrq_irq_device (st : State) :
    (countIrq st).irq_device = st.irq_device := rfl

@[simp] theorem countIrq_mbx_device (st : State) :
    (countIrq st).mbx_device = st.mbx_device := rfl

@[simp] theorem countIrq_statistics (st : State) :
    (countIrq st).statistics = { st.statistics with irqs := st.statistics.irqs + 1 } := rfl

@[simp] theorem countIrq_regs (st : State) :
    (countIrq st).regs = st.regs := rfl

@[simp] theorem countIrq_vmeWrites (st : State) :
    (countIrq st).vmeWrites = st.vmeWrites := rfl

@[simp] theorem countIrq_dma (st : State) :
    (countIrq st).dma = st.dma := rfl

@[simp] theorem countIrq_cpLists (st : State) :
    (countIrq st).cpLists = st.cpLists := rfl

@[simp] theorem countIrq_packets (st : State) :
    (countIrq st).packets = st.packets := rfl

@[simp] theorem countIrq_vmeBerrList (st : State) :
    (countIrq st).vmeBerrList = st.vmeBerrList := rfl

@[simp] theorem countBerr_img_ovl (st : State) :
    (countBerr st).img_ovl = st.img_ovl := rfl

@[simp] theorem countBerr_image (st : State) :
    (countBerr st).image = st.image := rfl

@[simp] theorem countBerr_resTree (st : State) :
    (countBerr st).resTree = st.resTree := rfl

@[simp] theorem countBerr_irq_device (st : State) :
    (countBerr st).irq_device = st.irq_device := rfl

@[simp] theorem countBerr_mbx_device (st : State) :
    (countBerr st).mbx_device = st.mbx_device := rfl

@[simp] theorem countBerr_statistics (st : State) :
    (countBerr st).statistics = { st.statistics with berrs := st.statistics.berrs + 1 } := rfl

@[simp] theorem countBerr_regs (st : State) :
    (countBerr st).regs = st.regs := rfl

@[simp] theorem countBerr_vmeWrites (st : State) :
    (countBerr st).vmeWrites = st.vmeWrites := rfl

@[simp] theorem countBerr_dma (st : State) :
    (countBerr st).dma = st.dma := rfl

@[simp] theorem countBerr_cpLists (st : State) :
    (countBerr st).cpLists = st.cpLists := rfl

@[simp] theorem countBerr_packets (st : State) :
    (countBerr st).packets = st.packets := rfl

@[simp] theorem countBerr_vmeBerrList (st : State) :
    (countBerr st).vmeBerrList = st.vmeBerrList := rfl

@[simp] theorem setRegs_img_ovl (st : State) (hw : Reg → Nat) :
    (setRegs st hw).img_ovl = st.img_ovl := rfl

@[simp] theorem setRegs_image (st : State) (hw : Reg → Nat) :
    (setRegs st hw).image = st.image := rfl

@[simp] theorem setRegs_resTree (st : State) (hw : Reg → Nat) :
    (setRegs st hw).resTree = st.resTree := rfl

@[simp] theorem setRegs_irq_device (st : State) (hw : Reg → Nat) :
    (setRegs st hw).irq_device = st.irq_device := rfl

@[simp] theorem setRegs_mbx_device (st : State) (hw : Reg → Nat) :
    (setRegs st hw).mbx_device = st.mbx_device := rfl

@[simp] theorem setRegs_statistics (st : State) (hw : Reg → Nat) :
    (setRegs st hw).statistics = st.statistics := rfl

@[simp] theorem setRegs_regs (st : State) (hw : Reg → Nat) :
    (setRegs st hw).regs = hw := rfl

@[simp] theorem setRegs_vmeWrites (st : State) (hw : Reg → Nat) :
    (setRegs st hw).vmeWrites = st.vmeWrites := rfl

@[simp] theorem setRegs_dma (st : State) (hw : Reg → Nat) :
    (setRegs st hw).dma = st.dma := rfl

@[simp] theorem setRegs_cpLists (st : State) (hw : Reg → Nat) :
    (setRegs st hw).cpLists = st.cpLists := rfl

@[simp] theorem setRegs_packets (st : State) (hw : Reg → Nat) :
    (setRegs st hw).packets = st.packets := rfl

@[simp] theorem setRegs_vmeBerrList (st : State) (hw : Reg → Nat) :
    (setRegs st hw).vmeBerrList = st.vmeBerrList := rfl

/-! ## The register tables -/

theorem aBS_ne_aBD (m : Nat) (h : m ≤ 17) (h8 : m ≠ 8) (h9 : m ≠ 9) : aBS m ≠ aBD m := by
  interval_cases m <;> simp_all [aBS, aBD]

theorem aBS_ne_aTO (m : Nat) (h : m ≤ 17) (h8 : m ≠ 8) (h9 : m ≠ 9) : aBS m ≠ aTO m := by
  interval_cases m <;> simp_all [aBS, aTO]

theorem aBD_ne_aTO (m : Nat) (h : m ≤ 17) (h8 : m ≠ 8) (h9 : m ≠ 9) : aBD m ≠ aTO m := by
  interval_cases m <;> simp_all [aBD, aTO]

/-! ## C1: the overlap check -/

/-- The overlap loop reports nothing when no slot it visits, other than the
caller's, has `opened = 2`. -/
theorem overlapScan_none_of_visited (st : State) (minor : Nat) (iRegs : image_regs_t) :
    ∀ n i, (∀ j, i ≤ j → j < i + n → j ≠ minor → (st.image j).opened ≠ 2) →
      overlapScan st minor iRegs n i = none := by
  intro n
  induction n with
  | zero => intro i _; rfl
  | succ n ih =>
    intro i h
    unfold overlapScan
    have hrec := ih (i + 1) (fun j h1 h2 hj => h j (by omega) (by omega) hj)
    by_cases hi : i = minor
    · subst hi
      simp [hrec]
    · have := h i (le_refl i) (by omega) hi
      simp [this, hrec]

/-- Whatever the registers hold, `IOCTL_SET_IMAGE` does not return the
overlap error `-6` when every other master slot is free, acquired or
Configured (`opened ≠ 2`): Configured images are never compared with the
request. -/
theorem set_image_no_overlap_error (st : State) (minor : Nat) (arg : Option image_regs_t)
    (alloc : Option Nat) (remap : Nat)
    (h : ∀ j, j < 8 → j ≠ minor → (st.image j).opened ≠ 2) :
    (universeII_ioctl st minor (Cmd.SET_IMAGE arg alloc remap)).1 ≠ -6 := by
  cases arg with
  | none => simp [universeII_ioctl, IOCTL_SET_IMAGE]
  | some iRegs =>
    simp only [universeII_ioctl]
    unfold IOCTL_SET_IMAGE
    by_cases hms : iRegs.ms < 0 ∨ iRegs.ms > 1
    · simp [hms]
    simp only [if_neg hms]
    by_cases hop : ((countIoctl st).image minor).opened ≠ 2
    · simp only [if_pos hop]
      simp
    simp only [if_neg hop]
    rcases hw : setImageWindow (countIoctl st) minor iRegs alloc with r | ⟨st1, pciBase⟩
    · simp only
      unfold setImageWindow at hw
      split_ifs at hw
      · cases alloc <;> simp at hw
        subst hw
        simp
      all_goals (simp at hw; subst hw; simp)
    · simp only
      have h1 : ∀ j, j ≠ minor → st1.image j = st.image j := by
        intro j hj
        unfold setImageWindow at hw
        split_ifs at hw
        · cases alloc <;> simp at hw
          obtain ⟨e1, -⟩ := hw
          subst e1
          simp [hj]
        · simp at hw
          obtain ⟨e1, -⟩ := hw
          subst e1
          simp
      have hnone : overlapScan st1 minor iRegs MAX_IMAGE 0 = none := by
        apply overlapScan_none_of_visited
        intro j _ hj hne
        rw [h1 j hne]
        exact h j (by unfold MAX_IMAGE at hj; omega) hne
      simp only [hnone, Option.isSome_none, Bool.false_eq_true, and_false, if_false]
      split_ifs <;> simp

/-- C1, the code at the failing input.  Overlap checking is enabled
(`img_ovl = 0`), image A on minor 0 is Configured (`opened = 3`) with the VME
range `[0x1000, 0x2000)`, image B on minor 1 is Reserved; configuring B as
`[0x1800, 0x2800)` returns `0` and marks B Configured. -/
theorem overlap_with_configured_image_accepted :
    exampleBReserved.img_ovl = 0 ∧
    (exampleBReserved.image 0).opened = 3 ∧
    add32 (readl exampleBReserved (aBS 0)) (readl exampleBReserved (aTO 0)) = 0x1000 ∧
    add32 (readl exampleBReserved (aBD 0)) (readl exampleBReserved (aTO 0)) = 0x2000 ∧
    (exampleBReserved.image 1).opened = 2 ∧
    (universeII_ioctl exampleBReserved 1
        (Cmd.SET_IMAGE (some imageB) (some 0x80010000) 0xD0010000)).1 = 0 ∧
    ((universeII_ioctl exampleBReserved 1
        (Cmd.SET_IMAGE (some imageB) (some 0x80010000) 0xD0010000)).2.image 1).opened = 3 := by
  decide

/-! ## C2: window size and translation of a configured master image -/

/-- C2.  A successful master configure (`IOCTL_SET_IMAGE` with `ms = 0`) on
an image minor, with requested VME base `b`, size `s` and allocated PCI base
`p`: the registers hold `BS = p`, `BD = p + s`, `TO = b - p` (all modulo
`2^32`), the descriptor records `phys_start = BS`, `phys_end = BD` and the
size `s`, so `BS + TO = b`, `BD + TO = b + s`, and every PCI address `p + k`
with `k < s` translates to the VME address `b + k`. -/
theorem configure_master_translation (st : State) (minor b s p remap : Nat)
    (hm : minor ≤ 17) (h8 : minor ≠ 8) (h9 : minor ≠ 9)
    (h : (universeII_ioctl st minor
        (Cmd.SET_IMAGE (some { ms := 0, base := b, size := s }) (some p) remap)).1 = 0) :
    let st' := (universeII_ioctl st minor
        (Cmd.SET_IMAGE (some { ms := 0, base := b, size := s }) (some p) remap)).2
    readl st' (aBS minor) = u32 p ∧ readl st' (aBD minor) = add32 p s ∧
    readl st' (aTO minor) = sub32 b p ∧
    (st'.image minor).phys_start = u32 p ∧ (st'.image minor).phys_end = add32 p s ∧
    (st'.image minor).size = u32 s ∧
    sub32 (st'.image minor).phys_end (st'.image minor).phys_start = u32 s ∧
    add32 (readl st' (aBS minor)) (readl st' (aTO minor)) = u32 b ∧
    add32 (readl st' (aBD minor)) (readl st' (aTO minor)) = add32 b s ∧
    ∀ k, k < s → add32 (p + k) (readl st' (aTO minor)) = add32 b k := by
  have e1 := aBS_ne_aBD minor hm h8 h9
  have e2 := aBS_ne_aTO minor hm h8 h9
  have e3 := aBD_ne_aTO minor hm h8 h9
  intro st'
  have hst : st' = (universeII_ioctl st minor
        (Cmd.SET_IMAGE (some { ms := 0, base := b, size := s }) (some p) remap)).2 := rfl
  clear_value st'
  simp only [universeII_ioctl, IOCTL_SET_IMAGE, setImageWindow, setImageRegs, releaseMaster]
    at h hst
  simp at h hst
  split_ifs at h hst
  all_goals try (simp at h; done)
  subst hst
  simp [e1, e2, e3, e1.symm, e2.symm, e3.symm, u32, add32, sub32, neg32]
  refine ⟨?_, ?_, ?_, ?_, ?_⟩
  all_goals omega

/-- Instance of C2: image A on minor 0 with PCI base `0x80000000`; the PCI
address `0x80000010` reaches the VME address `0x1010`. -/
theorem configure_master_translation_witness :
    (universeII_ioctl exampleAReserved 0
        (Cmd.SET_IMAGE (some { ms := 0, base := 0x1000, size := 0x1000 })
          (some 0x80000000) 0xD0000000)).1 = 0 ∧
    add32 (0x80000000 + 0x10) (readl (universeII_ioctl exampleAReserved 0
        (Cmd.SET_IMAGE (some { ms := 0, base := 0x1000, size := 0x1000 })
          (some 0x80000000) 0xD0000000)).2 (aTO 0)) = add32 0x1000 0x10 :=
  ⟨by decide,
   (configure_master_translation exampleAReserved 0 0x1000 0x1000 0x80000000 0xD0000000
      (by decide) (by decide) (by decide) (by decide)).2.2.2.2.2.2.2.2.2 0x10 (by decide)⟩


/-! ## C3: the translation offset -/

/-- C3, counterexample.  Image A (VME base `0x1000`) is configured as a
master image with the PCI base `0x80000000`: the call succeeds and the
translation offset is `0x80001000`, not `0x80000000 - 0x1000`. -/
theorem master_offset_not_local_minus_vme :
    (universeII_ioctl exampleAReserved 0
        (Cmd.SET_IMAGE (some imageA) (some 0x80000000) 0xD0000000)).1 = 0 ∧
    readl (universeII_ioctl exampleAReserved 0
        (Cmd.SET_IMAGE (some imageA) (some 0x80000000) 0xD0000000)).2 (aTO 0) = 0x80001000 ∧
    readl (universeII_ioctl exampleAReserved 0
        (Cmd.SET_IMAGE (some imageA) (some 0x80000000) 0xD0000000)).2 (aTO 0)
      ≠ sub32 0x80000000 imageA.base := by
  decide

/-- What a successful `IOCTL_SET_IMAGE` has done: the window block delivered
a state `st1` and `pciBase`, the overlap check found nothing, and the result
is the register programming on
`st1` followed by the descriptor updates. -/
theorem set_image_success (st : State) (minor : Nat) (iRegs : image_regs_t)
    (alloc : Option Nat) (remap : Nat)
    (h : (IOCTL_SET_IMAGE st minor (some iRegs) alloc remap).1 = 0) :
    (iRegs.ms = 0 ∨ iRegs.ms = 1) ∧ (st.image minor).opened = 2 ∧ remap ≠ 0 ∧
    ∃ st1 pciBase, setImageWindow st minor iRegs alloc = Sum.inr (st1, pciBase) ∧
      ¬ (st1.img_ovl = 0 ∧ (overlapScan st1 minor iRegs MAX_IMAGE 0).isSome) ∧
      (IOCTL_SET_IMAGE st minor (some iRegs) alloc remap).2 =
        setImage (setImage (setImage (setImageRegs st1 minor iRegs pciBase) minor
          fun d => { d with okToWrite := 1, opened := 3 }) minor
          fun d => { d with
            phys_start := readl (setImageRegs st1 minor iRegs pciBase) (aBS minor),
            phys_end := readl (setImageRegs st1 minor iRegs pciBase) (aBD minor),
            size := sub32 (readl (setImageRegs st1 minor iRegs pciBase) (aBD minor))
                      (readl (setImageRegs st1 minor iRegs pciBase) (aBS minor)) }) minor
          fun d => { d with vBase := remap } := by
  unfold IOCTL_SET_IMAGE at h ⊢
  by_cases hms : iRegs.ms < 0 ∨ iRegs.ms > 1
  · simp [hms] at h
  by_cases hop : (st.image minor).opened = 2
  swap
  · simp [hms, hop] at h
  rcases hw : setImageWindow st minor iRegs alloc with r | ⟨st1, pciBase⟩
  · simp only [hms, hop, hw] at h
    unfold setImageWindow at hw
    split_ifs at hw
    · cases alloc <;> simp at hw
      subst hw
      simp at h
    all_goals (simp at hw; subst hw; simp at h)
  · simp only [hms, hop, hw] at h ⊢
    by_cases hov : st1.img_ovl = 0 ∧ (overlapScan st1 minor iRegs MAX_IMAGE 0).isSome
    · simp [hov] at h
    by_cases hr : remap = 0
    · simp [hov, hr] at h
    refine ⟨by omega, by simp, hr, st1, pciBase, rfl, hov, ?_⟩
    simp [hov, hr]

/-- C3, amended.  A successful configure of a master image (`ms = 0`) leaves
in the translation-offset register of the image the requested VME base minus
the allocated PCI base, modulo `2^32`: the allocation has delivered a range
starting at some `p`, and the register holds `base - p`. -/
theorem configure_offset_register (st : State) (minor : Nat) (iRegs : image_regs_t)
    (alloc : Option Nat) (remap : Nat) (h0 : iRegs.ms = 0)
    (h : (universeII_ioctl st minor (Cmd.SET_IMAGE (some iRegs) alloc remap)).1 = 0) :
    ∃ p, alloc = some p ∧
      readl (universeII_ioctl st minor (Cmd.SET_IMAGE (some iRegs) alloc remap)).2 (aTO minor)
        = sub32 iRegs.base p ∧
      readl (universeII_ioctl st minor (Cmd.SET_IMAGE (some iRegs) alloc remap)).2 (aTO minor)
        = (u32 iRegs.base + 2 ^ 32 - u32 p) % 2 ^ 32 := by
  have hs := set_image_success (countIoctl st) minor iRegs alloc remap h
  obtain ⟨hms, -, -, st1, pciBase, hw, -, hst⟩ := hs
  simp only [universeII_ioctl]
  rw [hst]
  unfold setImageWindow at hw
  cases alloc with
  | none => simp [h0] at hw
  | some p =>
    simp [h0] at hw
    obtain ⟨h1, h2⟩ := hw
    subst h1 h2
    refine ⟨p, rfl, ?_, ?_⟩
    · simp [setImageRegs, h0, sub32, add32, neg32, u32]
      omega
    · simp [setImageRegs, h0, sub32, add32, neg32, u32]
      omega

/-- Instance of the amended C3: image A on minor 0 with VME base `0x1000` and
the PCI range at `0x80000000`; the offset register holds
`0x1000 - 0x80000000` modulo `2^32`, that is `0x80001000`. -/
theorem configure_offset_register_witness :
    (universeII_ioctl exampleAReserved 0
        (Cmd.SET_IMAGE (some imageA) (some 0x80000000) 0xD0000000)).1 = 0 ∧
    readl (universeII_ioctl exampleAReserved 0
        (Cmd.SET_IMAGE (some imageA) (some 0x80000000) 0xD0000000)).2 (aTO 0)
        = sub32 0x1000 0x80000000 ∧
    sub32 0x1000 0x80000000 = 0x80001000 :=
  ⟨by decide,
   by
    obtain ⟨p, hp, h1, _⟩ := configure_offset_register exampleAReserved 0 imageA
      (some 0x80000000) 0xD0000000 (by decide) (by decide)
    cases hp
    exact h1,
   by decide⟩

/-- The slave path of C3 on the code.  `universeII_probe` stores the bus
address of the coherent buffer of slot 10 in `image[10].buffer`
(`0x2140000` here) and `universeII_open` overwrites it with `0`; the
configure that follows programs the offset `0 - 0x1000`. -/
theorem slave_offset_after_open :
    (exampleBoot.image 10).buffer = 0x2140000 ∧
    (exampleSlaveReserved.image 10).slaveBuf ≠ 0 ∧
    (exampleSlaveReserved.image 10).buffer = 0 ∧
    (universeII_ioctl exampleSlaveReserved 10
        (Cmd.SET_IMAGE (some { ms := 1, base := 0x1000, size := 0x1000 }) none 0xD0000000)).1 = 0 ∧
    readl (universeII_ioctl exampleSlaveReserved 10
        (Cmd.SET_IMAGE (some { ms := 1, base := 0x1000, size := 0x1000 }) none 0xD0000000)).2
        (aTO 10) = 0xFFFFF000 := by
  decide

/-! ## C4: acquire and release of all slots of a kind -/

/-- The search loop stops at the first free slot `k`. -/
theorem getImageScan_free (st : State) (off k : Nat) (hk : k < 8)
    (hfree : (st.image (k + off)).opened = 0) :
    ∀ fuel i, i ≤ k → k - i < fuel →
      (∀ j, i ≤ j → j < k → (st.image (j + off)).opened ≠ 0) →
      getImageScan st off fuel i = k := by
  intro fuel
  induction fuel with
  | zero => intro i _ h; omega
  | succ n ih =>
    intro i hik hfuel hocc
    unfold getImageScan
    by_cases hi : i = k
    · subst hi
      simp [hfree]
    · have h1 : (st.image (i + off)).opened ≠ 0 := hocc i (le_refl i) (by omega)
      have h2 : i < MAX_IMAGE := by unfold MAX_IMAGE; omega
      simp only [h1, h2, ne_eq, not_false_eq_true, and_self, if_true]
      exact ih (i + 1) (by omega) (by omega) (fun j hj hjk => hocc j (by omega) hjk)

/-- The search loop ends with `i = MAX_IMAGE` when all eight slots are
occupied. -/
theorem getImageScan_busy (st : State) (off : Nat) :
    ∀ fuel i, i ≤ 8 → 8 - i < fuel →
      (∀ j, i ≤ j → j < 8 → (st.image (j + off)).opened ≠ 0) →
      getImageScan st off fuel i = 8 := by
  intro fuel
  induction fuel with
  | zero => intro i _ h; omega
  | succ n ih =>
    intro i hi hfuel hocc
    unfold getImageScan
    by_cases h8 : i = 8
    · subst h8
      simp [MAX_IMAGE]
    · have h1 : (st.image (i + off)).opened ≠ 0 := hocc i (le_refl i) (by omega)
      have h2 : i < MAX_IMAGE := by unfold MAX_IMAGE; omega
      simp only [h1, h2, ne_eq, not_false_eq_true, and_self, if_true]
      exact ih (i + 1) (by omega) (by omega) (fun j hj hjk => hocc j (by omega) hjk)

/-- More fuel than `MAX_IMAGE + 1` does not change the result of the search
loop: the fuel given in `IOCTL_GET_IMAGE` is never used up. -/
theorem getImageScan_fuel (st : State) (off : Nat) :
    ∀ fuel i, i ≤ 8 → 8 - i < fuel →
      getImageScan st off fuel i = getImageScan st off (9 - i) i := by
  intro fuel
  induction fuel with
  | zero => intro i _ h; omega
  | succ n ih =>
    intro i hi hfuel
    have e : 9 - i = (8 - i) + 1 := by omega
    rw [e]
    unfold getImageScan
    by_cases hc : (st.image (i + off)).opened ≠ 0 ∧ i < MAX_IMAGE
    · have h2 : i < 8 := hc.2
      rw [if_pos hc, if_pos hc, ih (i + 1) (by omega) (by omega)]
      have e2 : 9 - (i + 1) = 8 - i := by omega
      rw [e2]
    · rw [if_neg hc, if_neg hc]

/-- A request that finds slots `0 … k-1` of the kind occupied and slot `k`
free reserves slot `k`. -/
theorem get_image_free (st : State) (arg k : Nat) (harg : arg ≤ 1) (hk : k < 8)
    (hocc : ∀ j, j < k → (st.image (j + 10 * arg)).opened ≠ 0)
    (hfree : (st.image (k + 10 * arg)).opened = 0) :
    IOCTL_GET_IMAGE st arg =
      (((k + 10 * arg : Nat) : Int),
        setImage st (k + 10 * arg) fun d => { d with opened := 1 }) := by
  have hoff : (if arg ≠ 0 then 10 else 0) = 10 * arg := by
    interval_cases arg <;> simp
  have hscan := getImageScan_free st (10 * arg) k hk hfree 9 0 (by omega) (by omega)
    (fun j _ hj => hocc j hj)
  unfold IOCTL_GET_IMAGE
  simp only [hoff, MAX_IMAGE, hscan]
  have h1 : ¬ arg > 1 := by omega
  have h2 : ¬ k ≥ 8 := by omega
  simp only [h1, h2, if_false]

/-- A request that finds all eight slots of the kind occupied fails with
`-2` and changes nothing. -/
theorem get_image_busy (st : State) (arg : Nat) (harg : arg ≤ 1)
    (hocc : ∀ j, j < 8 → (st.image (j + 10 * arg)).opened ≠ 0) :
    IOCTL_GET_IMAGE st arg = (-2, st) := by
  have hoff : (if arg ≠ 0 then 10 else 0) = 10 * arg := by
    interval_cases arg <;> simp
  have hscan := getImageScan_busy st (10 * arg) 9 0 (by omega) (by omega)
    (fun j _ hj => hocc j hj)
  unfold IOCTL_GET_IMAGE
  simp only [hoff, MAX_IMAGE, hscan]
  have h1 : ¬ arg > 1 := by omega
  simp [h1]


/-- The image table after `k ≤ 8` acquires from a state with the eight slots
of the kind free: slots `0 … k-1` of the kind are Reserved, every other
descriptor is as before. -/
theorem acquireState_image (st : State) (c arg : Nat) (harg : arg ≤ 1)
    (hfree : ∀ i, i < 8 → (st.image (i + 10 * arg)).opened = 0) :
    ∀ k, k ≤ 8 → ∀ j, (acquireState st c arg k).image j =
      if 10 * arg ≤ j ∧ j < 10 * arg + k then { st.image j with opened := 1 }
      else st.image j := by
  intro k
  induction k with
  | zero =>
    intro _ j
    have : ¬ (10 * arg ≤ j ∧ j < 10 * arg + 0) := by omega
    simp only [acquireState, this, if_false]
  | succ k ih =>
    intro hk j
    have ihk := ih (by omega)
    have hstep := get_image_free (countIoctl (acquireState st c arg k)) arg k harg (by omega)
      (by
        intro i hi
        simp only [countIoctl_image]
        rw [ihk (i + 10 * arg)]
        have : 10 * arg ≤ i + 10 * arg ∧ i + 10 * arg < 10 * arg + k := by omega
        simp [this])
      (by
        simp only [countIoctl_image]
        rw [ihk (k + 10 * arg)]
        have : ¬ (10 * arg ≤ k + 10 * arg ∧ k + 10 * arg < 10 * arg + k) := by omega
        simp only [this, if_false]
        exact hfree k (by omega))
    simp only [acquireState, universeII_ioctl, hstep, setImage_image, countIoctl_image]
    by_cases hj : j = k + 10 * arg
    · subst hj
      have h1 : 10 * arg ≤ k + 10 * arg ∧ k + 10 * arg < 10 * arg + (k + 1) := by omega
      have h2 : ¬ (10 * arg ≤ k + 10 * arg ∧ k + 10 * arg < 10 * arg + k) := by omega
      simp only [h1, if_true, and_self]
      rw [ihk (k + 10 * arg)]
      simp only [h2, if_false]
    · rw [if_neg hj, ihk j]
      by_cases hin : 10 * arg ≤ j ∧ j < 10 * arg + k
      · have h1 : 10 * arg ≤ j ∧ j < 10 * arg + (k + 1) := by omega
        simp only [hin, h1, and_self, if_true]
      · have h1 : ¬ (10 * arg ≤ j ∧ j < 10 * arg + (k + 1)) := by omega
        simp only [hin, h1, if_false]

/-- Opening and closing the Reserved image `m` sets it free and leaves the
other descriptors alone. -/
theorem open_close_image (st : State) (m : Nat) (hm : m ≤ 17) (h8 : m ≠ 8) (h9 : m ≠ 9)
    (hop : (st.image m).opened = 1) :
    (universeII_open st m).1 = 0 ∧
    ((universeII_release (universeII_open st m).2 m).2.image m).opened = 0 ∧
    ∀ j, j ≠ m → (universeII_release (universeII_open st m).2 m).2.image j = st.image j := by
  have e1 : ¬ m > MAX_MINOR := by unfold MAX_MINOR; omega
  have e2 : ¬ (m = CONTROL_MINOR ∨ m = DMA_MINOR) := by
    unfold CONTROL_MINOR DMA_MINOR; omega
  have hopen : universeII_open st m =
      (0, setImage st m fun d => { d with opened := 2, buffer := 0 }) := by
    unfold universeII_open
    simp [e1, e2, hop]
  rw [hopen]
  refine ⟨rfl, ?_, ?_⟩
  · simp only [universeII_release, releaseUnmap, releaseMaster]
    split_ifs <;> simp
  · intro j hj
    simp only [universeII_release, releaseUnmap, releaseMaster]
    split_ifs <;> simp [hj]

/-- The `opened` fields while the eight Reserved images of a kind are opened
and closed one after the other. -/
theorem openCloseState_opened (st : State) (arg : Nat) (harg : arg ≤ 1)
    (hres : ∀ i, i < 8 → (st.image (10 * arg + i)).opened = 1) :
    ∀ k, k ≤ 8 → ∀ i, i < 8 →
      ((openCloseState st (10 * arg) k).image (10 * arg + i)).opened = if i < k then 0 else 1 := by
  intro k
  induction k with
  | zero => intro _ i hi; simp [openCloseState, hres i hi]
  | succ k ih =>
    intro hk i hi
    have ihk := ih (by omega)
    have hoc := open_close_image (openCloseState st (10 * arg) k) (10 * arg + k)
      (by omega) (by omega) (by omega) (by rw [ihk k (by omega)]; simp)
    simp only [openCloseState]
    by_cases hik : i = k
    · subst hik
      rw [hoc.2.1]
      simp
    · rw [hoc.2.2 (10 * arg + i) (by omega), ihk i hi]
      by_cases h1 : i < k
      · have : i < k + 1 := by omega
        simp [h1, this]
      · have : ¬ i < k + 1 := by omega
        simp [h1, this]

/-- C4.  From a state in which the eight slots of a kind (`arg = 0`: master
slots 0..7, `arg = 1`: slave slots 10..17) are free, request number
`k < 8` of eight successive `IOCTL_GET_IMAGE` requests returns the index
`k + 10 * arg` and sets exactly that slot's `opened` to `1`; a ninth request
returns `-2` and leaves the image table as it is; each of the eight images
can then be opened, and after all have been opened and closed a further
request succeeds (it returns the index `10 * arg`). -/
theorem acquire_release_round_trip (st : State) (c arg : Nat) (harg : arg ≤ 1)
    (hfree : ∀ i, i < 8 → (st.image (i + 10 * arg)).opened = 0) :
    (∀ k, k < 8 →
      acquireResult st c arg k = ((k + 10 * arg : Nat) : Int) ∧
      ∀ j, (acquireState st c arg (k + 1)).image j =
        if j = k + 10 * arg then { (acquireState st c arg k).image j with opened := 1 }
        else (acquireState st c arg k).image j) ∧
    acquireResult st c arg 8 = -2 ∧
    (acquireState st c arg 9).image = (acquireState st c arg 8).image ∧
    (∀ k, k < 8 →
      (universeII_open (openCloseState (acquireState st c arg 8) (10 * arg) k)
        (10 * arg + k)).1 = 0) ∧
    (universeII_ioctl (openCloseState (acquireState st c arg 8) (10 * arg) 8) c
      (Cmd.GET_IMAGE arg)).1 = ((10 * arg : Nat) : Int) := by
  have himg := acquireState_image st c arg harg hfree
  have hstep : ∀ k, k < 8 →
      IOCTL_GET_IMAGE (countIoctl (acquireState st c arg k)) arg =
        (((k + 10 * arg : Nat) : Int),
          setImage (countIoctl (acquireState st c arg k)) (k + 10 * arg)
            fun d => { d with opened := 1 }) := by
    intro k hk
    apply get_image_free _ arg k harg hk
    · intro i hi
      simp only [countIoctl_image]
      rw [himg k (by omega) (i + 10 * arg)]
      have : 10 * arg ≤ i + 10 * arg ∧ i + 10 * arg < 10 * arg + k := by omega
      simp [this]
    · simp only [countIoctl_image]
      rw [himg k (by omega) (k + 10 * arg)]
      have : ¬ (10 * arg ≤ k + 10 * arg ∧ k + 10 * arg < 10 * arg + k) := by omega
      simp only [this, if_false]
      exact hfree k hk
  have hbusy : IOCTL_GET_IMAGE (countIoctl (acquireState st c arg 8)) arg =
      (-2, countIoctl (acquireState st c arg 8)) := by
    apply get_image_busy _ arg harg
    intro i hi
    simp only [countIoctl_image]
    rw [himg 8 (by omega) (i + 10 * arg)]
    have : 10 * arg ≤ i + 10 * arg ∧ i + 10 * arg < 10 * arg + 8 := by omega
    simp [this]
  have hres : ∀ i, i < 8 → ((acquireState st c arg 8).image (10 * arg + i)).opened = 1 := by
    intro i hi
    rw [himg 8 (by omega) (10 * arg + i)]
    have : 10 * arg ≤ 10 * arg + i ∧ 10 * arg + i < 10 * arg + 8 := by omega
    simp [this]
  have hoc := openCloseState_opened (acquireState st c arg 8) arg harg hres
  refine ⟨?_, ?_, ?_, ?_, ?_⟩
  · intro k hk
    refine ⟨?_, ?_⟩
    · simp only [acquireResult, universeII_ioctl, hstep k hk]
    · intro j
      simp only [acquireState, universeII_ioctl, hstep k hk, setImage_image, countIoctl_image]
      by_cases hj : j = k + 10 * arg
      · subst hj; simp
      · simp [hj]
  · simp only [acquireResult, universeII_ioctl, hbusy]
  · have e : acquireState st c arg 9 =
        (universeII_ioctl (acquireState st c arg 8) c (Cmd.GET_IMAGE arg)).2 := rfl
    rw [e]
    simp only [universeII_ioctl, hbusy, countIoctl_image]
  · intro k hk
    have h1 := hoc k (by omega) k hk
    simp only [lt_irrefl, if_false] at h1
    exact (open_close_image _ (10 * arg + k) (by omega) (by omega) (by omega) h1).1
  · have hfin := get_image_free
      (countIoctl (openCloseState (acquireState st c arg 8) (10 * arg) 8)) arg 0 harg (by omega)
      (by intro j hj; omega)
      (by
        simp only [countIoctl_image]
        have := hoc 8 (le_refl 8) 0 (by omega)
        simpa using this)
    simp only [universeII_ioctl, hfin]
    simp


/-- Instance of C4 on the freshly loaded driver, for master and for slave
slots. -/
theorem acquire_release_round_trip_witness :
    (∀ i, i < 8 → (exampleBoot.image (i + 10 * 0)).opened = 0) ∧
    acquireResult exampleBoot CONTROL_MINOR 0 8 = -2 ∧
    acquireResult exampleBoot CONTROL_MINOR 1 7 = ((7 + 10 * 1 : Nat) : Int) :=
  ⟨by decide,
   (acquire_release_round_trip exampleBoot CONTROL_MINOR 0 (by decide) (by decide)).2.1,
   ((acquire_release_round_trip exampleBoot CONTROL_MINOR 1 (by decide) (by decide)).1 7
      (by decide)).1⟩

/-! ## C5: the state check of configure -/

/-- C5, counterexample.  Slot 0 of the freshly loaded driver is free
(`opened = 0`); `IOCTL_SET_IMAGE` with `ms = 2` returns `-1`, not `-2`. -/
theorem set_image_bad_kind_returns_minus_one :
    (exampleBoot.image 0).opened ≠ 2 ∧
    (universeII_ioctl exampleBoot 0
      (Cmd.SET_IMAGE (some { ms := 2, base := 0x1000, size := 0x1000 })
        (some 0x80000000) 0xD0000000)).1 = -1 := by
  decide

/-- C5, amended.  `IOCTL_SET_IMAGE` on a minor whose slot has
`opened ≠ 2` changes nothing but the ioctl counter: every image descriptor
(with its master resource record), the resource tree and every bridge
register are as before.  It returns `-2` when the argument was read and its
`ms` is 0 or 1, and `-1` when `ms` has another value. -/
theorem set_image_state_check (st : State) (minor : Nat) (arg : Option image_regs_t)
    (alloc : Option Nat) (remap : Nat) (hop : (st.image minor).opened ≠ 2) :
    (universeII_ioctl st minor (Cmd.SET_IMAGE arg alloc remap)).2 = countIoctl st ∧
    (universeII_ioctl st minor (Cmd.SET_IMAGE arg alloc remap)).2.image = st.image ∧
    (universeII_ioctl st minor (Cmd.SET_IMAGE arg alloc remap)).2.resTree = st.resTree ∧
    (universeII_ioctl st minor (Cmd.SET_IMAGE arg alloc remap)).2.regs = st.regs ∧
    (∀ iRegs, arg = some iRegs → (iRegs.ms = 0 ∨ iRegs.ms = 1) →
      (universeII_ioctl st minor (Cmd.SET_IMAGE arg alloc remap)).1 = -2) ∧
    (∀ iRegs, arg = some iRegs → ¬ (iRegs.ms = 0 ∨ iRegs.ms = 1) →
      (universeII_ioctl st minor (Cmd.SET_IMAGE arg alloc remap)).1 = -1) := by
  have hst : (universeII_ioctl st minor (Cmd.SET_IMAGE arg alloc remap)).2 = countIoctl st := by
    cases arg with
    | none => rfl
    | some iRegs =>
      simp only [universeII_ioctl, IOCTL_SET_IMAGE, countIoctl_image]
      split_ifs <;> rfl
  refine ⟨hst, by rw [hst]; rfl, by rw [hst]; rfl, by rw [hst]; rfl, ?_, ?_⟩
  · intro iRegs harg hms
    subst harg
    have h1 : ¬ (iRegs.ms < 0 ∨ iRegs.ms > 1) := by omega
    simp [universeII_ioctl, IOCTL_SET_IMAGE, h1, hop]
  · intro iRegs harg hms
    subst harg
    have h1 : iRegs.ms < 0 ∨ iRegs.ms > 1 := by omega
    simp [universeII_ioctl, IOCTL_SET_IMAGE, h1]

/-- Instance of the amended C5: a second configure of the Configured image B
is rejected with `-2`, and so is a configure of the free slot 2. -/
theorem set_image_state_check_witness :
    ((exampleBConfigured.image 1).opened ≠ 2 ∧
      (universeII_ioctl exampleBConfigured 1
        (Cmd.SET_IMAGE (some imageB) (some 0x80020000) 0xD0020000)).1 = -2) ∧
    ((exampleBConfigured.image 2).opened ≠ 2 ∧
      (universeII_ioctl exampleBConfigured 2
        (Cmd.SET_IMAGE (some imageB) (some 0x80020000) 0xD0020000)).1 = -2) :=
  ⟨⟨by decide,
    (set_image_state_check exampleBConfigured 1 (some imageB) (some 0x80020000) 0xD0020000
      (by decide)).2.2.2.2.1 imageB rfl (by decide)⟩,
   ⟨by decide,
    (set_image_state_check exampleBConfigured 2 (some imageB) (some 0x80020000) 0xD0020000
      (by decide)).2.2.2.2.1 imageB rfl (by decide)⟩⟩

/-! ## C6: failure of the mapping -/

/-- The failure `-7` of `IOCTL_SET_IMAGE` is the failure of the mapping: a
request returns `-7` exactly when `ioremap` returns `NULL` and the same
request succeeds with a mapping. -/
theorem set_image_minus7_iff (st : State) (minor : Nat) (iRegs : image_regs_t)
    (alloc : Option Nat) (remap r : Nat) (hr : r ≠ 0) :
    (universeII_ioctl st minor (Cmd.SET_IMAGE (some iRegs) alloc remap)).1 = -7 ↔
      (remap = 0 ∧ (universeII_ioctl st minor (Cmd.SET_IMAGE (some iRegs) alloc r)).1 = 0) := by
  simp only [universeII_ioctl]
  unfold IOCTL_SET_IMAGE
  by_cases hms : iRegs.ms < 0 ∨ iRegs.ms > 1
  · simp [hms]
  simp only [if_neg hms]
  by_cases hop : ((countIoctl st).image minor).opened ≠ 2
  · simp only [if_pos hop]
    simp
  simp only [if_neg hop]
  rcases hw : setImageWindow (countIoctl st) minor iRegs alloc with e | ⟨st1, pciBase⟩
  · simp only
    unfold setImageWindow at hw
    split_ifs at hw
    · cases alloc <;> simp at hw
      subst hw
      simp
    all_goals (simp at hw; subst hw; simp)
  · simp only
    by_cases hov : st1.img_ovl = 0 ∧ (overlapScan st1 minor iRegs MAX_IMAGE 0).isSome
    · simp [hov]
    · simp only [if_neg hov]
      by_cases h0 : remap = 0
      · simp [h0, hr]
      · simp [h0]

/-- C6.  Take a configure request that passes every check before the
mapping, that is, one that succeeds when `ioremap` returns the mapping `r`.
When `ioremap` returns `NULL` instead, the call returns `-7`, the slot is
Reserved again (`opened = 2`, `okToWrite = 0`, `vBase = NULL`), for a master
image the PCI range is released and the resource record zeroed, and no
later `IOCTL_SET_IMAGE` on this minor is turned away by the state check
(none returns `-2`). -/
theorem set_image_ioremap_failure (st : State) (minor : Nat) (iRegs : image_regs_t)
    (alloc : Option Nat) (r : Nat)
    (hok : (universeII_ioctl st minor (Cmd.SET_IMAGE (some iRegs) alloc r)).1 = 0) :
    (universeII_ioctl st minor (Cmd.SET_IMAGE (some iRegs) alloc 0)).1 = -7 ∧
    ((universeII_ioctl st minor (Cmd.SET_IMAGE (some iRegs) alloc 0)).2.image minor).opened = 2 ∧
    ((universeII_ioctl st minor (Cmd.SET_IMAGE (some iRegs) alloc 0)).2.image minor).okToWrite = 0 ∧
    ((universeII_ioctl st minor (Cmd.SET_IMAGE (some iRegs) alloc 0)).2.image minor).vBase = 0 ∧
    (iRegs.ms = 0 →
      (universeII_ioctl st minor (Cmd.SET_IMAGE (some iRegs) alloc 0)).2.resTree minor = false ∧
      ((universeII_ioctl st minor (Cmd.SET_IMAGE (some iRegs) alloc 0)).2.image minor).masterRes
        = resource.zero) ∧
    (∀ arg2 alloc2 remap2,
      (universeII_ioctl (universeII_ioctl st minor (Cmd.SET_IMAGE (some iRegs) alloc 0)).2 minor
        (Cmd.SET_IMAGE arg2 alloc2 remap2)).1 ≠ -2) := by
  obtain ⟨hms, hop, -, st1, pciBase, hw, hov, -⟩ :=
    set_image_success (countIoctl st) minor iRegs alloc r hok
  have hms2 : ¬ (iRegs.ms < 0 ∨ iRegs.ms > 1) := by omega
  have hres : universeII_ioctl st minor (Cmd.SET_IMAGE (some iRegs) alloc 0) =
      (-7, if iRegs.ms = 0 then
          releaseMaster (setImage (setImage (setImage (setImage
            (setImageRegs st1 minor iRegs pciBase) minor
            fun d => { d with okToWrite := 1, opened := 3 }) minor
            fun d => { d with
              phys_start := readl (setImageRegs st1 minor iRegs pciBase) (aBS minor),
              phys_end := readl (setImageRegs st1 minor iRegs pciBase) (aBD minor),
              size := sub32 (readl (setImageRegs st1 minor iRegs pciBase) (aBD minor))
                        (readl (setImageRegs st1 minor iRegs pciBase) (aBS minor)) }) minor
            fun d => { d with vBase := 0 }) minor
            fun d => { d with okToWrite := 0, opened := 2 }) minor
        else
          setImage (setImage (setImage (setImage
            (setImageRegs st1 minor iRegs pciBase) minor
            fun d => { d with okToWrite := 1, opened := 3 }) minor
            fun d => { d with
              phys_start := readl (setImageRegs st1 minor iRegs pciBase) (aBS minor),
              phys_end := readl (setImageRegs st1 minor iRegs pciBase) (aBD minor),
              size := sub32 (readl (setImageRegs st1 minor iRegs pciBase) (aBD minor))
                        (readl (setImageRegs st1 minor iRegs pciBase) (aBS minor)) }) minor
            fun d => { d with vBase := 0 }) minor
            fun d => { d with okToWrite := 0, opened := 2 }) := by
    simp only [universeII_ioctl, IOCTL_SET_IMAGE, hms2, hop, hw, hov]
    simp
  have hop2 : ((universeII_ioctl st minor
      (Cmd.SET_IMAGE (some iRegs) alloc 0)).2.image minor).opened = 2 := by
    rw [hres]
    simp only [releaseMaster]
    split_ifs <;> simp
  refine ⟨by rw [hres], hop2, ?_, ?_, ?_, ?_⟩
  · rw [hres]
    simp only [releaseMaster]
    split_ifs <;> simp
  · rw [hres]
    simp only [releaseMaster]
    split_ifs <;> simp
  · intro h0
    rw [hres]
    simp [releaseMaster, h0]
  · intro arg2 alloc2 remap2
    generalize universeII_ioctl st minor (Cmd.SET_IMAGE (some iRegs) alloc 0) = res at hop2 ⊢
    cases arg2 with
    | none => simp [universeII_ioctl, IOCTL_SET_IMAGE]
    | some iRegs2 =>
      simp only [universeII_ioctl, IOCTL_SET_IMAGE, countIoctl_image, hop2]
      by_cases hm : iRegs2.ms < 0 ∨ iRegs2.ms > 1
      · simp [hm]
      · simp only [hm, if_false, ne_eq, not_true_eq_false]
        rcases hw2 : setImageWindow (countIoctl res.2) minor iRegs2 alloc2 with e | ⟨s1, pb⟩
        · unfold setImageWindow at hw2
          split_ifs at hw2
          · cases alloc2 <;> simp at hw2
            subst hw2
            simp
          all_goals (simp at hw2; subst hw2; simp)
        · simp only
          split_ifs <;> simp


/-- Instance of C6: image A on minor 0 when the window cannot be mapped. -/
theorem set_image_ioremap_failure_witness :
    (universeII_ioctl exampleAReserved 0
      (Cmd.SET_IMAGE (some imageA) (some 0x80000000) 0xD0000000)).1 = 0 ∧
    (universeII_ioctl exampleAReserved 0
      (Cmd.SET_IMAGE (some imageA) (some 0x80000000) 0)).1 = -7 ∧
    ((universeII_ioctl exampleAReserved 0
      (Cmd.SET_IMAGE (some imageA) (some 0x80000000) 0)).2.image 0).opened = 2 :=
  ⟨by decide,
   (set_image_ioremap_failure exampleAReserved 0 imageA (some 0x80000000) 0xD0000000
      (by decide)).1,
   (set_image_ioremap_failure exampleAReserved 0 imageA (some 0x80000000) 0xD0000000
      (by decide)).2.1⟩

/-! ## C7: release of an image -/

/-- The freshly loaded driver holds no PCI range. -/
theorem masterResInv_probe (img_ovl : Int) (regs : Reg → Nat) (slave : Nat → Nat × Nat)
    (dmabuf : Nat × Nat) :
    MasterResInv (probe_state img_ovl regs slave dmabuf) := by
  intro m _ h
  simp [probe_state] at h

/-- The image and resource parts of the state after `universeII_release`. -/
theorem release_image (st : State) (m j : Nat) :
    (universeII_release st m).2.image j =
      if j = m then
        { st.image m with
            vBase := 0, opened := 0, okToWrite := 0, phys_start := 0, phys_end := 0, size := 0,
            buffer := if m > 9 ∧ m < 18 then 0 else (st.image m).buffer,
            masterRes :=
              if (st.image m).vBase ≠ 0 ∧ m < MAX_IMAGE ∧ (st.image m).masterRes.start ≠ 0
              then resource.zero else (st.image m).masterRes }
      else st.image j := by
  simp only [universeII_release, releaseUnmap, releaseMaster]
  by_cases hj : j = m
  · subst hj
    by_cases hv : (st.image j).vBase = 0
    · split_ifs <;> simp_all
    · split_ifs <;> simp_all
  · split_ifs <;> simp [hj]

/-- The resource tree after `universeII_release`. -/
theorem release_resTree (st : State) (m j : Nat) :
    (universeII_release st m).2.resTree j =
      if j = m ∧ (st.image m).vBase ≠ 0 ∧ m < MAX_IMAGE ∧ (st.image m).masterRes.start ≠ 0
      then false else st.resTree j := by
  simp only [universeII_release, releaseUnmap, releaseMaster]
  by_cases hj : j = m
  · subst hj
    split_ifs <;> simp_all
  · split_ifs <;> simp_all

/-- The interrupt table after `universeII_release`. -/
theorem release_irq_device (st : State) (m i j : Nat) :
    (universeII_release st m).2.irq_device i j =
      if i < 7 ∧ j < 256 ∧ (st.irq_device i j).ok = m + 1 then
        { st.irq_device i j with ok := 0 }
      else st.irq_device i j := by
  simp only [universeII_release, releaseUnmap, releaseMaster]
  split_ifs <;> simp_all

/-- The release of minor `m`, in a state in which a held master
range belongs to a Configured, mapped image (`MasterResInv`, which holds
after loading and is kept by every entry point): the call returns 0; the
descriptor of `m` has `opened = 0`, `okToWrite = 0`,
`phys_start = phys_end = size = 0`, `vBase = NULL`; a master image holds no
PCI range any more, and if it held one its resource record is zeroed; every
slot of the interrupt table owned by `m` (`ok = m + 1`) is free, every other
slot is unchanged; no other image descriptor and no other entry of the
resource tree changes; `slaveBuf` of `m` is unchanged. -/
theorem release_clears_image (st : State) (m : Nat) (hinv : MasterResInv st) :
    (universeII_release st m).1 = 0 ∧
    ((universeII_release st m).2.image m).opened = 0 ∧
    ((universeII_release st m).2.image m).okToWrite = 0 ∧
    ((universeII_release st m).2.image m).phys_start = 0 ∧
    ((universeII_release st m).2.image m).phys_end = 0 ∧
    ((universeII_release st m).2.image m).size = 0 ∧
    ((universeII_release st m).2.image m).vBase = 0 ∧
    (m < 8 → (universeII_release st m).2.resTree m = false) ∧
    (m < 8 → st.resTree m = true →
      ((universeII_release st m).2.image m).masterRes = resource.zero) ∧
    (∀ i j, i < 7 → j < 256 → (st.irq_device i j).ok = m + 1 →
      ((universeII_release st m).2.irq_device i j).ok = 0) ∧
    (∀ i j, (st.irq_device i j).ok ≠ m + 1 →
      (universeII_release st m).2.irq_device i j = st.irq_device i j) ∧
    (∀ k, k ≠ m → (universeII_release st m).2.image k = st.image k) ∧
    (∀ k, k ≠ m → (universeII_release st m).2.resTree k = st.resTree k) ∧
    ((universeII_release st m).2.image m).slaveBuf = (st.image m).slaveBuf := by
  refine ⟨rfl, ?_, ?_, ?_, ?_, ?_, ?_, ?_, ?_, ?_, ?_, ?_, ?_, ?_⟩
  · simp [release_image]
  · simp [release_image]
  · simp [release_image]
  · simp [release_image]
  · simp [release_image]
  · simp [release_image]
  · intro hm
    rw [release_resTree]
    by_cases hh : st.resTree m = true
    · obtain ⟨-, h2, h3⟩ := hinv m hm hh
      have : m < MAX_IMAGE := hm
      simp [h2, h3, this]
    · simp at hh
      simp [hh]
  · intro hm hh
    obtain ⟨-, h2, h3⟩ := hinv m hm hh
    have : m < MAX_IMAGE := hm
    simp [release_image, h2, h3, this]
  · intro i j hi hj hok
    simp [release_irq_device, hi, hj, hok]
  · intro i j hok
    simp [release_irq_device, hok]
  · intro k hk
    simp [release_image, hk]
  · intro k hk
    simp [release_resTree, hk]
  · simp [release_image]


/-- The release of the Configured image A on minor 0. -/
theorem release_clears_image_witness :
    ((universeII_release exampleAConfigured 0).2.image 0).opened = 0 ∧
    (exampleAConfigured.resTree 0 = true ∧
      (universeII_release exampleAConfigured 0).2.resTree 0 = false) :=
  ⟨(release_clears_image exampleAConfigured 0
      (by intro m hm; interval_cases m <;> decide)).2.1,
   by decide,
   (release_clears_image exampleAConfigured 0
      (by intro m hm; interval_cases m <;> decide)).2.2.2.2.2.2.2.1 (by decide)⟩

set_option maxRecDepth 100000 in
/-- C7, the code at the failing input.  `IOCTL_SET_IMAGE` with `ms = 0`
succeeds on the slave minor 10 and image 10 then holds the PCI range at
`0x80000000` (the slave request `ms = 1` on the master minor 0 is refused
with `-4`).  The release of minor 10 returns 0 and clears `opened`,
`okToWrite`, the three address fields and `vBase`, but the PCI range stays
held: the entry of the resource tree and the resource record of image 10 are
as before the release. -/
theorem release_keeps_range_on_slave_minor :
    (universeII_ioctl exampleSlaveReserved 10
      (Cmd.SET_IMAGE (some imageA) (some 0x80000000) 0xD0000000)).1 = 0 ∧
    (universeII_ioctl exampleAReserved 0
      (Cmd.SET_IMAGE (some imageS) none 0xD0000000)).1 = -4 ∧
    exampleMasterOnSlave.resTree 10 = true ∧
    (exampleMasterOnSlave.image 10).masterRes.start = 0x80000000 ∧
    (exampleMasterOnSlave.image 10).vBase = 0xD0000000 ∧
    (universeII_release exampleMasterOnSlave 10).1 = 0 ∧
    ((universeII_release exampleMasterOnSlave 10).2.image 10).opened = 0 ∧
    ((universeII_release exampleMasterOnSlave 10).2.image 10).okToWrite = 0 ∧
    ((universeII_release exampleMasterOnSlave 10).2.image 10).phys_start = 0 ∧
    ((universeII_release exampleMasterOnSlave 10).2.image 10).phys_end = 0 ∧
    ((universeII_release exampleMasterOnSlave 10).2.image 10).size = 0 ∧
    ((universeII_release exampleMasterOnSlave 10).2.image 10).vBase = 0 ∧
    (universeII_release exampleMasterOnSlave 10).2.resTree 10 = true ∧
    ((universeII_release exampleMasterOnSlave 10).2.image 10).masterRes =
      (exampleMasterOnSlave.image 10).masterRes := by
  decide

/-- The release of a minor that is not a master minor leaves the resource
tree and the resource record of the image as they are, whatever the image
holds. -/
theorem release_keeps_range_above_master (st : State) (m : Nat) (hm : 8 ≤ m) :
    (universeII_release st m).2.resTree = st.resTree ∧
    ((universeII_release st m).2.image m).masterRes = (st.image m).masterRes := by
  have hlt : ¬ (m < MAX_IMAGE) := by simp only [MAX_IMAGE]; omega
  constructor
  · funext j
    rw [release_resTree]
    simp [hlt]
  · rw [release_image]
    simp [hlt]

/-- The search loop of `IOCTL_GET_IMAGE` stops below `MAX_IMAGE` only at a
free slot. -/
theorem getImageScan_stops_free (st : State) (off : Nat) :
    ∀ fuel i, 8 - i < fuel → getImageScan st off fuel i < 8 →
      (st.image (getImageScan st off fuel i + off)).opened = 0 := by
  intro fuel
  induction fuel with
  | zero => intro i h; omega
  | succ n ih =>
    intro i hfuel hlt
    unfold getImageScan at hlt ⊢
    by_cases hc : (st.image (i + off)).opened ≠ 0 ∧ i < MAX_IMAGE
    · rw [if_pos hc] at hlt ⊢
      have : i < 8 := hc.2
      exact ih (i + 1) (by omega) hlt
    · rw [if_neg hc] at hlt ⊢
      have h8 : i < MAX_IMAGE := hlt
      by_contra hne
      exact hc ⟨hne, h8⟩

/-- Invariant `MasterResInv` is kept by `IOCTL_GET_IMAGE`. -/
theorem masterResInv_get_image (st : State) (arg : Nat) (hinv : MasterResInv st) :
    MasterResInv (IOCTL_GET_IMAGE st arg).2 := by
  have h8 : MAX_IMAGE = 8 := rfl
  unfold IOCTL_GET_IMAGE
  by_cases ha : arg > 1
  · rw [if_pos ha]; exact hinv
  · rw [if_neg ha]
    by_cases hi : getImageScan st (if arg ≠ 0 then 10 else 0) (MAX_IMAGE + 1) 0 ≥ MAX_IMAGE
    · simp only [if_pos hi]; exact hinv
    · simp only [if_neg hi]
      have hlt : getImageScan st (if arg ≠ 0 then 10 else 0) (MAX_IMAGE + 1) 0 < 8 := by
        omega
      have hfree := getImageScan_stops_free st (if arg ≠ 0 then 10 else 0) (MAX_IMAGE + 1) 0
        (by omega) hlt
      intro m hm hres
      simp only [setImage_resTree] at hres
      obtain ⟨h1, h2, h3⟩ := hinv m hm hres
      by_cases hmi : m = getImageScan st (if arg ≠ 0 then 10 else 0) (MAX_IMAGE + 1) 0 +
          (if arg ≠ 0 then 10 else 0)
      · rw [← hmi] at hfree
        omega
      · simp only [setImage_image, hmi, if_false]
        exact ⟨h1, h2, h3⟩

/-- The descriptors and resource-tree entries of the other images are not
touched by `IOCTL_SET_IMAGE`. -/
theorem set_image_frame (st : State) (minor : Nat) (arg : Option image_regs_t)
    (alloc : Option Nat) (remap : Nat) (j : Nat) (hj : j ≠ minor) :
    (IOCTL_SET_IMAGE st minor arg alloc remap).2.image j = st.image j ∧
    (IOCTL_SET_IMAGE st minor arg alloc remap).2.resTree j = st.resTree j := by
  cases arg with
  | none => exact ⟨rfl, rfl⟩
  | some iRegs =>
    unfold IOCTL_SET_IMAGE
    by_cases hms : iRegs.ms < 0 ∨ iRegs.ms > 1
    · simp only [if_pos hms, and_self]
    simp only [if_neg hms]
    by_cases hop : (st.image minor).opened ≠ 2
    · simp only [if_pos hop, and_self]
    simp only [if_neg hop]
    rcases hw : setImageWindow st minor iRegs alloc with r | ⟨st1, pciBase⟩
    · simp only
      unfold setImageWindow at hw
      split_ifs at hw
      · cases alloc <;> simp at hw
        subst hw
        simp [hj]
      all_goals (simp at hw; subst hw; simp)
    · simp only
      have h1 : st1.image j = st.image j ∧ st1.resTree j = st.resTree j := by
        unfold setImageWindow at hw
        split_ifs at hw
        · cases alloc <;> simp at hw
          obtain ⟨e1, -⟩ := hw
          subst e1
          simp [hj]
        · simp at hw
          obtain ⟨e1, -⟩ := hw
          subst e1
          simp
      simp only [setImageRegs, releaseMaster]
      split_ifs <;> simp [hj, h1]

/-- Invariant `MasterResInv` is kept by `IOCTL_SET_IMAGE`, given that an
allocated range does not start at 0. -/
theorem masterResInv_set_image (st : State) (minor : Nat) (arg : Option image_regs_t)
    (alloc : Option Nat) (remap : Nat) (hinv : MasterResInv st)
    (hp : ∀ p, alloc = some p → p ≠ 0) :
    MasterResInv (IOCTL_SET_IMAGE st minor arg alloc remap).2 := by
  intro m hm hres
  by_cases hmm : m = minor
  swap
  · obtain ⟨e1, e2⟩ := set_image_frame st minor arg alloc remap m hmm
    rw [e2] at hres
    rw [e1]
    exact hinv m hm hres
  subst hmm
  cases arg with
  | none => exact hinv m hm hres
  | some iRegs =>
    unfold IOCTL_SET_IMAGE at hres ⊢
    by_cases hms : iRegs.ms < 0 ∨ iRegs.ms > 1
    · simp only [if_pos hms] at hres ⊢
      exact hinv m hm hres
    simp only [if_neg hms] at hres ⊢
    by_cases hop : (st.image m).opened ≠ 2
    · simp only [if_pos hop] at hres ⊢
      exact hinv m hm hres
    simp only [if_neg hop] at hres ⊢
    have hf : st.resTree m = false := by
      by_contra hne
      simp at hne
      have := (hinv m hm hne).1
      omega
    rcases hw : setImageWindow st m iRegs alloc with r | ⟨st1, pciBase⟩
    · simp only [hw] at hres
      unfold setImageWindow at hw
      split_ifs at hw
      · cases alloc <;> simp at hw
        subst hw
        simp [hf] at hres
      all_goals (simp at hw; subst hw; simp [hf] at hres)
    · simp only [hw] at hres ⊢
      unfold setImageWindow at hw
      by_cases h0 : iRegs.ms = 0
      · cases alloc with
        | none => simp [h0] at hw
        | some p =>
          have hp0 := hp p rfl
          simp [h0] at hw
          obtain ⟨e1, -⟩ := hw
          subst e1
          simp only [setImageRegs, releaseMaster, h0] at hres ⊢
          split_ifs at hres ⊢
          · simp at hres
          · simp at hres
          · simp [hp0]
            assumption
      · simp [h0] at hw
        split_ifs at hw
        simp at hw
        obtain ⟨e1, -⟩ := hw
        subst e1
        simp only [setImageRegs, releaseMaster, h0] at hres ⊢
        split_ifs at hres ⊢ <;> simp [hf] at hres


/-- The image table and the resource tree are not touched by
`IOCTL_SET_IRQ`. -/
theorem set_irq_frame (st : State) (minor : Nat) (arg : Option irq_setup_t) :
    (IOCTL_SET_IRQ st minor arg).2.image = st.image ∧
    (IOCTL_SET_IRQ st minor arg).2.resTree = st.resTree := by
  cases arg with
  | none => exact ⟨rfl, rfl⟩
  | some isetup =>
    simp only [IOCTL_SET_IRQ]
    split_ifs <;> simp

/-- The image table and the resource tree are not touched by
`IOCTL_FREE_IRQ`. -/
theorem free_irq_frame (st : State) (arg : Option irq_setup_t) :
    (IOCTL_FREE_IRQ st arg).2.image = st.image ∧
    (IOCTL_FREE_IRQ st arg).2.resTree = st.resTree := by
  cases arg with
  | none => exact ⟨rfl, rfl⟩
  | some isetup =>
    simp only [IOCTL_FREE_IRQ]
    split_ifs <;> simp

/-- The image table and the resource tree are not touched by
`IOCTL_WAIT_IRQ`. -/
theorem wait_irq_frame (st : State) (arg : Option irq_wait_t) (ev : WaitEnd) :
    (IOCTL_WAIT_IRQ st arg ev).2.image = st.image ∧
    (IOCTL_WAIT_IRQ st arg ev).2.resTree = st.resTree := by
  cases arg with
  | none => exact ⟨rfl, rfl⟩
  | some irqData =>
    cases ev <;> simp only [IOCTL_WAIT_IRQ, VIRQ_timeout] <;> split_ifs <;> simp

/-- The image table, the resource tree and the interrupt table are not
touched by `IOCTL_WAIT_MBX`. -/
theorem wait_mbx_frame (st : State) (arg : Nat) (ev : MbxEnd) :
    (IOCTL_WAIT_MBX st arg ev).2.1.image = st.image ∧
    (IOCTL_WAIT_MBX st arg ev).2.1.resTree = st.resTree ∧
    (IOCTL_WAIT_MBX st arg ev).2.1.irq_device = st.irq_device := by
  cases ev <;> simp only [IOCTL_WAIT_MBX, MBX_timeout] <;> split_ifs <;> simp

/-- Invariant `MasterResInv` depends on the image table and the resource
tree only. -/
theorem masterResInv_congr (st st2 : State) (h1 : st2.image = st.image)
    (h2 : st2.resTree = st.resTree) (hinv : MasterResInv st) : MasterResInv st2 := by
  intro m hm hres
  rw [h2] at hres
  rw [h1]
  exact hinv m hm hres

/-- Invariant `MasterResInv` is kept by `universeII_open`. -/
theorem masterResInv_open (st : State) (minor : Nat) (hinv : MasterResInv st) :
    MasterResInv (universeII_open st minor).2 := by
  unfold universeII_open
  split_ifs with h1 h2 h3
  · exact hinv
  · intro m hm hres
    have hne : m ≠ minor := by
      unfold CONTROL_MINOR DMA_MINOR at h2; omega
    simp only [setImage_resTree] at hres
    simp only [setImage_image, hne, if_false]
    exact hinv m hm hres
  · exact hinv
  · intro m hm hres
    simp only [setImage_resTree] at hres
    have hk := hinv m hm hres
    have hne : m ≠ minor := by
      intro e
      subst e
      simp only [ne_eq, not_not] at h3
      omega
    simp only [setImage_image, hne, if_false]
    exact hk

/-- Invariant `MasterResInv` is kept by `universeII_release`. -/
theorem masterResInv_release (st : State) (minor : Nat) (hinv : MasterResInv st) :
    MasterResInv (universeII_release st minor).2 := by
  intro m hm hres
  rw [release_resTree] at hres
  rw [release_image]
  by_cases hmm : m = minor
  · subst hmm
    have hM : m < MAX_IMAGE := hm
    by_cases hh : st.resTree m = true
    · obtain ⟨-, h2, h3⟩ := hinv m hm hh
      simp [h2, h3, hM] at hres
    · simp at hh
      simp [hh] at hres
  · simp only [hmm, false_and, if_false] at hres ⊢
    exact hinv m hm hres

/-- Invariant `MasterResInv` is kept by every entry point, given that an
allocated PCI range does not start at 0. -/
theorem masterResInv_exec (st : State) (op : Op) (hinv : MasterResInv st)
    (hp : op.allocSane) : MasterResInv (exec st op) := by
  have hc : MasterResInv (countIoctl st) := masterResInv_congr st _ rfl rfl hinv
  cases op with
  | ioctl minor cmd =>
    cases cmd with
    | SET_IMAGE arg alloc remap =>
      apply masterResInv_set_image _ minor arg alloc remap hc
      intro p hpe
      subst hpe
      exact hp
    | GET_IMAGE arg => exact masterResInv_get_image _ arg hc
    | SET_IRQ arg =>
      exact masterResInv_congr _ _ (set_irq_frame _ minor arg).1 (set_irq_frame _ minor arg).2 hc
    | FREE_IRQ arg =>
      exact masterResInv_congr _ _ (free_irq_frame _ arg).1 (free_irq_frame _ arg).2 hc
    | WAIT_IRQ arg ev =>
      exact masterResInv_congr _ _ (wait_irq_frame _ arg ev).1 (wait_irq_frame _ arg ev).2 hc
    | WAIT_MBX arg ev =>
      exact masterResInv_congr _ _ (wait_mbx_frame _ arg ev).1 (wait_mbx_frame _ arg ev).2.1 hc
  | open_ minor => exact masterResInv_open st minor hinv
  | release minor => exact masterResInv_release st minor hinv
  | virq_timeout l s => exact masterResInv_congr st _ rfl rfl hinv
  | mbx_timeout n => exact masterResInv_congr st _ rfl rfl hinv


/-! ## C8: arming of interrupt slots -/

/-- The interrupt table is not touched by `IOCTL_SET_IMAGE`. -/
theorem set_image_irq_device (st : State) (minor : Nat) (arg : Option image_regs_t)
    (alloc : Option Nat) (remap : Nat) :
    (IOCTL_SET_IMAGE st minor arg alloc remap).2.irq_device = st.irq_device := by
  cases arg with
  | none => rfl
  | some iRegs =>
    unfold IOCTL_SET_IMAGE
    by_cases hms : iRegs.ms < 0 ∨ iRegs.ms > 1
    · simp only [if_pos hms]
    simp only [if_neg hms]
    by_cases hop : (st.image minor).opened ≠ 2
    · simp only [if_pos hop]
    simp only [if_neg hop]
    rcases hw : setImageWindow st minor iRegs alloc with r | ⟨st1, pciBase⟩
    · simp only
      unfold setImageWindow at hw
      split_ifs at hw
      · cases alloc <;> simp at hw
        subst hw
        simp
      all_goals (simp at hw; subst hw; simp)
    · simp only
      have h1 : st1.irq_device = st.irq_device := by
        unfold setImageWindow at hw
        split_ifs at hw
        · cases alloc <;> simp at hw
          obtain ⟨e1, -⟩ := hw
          subst e1
          simp
        · simp at hw
          obtain ⟨e1, -⟩ := hw
          subst e1
          simp
      simp only [setImageRegs, releaseMaster]
      split_ifs <;> simp [h1]

/-- The interrupt table is not touched by `IOCTL_GET_IMAGE`. -/
theorem get_image_irq_device (st : State) (arg : Nat) :
    (IOCTL_GET_IMAGE st arg).2.irq_device = st.irq_device := by
  simp only [IOCTL_GET_IMAGE]
  split_ifs <;> simp

/-- An armed slot is left as it is by `IOCTL_SET_IRQ`, whatever slot the
call addresses. -/
theorem set_irq_armed_slot (st : State) (minor : Nat) (arg : Option irq_setup_t) (l s : Nat)
    (harmed : (st.irq_device l s).ok ≠ 0) :
    (IOCTL_SET_IRQ st minor arg).2.irq_device l s = st.irq_device l s := by
  cases arg with
  | none => rfl
  | some isetup =>
    simp only [IOCTL_SET_IRQ]
    generalize (isetup.vmeIrq - 1).toNat = L
    generalize isetup.vmeStatus.toNat = S
    by_cases hsame : l = L ∧ s = S
    · obtain ⟨e1, e2⟩ := hsame
      subst e1 e2
      split_ifs <;> simp_all
    · split_ifs <;> simp [hsame]

/-- The `ok` field of a slot that `IOCTL_FREE_IRQ` does not address is left
as it is. -/
theorem free_irq_other_slot (st : State) (arg : Option irq_setup_t) (l s : Nat)
    (hother : ∀ isetup, arg = some isetup →
      ¬ (isetup.vmeIrq - 1 = (l : Int) ∧ isetup.vmeStatus = (s : Int))) :
    (IOCTL_FREE_IRQ st arg).2.irq_device l s = st.irq_device l s := by
  cases arg with
  | none => rfl
  | some isetup =>
    have h := hother isetup rfl
    simp only [IOCTL_FREE_IRQ]
    split_ifs with h1 h2
    · rfl
    · rfl
    · have hne : ¬ (l = (isetup.vmeIrq - 1).toNat ∧ s = isetup.vmeStatus.toNat) := by
        omega
      generalize (isetup.vmeIrq - 1).toNat = L at hne ⊢
      generalize isetup.vmeStatus.toNat = S at hne ⊢
      simp [hne]

/-- The `ok` fields are not touched by `IOCTL_WAIT_IRQ`. -/
theorem wait_irq_ok (st : State) (arg : Option irq_wait_t) (ev : WaitEnd) (l s : Nat) :
    ((IOCTL_WAIT_IRQ st arg ev).2.irq_device l s).ok = (st.irq_device l s).ok := by
  cases arg with
  | none => rfl
  | some irqData =>
    simp only [IOCTL_WAIT_IRQ, VIRQ_timeout]
    generalize (irqData.irqLevel - 1).toNat = L
    generalize irqData.statusID.toNat = S
    by_cases hsame : l = L ∧ s = S
    · obtain ⟨e1, e2⟩ := hsame
      subst e1 e2
      cases ev <;> simp only [] <;> split_ifs <;> simp
    · cases ev <;> simp only [] <;> split_ifs <;> simp [hsame]


/-- C9.  A wait with `timeout > 0` on the armed slot `(l, s)`: it returns
`-2` exactly when the slot's timer ended the wait and `0` when the interrupt
did; afterwards the slot's timeout flag is `1` in the first case and `0` in
the second, whatever it was before the call (it is cleared on entry); the
owner field is unchanged; and a further wait on the slot that the interrupt
ends returns `0`. -/
theorem wait_irq_timeout (st : State) (minor l s : Nat) (irqData : irq_wait_t) (ev : WaitEnd)
    (hl : l < 7) (hs : s < 256)
    (hlevel : irqData.irqLevel = (l : Int) + 1) (hstat : irqData.statusID = (s : Int))
    (harmed : (st.irq_device l s).ok ≠ 0) (hto : irqData.timeout > 0) :
    ((universeII_ioctl st minor (Cmd.WAIT_IRQ (some irqData) ev)).1 = -2 ↔ ev = WaitEnd.timer) ∧
    (ev = WaitEnd.wake → (universeII_ioctl st minor (Cmd.WAIT_IRQ (some irqData) ev)).1 = 0) ∧
    ((universeII_ioctl st minor (Cmd.WAIT_IRQ (some irqData) ev)).2.irq_device l s).timeout
      = (if ev = WaitEnd.timer then 1 else 0) ∧
    ((universeII_ioctl st minor (Cmd.WAIT_IRQ (some irqData) ev)).2.irq_device l s).ok
      = (st.irq_device l s).ok ∧
    (∀ (minor2 : Nat) (irqData2 : irq_wait_t),
      irqData2.irqLevel = (l : Int) + 1 → irqData2.statusID = (s : Int) →
      (universeII_ioctl (universeII_ioctl st minor (Cmd.WAIT_IRQ (some irqData) ev)).2 minor2
        (Cmd.WAIT_IRQ (some irqData2) WaitEnd.wake)).1 = 0) := by
  have hwake : ∀ (st0 : State) (minor0 : Nat) (d : irq_wait_t),
      d.irqLevel = (l : Int) + 1 → d.statusID = (s : Int) → (st0.irq_device l s).ok ≠ 0 →
      (universeII_ioctl st0 minor0 (Cmd.WAIT_IRQ (some d) WaitEnd.wake)).1 = 0 := by
    intro st0 minor0 d h1 h2 h3
    have hL : (d.irqLevel - 1).toNat = l := by omega
    have hS : d.statusID.toNat = s := by omega
    have hv : ¬ (d.irqLevel - 1 < 0 ∨ d.irqLevel - 1 > 6 ∨ d.statusID < 0 ∨ d.statusID > 255) := by
      omega
    have h4 : ¬ (st0.irq_device l s).ok = 0 := h3
    simp only [universeII_ioctl, IOCTL_WAIT_IRQ, hL, hS, if_neg hv, countIoctl_irq_device,
      if_neg h4]
    by_cases ht : d.timeout > 0
    · simp only [if_pos ht]
      split_ifs <;> simp_all
    · simp only [if_neg ht]
      split_ifs <;> simp_all
  have hL : (irqData.irqLevel - 1).toNat = l := by omega
  have hS : irqData.statusID.toNat = s := by omega
  have hv : ¬ (irqData.irqLevel - 1 < 0 ∨ irqData.irqLevel - 1 > 6 ∨ irqData.statusID < 0 ∨
      irqData.statusID > 255) := by omega
  have h4 : ¬ (st.irq_device l s).ok = 0 := harmed
  have hok : ((universeII_ioctl st minor (Cmd.WAIT_IRQ (some irqData) ev)).2.irq_device l s).ok
      = (st.irq_device l s).ok := by
    simp only [universeII_ioctl]
    rw [wait_irq_ok]
    rfl
  cases ev with
  | wake =>
    have hret := hwake st minor irqData hlevel hstat harmed
    refine ⟨?_, fun _ => hret, ?_, hok, ?_⟩
    · rw [hret]; simp
    · simp only [universeII_ioctl, IOCTL_WAIT_IRQ, hL, hS, if_neg hv, countIoctl_irq_device,
        if_neg h4, if_pos hto]
      split_ifs <;> simp_all
    · intro minor2 d h1 h2
      exact hwake _ minor2 d h1 h2 (by rw [hok]; exact harmed)
  | timer =>
    have hret : (universeII_ioctl st minor (Cmd.WAIT_IRQ (some irqData) WaitEnd.timer)).1 = -2 := by
      simp only [universeII_ioctl, IOCTL_WAIT_IRQ, hL, hS, if_neg hv, countIoctl_irq_device,
        if_neg h4, if_pos hto, VIRQ_timeout]
      split_ifs <;> simp_all
    refine ⟨?_, ?_, ?_, hok, ?_⟩
    · rw [hret]; simp
    · intro h; cases h
    · simp only [universeII_ioctl, IOCTL_WAIT_IRQ, hL, hS, if_neg hv, countIoctl_irq_device,
        if_neg h4, if_pos hto, VIRQ_timeout]
      split_ifs <;> simp_all
    · intro minor2 d h1 h2
      exact hwake _ minor2 d h1 h2 (by rw [hok]; exact harmed)

/-- Instance of C9 on the armed slot of level 3, status-ID 5: the first
wait times out, the second is ended by the interrupt. -/
theorem wait_irq_timeout_witness :
    (exampleArmed.irq_device 2 5).ok ≠ 0 ∧
    ((universeII_ioctl exampleArmed 0 (Cmd.WAIT_IRQ (some exampleWait) WaitEnd.timer)).1 = -2 ↔
      WaitEnd.timer = WaitEnd.timer) ∧
    (universeII_ioctl
      (universeII_ioctl exampleArmed 0 (Cmd.WAIT_IRQ (some exampleWait) WaitEnd.timer)).2 0
      (Cmd.WAIT_IRQ (some exampleWait) WaitEnd.wake)).1 = 0 :=
  ⟨by decide,
   (wait_irq_timeout exampleArmed 0 2 5 exampleWait WaitEnd.timer (by decide) (by decide)
      (by decide) (by decide) (by decide) (by decide)).1,
   (wait_irq_timeout exampleArmed 0 2 5 exampleWait WaitEnd.timer (by decide) (by decide)
      (by decide) (by decide) (by decide) (by decide)).2.2.2.2 0 exampleWait
      (by decide) (by decide)⟩

/-! ## C10: waiting for a mailbox -/

/-- C10, the code at the failing input.  With only the DMA status bit
`0x100` set in `LINT_STAT` (the interrupt of mailbox 0 is not pending),
`IOCTL_WAIT_MBX` for mailbox 0 does not block: it returns `0` at once,
although the mailbox is written with `0x55` only later.  With the status bit
of mailbox 0 itself set and no other, the call does block (here until its
timer fires, returning `-1`). -/
theorem wait_mbx_skip_condition :
    readl exampleMbxOtherPending LINT_STAT &&& 0x10000 = 0 ∧
    (IOCTL_WAIT_MBX (countIoctl exampleMbxOtherPending) 0 (MbxEnd.wake 0x55)).2.2 = false ∧
    (universeII_ioctl exampleMbxOtherPending CONTROL_MINOR
      (Cmd.WAIT_MBX 0 (MbxEnd.wake 0x55))).1 = 0 ∧
    readl exampleMbxOwnPending LINT_STAT = 0x10000 ∧
    (IOCTL_WAIT_MBX (countIoctl exampleMbxOwnPending) 0 MbxEnd.timer).2.2 = true ∧
    (universeII_ioctl exampleMbxOwnPending CONTROL_MINOR (Cmd.WAIT_MBX 0 MbxEnd.timer)).1 = -1 := by
  decide


/-- The skip test of `IOCTL_WAIT_MBX` on any state: the call blocks exactly
when no status bit other than that of its own mailbox is set in `LINT_STAT`;
whether the mailbox's own bit is set plays no part. -/
theorem wait_mbx_blocks_iff (st : State) (arg : Nat) (ev : MbxEnd) :
    ((IOCTL_WAIT_MBX st arg ev).2.2 = true ↔
      readl st LINT_STAT &&& not32 (0x10000 <<< (arg &&& 0x3)) = 0) := by
  have hn : arg &&& 3 < 4 := by
    have := @Nat.and_le_right arg 3
    omega
  generalize hN : arg &&& 3 = n at hn
  have h1 : LINT_STAT ≠ mbx n := by interval_cases n <;> simp [mbx]
  cases ev <;> simp only [IOCTL_WAIT_MBX, MBX_timeout, mbxSkipsWait, hN] <;>
    split_ifs <;> simp [h1]

/-- The parts of `IOCTL_WAIT_MBX` apart from the skip test: `LINT_EN` is
written back with the value read on entry; a call that does not block
returns the mailbox register it has just set to `0`; a call that blocks
returns `-1` when its timer ends the wait and the mailbox register when the
interrupt does. -/
theorem wait_mbx_effects (st : State) (arg : Nat) (ev : MbxEnd) :
    readl (IOCTL_WAIT_MBX st arg ev).2.1 LINT_EN = u32 (readl st LINT_EN) ∧
    ((IOCTL_WAIT_MBX st arg ev).2.2 = false → (IOCTL_WAIT_MBX st arg ev).1 = 0) ∧
    ((IOCTL_WAIT_MBX st arg ev).2.2 = true → ev = MbxEnd.timer →
      (IOCTL_WAIT_MBX st arg ev).1 = -1) ∧
    (∀ v, (IOCTL_WAIT_MBX st arg ev).2.2 = true → ev = MbxEnd.wake v →
      (IOCTL_WAIT_MBX st arg ev).1 = ((u32 v : Nat) : Int) ∧
      readl (IOCTL_WAIT_MBX st arg ev).2.1 (mbx (arg &&& 0x3)) = u32 v) := by
  have hn : arg &&& 3 < 4 := by
    have := @Nat.and_le_right arg 3
    omega
  generalize hN : arg &&& 3 = n at hn
  have h1 : LINT_STAT ≠ mbx n := by interval_cases n <;> simp [mbx]
  have h2 : LINT_EN ≠ mbx n := by interval_cases n <;> simp [mbx]
  have h3 : u32 0 = 0 := rfl
  have h4 : mbx n ≠ LINT_EN := fun e => h2 e.symm
  have h5 : mbx n ≠ LINT_STAT := fun e => h1 e.symm
  refine ⟨?_, ?_, ?_, ?_⟩
  · cases ev <;> simp only [IOCTL_WAIT_MBX, MBX_timeout, mbxSkipsWait, hN] <;>
      split_ifs <;> simp [h2]
  · cases ev <;> simp only [IOCTL_WAIT_MBX, MBX_timeout, mbxSkipsWait, hN] <;>
      split_ifs <;> simp_all
  · intro hb he
    subst he
    revert hb
    simp only [IOCTL_WAIT_MBX, MBX_timeout, mbxSkipsWait, hN]
    split_ifs <;> simp_all
  · intro v hb he
    subst he
    revert hb
    simp only [IOCTL_WAIT_MBX, MBX_timeout, mbxSkipsWait, hN]
    split_ifs <;> simp_all


/-! ## C11: ownership of the DMA channel -/

/-- C11.  `IOCTL_REQUEST_DMA` with argument `n` returns `1` exactly when the
channel is unowned (`dma_in_use = 0`) and the DMA buffer exists, and `0`
otherwise.  When it returns `1`, `dma_in_use` is `1` and `dmaBufSize` is
`0x20000 / n` for `n > 0` (and `0` for `n = 0`); when it returns `0`,
`dma_in_use` and `dmaBufSize` are unchanged.  `IOCTL_RELEASE_DMA` clears
`dma_in_use` and `dma_blt_berr`, and a request that follows it returns `1`
(the DMA buffer of a loaded driver exists). -/
theorem dma_request_release (st : State) (n fuel : Nat) :
    ((universeII_ioctl_dma st (DmaCmd.REQUEST_DMA n) fuel).val = some 1 ↔
      (st.dma.dma_in_use = 0 ∧ st.dma.dmaBuf ≠ 0)) ∧
    ((universeII_ioctl_dma st (DmaCmd.REQUEST_DMA n) fuel).val = some 1 ∨
      (universeII_ioctl_dma st (DmaCmd.REQUEST_DMA n) fuel).val = some 0) ∧
    ((universeII_ioctl_dma st (DmaCmd.REQUEST_DMA n) fuel).val = some 1 →
      ((universeII_ioctl_dma st (DmaCmd.REQUEST_DMA n) fuel).state st).dma.dma_in_use = 1 ∧
      (0 < n →
        ((universeII_ioctl_dma st (DmaCmd.REQUEST_DMA n) fuel).state st).dma.dmaBufSize
          = 0x20000 / n) ∧
      (n = 0 →
        ((universeII_ioctl_dma st (DmaCmd.REQUEST_DMA n) fuel).state st).dma.dmaBufSize = 0)) ∧
    ((universeII_ioctl_dma st (DmaCmd.REQUEST_DMA n) fuel).val = some 0 →
      ((universeII_ioctl_dma st (DmaCmd.REQUEST_DMA n) fuel).state st).dma.dma_in_use
        = st.dma.dma_in_use ∧
      ((universeII_ioctl_dma st (DmaCmd.REQUEST_DMA n) fuel).state st).dma.dmaBufSize
        = st.dma.dmaBufSize) ∧
    (universeII_ioctl_dma st DmaCmd.RELEASE_DMA fuel).val = some 0 ∧
    ((universeII_ioctl_dma st DmaCmd.RELEASE_DMA fuel).state st).dma.dma_in_use = 0 ∧
    ((universeII_ioctl_dma st DmaCmd.RELEASE_DMA fuel).state st).dma.dma_blt_berr = 0 ∧
    (st.dma.dmaBuf ≠ 0 →
      (universeII_ioctl_dma ((universeII_ioctl_dma st DmaCmd.RELEASE_DMA fuel).state st)
        (DmaCmd.REQUEST_DMA n) fuel).val = some 1) := by
  have hdiv : u32 (PCI_BUF_SIZE / n) = 0x20000 / n := by
    have h1 : 0x20000 / n ≤ 0x20000 := Nat.div_le_self _ _
    have h2 : 0x20000 / n < 4294967296 := lt_of_le_of_lt h1 (by norm_num)
    simp only [u32, PCI_BUF_SIZE]
    exact Nat.mod_eq_of_lt h2
  by_cases hfree : st.dma.dma_in_use ≠ 0 ∨ st.dma.dmaBuf = 0
  · have hres : universeII_ioctl_dma st (DmaCmd.REQUEST_DMA n) fuel =
        Res.ok (0, countIoctl st) := by
      simp only [universeII_ioctl_dma, IOCTL_REQUEST_DMA, countIoctl_dma, if_pos hfree]
    rw [hres]
    refine ⟨?_, Or.inr rfl, ?_, ?_, rfl, rfl, rfl, ?_⟩
    · simp only [Res.val]
      constructor
      · intro h; simp at h
      · intro h; omega
    · intro h; simp [Res.val] at h
    · intro _; exact ⟨rfl, rfl⟩
    · intro hb
      simp [universeII_ioctl_dma, IOCTL_REQUEST_DMA, IOCTL_RELEASE_DMA, Res.state, Res.val, hb]
  · have hres : universeII_ioctl_dma st (DmaCmd.REQUEST_DMA n) fuel =
        Res.ok (1, setDma (if n ≠ 0 then
            setDma (countIoctl st) fun d => { d with dmaBufSize := u32 (PCI_BUF_SIZE / n) }
          else setDma (countIoctl st) fun d => { d with dmaBufSize := 0 })
          fun d => { d with dma_in_use := 1 }) := by
      simp only [universeII_ioctl_dma, IOCTL_REQUEST_DMA, countIoctl_dma, if_neg hfree]
    rw [hres]
    refine ⟨?_, Or.inl rfl, ?_, ?_, rfl, rfl, rfl, ?_⟩
    · simp only [Res.val, true_iff]
      omega
    · intro _
      refine ⟨rfl, ?_, ?_⟩
      · intro hn
        have : n ≠ 0 := by omega
        simp [Res.state, this, hdiv]
      · intro hn
        simp [Res.state, hn]
    · intro h; simp [Res.val] at h
    · intro hb
      simp [universeII_ioctl_dma, IOCTL_REQUEST_DMA, IOCTL_RELEASE_DMA, Res.state, Res.val, hb]

/-! ## C12: the padding of a DMA transfer -/

/-- The mask `& 0x7` is the remainder modulo 8. -/
theorem and7 (x : Nat) : x &&& 7 = x % 8 := by
  have := Nat.and_pow_two_sub_one_eq_mod x 3
  simpa using this

/-- The variable `offset` of a one-shot transfer is the padding in both
branches of the comparison of the low three bits. -/
theorem dmaOffset_eq (dmaParam : dma_param_t) (pci : Nat) :
    dmaOffset dmaParam pci = alignOffset dmaParam.addr pci := by
  unfold dmaOffset
  split_ifs with h
  · simp only [alignOffset, and7] at h ⊢
    omega
  · rfl


/-- After `execDMA`, `testAndClearDMAErrors` returns the error code of the
run. -/
theorem testAndClear_after_exec (st : State) (chain : Nat) (run : DmaRun) :
    (testAndClearDMAErrors (execDMA st chain run)).1 = dmaErrorCode run := by
  simp only [testAndClearDMAErrors, execDMA, DMA_timeout, dmaErrorCode]
  cases run.timeout <;> simp <;> split_ifs <;> simp

/-- Register `DTBC` after `execDMA` and `testAndClearDMAErrors`. -/
theorem testAndClear_after_exec_dtbc (st : State) (chain : Nat) (run : DmaRun) :
    readl (testAndClearDMAErrors (execDMA st chain run)).2 DTBC = u32 run.dtbc := by
  simp only [testAndClearDMAErrors, execDMA, DMA_timeout]
  cases run.timeout <;> simp <;> split_ifs <;> simp

/-- The DMA variables after `execDMA` and `testAndClearDMAErrors`. -/
theorem testAndClear_after_exec_dma (st : State) (chain : Nat) (run : DmaRun) :
    (testAndClearDMAErrors (execDMA st chain run)).2.dma = st.dma := by
  simp only [testAndClearDMAErrors, execDMA, DMA_timeout]
  cases run.timeout <;> simp <;> split_ifs <;> simp

/-- The list table after `execDMA` and `testAndClearDMAErrors`. -/
theorem testAndClear_after_exec_cpLists (st : State) (chain : Nat) (run : DmaRun) :
    (testAndClearDMAErrors (execDMA st chain run)).2.cpLists = st.cpLists := by
  simp only [testAndClearDMAErrors, execDMA, DMA_timeout]
  cases run.timeout <;> simp <;> split_ifs <;> simp

/-- The list nodes after `execDMA` and `testAndClearDMAErrors`. -/
theorem testAndClear_after_exec_packets (st : State) (chain : Nat) (run : DmaRun) :
    (testAndClearDMAErrors (execDMA st chain run)).2.packets =
      (markProcessed st run.processed).packets := by
  simp only [testAndClearDMAErrors, execDMA, DMA_timeout]
  cases run.timeout <;> simp <;> split_ifs <;> rfl

/-- The value returned by a one-shot DMA read that passes the range checks
while the engine is idle. -/
theorem read_dma_ret (st : State) (p : dma_param_t) (run : DmaRun)
    (hacc : dmaAccepted st p) (hidle : dmaIdle st) :
    (universeII_read_dma st (some p) run).1 =
      if (if st.dma.dma_blt_berr ≠ 0 ∧ dmaErrorCode run = 0x200 then
            (if u32 p.count > u32 run.dtbc then 0 else dmaErrorCode run)
          else dmaErrorCode run) ≠ 0
      then -1 else (alignOffset p.addr (dmaPci st p) : Int) := by
  obtain ⟨h1, h2⟩ := hacc
  have h3 : ¬ (readl st DGCS &&& 0x00008000 ≠ 0) := fun hne => hne hidle
  have e1 : dmaPci (setDma (countRead st) fun d =>
      { d with dma_dctl := u32 (p.dma_ctl ||| p.vas ||| p.vdw) }) p = dmaPci st p := rfl
  simp only [universeII_read_dma, countRead_dma, setDma_dma, e1]
  simp only [if_neg h1, if_neg h2]
  have h3' : ¬ (readl (setDma (countRead st) fun d =>
      { d with dma_dctl := u32 (p.dma_ctl ||| p.vas ||| p.vdw) }) DGCS &&& 0x00008000 ≠ 0) := h3
  simp only [if_neg h3', testAndClear_after_exec, dmaOffset_eq, testAndClear_after_exec_dtbc,
    testAndClear_after_exec_dma, writel_dma, setDma_dma, countRead_dma]
  split_ifs <;> rfl

/-- The value returned by a one-shot DMA write that passes the range checks
while the engine is idle. -/
theorem write_dma_ret (st : State) (p : dma_param_t) (run : DmaRun)
    (hacc : dmaAccepted st p) (hidle : dmaIdle st) :
    (universeII_write_dma st (some p) run).1 =
      if dmaErrorCode run ≠ 0 then -1 else (alignOffset p.addr (dmaPci st p) : Int) := by
  obtain ⟨h1, h2⟩ := hacc
  have h3 : ¬ (readl st DGCS &&& 0x00008000 ≠ 0) := fun hne => hne hidle
  have e1 : dmaPci (setDma (countWrite st) fun d =>
      { d with dma_dctl := u32 (p.dma_ctl ||| p.vas ||| p.vdw) }) p = dmaPci st p := rfl
  simp only [universeII_write_dma, countWrite_dma, setDma_dma, e1]
  simp only [if_neg h1, if_neg h2]
  have h3' : ¬ (readl (setDma (countWrite st) fun d =>
      { d with dma_dctl := u32 (p.dma_ctl ||| p.vas ||| p.vdw) }) DGCS &&& 0x00008000 ≠ 0) := h3
  simp only [if_neg h3', testAndClear_after_exec, dmaOffset_eq]
  split_ifs <;> rfl

/-- The register `DLA` after a one-shot DMA read or write that passes the
range checks while the engine is idle: the local address plus the padding. -/
theorem dma_dla (st : State) (p : dma_param_t) (run : DmaRun)
    (hacc : dmaAccepted st p) (hidle : dmaIdle st) :
    readl (universeII_read_dma st (some p) run).2 DLA =
      u32 (dmaPci st p + alignOffset p.addr (dmaPci st p)) ∧
    readl (universeII_write_dma st (some p) run).2 DLA =
      u32 (dmaPci st p + alignOffset p.addr (dmaPci st p)) := by
  obtain ⟨h1, h2⟩ := hacc
  have h3 : ¬ (readl st DGCS &&& 0x00008000 ≠ 0) := fun hne => hne hidle
  have e1 : dmaPci (setDma (countRead st) fun d =>
      { d with dma_dctl := u32 (p.dma_ctl ||| p.vas ||| p.vdw) }) p = dmaPci st p := rfl
  have e2 : dmaPci (setDma (countWrite st) fun d =>
      { d with dma_dctl := u32 (p.dma_ctl ||| p.vas ||| p.vdw) }) p = dmaPci st p := rfl
  have h3' : ¬ (readl (setDma (countRead st) fun d =>
      { d with dma_dctl := u32 (p.dma_ctl ||| p.vas ||| p.vdw) }) DGCS &&& 0x00008000 ≠ 0) := h3
  have h3'' : ¬ (readl (setDma (countWrite st) fun d =>
      { d with dma_dctl := u32 (p.dma_ctl ||| p.vas ||| p.vdw) }) DGCS &&& 0x00008000 ≠ 0) := h3
  constructor
  · simp only [universeII_read_dma, countRead_dma, setDma_dma, e1]
    simp only [if_neg h1, if_neg h2, if_neg h3', dmaOffset_eq]
    simp only [testAndClearDMAErrors, execDMA, DMA_timeout]
    cases run.timeout <;> simp <;> split_ifs <;> simp
  · simp only [universeII_write_dma, countWrite_dma, setDma_dma, e2]
    simp only [if_neg h1, if_neg h2, if_neg h3'', dmaOffset_eq]
    simp only [testAndClearDMAErrors, execDMA, DMA_timeout]
    cases run.timeout <;> simp <;> split_ifs <;> simp


/-! ### The registers and the list node of a transfer -/

/-- The node at an address after an assignment through a pointer. -/
theorem packetAt_setPacket (st : State) (p q : Nat) (v : Option kcp) :
    packetAt (setPacket st p v) q = if q = 0 then none else if q = p then v else st.packets q :=
  rfl

/-- The register `DVA` after a one-shot DMA read or write that passes the
range checks while the engine is idle: the VME address. -/
theorem dma_dva (st : State) (p : dma_param_t) (run : DmaRun)
    (hacc : dmaAccepted st p) (hidle : dmaIdle st) :
    readl (universeII_read_dma st (some p) run).2 DVA = u32 p.addr ∧
    readl (universeII_write_dma st (some p) run).2 DVA = u32 p.addr := by
  obtain ⟨h1, h2⟩ := hacc
  have h3 : ¬ (readl st DGCS &&& 0x00008000 ≠ 0) := fun hne => hne hidle
  have e1 : dmaPci (setDma (countRead st) fun d =>
      { d with dma_dctl := u32 (p.dma_ctl ||| p.vas ||| p.vdw) }) p = dmaPci st p := rfl
  have e2 : dmaPci (setDma (countWrite st) fun d =>
      { d with dma_dctl := u32 (p.dma_ctl ||| p.vas ||| p.vdw) }) p = dmaPci st p := rfl
  have h3' : ¬ (readl (setDma (countRead st) fun d =>
      { d with dma_dctl := u32 (p.dma_ctl ||| p.vas ||| p.vdw) }) DGCS &&& 0x00008000 ≠ 0) := h3
  have h3'' : ¬ (readl (setDma (countWrite st) fun d =>
      { d with dma_dctl := u32 (p.dma_ctl ||| p.vas ||| p.vdw) }) DGCS &&& 0x00008000 ≠ 0) := h3
  constructor
  · simp only [universeII_read_dma, countRead_dma, setDma_dma, e1]
    simp only [if_neg h1, if_neg h2, if_neg h3', dmaOffset_eq]
    simp only [testAndClearDMAErrors, execDMA, DMA_timeout]
    cases run.timeout <;> simp <;> split_ifs <;> simp
  · simp only [universeII_write_dma, countWrite_dma, setDma_dma, e2]
    simp only [if_neg h1, if_neg h2, if_neg h3'', dmaOffset_eq]
    simp only [testAndClearDMAErrors, execDMA, DMA_timeout]
    cases run.timeout <;> simp <;> split_ifs <;> simp

/-- The pure facts about the padding. -/
theorem alignOffset_facts (v p : Nat) :
    alignOffset v p ≤ 7 ∧ (p + alignOffset v p) &&& 7 = v &&& 7 ∧
    (alignOffset v p = 0 ↔ p &&& 7 = v &&& 7) ∧
    (v &&& 7 = 5 → p &&& 7 = 2 → alignOffset v p = 3) ∧
    u32 (p + alignOffset v p) &&& 7 = u32 v &&& 7 ∧
    add32 p (alignOffset v p) &&& 7 = u32 v &&& 7 := by
  simp only [alignOffset, and7, u32, add32]
  refine ⟨?_, ?_, ?_, ?_, ?_, ?_⟩ <;> omega

/-- A successful second half of `IOCTL_ADD_DCP` returns the padding for the
VME address of the segment and the address that follows the former last
segment, and places the new segment there. -/
theorem addDcpFill_ok (st : State) (lp : list_packet_t) (newP ptr : Nat) (r : Int × State)
    (h : addDcpFill st lp newP ptr = Res.ok r) (hr : r.1 ≠ -1) :
    ∃ dla n, r.1 = (alignOffset (u32 lp.dva) dla : Int) ∧ packetAt r.2 newP = some n ∧
      n.dcp.dla = add32 dla (alignOffset (u32 lp.dva) dla) ∧ n.pciStart = n.dcp.dla ∧
      n.dcp.dva = u32 lp.dva ∧ n.dcp.dtbc = u32 lp.dtbc ∧ n.next = 0 ∧ n.dcp.dcpp = 1 ∧
      ¬ (add32 n.pciStart lp.dtbc > st.dma.dmaHandle + PCI_BUF_SIZE) ∧
      (ptr = 0 → dla = u32 st.dma.dmaHandle) ∧
      (ptr ≠ 0 → ptr ≠ newP → ∃ t, packetAt st ptr = some t ∧
        dla = add32 t.pciStart t.dcp.dtbc) := by
  unfold addDcpFill at h
  cases hn : packetAt st newP with
  | none => simp [hn] at h
  | some n0 =>
    have hne : newP ≠ 0 := by
      intro h0; simp [packetAt, h0] at hn
    simp only [hn] at h
    by_cases hp : ptr = 0
    · simp only [if_pos hp] at h
      split_ifs at h with hov
      cases h
      refine ⟨u32 st.dma.dmaHandle,
        ⟨⟨u32 lp.dctl, u32 lp.dtbc,
          add32 (u32 st.dma.dmaHandle) (alignOffset (u32 lp.dva) (u32 st.dma.dmaHandle)),
          u32 lp.dva, 1⟩,
          add32 (u32 st.dma.dmaHandle) (alignOffset (u32 lp.dva) (u32 st.dma.dmaHandle)), 0⟩,
        rfl, ?_, rfl, rfl, rfl, rfl, rfl, rfl, hov, fun _ => rfl, fun h0 => absurd hp h0⟩
      rw [packetAt_setPacket, if_neg hne, if_pos rfl]; rfl
    · simp only [if_neg hp] at h
      cases ht : packetAt (setPacket st newP (some
          { n0 with next := 0,
                    dcp := { n0.dcp with dctl := u32 lp.dctl, dtbc := u32 lp.dtbc,
                                         dva := u32 lp.dva, dcpp := 0x00000001 } })) ptr with
      | none => simp [ht] at h
      | some t =>
        simp only [ht] at h
        split_ifs at h with hov
        · cases h; exact absurd rfl hr
        · simp only [packetAt_setPacket, if_neg hne, if_true] at h
          cases h
          refine ⟨add32 t.pciStart t.dcp.dtbc,
            ⟨⟨u32 lp.dctl, u32 lp.dtbc,
              add32 (add32 t.pciStart t.dcp.dtbc)
                (alignOffset (u32 lp.dva) (add32 t.pciStart t.dcp.dtbc)),
              u32 lp.dva, 1⟩,
              add32 (add32 t.pciStart t.dcp.dtbc)
                (alignOffset (u32 lp.dva) (add32 t.pciStart t.dcp.dtbc)), 0⟩,
            rfl, ?_, rfl, rfl, rfl, rfl, rfl, rfl, hov, fun h0 => absurd h0 hp, ?_⟩
          · rw [packetAt_setPacket, if_neg hne, if_pos rfl]
          · intro _ hpn
            refine ⟨t, ?_, rfl⟩
            simpa [packetAt_setPacket, hp, hpn, packetAt] using ht


/-- A successful `IOCTL_ADD_DCP` ends in a successful second half, on a state
with the same DMA variables. -/
theorem IOCTL_ADD_DCP_fill (st : State) (lp : list_packet_t) (newP busAddr fuel : Nat)
    (r : Int × State) (h : IOCTL_ADD_DCP st (some lp) newP busAddr fuel = Res.ok r)
    (hr : r.1 ≠ -1) :
    ∃ st' ptr, addDcpFill st' lp newP ptr = Res.ok r ∧ st'.dma = st.dma := by
  simp only [IOCTL_ADD_DCP] at h
  generalize hs1 : (if newP ≠ 0 then setPacket st newP (some kcp.zero) else st) = st1 at h
  have hd : st1.dma = st.dma := by rw [← hs1]; split_ifs <;> rfl
  by_cases hp : (st1.cpLists lp.list).commandPacket = 0
  · rw [if_pos hp] at h
    exact ⟨_, _, h, by simpa using hd⟩
  · rw [if_neg hp] at h
    cases hft : findTail st1 fuel (st1.cpLists lp.list).commandPacket with
    | invalid => simp only [hft] at h; cases h
    | unfinished => simp only [hft] at h; cases h
    | ok tail =>
      simp only [hft] at h
      cases ht : packetAt st1 tail with
      | none => simp only [ht] at h; cases h
      | some t =>
        simp only [ht] at h
        by_cases ha : u32 busAddr &&& 0x0000001F ≠ 0
        · rw [if_pos ha] at h; cases h; exact absurd rfl hr
        · rw [if_neg ha] at h; exact ⟨_, _, h, by simpa using hd⟩

/-- The walk to the last node of a list is not changed by the allocation of
a fresh node, and does not end at the fresh node. -/
theorem findTail_fresh (st : State) (newP : Nat) (x : Option kcp)
    (hfresh : packetAt st newP = none) :
    ∀ (fuel p tail : Nat), findTail st fuel p = Res.ok tail →
      findTail (setPacket st newP x) fuel p = Res.ok tail ∧ tail ≠ newP ∧ tail ≠ 0 ∧
      packetAt (setPacket st newP x) tail = packetAt st tail := by
  intro fuel
  induction fuel with
  | zero => intro p tail h; cases h
  | succ f ih =>
    intro p tail h
    cases hp : packetAt st p with
    | none => simp only [findTail, hp] at h; cases h
    | some n =>
      have hpn : p ≠ newP := by
        intro e; rw [e, hfresh] at hp; cases hp
      have hp0 : p ≠ 0 := by
        intro e; simp [packetAt, e] at hp
      have hp' : packetAt (setPacket st newP x) p = packetAt st p := by
        rw [packetAt_setPacket, if_neg hp0, if_neg hpn]
        simp [packetAt, hp0]
      simp only [findTail, hp] at h
      simp only [findTail, hp', hp]
      by_cases hnx : n.next ≠ 0
      · rw [if_pos hnx] at h ⊢
        exact ih _ _ h
      · rw [if_neg hnx] at h ⊢
        cases h
        exact ⟨rfl, hpn, hp0, hp'⟩

/-- A successful `IOCTL_ADD_DCP` with a fresh node returns the padding for
the VME address of the segment and the address `addDcpBase` of the state
before the call, and places the segment at that address plus the padding. -/
theorem add_dcp_returns_padding (st : State) (lp : list_packet_t)
    (newP busAddr fuel dla : Nat) (r : Int × State)
    (hfresh : packetAt st newP = none) (hb : addDcpBase st lp.list fuel = some dla)
    (h : IOCTL_ADD_DCP st (some lp) newP busAddr fuel = Res.ok r) (hr : r.1 ≠ -1) :
    r.1 = (alignOffset (u32 lp.dva) dla : Int) ∧
    ∃ n, packetAt r.2 newP = some n ∧
      n.dcp.dla = add32 dla (alignOffset (u32 lp.dva) dla) ∧ n.pciStart = n.dcp.dla ∧
      n.dcp.dva = u32 lp.dva ∧ n.dcp.dtbc = u32 lp.dtbc := by
  have hne : newP ≠ 0 := by
    obtain ⟨st', ptr, hf, _⟩ := IOCTL_ADD_DCP_fill st lp newP busAddr fuel r h hr
    intro e
    rw [e] at hf
    simp [addDcpFill, packetAt] at hf
  simp only [IOCTL_ADD_DCP, if_pos hne] at h
  simp only [addDcpBase] at hb
  have hcl : (setPacket st newP (some kcp.zero)).cpLists = st.cpLists := rfl
  rw [hcl] at h
  by_cases hp : (st.cpLists lp.list).commandPacket = 0
  · rw [if_pos hp] at h hb
    cases hb
    obtain ⟨dla', n, e1, e2, e3, e4, e5, e6, _, _, _, e10, _⟩ := addDcpFill_ok _ lp newP 0 r h hr
    have hd : dla' = u32 st.dma.dmaHandle := e10 rfl
    subst hd
    exact ⟨e1, n, e2, e3, e4, e5, e6⟩
  · rw [if_neg hp] at h hb
    cases hft : findTail st fuel (st.cpLists lp.list).commandPacket with
    | invalid => simp only [hft] at hb; cases hb
    | unfinished => simp only [hft] at hb; cases hb
    | ok tail =>
      simp only [hft] at hb
      obtain ⟨g1, g2, g3, g4⟩ := findTail_fresh st newP (some kcp.zero) hfresh fuel _ tail hft
      cases ht : packetAt st tail with
      | none => simp only [ht] at hb; cases hb
      | some t =>
        simp only [ht] at hb
        cases hb
        rw [ht] at g4
        simp only [g1, g4] at h
        by_cases ha : u32 busAddr &&& 0x0000001F ≠ 0
        · rw [if_pos ha] at h
          cases h
          exact absurd rfl hr
        · rw [if_neg ha] at h
          obtain ⟨dla', n, e1, e2, e3, e4, e5, e6, _, _, _, _, e11⟩ :=
            addDcpFill_ok _ lp newP tail r h hr
          obtain ⟨t', et, ed⟩ := e11 g3 g2
          rw [packetAt_setPacket, if_neg g3, if_pos rfl] at et
          cases et
          subst ed
          exact ⟨e1, n, e2, e3, e4, e5, e6⟩

/-- C12. The padding `off = (((v & 7) + 8) - (p & 7)) & 7` lies in `0..7`,
makes the low three bits of `p + off` equal to those of `v`, and is `0`
exactly when they agree already; for `v` ending in `0b101` and `p` ending in
`0b010` it is `3`.  A successful one-shot DMA read or write returns the
padding for its VME address and local address and programs `DLA` and `DVA`
with equal low three bits.  A successful `IOCTL_ADD_DCP` with a fresh node
returns the padding for the VME address of the segment and the local address
`dla` that the code starts from, which is `dmaHandle` for an empty list and
the address following the last segment otherwise (`addDcpBase`), and places
the segment at `dla` plus the padding, an address with the low three bits of
the VME address. -/
theorem dma_padding_offset :
    (∀ v p : Nat, alignOffset v p ≤ 7 ∧ (p + alignOffset v p) &&& 7 = v &&& 7 ∧
      (alignOffset v p = 0 ↔ p &&& 7 = v &&& 7) ∧
      (v &&& 7 = 5 → p &&& 7 = 2 → alignOffset v p = 3)) ∧
    (∀ (st : State) (prm : dma_param_t) (run : DmaRun), dmaAccepted st prm → dmaIdle st →
      ((universeII_read_dma st (some prm) run).1 ≠ -1 →
        (universeII_read_dma st (some prm) run).1 =
          (alignOffset prm.addr (dmaPci st prm) : Int)) ∧
      ((universeII_write_dma st (some prm) run).1 ≠ -1 →
        (universeII_write_dma st (some prm) run).1 =
          (alignOffset prm.addr (dmaPci st prm) : Int)) ∧
      readl (universeII_read_dma st (some prm) run).2 DLA &&& 7 =
        readl (universeII_read_dma st (some prm) run).2 DVA &&& 7 ∧
      readl (universeII_write_dma st (some prm) run).2 DLA &&& 7 =
        readl (universeII_write_dma st (some prm) run).2 DVA &&& 7) ∧
    (∀ (st : State) (lp : list_packet_t) (newP busAddr fuel dla : Nat) (r : Int × State),
      packetAt st newP = none → addDcpBase st lp.list fuel = some dla →
      IOCTL_ADD_DCP st (some lp) newP busAddr fuel = Res.ok r → r.1 ≠ -1 →
      r.1 = (alignOffset lp.dva dla : Int) ∧
      ∃ n, packetAt r.2 newP = some n ∧
        n.dcp.dla = add32 dla (alignOffset lp.dva dla) ∧ n.pciStart = n.dcp.dla ∧
        n.dcp.dva = u32 lp.dva ∧ n.dcp.dla &&& 7 = n.dcp.dva &&& 7) := by
  refine ⟨fun v p => ?_, fun st prm run hacc hidle => ?_,
    fun st lp newP busAddr fuel dla r hfresh hb h hr => ?_⟩
  · obtain ⟨h1, h2, h3, h4, _, _⟩ := alignOffset_facts v p
    exact ⟨h1, h2, h3, h4⟩
  · refine ⟨fun hne => ?_, fun hne => ?_, ?_, ?_⟩
    · rw [read_dma_ret st prm run hacc hidle] at hne ⊢
      split_ifs at hne ⊢
      all_goals first | rfl | exact absurd rfl hne
    · rw [write_dma_ret st prm run hacc hidle] at hne ⊢
      split_ifs at hne ⊢
      all_goals first | rfl | exact absurd rfl hne
    · rw [(dma_dla st prm run hacc hidle).1, (dma_dva st prm run hacc hidle).1]
      exact (alignOffset_facts prm.addr (dmaPci st prm)).2.2.2.2.1
    · rw [(dma_dla st prm run hacc hidle).2, (dma_dva st prm run hacc hidle).2]
      exact (alignOffset_facts prm.addr (dmaPci st prm)).2.2.2.2.1
  · obtain ⟨e1, n, e2, e3, e4, e5, _⟩ :=
      add_dcp_returns_padding st lp newP busAddr fuel dla r hfresh hb h hr
    have hv : alignOffset (u32 lp.dva) dla = alignOffset lp.dva dla := by
      simp only [alignOffset, and7, u32]; omega
    rw [hv] at e1 e3
    refine ⟨e1, n, e2, e3, e4, e5, ?_⟩
    rw [e3, e5]
    exact (alignOffset_facts lp.dva dla).2.2.2.2.2

set_option maxRecDepth 100000 in
/-- C12, on examples: VME address `0x1005` and local address `0x3000002` give
padding `3`; the example read and the example write through slice 1 return
`5`.  The first segment appended to list 0 (VME address `0x10005`) starts
from `dmaHandle = 0x3000000` and gets padding `5`; a second segment with VME
address `0x20002` starts from `0x3000105`, the end of the first, and gets
padding `5`, so it is placed at `0x300010A`. -/
theorem dma_padding_offset_witness :
    alignOffset 0x1005 0x3000002 = 3 ∧
    (universeII_read_dma exampleDmaOwned (some exampleDmaParam) exampleRunDone).1 =
      (alignOffset 0x10005 0x3008000 : Int) ∧
    (universeII_write_dma exampleDmaOwned (some exampleDmaParam) exampleRunDone).1 =
      (alignOffset 0x10005 0x3008000 : Int) ∧
    addDcpBase exampleListNew 0 8 = some 0x3000000 ∧
    (5 : Int) = (alignOffset 0x10005 0x3000000 : Int) ∧
    addDcpBase exampleListOne 0 8 = some 0x3000105 ∧
    ((5 : Int) = (alignOffset 0x20002 0x3000105 : Int) ∧
      ∃ n, packetAt (Res.state
          (IOCTL_ADD_DCP exampleListOne (some examplePacketTwo) 0x2000 0x4000020 8)
          exampleListOne) 0x2000 = some n ∧
        n.dcp.dla = add32 0x3000105 (alignOffset 0x20002 0x3000105) ∧
        n.pciStart = n.dcp.dla ∧ n.dcp.dva = u32 0x20002 ∧
        n.dcp.dla &&& 7 = n.dcp.dva &&& 7) :=
  ⟨(dma_padding_offset.1 0x1005 0x3000002).2.2.2 (by decide) (by decide),
   (dma_padding_offset.2.1 exampleDmaOwned exampleDmaParam exampleRunDone (by decide)
      (by decide)).1 (by decide),
   (dma_padding_offset.2.1 exampleDmaOwned exampleDmaParam exampleRunDone (by decide)
      (by decide)).2.1 (by decide),
   by decide,
   (dma_padding_offset.2.2 exampleListNew examplePacket 0x1000 0x4000000 8 0x3000000
     (5, Res.state (IOCTL_ADD_DCP exampleListNew (some examplePacket) 0x1000 0x4000000 8)
        exampleListNew) (by decide) (by decide) rfl (by decide)).1,
   by decide,
   dma_padding_offset.2.2 exampleListOne examplePacketTwo 0x2000 0x4000020 8 0x3000105
     (5, Res.state (IOCTL_ADD_DCP exampleListOne (some examplePacketTwo) 0x2000 0x4000020 8)
        exampleListOne) (by decide) (by decide) rfl (by decide)⟩


/-! ## C13: the range check of a one-shot transfer -/

/-- With four slices of `0x8000` bytes, a one-shot read or write of `0x10000`
bytes through slice 0 is not rejected: it programs the engine (`DVA` and
`DLA`) and returns `0`, the padding. -/
theorem dma_count_above_slice_accepted :
    exampleDmaOwned.dma.dmaBufSize = 0x8000 ∧ exampleDmaTwoSlices.count = 0x10000 ∧
    readl exampleDmaOwned DVA = 0 ∧ readl exampleDmaOwned DLA = 0 ∧
    (universeII_read_dma exampleDmaOwned (some exampleDmaTwoSlices) exampleRunDone).1 = 0 ∧
    readl (universeII_read_dma exampleDmaOwned (some exampleDmaTwoSlices) exampleRunDone).2 DVA
      = 0x10000 ∧
    readl (universeII_read_dma exampleDmaOwned (some exampleDmaTwoSlices) exampleRunDone).2 DLA
      = 0x3000000 ∧
    (universeII_write_dma exampleDmaOwned (some exampleDmaTwoSlices) exampleRunDone).1 = 0 ∧
    readl (universeII_write_dma exampleDmaOwned (some exampleDmaTwoSlices) exampleRunDone).2 DVA
      = 0x10000 ∧
    readl (universeII_write_dma exampleDmaOwned (some exampleDmaTwoSlices) exampleRunDone).2 DLA
      = 0x3000000 := by
  decide

/-- C13 (amended). A one-shot DMA read or write returns `-1` and leaves
every register as it was whenever `bufNr * S + count` exceeds the pool of
`0x20000` bytes (for arguments whose sum stays below `2^32`), where `S` is
the slice size `dmaBufSize`; a successful `IOCTL_REQUEST_DMA` with argument
`n` sets `S` to `0x20000 / n`, and to `0` for `n = 0`.  There is no check of
`count` against `S` itself. -/
theorem dma_pool_bound_check (st : State) (prm : dma_param_t) (run : DmaRun)
    (hsum : st.dma.dmaBufSize * prm.bufNr + prm.count > PCI_BUF_SIZE)
    (hwrap : st.dma.dmaBufSize * prm.bufNr + prm.count < 4294967296) :
    (universeII_read_dma st (some prm) run).1 = -1 ∧
    (universeII_read_dma st (some prm) run).2.regs = st.regs ∧
    (universeII_write_dma st (some prm) run).1 = -1 ∧
    (universeII_write_dma st (some prm) run).2.regs = st.regs ∧
    (∀ (st0 : State) (n : Nat), (IOCTL_REQUEST_DMA st0 n).1 = 1 →
      (IOCTL_REQUEST_DMA st0 n).2.dma.dmaBufSize = if n = 0 then 0 else 0x20000 / n) := by
  have h1 : add32 (mul32 st.dma.dmaBufSize prm.bufNr) prm.count > PCI_BUF_SIZE := by
    simp only [add32, mul32]
    generalize st.dma.dmaBufSize * prm.bufNr = m at hsum hwrap ⊢
    omega
  refine ⟨?_, ?_, ?_, ?_, fun st0 n hn => ?_⟩
  · simp only [universeII_read_dma, countRead_dma, if_pos h1]
  · simp only [universeII_read_dma, countRead_dma, if_pos h1, countRead_regs]
  · simp only [universeII_write_dma, countWrite_dma, if_pos h1]
  · simp only [universeII_write_dma, countWrite_dma, if_pos h1, countWrite_regs]
  · simp only [IOCTL_REQUEST_DMA] at hn ⊢
    by_cases hg : st0.dma.dma_in_use ≠ 0 ∨ st0.dma.dmaBuf = 0
    · rw [if_pos hg] at hn; simp at hn
    · rw [if_neg hg]
      by_cases h0 : n = 0
      · simp [h0]
      · have h2 : 0x20000 / n < 4294967296 :=
          lt_of_le_of_lt (Nat.div_le_self _ _) (by norm_num)
        simp [h0, u32, PCI_BUF_SIZE, Nat.mod_eq_of_lt h2]

/-- C13, on an example: with four slices of `0x8000` bytes, a transfer of
`0x8001` bytes through slice 3 is rejected. -/
theorem dma_pool_bound_check_witness :
    (universeII_read_dma exampleDmaOwned (some exampleDmaPastPool) exampleRunDone).1 = -1 ∧
    (universeII_read_dma exampleDmaOwned (some exampleDmaPastPool) exampleRunDone).2.regs =
      exampleDmaOwned.regs ∧
    (universeII_write_dma exampleDmaOwned (some exampleDmaPastPool) exampleRunDone).1 = -1 ∧
    (universeII_write_dma exampleDmaOwned (some exampleDmaPastPool) exampleRunDone).2.regs =
      exampleDmaOwned.regs ∧
    (∀ (st0 : State) (n : Nat), (IOCTL_REQUEST_DMA st0 n).1 = 1 →
      (IOCTL_REQUEST_DMA st0 n).2.dma.dmaBufSize = if n = 0 then 0 else 0x20000 / n) :=
  dma_pool_bound_check exampleDmaOwned exampleDmaPastPool exampleRunDone (by decide) (by decide)


/-! ## C14: the local address range of a one-shot transfer -/

/-- C14. A one-shot read or write of `0x20000` bytes at a VME address ending
in `0b101`, through slice 0 of a buffer at `0x3000000`, passes both range
checks; the engine is programmed with `DLA = 0x3000005`, and
`DLA + count = 0x3020005` lies beyond the end `0x3020000` of the buffer. -/
theorem dma_padded_range_exceeds_buffer :
    exampleDmaOwned.dma.dmaHandle = 0x3000000 ∧
    dmaAccepted exampleDmaOwned exampleDmaWholePool ∧ dmaIdle exampleDmaOwned ∧
    (universeII_read_dma exampleDmaOwned (some exampleDmaWholePool) exampleRunDone).1 = 5 ∧
    readl (universeII_read_dma exampleDmaOwned (some exampleDmaWholePool) exampleRunDone).2 DLA
      = 0x3000005 ∧
    (universeII_write_dma exampleDmaOwned (some exampleDmaWholePool) exampleRunDone).1 = 5 ∧
    readl (universeII_write_dma exampleDmaOwned (some exampleDmaWholePool) exampleRunDone).2 DLA
      = 0x3000005 ∧
    ¬ (readl (universeII_read_dma exampleDmaOwned (some exampleDmaWholePool) exampleRunDone).2
          DLA + exampleDmaWholePool.count ≤ exampleDmaOwned.dma.dmaHandle + 0x20000) := by
  decide

/-! ## C15: a one-shot transfer while the engine is active -/

/-- While the `ACT` bit of `DGCS` is set, a one-shot read or write that
passes the range checks leaves every register as it was and returns `0`. -/
theorem dma_active_result (st : State) (prm : dma_param_t) (run : DmaRun)
    (hacc : dmaAccepted st prm) (hact : ¬ dmaIdle st) :
    (universeII_read_dma st (some prm) run).1 = 0 ∧
    (universeII_read_dma st (some prm) run).2.regs = st.regs ∧
    (universeII_write_dma st (some prm) run).1 = 0 ∧
    (universeII_write_dma st (some prm) run).2.regs = st.regs := by
  obtain ⟨h1, h2⟩ := hacc
  have h3 : readl st DGCS &&& 0x00008000 ≠ 0 := hact
  have e1 : dmaPci (setDma (countRead st) fun d =>
      { d with dma_dctl := u32 (prm.dma_ctl ||| prm.vas ||| prm.vdw) }) prm = dmaPci st prm := rfl
  have e2 : dmaPci (setDma (countWrite st) fun d =>
      { d with dma_dctl := u32 (prm.dma_ctl ||| prm.vas ||| prm.vdw) }) prm = dmaPci st prm := rfl
  have h3' : readl (setDma (countRead st) fun d =>
      { d with dma_dctl := u32 (prm.dma_ctl ||| prm.vas ||| prm.vdw) }) DGCS &&& 0x00008000 ≠ 0 :=
    h3
  have h3'' : readl (setDma (countWrite st) fun d =>
      { d with dma_dctl := u32 (prm.dma_ctl ||| prm.vas ||| prm.vdw) }) DGCS &&& 0x00008000 ≠ 0 :=
    h3
  refine ⟨?_, ?_, ?_, ?_⟩
  · simp only [universeII_read_dma, countRead_dma, setDma_dma, e1]
    simp only [if_neg h1, if_neg h2, if_pos h3']
  · simp only [universeII_read_dma, countRead_dma, setDma_dma, e1]
    simp only [if_neg h1, if_neg h2, if_pos h3', setDma_regs, countRead_regs]
  · simp only [universeII_write_dma, countWrite_dma, setDma_dma, e2]
    simp only [if_neg h1, if_neg h2, if_pos h3'']
  · simp only [universeII_write_dma, countWrite_dma, setDma_dma, e2]
    simp only [if_neg h1, if_neg h2, if_pos h3'', setDma_regs, countWrite_regs]

/-- C15, the code at the failing input.  The aligned transfer through
slice 1 passes the range checks; while the engine is active the read and the
write leave every register as it was and return `0`, the value they also
return, as the padding, when the engine is idle and the transfer succeeds. -/
theorem dma_active_returns_zero :
    dmaAccepted exampleDmaBusy exampleDmaAligned ∧ ¬ dmaIdle exampleDmaBusy ∧
    ((universeII_read_dma exampleDmaBusy (some exampleDmaAligned) exampleRunDone).1 = 0 ∧
      (universeII_read_dma exampleDmaBusy (some exampleDmaAligned) exampleRunDone).2.regs =
        exampleDmaBusy.regs ∧
      (universeII_write_dma exampleDmaBusy (some exampleDmaAligned) exampleRunDone).1 = 0 ∧
      (universeII_write_dma exampleDmaBusy (some exampleDmaAligned) exampleRunDone).2.regs =
        exampleDmaBusy.regs) ∧
    dmaIdle exampleDmaOwned ∧ dmaErrorCode exampleRunDone = 0 ∧
    (universeII_read_dma exampleDmaOwned (some exampleDmaAligned) exampleRunDone).1 = 0 ∧
    (universeII_write_dma exampleDmaOwned (some exampleDmaAligned) exampleRunDone).1 = 0 :=
  ⟨by decide, by decide,
    dma_active_result exampleDmaBusy exampleDmaAligned exampleRunDone (by decide) (by decide),
    by decide, by decide, by decide, by decide⟩


/-! ## C16: a transfer that ends with a VME bus error -/

/-- C16. For a one-shot DMA read that passes the range checks while the
engine is idle and whose run ends with error status exactly `0x200`: the
call returns the padding iff `dma_blt_berr` is set and `DTBC` is smaller
than the requested count, and `-1` otherwise; in particular `-1` when the
flag is clear, as it is after loading the driver and after
`IOCTL_RELEASE_DMA` (`IOCTL_DMA_BLT_BERR` sets it).  A one-shot DMA write
returns `-1` on every nonzero error status, whatever the flag. -/
theorem dma_read_until_berr (st : State) (prm : dma_param_t) (run : DmaRun)
    (hacc : dmaAccepted st prm) (hidle : dmaIdle st) :
    (dmaErrorCode run = 0x200 →
      readl (universeII_read_dma st (some prm) run).2 DTBC = u32 run.dtbc ∧
      ((universeII_read_dma st (some prm) run).1 = (alignOffset prm.addr (dmaPci st prm) : Int) ↔
        st.dma.dma_blt_berr ≠ 0 ∧ u32 run.dtbc < u32 prm.count) ∧
      (¬ (st.dma.dma_blt_berr ≠ 0 ∧ u32 run.dtbc < u32 prm.count) →
        (universeII_read_dma st (some prm) run).1 = -1) ∧
      (st.dma.dma_blt_berr = 0 → (universeII_read_dma st (some prm) run).1 = -1)) ∧
    (dmaErrorCode run ≠ 0 → (universeII_write_dma st (some prm) run).1 = -1) ∧
    (∀ (img_ovl : Int) (regs : Reg → Nat) (slave : Nat → Nat × Nat) (dmabuf : Nat × Nat),
      (probe_state img_ovl regs slave dmabuf).dma.dma_blt_berr = 0) ∧
    (∀ s : State, (IOCTL_RELEASE_DMA s).2.dma.dma_blt_berr = 0 ∧
      (IOCTL_DMA_BLT_BERR s).2.dma.dma_blt_berr = 1) := by
  have hoff : (alignOffset prm.addr (dmaPci st prm) : Int) ≠ -1 := by omega
  refine ⟨fun he => ?_, fun he => ?_, fun _ _ _ _ => rfl, fun s => ⟨rfl, rfl⟩⟩
  · have hd : readl (universeII_read_dma st (some prm) run).2 DTBC = u32 run.dtbc := by
      obtain ⟨h1, h2⟩ := hacc
      have h3 : ¬ (readl st DGCS &&& 0x00008000 ≠ 0) := fun hne => hne hidle
      have e1 : dmaPci (setDma (countRead st) fun d =>
          { d with dma_dctl := u32 (prm.dma_ctl ||| prm.vas ||| prm.vdw) }) prm =
          dmaPci st prm := rfl
      have h3' : ¬ (readl (setDma (countRead st) fun d =>
          { d with dma_dctl := u32 (prm.dma_ctl ||| prm.vas ||| prm.vdw) }) DGCS &&&
            0x00008000 ≠ 0) := h3
      simp only [universeII_read_dma, countRead_dma, setDma_dma, e1]
      simp only [if_neg h1, if_neg h2, if_neg h3', dmaOffset_eq]
      split_ifs <;> exact testAndClear_after_exec_dtbc _ _ _
    rw [read_dma_ret st prm run hacc hidle, he]
    refine ⟨hd, ?_, ?_, ?_⟩
    · by_cases hb : st.dma.dma_blt_berr ≠ 0
      · by_cases hc : u32 prm.count > u32 run.dtbc
        · simp [hb, hc]
        · simp [hb, hc, hoff.symm]
      · simp [hb, hoff.symm]
    · intro hn
      by_cases hb : st.dma.dma_blt_berr ≠ 0
      · have hc : ¬ (u32 prm.count > u32 run.dtbc) := fun hc => hn ⟨hb, hc⟩
        simp [hb, hc]
      · simp [hb]
    · intro hb
      simp [hb]
  · rw [write_dma_ret st prm run hacc hidle, if_pos he]

/-- C16, on an example: the read of `0x100` bytes whose run ends with a bus
error after `0x80` bytes returns the padding `5` in the permissive mode and
`-1` otherwise; the write returns `-1` in both modes. -/
theorem dma_read_until_berr_witness :
    dmaErrorCode exampleRunBerr = 0x200 ∧
    (universeII_read_dma exampleDmaPermissive (some exampleDmaParam) exampleRunBerr).1 = 5 ∧
    (universeII_read_dma exampleDmaOwned (some exampleDmaParam) exampleRunBerr).1 = -1 ∧
    (universeII_write_dma exampleDmaPermissive (some exampleDmaParam) exampleRunBerr).1 = -1 ∧
    (universeII_write_dma exampleDmaOwned (some exampleDmaParam) exampleRunBerr).1 = -1 :=
  ⟨by decide,
   ((dma_read_until_berr exampleDmaPermissive exampleDmaParam exampleRunBerr (by decide)
      (by decide)).1 (by decide)).2.1.2 (by decide),
   ((dma_read_until_berr exampleDmaOwned exampleDmaParam exampleRunBerr (by decide)
      (by decide)).1 (by decide)).2.2.2 (by decide),
   (dma_read_until_berr exampleDmaPermissive exampleDmaParam exampleRunBerr (by decide)
      (by decide)).2.1 (by decide),
   (dma_read_until_berr exampleDmaOwned exampleDmaParam exampleRunBerr (by decide)
      (by decide)).2.1 (by decide)⟩


/-! ## C17: the bound check of an appended segment -/

/-- C17. On the empty list 0, with the buffer at `0x3000000`,
`IOCTL_ADD_DCP` accepts a segment of `0xFFFFFFF8` bytes: the 32-bit sum
`dla + offset + dtbc` wraps to `0x2FFFFF8`, the call returns the padding `0`
and the node is placed at `0x3000000`, although start plus byte count lies
far beyond the end `0x3020000` of the buffer. -/
theorem add_dcp_wrapped_segment_accepted :
    exampleListNew.dma.dmaHandle = 0x3000000 ∧
    (exampleListNew.cpLists 0).commandPacket = 0 ∧
    add32 (add32 0x3000000 (alignOffset 0 0x3000000)) 0xFFFFFFF8 = 0x2FFFFF8 ∧
    Res.val (IOCTL_ADD_DCP exampleListNew (some examplePacketWrap) 0x1000 0x4000000 8) =
      some 0 ∧
    extentOf (Res.state (IOCTL_ADD_DCP exampleListNew (some examplePacketWrap) 0x1000 0x4000000 8)
      exampleListNew) 0x1000 = some (0x3000000, 0xFFFFFFF8) ∧
    ¬ (0x3000000 + 0xFFFFFFF8 ≤ exampleListNew.dma.dmaHandle + 0x20000) := by
  decide

/-! ## C18: a rejected segment -/

/-- C18. With one segment in list 0 (node `0x1000`, `next = NULL`, last-packet
bit set), an `IOCTL_ADD_DCP` whose new node `0x2000` is mapped at the bus
address `0x4000010` returns `-1` and frees the new node, but the former tail
keeps `next = 0x2000` and `dcpp = 0x4000010`, with the last-packet bit clear.
On the empty list 0, an `IOCTL_ADD_DCP` of a segment of `0x20001` bytes
dereferences the `NULL` tail pointer instead of returning. -/
theorem add_dcp_rejection_leaves_link :
    (exampleListOne.cpLists 0).commandPacket = 0x1000 ∧
    linkOf exampleListOne 0x1000 = some (0, 1) ∧
    Res.val (IOCTL_ADD_DCP exampleListOne (some examplePacket) 0x2000 0x4000010 8) =
      some (-1) ∧
    linkOf (Res.state (IOCTL_ADD_DCP exampleListOne (some examplePacket) 0x2000 0x4000010 8)
      exampleListOne) 0x1000 = some (0x2000, 0x4000010) ∧
    linkOf (Res.state (IOCTL_ADD_DCP exampleListOne (some examplePacket) 0x2000 0x4000010 8)
      exampleListOne) 0x2000 = none ∧
    (exampleListNew.cpLists 0).commandPacket = 0 ∧
    Res.isInvalid (IOCTL_ADD_DCP exampleListNew (some examplePacketPastPool) 0x1000 0x4000000 8)
      = true := by
  decide


/-! ## C19: execution of a command-packet list -/

/-- The loop over the list reads the nodes only. -/
theorem scanProcessed_congr (st st' : State) (h : st.packets = st'.packets) :
    ∀ (fuel p n : Nat), scanProcessed st fuel p n = scanProcessed st' fuel p n := by
  intro fuel
  induction fuel with
  | zero => intro p n; rfl
  | succ f ih =>
    intro p n
    simp only [scanProcessed, packetAt, h]
    split_ifs with h0
    · rfl
    · cases st'.packets p with
      | none => rfl
      | some k => simp only [ih]

/-- Whether a pointer starts a chain depends on the nodes only. -/
theorem IsChain_congr (st st' : State) (h : st.packets = st'.packets) :
    ∀ (ks : List kcp) (p : Nat), IsChain st p ks → IsChain st' p ks := by
  intro ks
  induction ks with
  | nil => intro p hc; exact hc
  | cons k ks ih =>
    intro p hc
    obtain ⟨h1, h2, h3⟩ := hc
    exact ⟨h1, h ▸ h2, ih _ h3⟩

/-- The loop over a chain with enough fuel: `0` when every node has its
processed bit set, and otherwise the count of nodes up to and including the
first one whose bit is clear. -/
theorem scanProcessed_chain (st : State) :
    ∀ (ks : List kcp) (fuel p n : Nat), IsChain st p ks → ks.length < fuel →
      ((∀ k ∈ ks, k.dcp.dcpp &&& 0x00000002 ≠ 0) → scanProcessed st fuel p n = Res.ok 0) ∧
      (∀ (i : Nat) (k : kcp), ks[i]? = some k → k.dcp.dcpp &&& 0x00000002 = 0 →
        (∀ (j : Nat) (k' : kcp), j < i → ks[j]? = some k' → k'.dcp.dcpp &&& 0x00000002 ≠ 0) →
        scanProcessed st fuel p n = Res.ok ((n + i + 1 : Nat) : Int)) := by
  intro ks
  induction ks with
  | nil =>
    intro fuel p n hc hf
    cases fuel with
    | zero => exact absurd hf (by simp)
    | succ f =>
      have hp : p = 0 := hc
      refine ⟨fun _ => ?_, fun i k hk => ?_⟩
      · simp only [scanProcessed, if_pos hp]
      · simp at hk
  | cons k0 ks ih =>
    intro fuel p n hc hf
    obtain ⟨h1, h2, h3⟩ := hc
    cases fuel with
    | zero => exact absurd hf (by simp)
    | succ f =>
      have hf' : ks.length < f := by simpa using hf
      have hpk : packetAt st p = some k0 := by simp only [packetAt, if_neg h1, h2]
      obtain ⟨ih1, ih2⟩ := ih f k0.next (n + 1) h3 hf'
      refine ⟨fun hall => ?_, fun i k hk hclr hbefore => ?_⟩
      · have hk0 : k0.dcp.dcpp &&& 0x00000002 ≠ 0 := hall k0 (List.mem_cons_self _ _)
        simp only [scanProcessed, if_neg h1, hpk, if_neg hk0]
        exact ih1 fun k hk => hall k (List.mem_cons_of_mem _ hk)
      · cases i with
        | zero =>
          have hkk : k0 = k := by simpa using hk
          subst hkk
          simp only [scanProcessed, if_neg h1, hpk, if_pos hclr]
        | succ i' =>
          have hk0 : k0.dcp.dcpp &&& 0x00000002 ≠ 0 := hbefore 0 k0 (Nat.succ_pos _) (by simp)
          simp only [scanProcessed, if_neg h1, hpk, if_neg hk0]
          have hk' : ks[i']? = some k := by simpa using hk
          rw [ih2 i' k hk' hclr fun j k' hj hjk =>
            hbefore (j + 1) k' (Nat.succ_lt_succ hj) (by simpa using hjk)]
          congr 2
          omega


/-- Register `DCPP` after `execDMA` and `testAndClearDMAErrors`. -/
theorem testAndClear_after_exec_dcpp (st : State) (chain : Nat) (run : DmaRun) :
    readl (testAndClearDMAErrors (execDMA st chain run)).2 DCPP = readl st DCPP := by
  simp only [testAndClearDMAErrors, execDMA, DMA_timeout]
  cases run.timeout <;> simp <;> split_ifs <;> simp

/-- C19. `IOCTL_EXEC_DCP` returns `-1` and leaves the state as it is (the
list pointer `DCPP` is not programmed) when the engine is active.  When the
engine is idle it returns `-2` if the run ends with an error status; if the
run ends without one, `DCPP` holds the bus address of the first node, and for
a list whose nodes after the run are `ks`, in append order, with more fuel
than nodes, it returns `0` if every node has its processed bit (bit 1 of
`dcpp`) set, and `i + 1` if the node at index `i` is the first whose bit is
clear. -/
theorem exec_dcp_result (st : State) (arg : Nat) (run : DmaRun) (fuel : Nat) (ks : List kcp) :
    (¬ dmaIdle st → IOCTL_EXEC_DCP st arg run fuel = Res.ok (-1, st)) ∧
    (dmaIdle st → dmaErrorCode run ≠ 0 →
      Res.val (IOCTL_EXEC_DCP st arg run fuel) = some (-2)) ∧
    (dmaIdle st → dmaErrorCode run = 0 →
      IsChain (markProcessed st run.processed) (st.cpLists arg).commandPacket ks →
      ks.length < fuel →
      readl (Res.state (IOCTL_EXEC_DCP st arg run fuel) st) DCPP = u32 (st.cpLists arg).start ∧
      ((∀ k ∈ ks, k.dcp.dcpp &&& 0x00000002 ≠ 0) →
        Res.val (IOCTL_EXEC_DCP st arg run fuel) = some 0) ∧
      (∀ (i : Nat) (k : kcp), ks[i]? = some k → k.dcp.dcpp &&& 0x00000002 = 0 →
        (∀ (j : Nat) (k' : kcp), j < i → ks[j]? = some k' → k'.dcp.dcpp &&& 0x00000002 ≠ 0) →
        Res.val (IOCTL_EXEC_DCP st arg run fuel) = some ((i + 1 : Nat) : Int))) := by
  refine ⟨fun hact => ?_, fun hidle herr => ?_, fun hidle herr hc hf => ?_⟩
  · have h3 : readl st DGCS &&& 0x00008000 ≠ 0 := hact
    simp only [IOCTL_EXEC_DCP, if_pos h3]
  · have h3 : ¬ (readl st DGCS &&& 0x00008000 ≠ 0) := fun hne => hne hidle
    simp only [IOCTL_EXEC_DCP, if_neg h3, testAndClear_after_exec, if_pos herr, Res.val]
  · have h3 : ¬ (readl st DGCS &&& 0x00008000 ≠ 0) := fun hne => hne hidle
    have hne : ¬ (dmaErrorCode run ≠ 0) := fun h => h herr
    have hpk : (testAndClearDMAErrors (execDMA
        (writel ((writel 0 DTBC st).cpLists arg).start DCPP (writel 0 DTBC st))
        0x08000000 run)).2.packets = (markProcessed st run.processed).packets := by
      rw [testAndClear_after_exec_packets]; rfl
    have hcl : (testAndClearDMAErrors (execDMA
        (writel ((writel 0 DTBC st).cpLists arg).start DCPP (writel 0 DTBC st))
        0x08000000 run)).2.cpLists = st.cpLists := by
      rw [testAndClear_after_exec_cpLists]; rfl
    have hdc : readl (testAndClearDMAErrors (execDMA
        (writel ((writel 0 DTBC st).cpLists arg).start DCPP (writel 0 DTBC st))
        0x08000000 run)).2 DCPP = u32 (st.cpLists arg).start := by
      rw [testAndClear_after_exec_dcpp]; simp
    obtain ⟨s1, s2⟩ := scanProcessed_chain _ ks fuel (st.cpLists arg).commandPacket 0
      (IsChain_congr _ _ hpk.symm ks _ hc) hf
    simp only [IOCTL_EXEC_DCP, if_neg h3, testAndClear_after_exec, if_neg hne, hcl]
    refine ⟨?_, fun hall => ?_, fun i k hk hclr hbefore => ?_⟩
    · by_cases hall : ∀ k ∈ ks, k.dcp.dcpp &&& 0x00000002 ≠ 0
      · rw [s1 hall]; exact hdc
      · have hex : ∃ i k, ks[i]? = some k ∧ k.dcp.dcpp &&& 0x00000002 = 0 ∧
            ∀ (j : Nat) (k' : kcp), j < i → ks[j]? = some k' →
              k'.dcp.dcpp &&& 0x00000002 ≠ 0 := by
          clear s1 s2 hc hf
          induction ks with
          | nil => exact absurd (fun k hk => absurd hk (List.not_mem_nil k)) hall
          | cons k0 ks ih =>
            by_cases hk0 : k0.dcp.dcpp &&& 0x00000002 = 0
            · exact ⟨0, k0, by simp, hk0, fun j k' hj => absurd hj (Nat.not_lt_zero j)⟩
            · have hall' : ¬ ∀ k ∈ ks, k.dcp.dcpp &&& 0x00000002 ≠ 0 := by
                intro h
                apply hall
                intro k hk
                rcases List.mem_cons.mp hk with rfl | hk
                · exact hk0
                · exact h k hk
              obtain ⟨i, k, e1, e2, e3⟩ := ih hall'
              refine ⟨i + 1, k, by simpa using e1, e2, fun j k' hj hjk => ?_⟩
              cases j with
              | zero =>
                have : k0 = k' := by simpa using hjk
                exact this ▸ hk0
              | succ j' => exact e3 j' k' (Nat.lt_of_succ_lt_succ hj) (by simpa using hjk)
        obtain ⟨i, k, e1, e2, e3⟩ := hex
        rw [s2 i k e1 e2 e3]; exact hdc
    · rw [s1 hall]; rfl
    · rw [s2 i k hk hclr hbefore]
      simp only [Res.val, Nat.zero_add]


/-- C19, on the list of three segments: the call returns `2` when only the
second node is left unprocessed, `0` when all three are processed, `-2` when
the run ends with an error status, and `-1`, without touching the state,
while the engine is active. -/
theorem exec_dcp_result_witness :
    Res.val (IOCTL_EXEC_DCP exampleListThree 0 exampleRunSkipSecond 8) = some 2 ∧
    Res.val (IOCTL_EXEC_DCP exampleListThree 0 exampleRunDone 8) = some 0 ∧
    readl (Res.state (IOCTL_EXEC_DCP exampleListThree 0 exampleRunDone 8) exampleListThree) DCPP
      = 0x4000000 ∧
    Res.val (IOCTL_EXEC_DCP exampleListThree 0 exampleRunError 8) = some (-2) ∧
    IOCTL_EXEC_DCP (writel 0x00008000 DGCS exampleListThree) 0 exampleRunDone 8 =
      Res.ok (-1, writel 0x00008000 DGCS exampleListThree) :=
  ⟨((exec_dcp_result exampleListThree 0 exampleRunSkipSecond 8 exampleNodesSkipSecond).2.2
      (by decide) (by decide) (by decide) (by decide)).2.2 1 _ rfl (by decide)
      (fun j k' hj hjk => by
        have hj0 : j = 0 := by omega
        subst hj0
        have e : some _ = some k' := hjk
        cases e
        decide),
   ((exec_dcp_result exampleListThree 0 exampleRunDone 8 exampleNodesDone).2.2
      (by decide) (by decide) (by decide) (by decide)).2.1 (by decide),
   ((exec_dcp_result exampleListThree 0 exampleRunDone 8 exampleNodesDone).2.2
      (by decide) (by decide) (by decide) (by decide)).1,
   (exec_dcp_result exampleListThree 0 exampleRunError 8 []).2.1 (by decide) (by decide),
   (exec_dcp_result (writel 0x00008000 DGCS exampleListThree) 0 exampleRunDone 8 []).1
      (by decide)⟩


/-! ## C20: the full reset -/

set_option maxRecDepth 100000 in
/-- C20, the code at the failing input.  With the slave image of slot 10
acquired, opened and configured (`opened = 3`, `okToWrite = 1`),
`IOCTL_RESET_ALL` returns `0` and disables the image in the chip
(`VSI0_CTL = 0x00800000`), but slot 10 still has `opened = 3` and
`okToWrite = 1`; the statistics, the master slot 0, the DMA owner flag and
`LINT_EN` are reset. -/
theorem reset_all_keeps_slave_slot :
    (exampleSlaveConfigured.image 10).opened = 3 ∧
    (exampleSlaveConfigured.image 10).okToWrite = 1 ∧
    Res.val (universeII_ioctl_dma exampleSlaveConfigured (DmaCmd.RESET_ALL 0 0) 8) = some 0 ∧
    readl (Res.state (universeII_ioctl_dma exampleSlaveConfigured (DmaCmd.RESET_ALL 0 0) 8)
      exampleSlaveConfigured) (aCTL 10) = 0x00800000 ∧
    ((Res.state (universeII_ioctl_dma exampleSlaveConfigured (DmaCmd.RESET_ALL 0 0) 8)
      exampleSlaveConfigured).image 10).opened = 3 ∧
    ((Res.state (universeII_ioctl_dma exampleSlaveConfigured (DmaCmd.RESET_ALL 0 0) 8)
      exampleSlaveConfigured).image 10).okToWrite = 1 ∧
    ((Res.state (universeII_ioctl_dma exampleSlaveConfigured (DmaCmd.RESET_ALL 0 0) 8)
      exampleSlaveConfigured).image 0).opened = 0 ∧
    (Res.state (universeII_ioctl_dma exampleSlaveConfigured (DmaCmd.RESET_ALL 0 0) 8)
      exampleSlaveConfigured).statistics.ioctls = 0 ∧
    readl (Res.state (universeII_ioctl_dma exampleSlaveConfigured (DmaCmd.RESET_ALL 0 0) 8)
      exampleSlaveConfigured) LINT_EN = 0x000005FE ∧
    (Res.state (universeII_ioctl_dma exampleSlaveConfigured (DmaCmd.RESET_ALL 0 0) 8)
      exampleSlaveConfigured).dma.dma_in_use = 0 := by
  decide


/-! ### The full reset on any state -/

/-- `ListFrame` is reflexive. -/
theorem ListFrame.refl (st : State) : ListFrame st st :=
  ⟨rfl, rfl, rfl, rfl, rfl, rfl, rfl, rfl, rfl, rfl⟩

/-- `ListFrame` is transitive. -/
theorem ListFrame.trans {a b c : State} (h1 : ListFrame a b) (h2 : ListFrame b c) :
    ListFrame a c := by
  obtain ⟨a1, a2, a3, a4, a5, a6, a7, a8, a9, a10⟩ := h1
  obtain ⟨b1, b2, b3, b4, b5, b6, b7, b8, b9, b10⟩ := h2
  exact ⟨b1.trans a1, b2.trans a2, b3.trans a3, b4.trans a4, b5.trans a5, b6.trans a6,
    b7.trans a7, b8.trans a8, b9.trans a9, b10.trans a10⟩

/-- Freeing the nodes of a list changes the list nodes only. -/
theorem freeChain_frame :
    ∀ (fuel p : Nat) (st st' : State), freeChain fuel p st = Res.ok st' →
      ListFrame st st' ∧ st'.cpLists = st.cpLists := by
  intro fuel
  induction fuel with
  | zero => intro p st st' h; cases h
  | succ f ih =>
    intro p st st' h
    simp only [freeChain] at h
    by_cases hp : p = 0
    · rw [if_pos hp] at h
      cases h
      exact ⟨ListFrame.refl _, rfl⟩
    · rw [if_neg hp] at h
      cases hk : packetAt st p with
      | none => simp only [hk] at h; cases h
      | some k =>
        simp only [hk] at h
        obtain ⟨h1, h2⟩ := ih _ _ _ h
        exact ⟨ListFrame.trans ⟨rfl, rfl, rfl, rfl, rfl, rfl, rfl, rfl, rfl, rfl⟩ h1, h2⟩

/-- The loop of `IOCTL_RESET_ALL` over the lists changes the table of lists
and the list nodes only. -/
theorem resetLists_frame (arg fuel : Nat) :
    ∀ (n i : Nat) (st st' : State), resetLists arg fuel n i st = Res.ok st' →
      ListFrame st st' := by
  intro n
  induction n with
  | zero => intro i st st' h; cases h; exact ListFrame.refl _
  | succ n ih =>
    intro i st st' h
    simp only [resetLists] at h
    by_cases hf : (st.cpLists i).free = 0
    · rw [if_pos hf] at h
      cases hc : freeChain fuel (st.cpLists arg).commandPacket
          (setCpl st arg fun c => { c with commandPacket := 0, free := 1 }) with
      | invalid => simp only [hc] at h; cases h
      | unfinished => simp only [hc] at h; cases h
      | ok st2 =>
        simp only [hc] at h
        obtain ⟨h1, _⟩ := freeChain_frame _ _ _ _ hc
        exact ListFrame.trans (ListFrame.trans ⟨rfl, rfl, rfl, rfl, rfl, rfl, rfl, rfl, rfl, rfl⟩ h1)
          (ih _ _ _ h)
    · rw [if_neg hf] at h
      exact ih _ _ _ h


/-- The body of the image loop of `IOCTL_RESET_ALL`: slot `i` gets
`opened = 0` and `okToWrite = 0`, a mapped image with a PCI range gives the
range back, and the registers `aCTL[i]` and `aCTL[i + 10]` are written. -/
theorem resetImage_spec (st : State) (i : Nat) :
    (resetImage st i).img_ovl = st.img_ovl ∧ (resetImage st i).irq_device = st.irq_device ∧
    (resetImage st i).mbx_device = st.mbx_device ∧
    (resetImage st i).statistics = st.statistics ∧
    (resetImage st i).vmeWrites = st.vmeWrites ∧ (resetImage st i).dma = st.dma ∧
    (resetImage st i).cpLists = st.cpLists ∧ (resetImage st i).packets = st.packets ∧
    ((resetImage st i).image i).opened = 0 ∧ ((resetImage st i).image i).okToWrite = 0 ∧
    (∀ j, j ≠ i → (resetImage st i).image j = st.image j) ∧
    (∀ r, (∀ k, aCTL k ≠ r) → (resetImage st i).regs r = st.regs r) ∧
    (∀ j, (resetImage st i).resTree j =
      if j = i ∧ (st.image i).vBase ≠ 0 ∧ (st.image i).masterRes.start ≠ 0 then false
      else st.resTree j) := by
  simp only [resetImage, releaseMaster]
  refine ⟨?_, ?_, ?_, ?_, ?_, ?_, ?_, ?_, ?_, ?_, ?_, ?_, ?_⟩
  · split_ifs <;> simp
  · split_ifs <;> simp
  · split_ifs <;> simp
  · split_ifs <;> simp
  · split_ifs <;> simp
  · split_ifs <;> simp
  · split_ifs <;> simp
  · split_ifs <;> simp
  · simp
  · simp
  · intro j hj
    split_ifs <;> simp [hj]
  · intro r hr
    have h1 : r ≠ aCTL i := fun h => hr i h.symm
    have h2 : r ≠ aCTL (i + 10) := fun h => hr (i + 10) h.symm
    split_ifs <;> simp [h1, h2]
  · intro j
    by_cases hv : (st.image i).vBase ≠ 0
    · by_cases hs : (st.image i).masterRes.start ≠ 0
      · by_cases hj : j = i <;> simp [hv, hs, hj]
      · simp [hv, hs]
    · simp [hv]


/-- The image loop of `IOCTL_RESET_ALL` over the indices `i`, …,
`i + n - 1`. -/
theorem resetImages_spec :
    ∀ (n i : Nat) (st : State),
      (resetImages n i st).irq_device = st.irq_device ∧
      (resetImages n i st).statistics = st.statistics ∧
      (resetImages n i st).dma = st.dma ∧
      (resetImages n i st).cpLists = st.cpLists ∧
      (resetImages n i st).packets = st.packets ∧
      (∀ j, i ≤ j → j < i + n →
        ((resetImages n i st).image j).opened = 0 ∧
        ((resetImages n i st).image j).okToWrite = 0) ∧
      (∀ j, ¬ (i ≤ j ∧ j < i + n) → (resetImages n i st).image j = st.image j) ∧
      (∀ r, (∀ k, aCTL k ≠ r) → (resetImages n i st).regs r = st.regs r) ∧
      (∀ j, (resetImages n i st).resTree j =
        if (i ≤ j ∧ j < i + n) ∧ (st.image j).vBase ≠ 0 ∧ (st.image j).masterRes.start ≠ 0
        then false else st.resTree j) := by
  intro n
  induction n with
  | zero =>
    intro i st
    refine ⟨rfl, rfl, rfl, rfl, rfl, fun j h1 h2 => absurd h2 (by omega), fun _ _ => rfl,
      fun _ _ => rfl, fun j => ?_⟩
    have : ¬ (i ≤ j ∧ j < i + 0) := by omega
    simp only [resetImages]
    rw [if_neg (fun h => this h.1)]
  | succ n ih =>
    intro i st
    obtain ⟨_, b2, _, b4, _, b6, b7, b8, b9, b10, b11, b12, b13⟩ := resetImage_spec st i
    obtain ⟨c1, c2, c3, c4, c5, c6, c7, c8, c9⟩ := ih (i + 1) (resetImage st i)
    simp only [resetImages]
    refine ⟨c1.trans b2, c2.trans b4, c3.trans b6, c4.trans b7, c5.trans b8, ?_, ?_, ?_, ?_⟩
    · intro j h1 h2
      by_cases hj : j = i
      · subst hj
        rw [c7 j (by omega)]
        exact ⟨b9, b10⟩
      · exact c6 j (by omega) (by omega)
    · intro j hj
      have hne : j ≠ i := by omega
      rw [c7 j (by omega), b11 j hne]
    · intro r hr
      rw [c8 r hr, b12 r hr]
    · intro j
      rw [c9 j, b13 j]
      by_cases hj : j = i
      · subst hj
        have h1 : ¬ (j + 1 ≤ j ∧ j < j + 1 + n) := by omega
        have h2 : j ≤ j ∧ j < j + (n + 1) := by omega
        rw [if_neg (fun h => h1 h.1)]
        simp only [h2, true_and]
      · rw [b11 j hj]
        have h1 : (i + 1 ≤ j ∧ j < i + 1 + n) ↔ (i ≤ j ∧ j < i + (n + 1)) := by omega
        simp only [h1, hj, false_and, if_false]

/-- No entry of the table `aCTL` is the register `LINT_EN`. -/
theorem aCTL_ne_LINT_EN (k : Nat) : aCTL k ≠ LINT_EN := by
  unfold aCTL
  split <;> decide

/-- The effects of `IOCTL_RESET_ALL` on any state from which it returns: the
seven counters are zero, the master slots `0..7` have `opened = 0` and
`okToWrite = 0`, every slot of the interrupt table is free, `LINT_EN` holds
`0x5FE` (mailbox bits clear), and `dma_in_use = 0`; the image descriptors of
the indices from `8` on, the slave slots among them, are as before. -/
theorem reset_all_effects (st : State) (arg dgcs fuel : Nat) (r : Int × State)
    (h : universeII_ioctl_dma st (DmaCmd.RESET_ALL arg dgcs) fuel = Res.ok r) :
    r.2.statistics = { reads := 0, writes := 0, ioctls := 0, irqs := 0, berrs := 0,
                       dmaErrors := 0, timeouts := 0 } ∧
    (∀ i, i < 8 → (r.2.image i).opened = 0 ∧ (r.2.image i).okToWrite = 0) ∧
    (∀ i, 8 ≤ i → r.2.image i = st.image i) ∧
    (∀ l s, l < 7 → s < 256 → (r.2.irq_device l s).ok = 0) ∧
    readl r.2 LINT_EN = 0x000005FE ∧
    (∀ n, n < 4 → readl r.2 LINT_EN &&& (0x10000 <<< n) = 0) ∧
    r.2.dma.dma_in_use = 0 := by
  simp only [universeII_ioctl_dma, IOCTL_RESET_ALL] at h
  generalize hs2 : (if (writel (0xF9000000 ||| readl (countIoctl st) PCI_CSR) PCI_CSR
      (countIoctl st)).dma.dma_in_use ≠ 0 then
        setDma (writel 0x00006F00 DGCS (writel dgcs DGCS (writel 0x40000000 DGCS
          (writel (0xF9000000 ||| readl (countIoctl st) PCI_CSR) PCI_CSR (countIoctl st)))))
          fun d => { d with dma_in_use := 0, dma_blt_berr := 0 }
      else writel (0xF9000000 ||| readl (countIoctl st) PCI_CSR) PCI_CSR (countIoctl st)) = st2
    at h
  have hd2 : st2.dma.dma_in_use = 0 := by
    rw [← hs2]
    split_ifs with hu
    · simp
    · simpa using hu
  have hi2 : st2.image = st.image := by
    rw [← hs2]; split_ifs <;> simp
  cases hl : resetLists arg fuel 256 0 st2 with
  | invalid => simp only [hl] at h; cases h
  | unfinished => simp only [hl] at h; cases h
  | ok st3 =>
    simp only [hl] at h
    cases h
    obtain ⟨_, f2, _, _, _, _, _, _, f9⟩ := resetLists_frame arg fuel 256 0 st2 st3 hl
    obtain ⟨c1, _, c3, _, _, c6, c7, c8, _⟩ :=
      resetImages_spec MAX_IMAGE 0 (writel 0x000005FE LINT_EN (freeAllIrqs st3))
    have hL : readl (clearStatistics (resetImages MAX_IMAGE 0
        (writel 0x000005FE LINT_EN (freeAllIrqs st3)))) LINT_EN = 0x000005FE := by
      simp only [readl, clearStatistics_regs]
      rw [c8 LINT_EN aCTL_ne_LINT_EN]
      simp [u32]
    refine ⟨rfl, fun i hi => ?_, fun i hi => ?_, fun l s hl hs => ?_, hL, fun n hn => ?_, ?_⟩
    · simp only [clearStatistics_image]
      exact c6 i (Nat.zero_le _) (by simpa [MAX_IMAGE] using hi)
    · simp only [clearStatistics_image]
      rw [c7 i (by simp only [MAX_IMAGE]; omega)]
      simp [f2, hi2]
    · simp only [clearStatistics_irq_device, c1]
      simp [freeAllIrqs, hl, hs]
    · rw [hL]
      interval_cases n <;> decide
    · simp only [clearStatistics_dma, c3]
      simp [f9, hd2]


/-- A pointer starts at most one chain. -/
theorem IsChain_unique (st : State) :
    ∀ (ks ks' : List kcp) (p : Nat), IsChain st p ks → IsChain st p ks' → ks = ks' := by
  intro ks
  induction ks with
  | nil =>
    intro ks' p h h'
    cases ks' with
    | nil => rfl
    | cons k ks' => exact absurd h h'.1
  | cons k ks ih =>
    intro ks' p h h'
    cases ks' with
    | nil => exact absurd h' h.1
    | cons k' ks' =>
      obtain ⟨_, h2, h3⟩ := h
      obtain ⟨_, h2', h3'⟩ := h'
      have hk : k = k' := Option.some.inj (h2.symm.trans h2')
      subst hk
      rw [ih ks' _ h3 h3']

/-- Freeing the first node of a chain leaves the rest of the chain
intact. -/
theorem IsChain_after_free (st : State) (p : Nat) (ks0 : List kcp) (h0 : IsChain st p ks0) :
    ∀ (ks : List kcp) (q : Nat), IsChain st q ks → ks.length < ks0.length →
      IsChain (setPacket st p none) q ks := by
  intro ks
  induction ks with
  | nil => intro q h _; exact h
  | cons k ks ih =>
    intro q h hl
    have hq : q ≠ p := by
      intro e
      subst e
      have := IsChain_unique st _ _ _ h h0
      rw [← this] at hl
      exact absurd hl (lt_irrefl _)
    obtain ⟨h1, h2, h3⟩ := h
    refine ⟨h1, ?_, ih _ h3 (by simp only [List.length_cons] at hl; omega)⟩
    simp only [setPacket_packets, if_neg hq, h2]

/-- With more fuel than the chain has nodes, the loop that frees a list
ends. -/
theorem freeChain_chain :
    ∀ (ks : List kcp) (fuel p : Nat) (st : State), IsChain st p ks → ks.length < fuel →
      ∃ st', freeChain fuel p st = Res.ok st' := by
  intro ks
  induction ks with
  | nil =>
    intro fuel p st h hf
    cases fuel with
    | zero => exact absurd hf (by simp)
    | succ f =>
      have hp : p = 0 := h
      exact ⟨st, by simp only [freeChain, if_pos hp]⟩
  | cons k ks ih =>
    intro fuel p st h hf
    cases fuel with
    | zero => exact absurd hf (by simp)
    | succ f =>
      have h' := h
      obtain ⟨h1, h2, h3⟩ := h
      have hpk : packetAt st p = some k := by simp only [packetAt, if_neg h1, h2]
      have hc := IsChain_after_free st p (k :: ks) h' ks k.next h3 (by simp)
      obtain ⟨st', e⟩ := ih f k.next (setPacket st p none) hc (by simpa using hf)
      exact ⟨st', by simp only [freeChain, if_neg h1, hpk, e]⟩

/-- With more fuel than the list `arg` has nodes, the loop of
`IOCTL_RESET_ALL` over the lists ends. -/
theorem resetLists_chain (arg fuel : Nat) :
    ∀ (n i : Nat) (st : State),
      (∃ ks, IsChain st (st.cpLists arg).commandPacket ks ∧ ks.length < fuel) →
      ∃ st', resetLists arg fuel n i st = Res.ok st' := by
  intro n
  induction n with
  | zero => intro i st _; exact ⟨st, rfl⟩
  | succ n ih =>
    intro i st hks
    obtain ⟨ks, hc, hf⟩ := hks
    simp only [resetLists]
    by_cases hfree : (st.cpLists i).free = 0
    · rw [if_pos hfree]
      have hc1 : IsChain (setCpl st arg fun c => { c with commandPacket := 0, free := 1 })
          (st.cpLists arg).commandPacket ks :=
        IsChain_congr st (setCpl st arg fun c => { c with commandPacket := 0, free := 1 })
          (setCpl_packets _ _ _).symm ks _ hc
      obtain ⟨st2, e⟩ := freeChain_chain ks fuel _ _ hc1 hf
      obtain ⟨_, hcp⟩ := freeChain_frame _ _ _ _ e
      simp only [e]
      apply ih
      refine ⟨[], ?_, by simp only [List.length_nil]; omega⟩
      show (st2.cpLists arg).commandPacket = 0
      rw [hcp]
      simp
    · rw [if_neg hfree]
      exact ih _ _ ⟨ks, hc, hf⟩

/-- With more fuel than the list `arg` has nodes, `IOCTL_RESET_ALL`
returns. -/
theorem reset_all_returns (st : State) (arg dgcs fuel : Nat) (ks : List kcp)
    (hc : IsChain st (st.cpLists arg).commandPacket ks) (hf : ks.length < fuel) :
    ∃ r, universeII_ioctl_dma st (DmaCmd.RESET_ALL arg dgcs) fuel = Res.ok r := by
  simp only [universeII_ioctl_dma, IOCTL_RESET_ALL]
  generalize hs2 : (if (writel (0xF9000000 ||| readl (countIoctl st) PCI_CSR) PCI_CSR
      (countIoctl st)).dma.dma_in_use ≠ 0 then
        setDma (writel 0x00006F00 DGCS (writel dgcs DGCS (writel 0x40000000 DGCS
          (writel (0xF9000000 ||| readl (countIoctl st) PCI_CSR) PCI_CSR (countIoctl st)))))
          fun d => { d with dma_in_use := 0, dma_blt_berr := 0 }
      else writel (0xF9000000 ||| readl (countIoctl st) PCI_CSR) PCI_CSR (countIoctl st)) = st2
  have hp : st.packets = st2.packets := by rw [← hs2]; split_ifs <;> simp
  have hl : st2.cpLists = st.cpLists := by rw [← hs2]; split_ifs <;> simp
  obtain ⟨st3, e⟩ := resetLists_chain arg fuel 256 0 st2
    ⟨ks, by rw [hl]; exact IsChain_congr _ _ hp ks _ hc, hf⟩
  simp only [e]
  exact ⟨_, rfl⟩


/-! ### The invariant of the master ranges under the DMA entry points -/

/-- The image table and the resource tree after `execDMA` and
`testAndClearDMAErrors`. -/
theorem testAndClear_after_exec_image (st : State) (chain : Nat) (run : DmaRun) :
    (testAndClearDMAErrors (execDMA st chain run)).2.image = st.image ∧
    (testAndClearDMAErrors (execDMA st chain run)).2.resTree = st.resTree := by
  simp only [testAndClearDMAErrors, execDMA, DMA_timeout]
  cases run.timeout <;> simp <;> split_ifs <;> simp

/-- A one-shot DMA read or write assigns neither to the image table nor to
the resource tree. -/
theorem dma_transfer_frame (st : State) (arg : Option dma_param_t) (run : DmaRun) :
    (universeII_read_dma st arg run).2.image = st.image ∧
    (universeII_read_dma st arg run).2.resTree = st.resTree ∧
    (universeII_write_dma st arg run).2.image = st.image ∧
    (universeII_write_dma st arg run).2.resTree = st.resTree := by
  cases arg with
  | none => exact ⟨rfl, rfl, rfl, rfl⟩
  | some p =>
    simp only [universeII_read_dma, universeII_write_dma]
    refine ⟨?_, ?_, ?_, ?_⟩ <;> split_ifs <;>
      simp [(testAndClear_after_exec_image _ _ _).1, (testAndClear_after_exec_image _ _ _).2]

/-- The second half of `IOCTL_ADD_DCP` changes list nodes only. -/
theorem addDcpFill_frame (st : State) (lp : list_packet_t) (newP ptr : Nat) (r : Int × State)
    (h : addDcpFill st lp newP ptr = Res.ok r) :
    ListFrame st r.2 ∧ r.2.cpLists = st.cpLists := by
  unfold addDcpFill at h
  cases hn : packetAt st newP with
  | none => simp only [hn] at h; cases h
  | some n0 =>
    have hne : newP ≠ 0 := by
      intro h0; simp [packetAt, h0] at hn
    simp only [hn] at h
    by_cases hp : ptr = 0
    · simp only [if_pos hp] at h
      split_ifs at h
      cases h
      refine ⟨⟨?_, ?_, ?_, ?_, ?_, ?_, ?_, ?_, ?_, ?_⟩, ?_⟩ <;> simp
    · simp only [if_neg hp] at h
      cases ht : packetAt (setPacket st newP (some
          { n0 with next := 0,
                    dcp := { n0.dcp with dctl := u32 lp.dctl, dtbc := u32 lp.dtbc,
                                         dva := u32 lp.dva, dcpp := 0x00000001 } })) ptr with
      | none => simp only [ht] at h; cases h
      | some t =>
        simp only [ht] at h
        split_ifs at h
        · cases h
          refine ⟨⟨?_, ?_, ?_, ?_, ?_, ?_, ?_, ?_, ?_, ?_⟩, ?_⟩ <;> simp
        · simp only [packetAt_setPacket, if_neg hne, if_true] at h
          cases h
          refine ⟨⟨?_, ?_, ?_, ?_, ?_, ?_, ?_, ?_, ?_, ?_⟩, ?_⟩ <;> simp

/-- Case `IOCTL_ADD_DCP` changes the table of lists and the list nodes
only. -/
theorem IOCTL_ADD_DCP_frame (st : State) (arg : Option list_packet_t)
    (newP busAddr fuel : Nat) (r : Int × State)
    (h : IOCTL_ADD_DCP st arg newP busAddr fuel = Res.ok r) : ListFrame st r.2 := by
  cases arg with
  | none => cases h; exact ListFrame.refl _
  | some lp =>
    simp only [IOCTL_ADD_DCP] at h
    generalize hs1 : (if newP ≠ 0 then setPacket st newP (some kcp.zero) else st) = st1 at h
    have hd : ListFrame st st1 := by
      rw [← hs1]; split_ifs
      · exact ⟨rfl, rfl, rfl, rfl, rfl, rfl, rfl, rfl, rfl, rfl⟩
      · exact ListFrame.refl _
    by_cases hp : (st1.cpLists lp.list).commandPacket = 0
    · rw [if_pos hp] at h
      exact ListFrame.trans (ListFrame.trans hd ⟨rfl, rfl, rfl, rfl, rfl, rfl, rfl, rfl, rfl, rfl⟩)
        (addDcpFill_frame _ _ _ _ _ h).1
    · rw [if_neg hp] at h
      cases hft : findTail st1 fuel (st1.cpLists lp.list).commandPacket with
      | invalid => simp only [hft] at h; cases h
      | unfinished => simp only [hft] at h; cases h
      | ok tail =>
        simp only [hft] at h
        cases ht : packetAt st1 tail with
        | none => simp only [ht] at h; cases h
        | some t =>
          simp only [ht] at h
          by_cases ha : u32 busAddr &&& 0x0000001F ≠ 0
          · rw [if_pos ha] at h; cases h
            exact ListFrame.trans hd ⟨rfl, rfl, rfl, rfl, rfl, rfl, rfl, rfl, rfl, rfl⟩
          · rw [if_neg ha] at h
            exact ListFrame.trans
              (ListFrame.trans hd ⟨rfl, rfl, rfl, rfl, rfl, rfl, rfl, rfl, rfl, rfl⟩)
              (addDcpFill_frame _ _ _ _ _ h).1

/-- Invariant `MasterResInv` is kept by the one-shot DMA transfers and by
every command of `universeII_ioctl_dma`, the full reset among them. -/
theorem masterResInv_dma (st : State) (hinv : MasterResInv st) :
    (∀ (arg : Option dma_param_t) (run : DmaRun),
      MasterResInv (universeII_read_dma st arg run).2 ∧
      MasterResInv (universeII_write_dma st arg run).2) ∧
    (∀ (cmd : DmaCmd) (fuel : Nat) (r : Int × State),
      universeII_ioctl_dma st cmd fuel = Res.ok r → MasterResInv r.2) := by
  refine ⟨fun arg run => ?_, fun cmd fuel r h => ?_⟩
  · obtain ⟨h1, h2, h3, h4⟩ := dma_transfer_frame st arg run
    exact ⟨masterResInv_congr st _ h1 h2 hinv, masterResInv_congr st _ h3 h4 hinv⟩
  · cases cmd with
    | REQUEST_DMA arg =>
      simp only [universeII_ioctl_dma, IOCTL_REQUEST_DMA] at h
      cases h
      refine masterResInv_congr st _ ?_ ?_ hinv <;> split_ifs <;> simp
    | RELEASE_DMA => cases h; exact masterResInv_congr st _ rfl rfl hinv
    | DMA_BLT_BERR => cases h; exact masterResInv_congr st _ rfl rfl hinv
    | NEW_DCP =>
      simp only [universeII_ioctl_dma, IOCTL_NEW_DCP] at h
      cases h
      refine masterResInv_congr st _ ?_ ?_ hinv <;> split_ifs <;> simp
    | ADD_DCP arg newP busAddr =>
      obtain ⟨_, f2, f3, _⟩ := IOCTL_ADD_DCP_frame _ _ _ _ _ _ h
      exact masterResInv_congr st _ f2 f3 hinv
    | EXEC_DCP arg run =>
      simp only [universeII_ioctl_dma, IOCTL_EXEC_DCP] at h
      split_ifs at h
      · cases h; exact masterResInv_congr st _ rfl rfl hinv
      · cases h
        exact masterResInv_congr st _ (testAndClear_after_exec_image _ _ _).1
          (testAndClear_after_exec_image _ _ _).2 hinv
      · revert h
        split
        · intro h; cases h
          exact masterResInv_congr st _ (testAndClear_after_exec_image _ _ _).1
            (testAndClear_after_exec_image _ _ _).2 hinv
        · intro h; cases h
        · intro h; cases h
    | DEL_DCL arg =>
      simp only [universeII_ioctl_dma, IOCTL_DEL_DCL] at h
      revert h
      split
      · rename_i st1 hfc
        intro h; cases h
        obtain ⟨⟨_, f2, f3, _⟩, _⟩ := freeChain_frame _ _ _ _ hfc
        exact masterResInv_congr st _ (by simpa using f2) (by simpa using f3) hinv
      · intro h; cases h
      · intro h; cases h
    | RESET_ALL arg dgcs =>
      obtain ⟨_, h2, _⟩ := reset_all_effects st arg dgcs fuel r h
      intro m hm hres
      exfalso
      simp only [universeII_ioctl_dma, IOCTL_RESET_ALL] at h
      generalize hs2 : (if (writel (0xF9000000 ||| readl (countIoctl st) PCI_CSR) PCI_CSR
          (countIoctl st)).dma.dma_in_use ≠ 0 then
            setDma (writel 0x00006F00 DGCS (writel dgcs DGCS (writel 0x40000000 DGCS
              (writel (0xF9000000 ||| readl (countIoctl st) PCI_CSR) PCI_CSR (countIoctl st)))))
              fun d => { d with dma_in_use := 0, dma_blt_berr := 0 }
          else writel (0xF9000000 ||| readl (countIoctl st) PCI_CSR) PCI_CSR (countIoctl st))
        = st2 at h
      have hi2 : st2.image = st.image := by rw [← hs2]; split_ifs <;> simp
      have hr2 : st2.resTree = st.resTree := by rw [← hs2]; split_ifs <;> simp
      cases hl : resetLists arg fuel 256 0 st2 with
      | invalid => simp only [hl] at h; cases h
      | unfinished => simp only [hl] at h; cases h
      | ok st3 =>
        simp only [hl] at h
        cases h
        obtain ⟨_, f2, f3, _⟩ := resetLists_frame arg fuel 256 0 st2 st3 hl
        obtain ⟨_, _, _, _, _, _, _, _, c9⟩ :=
          resetImages_spec MAX_IMAGE 0 (writel 0x000005FE LINT_EN (freeAllIrqs st3))
        simp only [clearStatistics_resTree] at hres
        rw [c9 m] at hres
        simp only [writel_image, freeAllIrqs_image, writel_resTree, freeAllIrqs_resTree, f2, f3,
          hi2, hr2] at hres
        have hm' : 0 ≤ m ∧ m < 0 + MAX_IMAGE := by simp only [MAX_IMAGE]; omega
        by_cases hold : st.resTree m = true
        · obtain ⟨_, i2, i3⟩ := hinv m hm hold
          simp [hm', i2, i3] at hres
          exact absurd hres.1 (by simp only [MAX_IMAGE]; omega)
        · split_ifs at hres
          exact hold hres


/-! ### The interrupt table under the DMA entry points -/

/-- The interrupt table after `execDMA` and `testAndClearDMAErrors`. -/
theorem testAndClear_after_exec_irq (st : State) (chain : Nat) (run : DmaRun) :
    (testAndClearDMAErrors (execDMA st chain run)).2.irq_device = st.irq_device := by
  simp only [testAndClearDMAErrors, execDMA, DMA_timeout]
  cases run.timeout <;> simp <;> split_ifs <;> simp

/-- The one-shot DMA transfers and every command of `universeII_ioctl_dma`
other than the full reset leave the interrupt table as it is. -/
theorem irq_table_dma (st : State) :
    (∀ (arg : Option dma_param_t) (run : DmaRun),
      (universeII_read_dma st arg run).2.irq_device = st.irq_device ∧
      (universeII_write_dma st arg run).2.irq_device = st.irq_device) ∧
    (∀ (cmd : DmaCmd) (fuel : Nat) (r : Int × State),
      (∀ arg dgcs, cmd ≠ DmaCmd.RESET_ALL arg dgcs) →
      universeII_ioctl_dma st cmd fuel = Res.ok r → r.2.irq_device = st.irq_device) := by
  refine ⟨fun arg run => ?_, fun cmd fuel r hcmd h => ?_⟩
  · cases arg with
    | none => exact ⟨rfl, rfl⟩
    | some p =>
      simp only [universeII_read_dma, universeII_write_dma]
      refine ⟨?_, ?_⟩ <;> split_ifs <;> simp [testAndClear_after_exec_irq]
  · cases cmd with
    | REQUEST_DMA arg =>
      simp only [universeII_ioctl_dma, IOCTL_REQUEST_DMA] at h
      cases h
      split_ifs <;> simp
    | RELEASE_DMA => cases h; rfl
    | DMA_BLT_BERR => cases h; rfl
    | NEW_DCP =>
      simp only [universeII_ioctl_dma, IOCTL_NEW_DCP] at h
      cases h
      split_ifs <;> simp
    | ADD_DCP arg newP busAddr =>
      obtain ⟨_, _, _, f4, _⟩ := IOCTL_ADD_DCP_frame _ _ _ _ _ _ h
      exact f4
    | EXEC_DCP arg run =>
      simp only [universeII_ioctl_dma, IOCTL_EXEC_DCP] at h
      split_ifs at h
      · cases h; rfl
      · cases h
        simp [testAndClear_after_exec_irq]
      · revert h
        split
        · intro h; cases h
          simp [testAndClear_after_exec_irq]
        · intro h; cases h
        · intro h; cases h
    | DEL_DCL arg =>
      simp only [universeII_ioctl_dma, IOCTL_DEL_DCL] at h
      revert h
      split
      · rename_i st1 hfc
        intro h; cases h
        obtain ⟨⟨_, _, _, f4, _⟩, _⟩ := freeChain_frame _ _ _ _ hfc
        simpa using f4
      · intro h; cases h
      · intro h; cases h
    | RESET_ALL arg dgcs => exact absurd rfl (hcmd arg dgcs)


/-! ## C22: dispatch of a VME interrupt -/

/-- The level scan of `irq_handler` finds the highest level at or below its
start whose status bit is set. -/
theorem irqLevelScan_highest (status L : Nat) (h1 : 1 ≤ L)
    (hset : status &&& (1 <<< L) ≠ 0) :
    ∀ n, L ≤ n → (∀ j, L < j → j ≤ n → status &&& (1 <<< j) = 0) →
      irqLevelScan status n = L := by
  intro n
  induction n with
  | zero => intro hn; omega
  | succ n ih =>
    intro hn hhigh
    by_cases hL : L = n + 1
    · subst hL
      simp only [irqLevelScan, if_pos hset]
    · have hc : status &&& (1 <<< (n + 1)) = 0 := hhigh (n + 1) (by omega) (le_refl _)
      simp only [irqLevelScan, hc, ne_eq, not_true_eq_false, if_false]
      exact ih (by omega) fun j hj hjn => hhigh j hj (by omega)

/-- A status with one of the bits 1..7 set has a bit of the mask `0xFE`
set. -/
theorem status_vme_bits (status L : Nat) (h1 : 1 ≤ L) (h7 : L ≤ 7)
    (hset : status &&& (1 <<< L) ≠ 0) : status &&& 0x00FE ≠ 0 := by
  intro h0
  apply hset
  have hm : (0x00FE : Nat) &&& (1 <<< L) = 1 <<< L := by
    interval_cases L <;> decide
  rw [← hm, ← Nat.and_assoc, h0]
  simp

/-- The mailbox loop of `irq_handler` wakes mailbox queues only. -/
theorem mbxWakeLoop_mem (status : Nat) :
    ∀ (n i : Nat) (w : Wake), w ∈ mbxWakeLoop status n i → ∃ k, w = Wake.mbx k := by
  intro n
  induction n with
  | zero => intro i w hw; simp [mbxWakeLoop] at hw
  | succ n ih =>
    intro i w hw
    simp only [mbxWakeLoop, List.mem_append] at hw
    rcases hw with hw | hw
    · split_ifs at hw
      · simp at hw; exact ⟨i, hw⟩
      · simp at hw
    · exact ih _ _ hw

/-- The block "VMEbus interrupt" of `irq_handler` when `L` is the highest
pending level. -/
theorem irq_vme_highest (st : State) (status L : Nat) (h1 : 1 ≤ L) (h7 : L ≤ 7)
    (hset : status &&& (1 <<< L) ≠ 0)
    (hhigh : ∀ j, L < j → j ≤ 7 → status &&& (1 <<< j) = 0) :
    irq_vme st status =
      if readl st (aVIrq (L - 1)) &&& 0x100 ≠ 0 then (st, [], [L - 1], [])
      else if 7 * 256 ≤ 256 * (L - 1) + readl st (aVIrq (L - 1)) then
        (st, [], [L - 1], [(L - 1, readl st (aVIrq (L - 1)))])
      else if (st.irq_device (irqRow (L - 1) (readl st (aVIrq (L - 1))))
          (irqCol (L - 1) (readl st (aVIrq (L - 1))))).ok ≠ 0 then
        ((if (st.irq_device (irqRow (L - 1) (readl st (aVIrq (L - 1))))
              (irqCol (L - 1) (readl st (aVIrq (L - 1))))).vmeAddrCl ≠ 0 then
            vmeWritel (st.irq_device (irqRow (L - 1) (readl st (aVIrq (L - 1))))
                (irqCol (L - 1) (readl st (aVIrq (L - 1))))).vmeValCl
              (st.irq_device (irqRow (L - 1) (readl st (aVIrq (L - 1))))
                (irqCol (L - 1) (readl st (aVIrq (L - 1))))).vmeAddrCl st
          else st),
         [Wake.irq (irqRow (L - 1) (readl st (aVIrq (L - 1))))
            (irqCol (L - 1) (readl st (aVIrq (L - 1))))], [L - 1],
         [(L - 1, readl st (aVIrq (L - 1)))])
      else (st, [], [L - 1], [(L - 1, readl st (aVIrq (L - 1)))]) := by
  have hscan := irqLevelScan_highest status L h1 hset 7 h7 hhigh
  have hL0 : L ≠ 0 := by omega
  simp only [irq_vme, if_pos (status_vme_bits status L h1 h7 hset), hscan, if_pos hL0]

/-- For a column index below 256, the expression `irq_device[i][j]` designates
the slot of row `i` and column `j`, which lies in the table for `i < 7`. -/
theorem irqRow_byte (i j : Nat) (hi : i < 7) (hj : j < 256) :
    irqRow i j = i ∧ irqCol i j = j ∧ ¬ (7 * 256 ≤ 256 * i + j) := by
  simp only [irqRow, irqCol]
  omega

set_option maxRecDepth 100000 in
/-- A nine-bit value with bit 8 clear is a byte. -/
theorem nine_bit_value : ∀ x, x < 0x200 → x &&& 0x100 = 0 → x < 0x100 := by
  decide

/-- The dispatch of `irq_handler` for a nine-bit value of the status/ID
register.  Let `L` in `1..7` be the highest level whose bit is set in
`LINT_STAT & LINT_EN`, and let the status/ID register of level `L` show a
nine-bit value `sv`.  Then `irq_handler` reads the status/ID register of
level `L` and no other.  If bit 8 of `sv` is clear and the slot of level `L`
and status-ID `sv & 0xFF` is armed, the handler accesses that slot, makes its
exit write when `vmeAddrCl` is set (and no write otherwise), and wakes the
queue of that slot and of no other slot.  If bit 8 is set or the slot is
free, it wakes no slot and makes no write. -/
theorem irq_dispatch (st : State) (L : Nat) (h1 : 1 ≤ L) (h7 : L ≤ 7)
    (hset : (readl st LINT_STAT &&& readl st LINT_EN) &&& (1 <<< L) ≠ 0)
    (hhigh : ∀ j, L < j → j ≤ 7 → (readl st LINT_STAT &&& readl st LINT_EN) &&& (1 <<< j) = 0)
    (hreg : readl st (aVIrq (L - 1)) < 0x200) :
    (irq_handler st).1.handled = true ∧
    (irq_handler st).1.statidReads = [L - 1] ∧
    (readl st (aVIrq (L - 1)) &&& 0x100 = 0 →
      readl st (aVIrq (L - 1)) = readl st (aVIrq (L - 1)) &&& 0xFF ∧
      (irq_handler st).1.slots = [(L - 1, readl st (aVIrq (L - 1)) &&& 0xFF)]) ∧
    (readl st (aVIrq (L - 1)) &&& 0x100 = 0 →
      (st.irq_device (L - 1) (readl st (aVIrq (L - 1)) &&& 0xFF)).ok ≠ 0 →
      (∀ l s, Wake.irq l s ∈ (irq_handler st).1.wakes ↔
        l = L - 1 ∧ s = readl st (aVIrq (L - 1)) &&& 0xFF) ∧
      (irq_handler st).2.vmeWrites =
        if (st.irq_device (L - 1) (readl st (aVIrq (L - 1)) &&& 0xFF)).vmeAddrCl ≠ 0 then
          ((st.irq_device (L - 1) (readl st (aVIrq (L - 1)) &&& 0xFF)).vmeValCl,
            (st.irq_device (L - 1) (readl st (aVIrq (L - 1)) &&& 0xFF)).vmeAddrCl) ::
              st.vmeWrites
        else st.vmeWrites) ∧
    (readl st (aVIrq (L - 1)) &&& 0x100 ≠ 0 ∨
        (st.irq_device (L - 1) (readl st (aVIrq (L - 1)) &&& 0xFF)).ok = 0 →
      (∀ l s, Wake.irq l s ∉ (irq_handler st).1.wakes) ∧
      (irq_handler st).2.vmeWrites = st.vmeWrites) := by
  generalize hsv : readl st (aVIrq (L - 1)) = sv at hreg ⊢
  generalize hstat : readl st LINT_STAT &&& readl st LINT_EN = status at hset hhigh
  have hs0 : status ≠ 0 := by
    intro h0; rw [h0] at hset; simp at hset
  have hbyte : sv &&& 0x100 = 0 → sv = sv &&& 0xFF := by
    intro hb
    have e1 : sv &&& 0xFF = sv % 256 := Nat.and_pow_two_sub_one_eq_mod sv 8
    have e2 := nine_bit_value sv hreg hb
    omega
  have hv0 := irq_vme_highest (countIrq st) status L h1 h7 hset hhigh
  have hsv' : readl (countIrq st) (aVIrq (L - 1)) = sv := hsv
  rw [hsv'] at hv0
  have hv : irq_vme (countIrq st) status =
      if sv &&& 0x100 ≠ 0 then (countIrq st, [], [L - 1], [])
      else if ((countIrq st).irq_device (L - 1) sv).ok ≠ 0 then
        ((if ((countIrq st).irq_device (L - 1) sv).vmeAddrCl ≠ 0 then
            vmeWritel ((countIrq st).irq_device (L - 1) sv).vmeValCl
              ((countIrq st).irq_device (L - 1) sv).vmeAddrCl (countIrq st)
          else countIrq st),
         [Wake.irq (L - 1) sv], [L - 1], [(L - 1, sv)])
      else (countIrq st, [], [L - 1], [(L - 1, sv)]) := by
    rw [hv0]
    by_cases hb : sv &&& 0x100 ≠ 0
    · simp only [if_pos hb]
    · have hlt : sv < 0x100 := nine_bit_value sv hreg (by simpa using hb)
      obtain ⟨e1, e2, e3⟩ := irqRow_byte (L - 1) sv (by omega) hlt
      simp only [if_neg hb, if_neg e3, e1, e2]
  have hmb : ∀ l s, Wake.irq l s ∉
      ((if status &&& 0x0100 ≠ 0 then [Wake.dma] else []) ++
        (if status &&& 0xF0000 ≠ 0 then mbxWakeLoop status 4 0 else []) ++
        (if status &&& 0x1000 ≠ 0 then [Wake.vme] else [])) := by
    intro l s hm
    simp only [List.mem_append] at hm
    rcases hm with (hm | hm) | hm
    · by_cases c : status &&& 0x0100 ≠ 0
      · simp [if_pos c] at hm
      · simp [if_neg c] at hm
    · by_cases c : status &&& 0xF0000 ≠ 0
      · rw [if_pos c] at hm
        obtain ⟨k, hk⟩ := mbxWakeLoop_mem _ _ _ _ hm
        cases hk
      · simp [if_neg c] at hm
    · by_cases c : status &&& 0x1000 ≠ 0
      · simp [if_pos c] at hm
      · simp [if_neg c] at hm
  have hbw : ∀ s : State, (irq_berr s).vmeWrites = s.vmeWrites := by
    intro s
    simp only [irq_berr]
    split_ifs <;> simp
  have hstat' : readl st LINT_STAT &&& readl st LINT_EN = status := hstat
  simp only [irq_handler, hstat', if_neg hs0, hv, List.append_assoc]
  refine ⟨trivial, ?_, ?_, ?_, ?_⟩
  · split_ifs <;> rfl
  · intro hb
    refine ⟨hbyte hb, ?_⟩
    rw [← hbyte hb]
    have hb' : ¬ (sv &&& 0x100 ≠ 0) := fun h => h hb
    simp only [if_neg hb']
    split_ifs <;> rfl
  · intro hb hok
    rw [← hbyte hb] at hok ⊢
    have hb' : ¬ (sv &&& 0x100 ≠ 0) := fun h => h hb
    have hok' : ((countIrq st).irq_device (L - 1) sv).ok ≠ 0 := hok
    simp only [if_neg hb', if_pos hok']
    refine ⟨fun l s => ?_, ?_⟩
    · simp only [List.singleton_append, List.mem_cons, Wake.irq.injEq]
      constructor
      · rintro (h | h)
        · exact h
        · exact absurd (by simpa [List.append_assoc] using h) (hmb l s)
      · intro h; exact Or.inl h
    · simp only [writel_vmeWrites, countIrq_irq_device]
      split_ifs <;> simp [hbw]
  · intro hcase
    have hnone : irq_vme (countIrq st) status =
        (countIrq st, [], [L - 1], if sv &&& 0x100 ≠ 0 then [] else [(L - 1, sv)]) := by
      rw [hv]
      by_cases hb : sv &&& 0x100 ≠ 0
      · simp only [if_pos hb]
      · have hb0 : sv &&& 0x100 = 0 := by simpa using hb
        have hok : ¬ ((countIrq st).irq_device (L - 1) sv).ok ≠ 0 := by
          rcases hcase with h | h
          · exact absurd h hb
          · rw [← hbyte hb0] at h
            intro hne; exact hne h
        simp only [if_neg hb, if_neg hok]
    rw [← hv, hnone]
    refine ⟨fun l s hm => ?_, ?_⟩
    · exact hmb l s (by simpa [List.append_assoc] using hm)
    · simp only [writel_vmeWrites, countIrq_irq_device]
      split_ifs <;> simp [hbw]


/-- The dispatch on examples.  With the levels 3 and 4 pending and the slot
of level 4, status-ID 9 armed with an exit write, the handler reads the
status/ID register of level 4 only, makes the exit write and wakes that slot
and no other; with bit 8 set in the status/ID register, or with a status-ID
whose slot is free, it wakes no slot. -/
theorem irq_dispatch_witness :
    (irq_handler exampleIrqPending).1.statidReads = [3] ∧
    (∀ l s, Wake.irq l s ∈ (irq_handler exampleIrqPending).1.wakes ↔ l = 3 ∧ s = 9) ∧
    (irq_handler exampleIrqPending).2.vmeWrites = [(0x77, 0xD0000010)] ∧
    (∀ l s, Wake.irq l s ∉ (irq_handler exampleIrqIackError).1.wakes) ∧
    (∀ l s, Wake.irq l s ∉ (irq_handler exampleIrqFreeSlot).1.wakes) :=
  ⟨(irq_dispatch exampleIrqPending 4 (by decide) (by decide) (by decide)
      (fun j hj hj7 => by interval_cases j <;> decide) (by decide)).2.1,
   ((irq_dispatch exampleIrqPending 4 (by decide) (by decide) (by decide)
      (fun j hj hj7 => by interval_cases j <;> decide) (by decide)).2.2.2.1
      (by decide) (by decide)).1,
   ((irq_dispatch exampleIrqPending 4 (by decide) (by decide) (by decide)
      (fun j hj hj7 => by interval_cases j <;> decide) (by decide)).2.2.2.1
      (by decide) (by decide)).2,
   ((irq_dispatch exampleIrqIackError 4 (by decide) (by decide) (by decide)
      (fun j hj hj7 => by interval_cases j <;> decide) (by decide)).2.2.2.2
      (Or.inl (by decide))).1,
   ((irq_dispatch exampleIrqFreeSlot 4 (by decide) (by decide) (by decide)
      (fun j hj hj7 => by interval_cases j <;> decide) (by decide)).2.2.2.2
      (Or.inr (by decide))).1⟩


set_option maxRecDepth 100000 in
/-- C22, the code at the failing input.  Level 4 is the only pending level
and its status/ID register shows `0x209`: bit 8 is clear and the status-ID
byte is `9`.  The slot of level 4, status-ID 9 is free and the slot of level
6, status-ID 9 is armed with an exit write.  The handler reads the status/ID
register of level 4 only and accesses `irq_device[3][0x209]`, which is the
slot `irq_device[5][9]` of level 6: it makes the exit write of that slot and
wakes its waiter. -/
theorem irq_dispatch_wakes_aliased_slot :
    readl exampleIrqAlias LINT_STAT &&& readl exampleIrqAlias LINT_EN = 0x10 ∧
    readl exampleIrqAlias V4_STATID = 0x209 ∧
    readl exampleIrqAlias V4_STATID &&& 0x100 = 0 ∧
    readl exampleIrqAlias V4_STATID &&& 0xFF = 9 ∧
    (exampleIrqAlias.irq_device 3 9).ok = 0 ∧
    (exampleIrqAlias.irq_device 5 9).ok = 1 ∧
    irqRow 3 0x209 = 5 ∧ irqCol 3 0x209 = 9 ∧
    (irq_handler exampleIrqAlias).1.statidReads = [3] ∧
    (irq_handler exampleIrqAlias).1.slots = [(3, 0x209)] ∧
    (irq_handler exampleIrqAlias).1.wakes = [Wake.irq 5 9] ∧
    exampleIrqAlias.vmeWrites = [] ∧
    (irq_handler exampleIrqAlias).2.vmeWrites = [(0x77, 0xD0000010)] := by
  decide


/-! ## C23: the ring of logged bus errors -/

/-- The block "VMEbus interrupt" of `irq_handler` changes at most the list
of window writes. -/
theorem irq_vme_frame (st : State) (status : Nat) :
    (irq_vme st status).1.statistics = st.statistics ∧
    (irq_vme st status).1.regs = st.regs ∧
    (irq_vme st status).1.vmeBerrList = st.vmeBerrList ∧
    (irq_vme st status).1.irq_device = st.irq_device ∧
    (irq_vme st status).1.image = st.image := by
  simp only [irq_vme]
  refine ⟨?_, ?_, ?_, ?_, ?_⟩ <;> split_ifs <;> simp

/-- The bus-error counter and the ring after the block "VMEBus error" of
`irq_handler`. -/
theorem irq_berr_spec (s : State) :
    (irq_berr s).statistics.berrs =
      s.statistics.berrs + (if s.regs V_AMERR &&& 0x00800000 ≠ 0 then 1 else 0) ∧
    (irq_berr s).vmeBerrList =
      if s.regs V_AMERR &&& 0x00800000 ≠ 0 then
        fun k => if k = s.statistics.berrs % 32 then berrEntry s.regs (s.vmeBerrList k)
                 else s.vmeBerrList k
      else s.vmeBerrList := by
  have hmod : s.statistics.berrs &&& 0x1F = s.statistics.berrs % 32 :=
    Nat.and_pow_two_sub_one_eq_mod _ 5
  by_cases hv : s.regs V_AMERR &&& 0x00800000 ≠ 0
  · have hv' : readl s V_AMERR &&& 0x00800000 ≠ 0 := hv
    simp only [irq_berr, if_pos hv', if_pos hv, hmod]
    refine ⟨by split_ifs <;> simp, ?_⟩
    funext k
    by_cases hk : k = s.statistics.berrs % 32
    · subst hk
      by_cases hm : s.regs V_AMERR &&& 0x01000000 ≠ 0
      · have hm' : readl s V_AMERR &&& 0x01000000 ≠ 0 := hm
        simp only [if_pos hm']
        simp [berrEntry, hm]
      · have hm' : ¬ (readl s V_AMERR &&& 0x01000000 ≠ 0) := hm
        simp only [if_neg hm']
        simp [berrEntry, hm]
    · by_cases hm : readl s V_AMERR &&& 0x01000000 ≠ 0
      · simp only [if_pos hm]; simp [hk]
      · simp only [if_neg hm]; simp [hk]
  · have hv' : ¬ (readl s V_AMERR &&& 0x00800000 ≠ 0) := hv
    simp only [irq_berr, if_neg hv', if_neg hv, Nat.add_zero, and_self]

/-- The bus-error counter and the ring after one call of `irq_handler` with
the registers `hw`. -/
theorem irq_handler_berr (st : State) (hw : Reg → Nat) :
    (irq_handler (setRegs st hw)).2.statistics.berrs =
      st.statistics.berrs + (if logsBerr hw then 1 else 0) ∧
    (irq_handler (setRegs st hw)).2.vmeBerrList =
      if logsBerr hw then
        fun k => if k = st.statistics.berrs % 32 then berrEntry hw (st.vmeBerrList k)
                 else st.vmeBerrList k
      else st.vmeBerrList := by
  obtain ⟨f1, f2, f3, _, _⟩ :=
    irq_vme_frame (countIrq (setRegs st hw)) (hw LINT_STAT &&& hw LINT_EN)
  by_cases h0 : hw LINT_STAT &&& hw LINT_EN = 0
  · have hl : ¬ logsBerr hw := by
      intro h; apply h.1; rw [h0]; rfl
    simp only [irq_handler, readl, setRegs_regs, if_pos h0, if_neg hl, setRegs_statistics,
      setRegs_vmeBerrList, Nat.add_zero, and_self]
  · simp only [irq_handler, readl, setRegs_regs, if_neg h0, writel_statistics,
      writel_vmeBerrList]
    generalize (irq_vme (countIrq (setRegs st hw)) (hw LINT_STAT &&& hw LINT_EN)).1 = s2
      at f1 f2 f3
    have g1 : s2.statistics.berrs = st.statistics.berrs := by rw [f1]; rfl
    have g2 : s2.regs = hw := f2
    have g3 : s2.vmeBerrList = st.vmeBerrList := f3
    obtain ⟨e1, e2⟩ := irq_berr_spec s2
    rw [g1, g2] at e1
    rw [g1, g2, g3] at e2
    by_cases hb : (hw LINT_STAT &&& hw LINT_EN) &&& 0x0400 ≠ 0
    · simp only [if_pos hb, e1, e2]
      by_cases hv : hw V_AMERR &&& 0x00800000 ≠ 0
      · have hl : logsBerr hw := ⟨hb, hv⟩
        simp only [if_pos hv, if_pos hl, and_self]
      · have hl : ¬ logsBerr hw := fun h => hv h.2
        simp only [if_neg hv, if_neg hl, and_self]
    · have hl : ¬ logsBerr hw := fun h => hb h.1
      simp only [if_neg hb, if_neg hl, g1, g3, Nat.add_zero, and_self]


/-- A run of interrupts from any state with `b` bus errors counted: the
counter grows by the number `n` of logged errors, a ring slot that none of
them falls on is unchanged, and each of the last 32 logged errors, number `j`,
is found in slot `(b + j) mod 32`. -/
theorem irqRun_berr :
    ∀ (hws : List (Reg → Nat)) (st : State),
      (irqRun st hws).statistics.berrs = st.statistics.berrs + (loggedBerrs hws).length ∧
      (∀ k, (∀ i, i < (loggedBerrs hws).length → (st.statistics.berrs + i) % 32 ≠ k) →
        (irqRun st hws).vmeBerrList k = st.vmeBerrList k) ∧
      (∀ (j : Nat) (hw : Reg → Nat), (loggedBerrs hws)[j]? = some hw →
        (loggedBerrs hws).length ≤ j + 32 →
        ((irqRun st hws).vmeBerrList ((st.statistics.berrs + j) % 32)).valid = 1 ∧
        ((irqRun st hws).vmeBerrList ((st.statistics.berrs + j) % 32)).AM =
          (hw V_AMERR >>> 26) &&& 0x3f ∧
        ((irqRun st hws).vmeBerrList ((st.statistics.berrs + j) % 32)).address = hw VAERR) := by
  intro hws
  induction hws with
  | nil =>
    intro st
    refine ⟨rfl, fun _ _ => rfl, fun j hw h => ?_⟩
    simp [loggedBerrs] at h
  | cons hw0 t ih =>
    intro st
    obtain ⟨s1, s2⟩ := irq_handler_berr st hw0
    obtain ⟨i1, i2, i3⟩ := ih (irq_handler (setRegs st hw0)).2
    simp only [irqRun]
    by_cases hl : logsBerr hw0
    · have hlog : loggedBerrs (hw0 :: t) = hw0 :: loggedBerrs t := by
        simp [loggedBerrs, List.filter_cons, hl]
      rw [if_pos hl] at s1 s2
      rw [s1] at i1 i2 i3
      rw [hlog]
      simp only [List.length_cons]
      refine ⟨by rw [i1]; omega, fun k hk => ?_, fun j hw hj hn => ?_⟩
      · rw [i2 k fun i hi => by have := hk (i + 1) (by omega); rwa [← Nat.add_assoc,
          Nat.add_right_comm] at this]
        rw [s2]
        have hk0 := hk 0 (by omega)
        simp only [Nat.add_zero] at hk0
        simp only [if_neg (Ne.symm hk0)]
      · cases j with
        | zero =>
          have hhw : hw0 = hw := by simpa using hj
          subst hhw
          simp only [Nat.add_zero]
          rw [i2 _ fun i hi => by omega, s2]
          simp only [if_true, berrEntry, and_self]
        | succ j' =>
          have hj' : (loggedBerrs t)[j']? = some hw := by simpa using hj
          have := i3 j' hw hj' (by omega)
          have e : st.statistics.berrs + 1 + j' = st.statistics.berrs + (j' + 1) := by omega
          rw [e] at this
          exact this
    · have hlog : loggedBerrs (hw0 :: t) = loggedBerrs t := by
        simp [loggedBerrs, List.filter_cons, hl]
      rw [if_neg hl] at s1 s2
      rw [Nat.add_zero] at s1
      rw [s1] at i1 i2 i3
      rw [hlog]
      refine ⟨i1, fun k hk => ?_, i3⟩
      rw [i2 k hk, s2]


/-- C23. From the state that `universeII_probe` leaves, after a run of
interrupts of which `irq_handler` logs `n` as bus errors (pending, enabled,
log valid), `statistics.berrs = n`; for every logged error `j` that is the
last one with its residue modulo 32 (these are the errors `j` with
`n ≤ j + 32`), slot `j mod 32` of the ring is valid and holds the address in
`VAERR` and the bits 26..31 of `V_AMERR` of that error; a slot on which no
error has fallen is not valid.  A call of `irq_handler` that finds the
log-valid bit clear leaves the ring and the counter as they are. -/
theorem berr_ring (img_ovl : Int) (regs : Reg → Nat) (slave : Nat → Nat × Nat)
    (dmabuf : Nat × Nat) (hws : List (Reg → Nat)) :
    (irqRun (probe_state img_ovl regs slave dmabuf) hws).statistics.berrs =
      (loggedBerrs hws).length ∧
    (∀ (j : Nat) (hw : Reg → Nat), (loggedBerrs hws)[j]? = some hw →
      (∀ j', j < j' → j' < (loggedBerrs hws).length → j' % 32 ≠ j % 32) →
      (loggedBerrs hws).length ≤ j + 32 ∧
      ((irqRun (probe_state img_ovl regs slave dmabuf) hws).vmeBerrList (j % 32)).valid = 1 ∧
      ((irqRun (probe_state img_ovl regs slave dmabuf) hws).vmeBerrList (j % 32)).AM =
        (hw V_AMERR >>> 26) &&& 0x3f ∧
      ((irqRun (probe_state img_ovl regs slave dmabuf) hws).vmeBerrList (j % 32)).address =
        hw VAERR) ∧
    (∀ k, k < 32 → (loggedBerrs hws).length ≤ k →
      ((irqRun (probe_state img_ovl regs slave dmabuf) hws).vmeBerrList k).valid = 0) ∧
    (∀ (st : State) (hw : Reg → Nat), hw V_AMERR &&& 0x00800000 = 0 →
      (irq_handler (setRegs st hw)).2.vmeBerrList = st.vmeBerrList ∧
      (irq_handler (setRegs st hw)).2.statistics.berrs = st.statistics.berrs) := by
  obtain ⟨r1, r2, r3⟩ := irqRun_berr hws (probe_state img_ovl regs slave dmabuf)
  have hb0 : (probe_state img_ovl regs slave dmabuf).statistics.berrs = 0 := rfl
  rw [hb0] at r1 r2 r3
  simp only [Nat.zero_add] at r1 r2 r3
  refine ⟨r1, fun j hw hj hlast => ?_, fun k hk hn => ?_, fun st hw hv => ?_⟩
  · have hjn : j < (loggedBerrs hws).length := by
      by_contra hc
      rw [List.getElem?_eq_none (by omega)] at hj
      cases hj
    have hn : (loggedBerrs hws).length ≤ j + 32 := by
      by_contra hc
      exact hlast (j + 32) (by omega) (by omega) (by omega)
    exact ⟨hn, r3 j hw hj hn⟩
  · rw [r2 k fun i hi => by omega]
    rfl
  · obtain ⟨s1, s2⟩ := irq_handler_berr st hw
    have hl : ¬ logsBerr hw := fun h => h.2 hv
    rw [if_neg hl] at s1 s2
    exact ⟨s2, s1⟩

set_option maxRecDepth 100000 in
/-- C23, on forty bus errors in a row: the counter is 40, the errors 8 and 39
are found in the slots 8 and 7, and slot 0 holds error 32, not error 0. -/
theorem berr_ring_witness :
    (irqRun exampleBoot exampleBerrRun).statistics.berrs = 40 ∧
    ((irqRun exampleBoot exampleBerrRun).vmeBerrList 8).valid = 1 ∧
    ((irqRun exampleBoot exampleBerrRun).vmeBerrList 8).AM = 0x2D ∧
    ((irqRun exampleBoot exampleBerrRun).vmeBerrList 8).address = 0x1000 + 4 * 8 ∧
    ((irqRun exampleBoot exampleBerrRun).vmeBerrList 7).address = 0x1000 + 4 * 39 ∧
    ((irqRun exampleBoot exampleBerrRun).vmeBerrList 0).address = 0x1000 + 4 * 32 :=
  have hlen : (loggedBerrs exampleBerrRun).length = 40 := by decide
  ⟨(berr_ring 0 (fun _ => 0) (fun i => (0xC0000000 + 0x20000 * i, 0x2000000 + 0x20000 * i))
      (0xC8000000, 0x3000000) exampleBerrRun).1.trans hlen,
   ((berr_ring 0 (fun _ => 0) (fun i => (0xC0000000 + 0x20000 * i, 0x2000000 + 0x20000 * i))
      (0xC8000000, 0x3000000) exampleBerrRun).2.1 8 (exampleBerrHw 8) rfl
      (fun j' h1 h2 => by omega)).2.1,
   ((berr_ring 0 (fun _ => 0) (fun i => (0xC0000000 + 0x20000 * i, 0x2000000 + 0x20000 * i))
      (0xC8000000, 0x3000000) exampleBerrRun).2.1 8 (exampleBerrHw 8) rfl
      (fun j' h1 h2 => by omega)).2.2.1,
   ((berr_ring 0 (fun _ => 0) (fun i => (0xC0000000 + 0x20000 * i, 0x2000000 + 0x20000 * i))
      (0xC8000000, 0x3000000) exampleBerrRun).2.1 8 (exampleBerrHw 8) rfl
      (fun j' h1 h2 => by omega)).2.2.2,
   ((berr_ring 0 (fun _ => 0) (fun i => (0xC0000000 + 0x20000 * i, 0x2000000 + 0x20000 * i))
      (0xC8000000, 0x3000000) exampleBerrRun).2.1 39 (exampleBerrHw 39) rfl
      (fun j' h1 h2 => by omega)).2.2.2,
   ((berr_ring 0 (fun _ => 0) (fun i => (0xC0000000 + 0x20000 * i, 0x2000000 + 0x20000 * i))
      (0xC8000000, 0x3000000) exampleBerrRun).2.1 32 (exampleBerrHw 32) rfl
      (fun j' h1 h2 => by omega)).2.2.2⟩


/-! ## C24: transfers through an image window -/

/-- Function `testAndClearBERR` right after access number `i`. -/
theorem testAndClearBERR_after (run : BusRun) (i : Nat) (st : State) :
    ((testAndClearBERR (writel (run.csr i) PCI_CSR st)).1 ≠ 0 ↔ raisesBerr run i) := by
  simp only [testAndClearBERR, raisesBerr, readl, writel_regs, if_true]
  split_ifs with h
  · simp [h]
  · simp [h]

/-- The read loop of an image window: the offsets it accesses, the value it
leaves when no access raises a bus error, the value it returns at the first
bus error, and at the first failing copy. -/
theorem windowReadLoop_spec (run : BusRun) (w o : Nat) :
    ∀ (n i : Nat) (okc : Int) (st : State) (acc : List Nat),
      (∀ a ∈ (windowReadLoop run w o n i okc st acc).2.2.2,
        a ∈ acc ∨ ∃ k, i ≤ k ∧ k < i + n ∧ a = o + w * k) ∧
      ((∀ k, i ≤ k → k < i + n → ¬ raisesBerr run k ∧ run.copyFails k = false) →
        (windowReadLoop run w o n i okc st acc).1 = false ∧
        (windowReadLoop run w o n i okc st acc).2.1 = okc + (w * n : Nat)) ∧
      (∀ j, i ≤ j → j < i + n → raisesBerr run j →
        (∀ k, i ≤ k → k < j → ¬ raisesBerr run k ∧ run.copyFails k = false) →
        (windowReadLoop run w o n i okc st acc).1 = true ∧
        (windowReadLoop run w o n i okc st acc).2.1 = okc + (w * (j - i) : Nat)) ∧
      (∀ j, i ≤ j → j < i + n → ¬ raisesBerr run j → run.copyFails j = true →
        (∀ k, i ≤ k → k < j → ¬ raisesBerr run k ∧ run.copyFails k = false) →
        (windowReadLoop run w o n i okc st acc).1 = true ∧
        (windowReadLoop run w o n i okc st acc).2.1 = -1) := by
  intro n
  induction n with
  | zero =>
    intro i okc st acc
    refine ⟨fun a ha => Or.inl ha, fun _ => ⟨rfl, by simp [windowReadLoop]⟩,
      fun j h1 h2 => absurd h2 (by omega), fun j h1 h2 => absurd h2 (by omega)⟩
  | succ n ih =>
    intro i okc st acc
    have hb := testAndClearBERR_after run i st
    by_cases hr : raisesBerr run i
    · have hb' : (testAndClearBERR (writel (run.csr i) PCI_CSR st)).1 ≠ 0 := hb.mpr hr
      simp only [windowReadLoop, if_pos hb']
      refine ⟨fun a ha => ?_, fun hall => absurd hr (hall i (le_refl _) (by omega)).1,
        fun j h1 h2 hj hbefore => ?_, fun j h1 h2 hj hc hbefore => ?_⟩
      · rcases List.mem_append.mp ha with h | h
        · exact Or.inl h
        · exact Or.inr ⟨i, le_refl _, by omega, by simpa using h⟩
      · have hji : j = i := by
          by_contra hne
          exact (hbefore i (le_refl _) (by omega)).1 hr
        subst hji
        simp
      · have hji : j = i := by
          by_contra hne
          exact (hbefore i (le_refl _) (by omega)).1 hr
        subst hji
        exact absurd hr hj
    · have hb' : ¬ ((testAndClearBERR (writel (run.csr i) PCI_CSR st)).1 ≠ 0) :=
        fun h => hr (hb.mp h)
      by_cases hc : run.copyFails i = true
      · simp only [windowReadLoop, if_neg hb', hc, if_true]
        refine ⟨fun a ha => ?_, fun hall => ?_, fun j h1 h2 hj hbefore => ?_,
          fun j h1 h2 hj hcj hbefore => by simp⟩
        · rcases List.mem_append.mp ha with h | h
          · exact Or.inl h
          · exact Or.inr ⟨i, le_refl _, by omega, by simpa using h⟩
        · have := (hall i (le_refl _) (by omega)).2
          rw [hc] at this
          cases this
        · have hji : j ≠ i := fun e => hr (e ▸ hj)
          have := (hbefore i (le_refl _) (by omega)).2
          rw [hc] at this
          cases this
      · have hc' : run.copyFails i = false := by simpa using hc
        simp only [windowReadLoop, if_neg hb', hc', Bool.false_eq_true, if_false]
        obtain ⟨i1, i2, i3, i4⟩ := ih (i + 1) (okc + w)
          (testAndClearBERR (writel (run.csr i) PCI_CSR st)).2 (acc ++ [o + w * i])
        refine ⟨fun a ha => ?_, fun hall => ?_, fun j h1 h2 hj hbefore => ?_,
          fun j h1 h2 hj hcj hbefore => ?_⟩
        · rcases i1 a ha with h | ⟨k, k1, k2, k3⟩
          · rcases List.mem_append.mp h with h | h
            · exact Or.inl h
            · exact Or.inr ⟨i, le_refl _, by omega, by simpa using h⟩
          · exact Or.inr ⟨k, by omega, by omega, k3⟩
        · obtain ⟨e1, e2⟩ := i2 fun k k1 k2 => hall k (by omega) (by omega)
          refine ⟨e1, ?_⟩
          rw [e2, Nat.mul_succ]
          push_cast
          ring
        · have hji : j ≠ i := fun e => hr (e ▸ hj)
          obtain ⟨e1, e2⟩ := i3 j (by omega) (by omega) hj
            fun k k1 k2 => hbefore k (by omega) k2
          refine ⟨e1, ?_⟩
          rw [e2]
          have : j - i = (j - (i + 1)) + 1 := by omega
          rw [this, Nat.mul_succ]
          push_cast
          ring
        · have hji : j ≠ i := fun e => by rw [e] at hcj; rw [hc'] at hcj; cases hcj
          exact i4 j (by omega) (by omega) hj hcj fun k k1 k2 => hbefore k (by omega) k2


/-- The write loop of an image window: the offsets it accesses, the value it
leaves when no access raises a bus error, the value it returns at the first
bus error, and at the first failing copy. -/
theorem windowWriteLoop_spec (run : BusRun) (w o : Nat) :
    ∀ (n i : Nat) (okc : Int) (st : State) (acc : List Nat),
      (∀ a ∈ (windowWriteLoop run w o n i okc st acc).2.2.2,
        a ∈ acc ∨ ∃ k, i ≤ k ∧ k < i + n ∧ a = o + w * k) ∧
      ((∀ k, i ≤ k → k < i + n → ¬ raisesBerr run k ∧ run.copyFails k = false) →
        (windowWriteLoop run w o n i okc st acc).1 = false ∧
        (windowWriteLoop run w o n i okc st acc).2.1 = okc + (w * n : Nat)) ∧
      (∀ j, i ≤ j → j < i + n → raisesBerr run j → run.copyFails j = false →
        (∀ k, i ≤ k → k < j → ¬ raisesBerr run k ∧ run.copyFails k = false) →
        (windowWriteLoop run w o n i okc st acc).1 = true ∧
        (windowWriteLoop run w o n i okc st acc).2.1 = okc + (w * (j - i) : Nat)) ∧
      (∀ j, i ≤ j → j < i + n → run.copyFails j = true →
        (∀ k, i ≤ k → k < j → ¬ raisesBerr run k ∧ run.copyFails k = false) →
        (windowWriteLoop run w o n i okc st acc).1 = true ∧
        (windowWriteLoop run w o n i okc st acc).2.1 = -1) := by
  intro n
  induction n with
  | zero =>
    intro i okc st acc
    refine ⟨fun a ha => Or.inl ha, fun _ => ⟨rfl, by simp [windowWriteLoop]⟩,
      fun j h1 h2 => absurd h2 (by omega), fun j h1 h2 => absurd h2 (by omega)⟩
  | succ n ih =>
    intro i okc st acc
    have hb := testAndClearBERR_after run i st
    by_cases hc : run.copyFails i = true
    · simp only [windowWriteLoop, hc, if_true]
      refine ⟨fun a ha => Or.inl ha, fun hall => ?_, fun j h1 h2 hj hcj hbefore => ?_,
        fun j h1 h2 hcj hbefore => by simp⟩
      · have := (hall i (le_refl _) (by omega)).2
        rw [hc] at this
        cases this
      · have hji : j ≠ i := fun e => by rw [e] at hcj; rw [hc] at hcj; cases hcj
        have := (hbefore i (le_refl _) (by omega)).2
        rw [hc] at this
        cases this
    · have hc' : run.copyFails i = false := by simpa using hc
      by_cases hr : raisesBerr run i
      · have hb' : (testAndClearBERR (writel (run.csr i) PCI_CSR st)).1 ≠ 0 := hb.mpr hr
        simp only [windowWriteLoop, hc', Bool.false_eq_true, if_false, if_pos hb']
        refine ⟨fun a ha => ?_, fun hall => absurd hr (hall i (le_refl _) (by omega)).1,
          fun j h1 h2 hj hcj hbefore => ?_, fun j h1 h2 hcj hbefore => ?_⟩
        · rcases List.mem_append.mp ha with h | h
          · exact Or.inl h
          · exact Or.inr ⟨i, le_refl _, by omega, by simpa using h⟩
        · have hji : j = i := by
            by_contra hne
            exact (hbefore i (le_refl _) (by omega)).1 hr
          subst hji
          simp
        · have hji : j ≠ i := fun e => by rw [e] at hcj; rw [hc'] at hcj; cases hcj
          exact absurd hr (hbefore i (le_refl _) (by omega)).1
      · have hb' : ¬ ((testAndClearBERR (writel (run.csr i) PCI_CSR st)).1 ≠ 0) :=
          fun h => hr (hb.mp h)
        simp only [windowWriteLoop, hc', Bool.false_eq_true, if_false, if_neg hb']
        obtain ⟨i1, i2, i3, i4⟩ := ih (i + 1) (okc + w)
          (testAndClearBERR (writel (run.csr i) PCI_CSR st)).2 (acc ++ [o + w * i])
        refine ⟨fun a ha => ?_, fun hall => ?_, fun j h1 h2 hj hcj hbefore => ?_,
          fun j h1 h2 hcj hbefore => ?_⟩
        · rcases i1 a ha with h | ⟨k, k1, k2, k3⟩
          · rcases List.mem_append.mp h with h | h
            · exact Or.inl h
            · exact Or.inr ⟨i, le_refl _, by omega, by simpa using h⟩
          · exact Or.inr ⟨k, by omega, by omega, k3⟩
        · obtain ⟨e1, e2⟩ := i2 fun k k1 k2 => hall k (by omega) (by omega)
          refine ⟨e1, ?_⟩
          rw [e2, Nat.mul_succ]
          push_cast
          ring
        · have hji : j ≠ i := fun e => hr (e ▸ hj)
          obtain ⟨e1, e2⟩ := i3 j (by omega) (by omega) hj hcj
            fun k k1 k2 => hbefore k (by omega) k2
          refine ⟨e1, ?_⟩
          rw [e2]
          have : j - i = (j - (i + 1)) + 1 := by omega
          rw [this, Nat.mul_succ]
          push_cast
          ring
        · have hji : j ≠ i := fun e => by rw [e] at hcj; rw [hc'] at hcj; cases hcj
          exact i4 j (by omega) (by omega) hcj fun k k1 k2 => hbefore k (by omega) k2


/-- The results of the two window loops, started as `universeII_read` and
`universeII_write` start them, when the `cnt` accesses of width `w` from
offset `o` fit into `size` bytes.  The read loop copies element `j` after
access `j`, the write loop before it. -/
theorem window_loops (run : BusRun) (w o cnt size : Nat) (st0 st1 : State)
    (hfit : o + w * cnt ≤ size) :
    (∀ a ∈ (windowReadLoop run w o cnt 0 0 st0 []).2.2.2, a + w ≤ size) ∧
    (∀ a ∈ (windowWriteLoop run w o cnt 0 0 st1 []).2.2.2, a + w ≤ size) ∧
    (∀ j, j < cnt → raisesBerr run j →
      (∀ k, k < j → ¬ raisesBerr run k ∧ run.copyFails k = false) →
      (windowReadLoop run w o cnt 0 0 st0 []).2.1 = ((w * j : Nat) : Int) ∧
      (run.copyFails j = false →
        (windowWriteLoop run w o cnt 0 0 st1 []).2.1 = ((w * j : Nat) : Int))) ∧
    ((∀ k, k < cnt → ¬ raisesBerr run k ∧ run.copyFails k = false) →
      (windowReadLoop run w o cnt 0 0 st0 []).2.1 = ((w * cnt : Nat) : Int) ∧
      (windowWriteLoop run w o cnt 0 0 st1 []).2.1 = ((w * cnt : Nat) : Int)) ∧
    (∀ j, j < cnt → run.copyFails j = true →
      (∀ k, k < j → ¬ raisesBerr run k ∧ run.copyFails k = false) →
      (windowWriteLoop run w o cnt 0 0 st1 []).2.1 = -1 ∧
      (¬ raisesBerr run j → (windowReadLoop run w o cnt 0 0 st0 []).2.1 = -1)) := by
  obtain ⟨r1, r2, r3, r4⟩ := windowReadLoop_spec run w o cnt 0 0 st0 []
  obtain ⟨w1, w2, w3, w4⟩ := windowWriteLoop_spec run w o cnt 0 0 st1 []
  have hin : ∀ a, (a ∈ ([] : List Nat) ∨ ∃ k, 0 ≤ k ∧ k < 0 + cnt ∧ a = o + w * k) →
      a + w ≤ size := by
    intro a ha
    rcases ha with ha | ⟨k, _, hk, rfl⟩
    · cases ha
    · have h1 : w * (k + 1) ≤ w * cnt := Nat.mul_le_mul_left w (by omega)
      rw [Nat.mul_succ] at h1
      omega
  refine ⟨fun a ha => hin a (r1 a ha), fun a ha => hin a (w1 a ha), ?_, ?_, ?_⟩
  · intro j hj hr hbefore
    have e1 := (r3 j (Nat.zero_le _) (by omega) hr fun k _ hk => hbefore k hk).2
    simp only [Nat.sub_zero, zero_add] at e1
    refine ⟨e1, fun hcj => ?_⟩
    have e2 := (w3 j (Nat.zero_le _) (by omega) hr hcj fun k _ hk => hbefore k hk).2
    simp only [Nat.sub_zero, zero_add] at e2
    exact e2
  · intro hclean
    have e1 := (r2 fun k _ hk => hclean k (by omega)).2
    have e2 := (w2 fun k _ hk => hclean k (by omega)).2
    simp only [zero_add] at e1 e2
    exact ⟨e1, e2⟩
  · intro j hj hcj hbefore
    refine ⟨(w4 j (Nat.zero_le _) (by omega) hcj fun k _ hk => hbefore k hk).2, fun hr => ?_⟩
    exact (r4 j (Nat.zero_le _) (by omega) hr hcj fun k _ hk => hbefore k hk).2

/-- The value returned and the accesses made after a window loop. -/
theorem windowFinish_ret (pos count : Nat) (r : Bool × Int × State × List Nat) :
    (windowFinish pos count r).ret = r.2.1 ∧ (windowFinish pos count r).accesses = r.2.2.2 := by
  unfold windowFinish
  split_ifs <;> exact ⟨rfl, rfl⟩

set_option maxRecDepth 100000 in
/-- C24, counterexample.  Image A has `0x1000` bytes.  On a bus on which no
access raises a bus error and the copy of element number 1 between the user
buffer and the kernel fails, a transfer of 9 bytes in 16-bit accesses from
offset `0x10` returns `-1`, for a read and for a write, and not
`2 * (9 / 2) = 8`. -/
theorem window_copy_failure_returns_minus_one :
    (exampleAConfigured.image 0).okToWrite ≠ 0 ∧
    (exampleAConfigured.image 0).size = 0x1000 ∧
    (0x20000010 >>> 28) &&& 0xF = 2 ∧ 0x20000010 &&& 0x0FFFFFFF = 0x10 ∧
    (∀ k, k < 9 / 2 → ¬ raisesBerr exampleBusCopyFails k) ∧
    (universeII_read_window exampleAConfigured 0 0x20000010 9 exampleBusCopyFails).ret = -1 ∧
    (universeII_write_window exampleAConfigured 0 0x20000010 9 exampleBusCopyFails).ret = -1 ∧
    ((2 * (9 / 2) : Nat) : Int) = 8 := by
  decide

/-- C24, amended. For a read or write on the device file of an image with
`okToWrite` set, with the access width `w` in `{1, 2, 4}` in the bits 28..31
of the file position and the offset `o = pos & 0x0FFFFFFF`: if `o + count`
exceeds the image size the call returns `-1` and makes no access; otherwise
every access it makes lies, with all its `w` bytes, below the image size.
If access number `j` is the first to raise a bus error and the copies of the
elements before it succeed, a read returns `w * j`, and so does a write if
the copy of element `j` succeeds too.  If no access raises a bus error and
no copy fails, the call returns `w * (count / w)`.  If the copy of element
`j` fails, with no bus error and no failing copy before it, a write returns
`-1`, and so does a read if access `j` raises no bus error. -/
theorem window_transfer (st : State) (minor pos count w : Nat) (run : BusRun)
    (hok : (st.image minor).okToWrite ≠ 0) (hw : w = 1 ∨ w = 2 ∨ w = 4)
    (hdw : (pos >>> 28) &&& 0xF = w) :
    ((pos &&& 0x0FFFFFFF) + count > (st.image minor).size →
      (universeII_read_window st minor pos count run).ret = -1 ∧
      (universeII_read_window st minor pos count run).accesses = [] ∧
      (universeII_write_window st minor pos count run).ret = -1 ∧
      (universeII_write_window st minor pos count run).accesses = []) ∧
    ((pos &&& 0x0FFFFFFF) + count ≤ (st.image minor).size →
      (∀ a ∈ (universeII_read_window st minor pos count run).accesses,
        a + w ≤ (st.image minor).size) ∧
      (∀ a ∈ (universeII_write_window st minor pos count run).accesses,
        a + w ≤ (st.image minor).size) ∧
      (∀ j, j < count / w → raisesBerr run j →
        (∀ k, k < j → ¬ raisesBerr run k ∧ run.copyFails k = false) →
        (universeII_read_window st minor pos count run).ret = ((w * j : Nat) : Int) ∧
        (run.copyFails j = false →
          (universeII_write_window st minor pos count run).ret = ((w * j : Nat) : Int))) ∧
      ((∀ k, k < count / w → ¬ raisesBerr run k ∧ run.copyFails k = false) →
        (universeII_read_window st minor pos count run).ret =
          ((w * (count / w) : Nat) : Int) ∧
        (universeII_write_window st minor pos count run).ret =
          ((w * (count / w) : Nat) : Int)) ∧
      (∀ j, j < count / w → run.copyFails j = true →
        (∀ k, k < j → ¬ raisesBerr run k ∧ run.copyFails k = false) →
        (universeII_write_window st minor pos count run).ret = -1 ∧
        (¬ raisesBerr run j →
          (universeII_read_window st minor pos count run).ret = -1))) := by
  have hokr : ((countRead st).image minor).okToWrite ≠ 0 := hok
  have hokw : ((countWrite st).image minor).okToWrite ≠ 0 := hok
  have hsr : ((countRead st).image minor).size = (st.image minor).size := rfl
  have hsw : ((countWrite st).image minor).size = (st.image minor).size := rfl
  refine ⟨fun hbig => ?_, fun hfit => ?_⟩
  · simp only [universeII_read_window, universeII_write_window, if_pos hokr, if_pos hokw, hsr,
      hsw, if_pos hbig, and_self]
  · have hnb : ¬ ((pos &&& 0x0FFFFFFF) + count > (st.image minor).size) := by omega
    have hmul : w * (count / w) ≤ count := Nat.mul_div_le count w
    have hl := window_loops run w (pos &&& 0x0FFFFFFF) (count / w) (st.image minor).size
      (countRead st) (countWrite st) (by omega)
    have er : universeII_read_window st minor pos count run =
        windowFinish pos (count / w)
          (windowReadLoop run w (pos &&& 0x0FFFFFFF) (count / w) 0 0 (countRead st) []) := by
      simp only [universeII_read_window, if_pos hokr, hsr, if_neg hnb, hdw]
      rcases hw with rfl | rfl | rfl <;> simp
    have ew : universeII_write_window st minor pos count run =
        windowFinish pos (count / w)
          (windowWriteLoop run w (pos &&& 0x0FFFFFFF) (count / w) 0 0 (countWrite st) []) := by
      simp only [universeII_write_window, if_pos hokw, hsw, if_neg hnb, hdw]
      rcases hw with rfl | rfl | rfl <;> simp
    rw [er, ew]
    simp only [(windowFinish_ret _ _ _).1, (windowFinish_ret _ _ _).2]
    exact hl

/-- The amended C24 on examples: image A has `0x1000` bytes; a transfer of 9
bytes in 16-bit accesses from offset `0x10` returns `4` when the third access
raises a bus error and `8` when none does, `-1` when the copy of element 1
fails, and a transfer of `0x1000` bytes from offset `0x10` returns `-1`
without an access. -/
theorem window_transfer_witness :
    (exampleAConfigured.image 0).size = 0x1000 ∧
    (universeII_read_window exampleAConfigured 0 0x20000010 9 exampleBusRun).ret = 4 ∧
    (universeII_write_window exampleAConfigured 0 0x20000010 9 exampleBusRun).ret = 4 ∧
    (universeII_read_window exampleAConfigured 0 0x20000010 9 exampleBusQuiet).ret = 8 ∧
    (universeII_write_window exampleAConfigured 0 0x20000010 9 exampleBusQuiet).ret = 8 ∧
    (universeII_write_window exampleAConfigured 0 0x20000010 9 exampleBusCopyFails).ret = -1 ∧
    (universeII_read_window exampleAConfigured 0 0x20000010 9 exampleBusCopyFails).ret = -1 ∧
    (universeII_read_window exampleAConfigured 0 0x20000010 0x1000 exampleBusRun).ret = -1 ∧
    (universeII_write_window exampleAConfigured 0 0x20000010 0x1000 exampleBusRun).accesses
      = [] :=
  ⟨by decide,
   (((window_transfer exampleAConfigured 0 0x20000010 9 2 exampleBusRun (by decide)
      (Or.inr (Or.inl rfl)) (by decide)).2 (by decide)).2.2.1 2 (by decide)
      (by decide) (fun k hk => by interval_cases k <;> decide)).1,
   (((window_transfer exampleAConfigured 0 0x20000010 9 2 exampleBusRun (by decide)
      (Or.inr (Or.inl rfl)) (by decide)).2 (by decide)).2.2.1 2 (by decide)
      (by decide) (fun k hk => by interval_cases k <;> decide)).2 rfl,
   (((window_transfer exampleAConfigured 0 0x20000010 9 2 exampleBusQuiet (by decide)
      (Or.inr (Or.inl rfl)) (by decide)).2 (by decide)).2.2.2.1
      (fun k _ => ⟨fun h => h (show u32 0 &&& 0x08000000 = 0 by decide), rfl⟩)).1,
   (((window_transfer exampleAConfigured 0 0x20000010 9 2 exampleBusQuiet (by decide)
      (Or.inr (Or.inl rfl)) (by decide)).2 (by decide)).2.2.2.1
      (fun k _ => ⟨fun h => h (show u32 0 &&& 0x08000000 = 0 by decide), rfl⟩)).2,
   (((window_transfer exampleAConfigured 0 0x20000010 9 2 exampleBusCopyFails (by decide)
      (Or.inr (Or.inl rfl)) (by decide)).2 (by decide)).2.2.2.2 1 (by decide)
      (by decide) (fun k hk => by interval_cases k <;> decide)).1,
   (((window_transfer exampleAConfigured 0 0x20000010 9 2 exampleBusCopyFails (by decide)
      (Or.inr (Or.inl rfl)) (by decide)).2 (by decide)).2.2.2.2 1 (by decide)
      (by decide) (fun k hk => by interval_cases k <;> decide)).2
      (fun h => h (show u32 0 &&& 0x08000000 = 0 by decide)),
   ((window_transfer exampleAConfigured 0 0x20000010 0x1000 2 exampleBusRun (by decide)
      (Or.inr (Or.inl rfl)) (by decide)).1 (by decide)).1,
   ((window_transfer exampleAConfigured 0 0x20000010 0x1000 2 exampleBusRun (by decide)
      (Or.inr (Or.inl rfl)) (by decide)).1 (by decide)).2.2.2⟩


/-! ## C21: the lists after a full reset -/

set_option maxRecDepth 100000 in
/-- C21, the code at the failing input.  With the lists 0 and 1 in use, one
segment each, `IOCTL_RESET_ALL` with argument `0` returns `0` and frees list
0, but list 1 still has `free = 0` and its chain (head `0x2000`, node
allocated); the next two `IOCTL_NEW_DCP` return `0` and `2`. -/
theorem reset_all_leaves_list_in_use :
    (exampleTwoLists.cpLists 0).free = 0 ∧ (exampleTwoLists.cpLists 1).free = 0 ∧
    Res.val (universeII_ioctl_dma exampleTwoLists (DmaCmd.RESET_ALL 0 0) 8) = some 0 ∧
    ((Res.state (universeII_ioctl_dma exampleTwoLists (DmaCmd.RESET_ALL 0 0) 8)
      exampleTwoLists).cpLists 0).free = 1 ∧
    ((Res.state (universeII_ioctl_dma exampleTwoLists (DmaCmd.RESET_ALL 0 0) 8)
      exampleTwoLists).cpLists 1).free = 0 ∧
    ((Res.state (universeII_ioctl_dma exampleTwoLists (DmaCmd.RESET_ALL 0 0) 8)
      exampleTwoLists).cpLists 1).commandPacket = 0x2000 ∧
    ((Res.state (universeII_ioctl_dma exampleTwoLists (DmaCmd.RESET_ALL 0 0) 8)
      exampleTwoLists).packets 0x2000).isSome = true ∧
    (IOCTL_NEW_DCP (Res.state (universeII_ioctl_dma exampleTwoLists (DmaCmd.RESET_ALL 0 0) 8)
      exampleTwoLists)).1 = 0 ∧
    (IOCTL_NEW_DCP (IOCTL_NEW_DCP (Res.state (universeII_ioctl_dma exampleTwoLists
      (DmaCmd.RESET_ALL 0 0) 8) exampleTwoLists)).2).1 = 2 := by
  decide

/-! ## C26: the value of testAndClearDMAErrors -/

/-- C26, the code at the failing input.  When `DGCS` shows `0` after the run
(done bit clear, no other status bit), `testAndClearDMAErrors` counts a DMA
error and returns `0`; the one-shot read and write return the padding `5`
and `IOCTL_EXEC_DCP` returns `0`. -/
theorem dma_error_counted_not_reported :
    exampleRunNoStatus.dgcs &&& 0x00000800 = 0 ∧
    (testAndClearDMAErrors (execDMA exampleDmaOwned 0 exampleRunNoStatus)).1 = 0 ∧
    (testAndClearDMAErrors (execDMA exampleDmaOwned 0 exampleRunNoStatus)).2.statistics.dmaErrors
      = exampleDmaOwned.statistics.dmaErrors + 1 ∧
    (universeII_read_dma exampleDmaOwned (some exampleDmaParam) exampleRunNoStatus).1 = 5 ∧
    (universeII_read_dma exampleDmaOwned (some exampleDmaParam)
      exampleRunNoStatus).2.statistics.dmaErrors = exampleDmaOwned.statistics.dmaErrors + 1 ∧
    (universeII_write_dma exampleDmaOwned (some exampleDmaParam) exampleRunNoStatus).1 = 5 ∧
    Res.val (IOCTL_EXEC_DCP exampleListThree 0 exampleRunNoStatus 8) = some 0 ∧
    (Res.state (IOCTL_EXEC_DCP exampleListThree 0 exampleRunNoStatus 8)
      exampleListThree).statistics.dmaErrors = exampleListThree.statistics.dmaErrors + 1 := by
  decide

/-! ## C27: list IDs outside the table -/

/-- C27, the code at the failing input.  With the list ID `256`,
`IOCTL_ADD_DCP` returns the padding `5` and assigns to `cpLists[256]`,
`IOCTL_EXEC_DCP` programs `DCPP` with `cpLists[256].start` and returns `0`,
and `IOCTL_DEL_DCL` returns `0` and assigns to `cpLists[256]`; none of them
returns an error. -/
theorem list_id_not_checked :
    (exampleListNew.cpLists 256).commandPacket = 0 ∧
    Res.val (IOCTL_ADD_DCP exampleListNew (some examplePacket256) 0x1000 0x4000000 8) =
      some 5 ∧
    ((Res.state (IOCTL_ADD_DCP exampleListNew (some examplePacket256) 0x1000 0x4000000 8)
      exampleListNew).cpLists 256).commandPacket = 0x1000 ∧
    ((Res.state (IOCTL_ADD_DCP exampleListNew (some examplePacket256) 0x1000 0x4000000 8)
      exampleListNew).cpLists 256).start = 0x4000000 ∧
    Res.val (IOCTL_EXEC_DCP
      (Res.state (IOCTL_ADD_DCP exampleListNew (some examplePacket256) 0x1000 0x4000000 8)
        exampleListNew) 256 exampleRunDone 8) = some 0 ∧
    readl (Res.state (IOCTL_EXEC_DCP
      (Res.state (IOCTL_ADD_DCP exampleListNew (some examplePacket256) 0x1000 0x4000000 8)
        exampleListNew) 256 exampleRunDone 8) exampleListNew) DCPP = 0x4000000 ∧
    Res.val (IOCTL_DEL_DCL
      (Res.state (IOCTL_ADD_DCP exampleListNew (some examplePacket256) 0x1000 0x4000000 8)
        exampleListNew) 256 8) = some 0 ∧
    ((Res.state (IOCTL_DEL_DCL
      (Res.state (IOCTL_ADD_DCP exampleListNew (some examplePacket256) 0x1000 0x4000000 8)
        exampleListNew) 256 8) exampleListNew).cpLists 256).commandPacket = 0 := by
  decide

/-! ## C28: the image slots read by IOCTL_GET_IMAGE -/

/-- C28, the code at the failing input.  With all eight slave images
acquired, a slave request returns `-2` after reading `image[10]`, …,
`image[17]` and then `image[18]`, one past the table of 18 entries; with all
eight master images acquired, a master request reads `image[8]`, the entry of
the control minor. -/
theorem get_image_reads_past_kind :
    (IOCTL_GET_IMAGE exampleSlavesTaken 1).1 = -2 ∧
    getImageReads exampleSlavesTaken 10 (MAX_IMAGE + 1) 0 =
      [10, 11, 12, 13, 14, 15, 16, 17, 18] ∧
    (IOCTL_GET_IMAGE exampleMastersTaken 0).1 = -2 ∧
    getImageReads exampleMastersTaken 0 (MAX_IMAGE + 1) 0 = [0, 1, 2, 3, 4, 5, 6, 7, 8] := by
  decide

/-! ## C29: the indices of the interrupt table -/

/-- C29, the code at the failing input.  With level 4 the highest pending
level and `0x209` in its status/ID register (bit 8 clear, bit 9 set),
`irq_handler` accesses `irq_device[3][0x209]`: the second index is `521`. -/
theorem irq_statid_index_unmasked :
    readl exampleIrqWide V4_STATID = 0x209 ∧
    readl exampleIrqWide V4_STATID &&& 0x100 = 0 ∧
    (irq_handler exampleIrqWide).1.statidReads = [3] ∧
    (irq_handler exampleIrqWide).1.slots = [(3, 521)] := by
  decide

/-! ## C30: the interrupt enables after a full reset -/

set_option maxRecDepth 100000 in
/-- C30, the code at the failing input.  `universeII_probe` programs
`LINT_EN` with `0x15FE`; after `IOCTL_RESET_ALL` it holds `0x5FE`, with the
software-IACK bit `0x1000` clear.  With that interrupt pending
(`LINT_STAT = 0x1000`) `irq_handler` wakes `vmeWait` before the reset and
returns `IRQ_NONE`, waking nobody, after it. -/
theorem reset_all_drops_sw_iack :
    readl exampleBootIrq LINT_EN = 0x000015FE ∧
    Res.val (universeII_ioctl_dma exampleBootIrq (DmaCmd.RESET_ALL 0 0) 8) = some 0 ∧
    readl exampleAfterReset LINT_EN = 0x000005FE ∧
    readl exampleAfterReset LINT_EN &&& 0x1000 = 0 ∧
    (irq_handler (writel 0x1000 LINT_STAT exampleBootIrq)).1.handled = true ∧
    (irq_handler (writel 0x1000 LINT_STAT exampleBootIrq)).1.wakes = [Wake.vme] ∧
    (irq_handler (writel 0x1000 LINT_STAT exampleAfterReset)).1.handled = false ∧
    (irq_handler (writel 0x1000 LINT_STAT exampleAfterReset)).1.wakes = [] := by
  decide


/-! ### General facts behind C21, C26, C28 and C29 -/

/-- The loop of `IOCTL_RESET_ALL` over the lists assigns to no entry of the
list table other than `cpLists[arg]`. -/
theorem resetLists_other (arg fuel : Nat) :
    ∀ (n i : Nat) (st st' : State), resetLists arg fuel n i st = Res.ok st' →
      ∀ k, k ≠ arg → st'.cpLists k = st.cpLists k := by
  intro n
  induction n with
  | zero => intro i st st' h; cases h; exact fun _ _ => rfl
  | succ n ih =>
    intro i st st' h k hk
    simp only [resetLists] at h
    by_cases hf : (st.cpLists i).free = 0
    · rw [if_pos hf] at h
      cases hc : freeChain fuel (st.cpLists arg).commandPacket
          (setCpl st arg fun c => { c with commandPacket := 0, free := 1 }) with
      | invalid => simp only [hc] at h; cases h
      | unfinished => simp only [hc] at h; cases h
      | ok st2 =>
        simp only [hc] at h
        obtain ⟨_, h2⟩ := freeChain_frame _ _ _ _ hc
        rw [ih _ _ _ h k hk, h2]
        simp [hk]
    · rw [if_neg hf] at h
      exact ih _ _ _ h k hk

/-- A full reset leaves every list other than `cpLists[arg]` as it is, in
use or not. -/
theorem reset_all_other_lists (st : State) (arg dgcs fuel : Nat) (r : Int × State)
    (h : universeII_ioctl_dma st (DmaCmd.RESET_ALL arg dgcs) fuel = Res.ok r) :
    ∀ k, k ≠ arg → r.2.cpLists k = st.cpLists k := by
  intro k hk
  simp only [universeII_ioctl_dma, IOCTL_RESET_ALL] at h
  generalize hs2 : (if (writel (0xF9000000 ||| readl (countIoctl st) PCI_CSR) PCI_CSR
      (countIoctl st)).dma.dma_in_use ≠ 0 then
        setDma (writel 0x00006F00 DGCS (writel dgcs DGCS (writel 0x40000000 DGCS
          (writel (0xF9000000 ||| readl (countIoctl st) PCI_CSR) PCI_CSR (countIoctl st)))))
          fun d => { d with dma_in_use := 0, dma_blt_berr := 0 }
      else writel (0xF9000000 ||| readl (countIoctl st) PCI_CSR) PCI_CSR (countIoctl st)) = st2
    at h
  have hl2 : st2.cpLists = st.cpLists := by rw [← hs2]; split_ifs <;> simp
  cases hl : resetLists arg fuel 256 0 st2 with
  | invalid => simp only [hl] at h; cases h
  | unfinished => simp only [hl] at h; cases h
  | ok st3 =>
    simp only [hl] at h
    cases h
    obtain ⟨_, _, _, c4, _⟩ :=
      resetImages_spec MAX_IMAGE 0 (writel 0x000005FE LINT_EN (freeAllIrqs st3))
    simp only [clearStatistics_cpLists, c4, writel_cpLists, freeAllIrqs_cpLists]
    rw [resetLists_other arg fuel 256 0 st2 st3 hl k hk, hl2]

/-- Function `testAndClearDMAErrors` on any state: with the done bit set it
returns `0` and leaves the state; with the done bit clear it counts a DMA
error and returns the bits `0xE700` of `DGCS`, which may all be clear. -/
theorem testAndClearDMAErrors_value (st : State) :
    (readl st DGCS &&& 0x00000800 ≠ 0 → testAndClearDMAErrors st = (0, st)) ∧
    (readl st DGCS &&& 0x00000800 = 0 →
      (testAndClearDMAErrors st).1 = ((readl st DGCS &&& 0x0000E700 : Nat) : Int) ∧
      (testAndClearDMAErrors st).2.statistics.dmaErrors = st.statistics.dmaErrors + 1) ∧
    ((testAndClearDMAErrors st).1 ≠ 0 →
      (testAndClearDMAErrors st).2.statistics.dmaErrors = st.statistics.dmaErrors + 1) := by
  by_cases hd : readl st DGCS &&& 0x00000800 = 0
  · have e : (testAndClearDMAErrors st).1 = ((readl st DGCS &&& 0x0000E700 : Nat) : Int) ∧
        (testAndClearDMAErrors st).2.statistics.dmaErrors = st.statistics.dmaErrors + 1 := by
      simp only [testAndClearDMAErrors, if_pos hd]
      exact ⟨trivial, by split_ifs <;> simp [countDmaError]⟩
    exact ⟨fun h => absurd hd h, fun _ => e, fun _ => e.2⟩
  · have e : testAndClearDMAErrors st = (0, st) := by
      simp only [testAndClearDMAErrors, if_neg hd]
    refine ⟨fun _ => e, fun h => absurd h hd, fun h => ?_⟩
    rw [e] at h
    exact absurd rfl h

/-- The search loop of `IOCTL_GET_IMAGE` and its reads: the loop variable
ends at the number of reads less one, every read is at an index from
`i + offset` to `MAX_IMAGE + offset`, and `MAX_IMAGE + offset` is read exactly
when the slots from `i` on are all taken. -/
theorem getImageReads_spec (st : State) (offset : Nat) :
    ∀ (fuel i : Nat), i ≤ MAX_IMAGE → MAX_IMAGE < i + fuel →
      getImageScan st offset fuel i + 1 = i + (getImageReads st offset fuel i).length ∧
      (∀ a ∈ getImageReads st offset fuel i, i + offset ≤ a ∧ a ≤ MAX_IMAGE + offset) ∧
      (MAX_IMAGE + offset ∈ getImageReads st offset fuel i ↔
        ∀ k, i ≤ k → k < MAX_IMAGE → (st.image (k + offset)).opened ≠ 0) := by
  intro fuel
  induction fuel with
  | zero => intro i h1 h2; omega
  | succ f ih =>
    intro i h1 h2
    by_cases hc : (st.image (i + offset)).opened ≠ 0 ∧ i < MAX_IMAGE
    · obtain ⟨e1, e2, e3⟩ := ih (i + 1) (by have := hc.2; omega) (by omega)
      simp only [getImageScan, getImageReads, if_pos hc, List.length_cons, List.mem_cons]
      refine ⟨by omega, fun a ha => ?_, ?_⟩
      · rcases ha with rfl | ha
        · omega
        · have := e2 a ha; omega
      · constructor
        · rintro (h | h)
          · omega
          · intro k k1 k2
            by_cases hk : k = i
            · subst hk; exact hc.1
            · exact e3.mp h k (by omega) k2
        · intro h
          exact Or.inr (e3.mpr fun k k1 k2 => h k (by omega) k2)
    · simp only [getImageScan, getImageReads, if_neg hc, List.length_cons, List.length_nil,
        List.mem_cons, List.mem_singleton, List.not_mem_nil, or_false]
      refine ⟨?_, fun a ha => by subst ha; omega, ?_⟩
      · trivial
      constructor
      · intro h k k1 k2
        omega
      · intro h
        by_cases hi : i < MAX_IMAGE
        · exact absurd ⟨h i (le_refl _) hi, hi⟩ hc
        · omega

/-- The level scan of `irq_handler` ends at a value up to its start. -/
theorem irqLevelScan_le (status : Nat) : ∀ n, irqLevelScan status n ≤ n := by
  intro n
  induction n with
  | zero => exact le_refl _
  | succ n ih =>
    simp only [irqLevelScan]
    split_ifs
    · exact le_refl _
    · omega

/-- The accesses of `irq_handler` to the interrupt table: the first index is
a level index in `0..6`, the second is the whole value of the status/ID
register of that level, whose bit 8 is clear. -/
theorem irq_slots_index (st : State) :
    ∀ p ∈ (irq_handler st).1.slots,
      p.1 < 7 ∧ p.2 = readl st (aVIrq p.1) ∧ p.2 &&& 0x100 = 0 := by
  intro p hp
  have hs : (irq_handler st).1.slots =
      if readl st LINT_STAT &&& readl st LINT_EN = 0 then []
      else (irq_vme (countIrq st) (readl st LINT_STAT &&& readl st LINT_EN)).2.2.2 := by
    simp only [irq_handler]
    split_ifs <;> rfl
  rw [hs] at hp
  have hle := irqLevelScan_le (readl st LINT_STAT &&& readl st LINT_EN) 7
  by_cases h0 : readl st LINT_STAT &&& readl st LINT_EN = 0
  · rw [if_pos h0] at hp
    cases hp
  · rw [if_neg h0] at hp
    simp only [irq_vme] at hp
    by_cases h1 : (readl st LINT_STAT &&& readl st LINT_EN) &&& 0x00FE ≠ 0
    · rw [if_pos h1] at hp
      by_cases h2 : irqLevelScan (readl st LINT_STAT &&& readl st LINT_EN) 7 ≠ 0
      · rw [if_pos h2] at hp
        by_cases h3 : readl (countIrq st)
            (aVIrq (irqLevelScan (readl st LINT_STAT &&& readl st LINT_EN) 7 - 1)) &&& 0x100 ≠ 0
        · rw [if_pos h3] at hp
          simp at hp
        · rw [if_neg h3] at hp
          have h3' : readl st
              (aVIrq (irqLevelScan (readl st LINT_STAT &&& readl st LINT_EN) 7 - 1)) &&&
                0x100 = 0 := by simpa using h3
          have hp' : p = (irqLevelScan (readl st LINT_STAT &&& readl st LINT_EN) 7 - 1,
              readl st (aVIrq (irqLevelScan (readl st LINT_STAT &&& readl st LINT_EN) 7 - 1))) := by
            split_ifs at hp <;> simpa using hp
          subst hp'
          exact ⟨by show _ - 1 < 7; omega, rfl, h3'⟩
      · rw [if_neg h2] at hp
        simp at hp
    · rw [if_neg h1] at hp
      simp at hp


/-! ## C25: the shape of a list built by appends -/

/-- A 32-bit value whose low five bits are clear is unchanged by clearing
bit 0. -/
theorem clear_end_bit (x : Nat) (hx : x < 4294967296) (ha : x &&& 0x0000001F = 0) :
    x &&& 0xFFFFFFFE = x ∧ x &&& 0x1 = 0 := by
  have h32 : x &&& 0x1F = x % 32 := Nat.and_pow_two_sub_one_eq_mod x 5
  have h1 : x &&& 0x1 = x % 2 := Nat.and_pow_two_sub_one_eq_mod x 1
  have hall : x &&& 0xFFFFFFFF = x % 4294967296 := Nat.and_pow_two_sub_one_eq_mod x 32
  have hb0 : x &&& 0x1 = 0 := by omega
  refine ⟨?_, hb0⟩
  have hsplit : (0xFFFFFFFF : Nat) = 0xFFFFFFFE ||| 0x1 := by decide
  have : x &&& 0xFFFFFFFF = (x &&& 0xFFFFFFFE) ||| (x &&& 0x1) := by
    rw [hsplit, Nat.and_or_distrib_left]
  rw [hall, hb0, Nat.or_zero, Nat.mod_eq_of_lt hx] at this
  exact this.symm

/-- The link fields of a node after an assignment to another node. -/
theorem linkOf_setPacket_ne (st : State) (p q : Nat) (v : Option kcp) (h : q ≠ p) :
    linkOf (setPacket st p v) q = linkOf st q := by
  simp only [linkOf, packetAt, setPacket_packets, if_neg h]

/-- A node that has link fields is allocated. -/
theorem linkOf_some_packets (st : State) (p : Nat) (a : Nat × Nat) (h : linkOf st p = some a) :
    p ≠ 0 ∧ ∃ k, st.packets p = some k ∧ k.next = a.1 ∧ k.dcp.dcpp = a.2 := by
  simp only [linkOf, packetAt] at h
  by_cases hp : p = 0
  · simp [hp] at h
  · rw [if_neg hp] at h
    cases hk : st.packets p with
    | none => simp [hk] at h
    | some k =>
      simp only [hk, Option.map_some', Option.some.injEq] at h
      exact ⟨hp, k, rfl, by rw [← h], by rw [← h]⟩

/-- Whether a pointer starts a chain of a given shape depends on the link
fields of the nodes only. -/
theorem ChainShape_congr (st st' : State) :
    ∀ (xs : List (Nat × Nat)) (p : Nat),
      (∀ x ∈ xs, linkOf st' x.1 = linkOf st x.1) → ChainShape st p xs → ChainShape st' p xs := by
  intro xs
  induction xs with
  | nil => intro p _ h; exact h
  | cons x rest ih =>
    intro p hl h
    cases rest with
    | nil =>
      obtain ⟨h1, h2⟩ := h
      refine ⟨h1, ?_⟩
      rw [h1, hl x (List.mem_cons_self _ _), ← h1]
      exact h2
    | cons y rest =>
      obtain ⟨h1, h2, h3, h4⟩ := h
      refine ⟨h1, ?_, h3, ih y.1 (fun z hz => hl z (List.mem_cons_of_mem _ hz)) h4⟩
      rw [h1, hl x (List.mem_cons_self _ _), ← h1]
      exact h2

/-- Every node of a chain is allocated. -/
theorem ChainShape_allocated (st : State) :
    ∀ (xs : List (Nat × Nat)) (p : Nat), ChainShape st p xs →
      ∀ x ∈ xs, x.1 ≠ 0 ∧ st.packets x.1 ≠ none := by
  intro xs
  induction xs with
  | nil => intro p _ x hx; cases hx
  | cons x0 rest ih =>
    intro p h x hx
    cases rest with
    | nil =>
      obtain ⟨h1, h2⟩ := h
      have hx' : x = x0 := by simpa using hx
      subst hx'
      obtain ⟨a, k, b, _⟩ := linkOf_some_packets st p _ h2
      rw [← h1]
      exact ⟨a, by rw [b]; simp⟩
    | cons y rest =>
      obtain ⟨h1, h2, _, h4⟩ := h
      rcases List.mem_cons.mp hx with hx | hx
      · subst hx
        obtain ⟨a, k, b, _⟩ := linkOf_some_packets st p _ h2
        rw [← h1]
        exact ⟨a, by rw [b]; simp⟩
      · exact ih y.1 h4 x hx

/-- The search for the end of a list finds the last node of a chain. -/
theorem findTail_shape (st : State) :
    ∀ (xs : List (Nat × Nat)) (x0 : Nat × Nat) (fuel p t : Nat),
      ChainShape st p (x0 :: xs) → findTail st fuel p = Res.ok t →
      t = ((x0 :: xs).getLast (List.cons_ne_nil _ _)).1 := by
  intro xs
  induction xs with
  | nil =>
    intro x0 fuel p t h hf
    obtain ⟨h1, h2⟩ := h
    obtain ⟨a, k, b, c, _⟩ := linkOf_some_packets st p _ h2
    cases fuel with
    | zero => cases hf
    | succ f =>
      have hc : k.next = 0 := c
      simp only [findTail, packetAt, if_neg a, b, hc, ne_eq, not_true_eq_false, if_false,
        Res.ok.injEq] at hf
      simp only [List.getLast_singleton]
      rw [← hf, h1]
  | cons y rest ih =>
    intro x0 fuel p t h hf
    obtain ⟨h1, h2, _, h4⟩ := h
    obtain ⟨a, k, b, c, _⟩ := linkOf_some_packets st p _ h2
    have hy : y.1 ≠ 0 := by
      cases rest with
      | nil => exact h4.1 ▸ (linkOf_some_packets st _ _ h4.2).1
      | cons z rest => exact h4.1 ▸ (linkOf_some_packets st _ _ h4.2.1).1
    cases fuel with
    | zero => cases hf
    | succ f =>
      have hc : k.next = y.1 := c
      have hne : k.next ≠ 0 := by rw [hc]; exact hy
      simp only [findTail, packetAt, if_neg a, b, hc, if_pos hy] at hf
      rw [List.getLast_cons (List.cons_ne_nil _ _)]
      exact ih y f y.1 t h4 hf


/-- The last node of a chain has `next = NULL` and `dcpp = 1`. -/
theorem ChainShape_last (st : State) :
    ∀ (xs : List (Nat × Nat)) (x0 : Nat × Nat) (p : Nat), ChainShape st p (x0 :: xs) →
      linkOf st ((x0 :: xs).getLast (List.cons_ne_nil _ _)).1 = some (0, 1) := by
  intro xs
  induction xs with
  | nil =>
    intro x0 p h
    simp only [List.getLast_singleton]
    rw [← h.1]
    exact h.2
  | cons y rest ih =>
    intro x0 p h
    rw [List.getLast_cons (List.cons_ne_nil _ _)]
    exact ih y y.1 h.2.2.2

/-- The first node of a chain is the node the pointer refers to, and it is
not `NULL`. -/
theorem ChainShape_head (st : State) (xs : List (Nat × Nat)) (x0 : Nat × Nat) (p : Nat)
    (h : ChainShape st p (x0 :: xs)) : p = x0.1 ∧ p ≠ 0 := by
  cases xs with
  | nil => exact ⟨h.1, (linkOf_some_packets st _ _ h.2).1⟩
  | cons y rest => exact ⟨h.1, (linkOf_some_packets st _ _ h.2.1).1⟩

/-- Linking a fresh last node to the end of a chain gives the chain with one
more node. -/
theorem ChainShape_append (st st' : State) (newP busAddr : Nat)
    (hfresh : st.packets newP = none) (hnew : linkOf st' newP = some (0, 1))
    (hbit : busAddr &&& 0x1 = 0) :
    ∀ (xs : List (Nat × Nat)) (x0 : Nat × Nat) (p : Nat), ChainShape st p (x0 :: xs) →
      linkOf st' ((x0 :: xs).getLast (List.cons_ne_nil _ _)).1 = some (newP, busAddr) →
      (∀ q, q ≠ newP → q ≠ ((x0 :: xs).getLast (List.cons_ne_nil _ _)).1 →
        linkOf st' q = linkOf st q) →
      ChainShape st' p (x0 :: xs ++ [(newP, busAddr)]) := by
  intro xs
  induction xs with
  | nil =>
    intro x0 p h htail _
    simp only [List.getLast_singleton] at htail
    refine ⟨h.1, ?_, hbit, rfl, hnew⟩
    rw [h.1]
    exact htail
  | cons y rest ih =>
    intro x0 p h htail hother
    rw [List.getLast_cons (List.cons_ne_nil _ _)] at htail hother
    obtain ⟨h1, h2, h3, h4⟩ := h
    have hlast := ChainShape_last st rest y y.1 h4
    obtain ⟨_, k, hk, _⟩ := linkOf_some_packets st p _ h2
    have hy : y.1 ≠ 0 := (ChainShape_head st rest y y.1 h4).2
    have hpn : p ≠ newP := by
      intro e; rw [e, hfresh] at hk; cases hk
    have hpt : p ≠ ((y :: rest).getLast (List.cons_ne_nil _ _)).1 := by
      intro e
      rw [← e, h2] at hlast
      have : y.1 = 0 := by
        have := congrArg (fun o => o.map Prod.fst) hlast
        simpa using this
      exact hy this
    refine ⟨h1, ?_, h3, ih y y.1 h4 htail hother⟩
    rw [hother p hpn hpt]
    exact h2

/-- A successful second half of `IOCTL_ADD_DCP` assigns to the new node
only. -/
theorem addDcpFill_packets (st : State) (lp : list_packet_t) (newP ptr : Nat) (r : Int × State)
    (h : addDcpFill st lp newP ptr = Res.ok r) (hr : r.1 ≠ -1) :
    ∀ q, q ≠ newP → r.2.packets q = st.packets q := by
  intro q hq
  unfold addDcpFill at h
  cases hn : packetAt st newP with
  | none => simp only [hn] at h; cases h
  | some n0 =>
    have hne : newP ≠ 0 := by
      intro h0; simp [packetAt, h0] at hn
    simp only [hn] at h
    by_cases hp : ptr = 0
    · simp only [if_pos hp] at h
      split_ifs at h
      cases h
      simp [hq]
    · simp only [if_neg hp] at h
      cases ht : packetAt (setPacket st newP (some
          { n0 with next := 0,
                    dcp := { n0.dcp with dctl := u32 lp.dctl, dtbc := u32 lp.dtbc,
                                         dva := u32 lp.dva, dcpp := 0x00000001 } })) ptr with
      | none => simp only [ht] at h; cases h
      | some t =>
        simp only [ht] at h
        split_ifs at h
        · cases h; exact absurd rfl hr
        · simp only [packetAt_setPacket, if_neg hne, if_true] at h
          cases h
          simp [hq]


/-- One successful `IOCTL_ADD_DCP` on a list of a given shape, with a fresh
node and a 32-bit bus address: the list has the shape with the new node at
its end, the start address is that of the first node, and addresses that
were not allocated, other than that of the new node, are still not
allocated. -/
theorem add_dcp_step (st : State) (lp : list_packet_t) (newP busAddr fuel : Nat)
    (r : Int × State) (xs : List (Nat × Nat))
    (hshape : ChainShape st (st.cpLists lp.list).commandPacket xs)
    (hfresh : st.packets newP = none) (hb : busAddr < 4294967296)
    (hok : IOCTL_ADD_DCP st (some lp) newP busAddr fuel = Res.ok r) (hne : r.1 ≠ -1) :
    ChainShape r.2 (r.2.cpLists lp.list).commandPacket (xs ++ [(newP, busAddr)]) ∧
    (r.2.cpLists lp.list).start =
      (if xs = [] then busAddr else (st.cpLists lp.list).start) ∧
    (∀ q, q ≠ newP → st.packets q = none → r.2.packets q = none) := by
  obtain ⟨st', ptr, hf, _⟩ := IOCTL_ADD_DCP_fill st lp newP busAddr fuel r hok hne
  obtain ⟨dla, n, _, en, _, _, _, _, enext, edcpp, _⟩ := addDcpFill_ok st' lp newP ptr r hf hne
  have hP : newP ≠ 0 := by
    intro h0; simp [packetAt, h0] at en
  have hnew : linkOf r.2 newP = some (0, 1) := by
    simp only [linkOf, en, Option.map_some', enext, edcpp]
  clear hf en
  simp only [IOCTL_ADD_DCP, if_pos hP, setPacket_cpLists] at hok
  cases xs with
  | nil =>
    have hhead : (st.cpLists lp.list).commandPacket = 0 := hshape
    rw [if_pos hhead] at hok
    obtain ⟨_, hcl⟩ := addDcpFill_frame _ _ _ _ _ hok
    have hpk := addDcpFill_packets _ _ _ _ _ hok hne
    refine ⟨?_, ?_, fun q hq hn => ?_⟩
    · rw [hcl]
      simp only [setCpl_cpLists, if_true, List.nil_append]
      exact ⟨rfl, hnew⟩
    · rw [hcl]
      simp
    · rw [hpk q hq]
      simp [hq, hn]
  | cons x0 xs' =>
    obtain ⟨_, hh0⟩ := ChainShape_head st xs' x0 _ hshape
    rw [if_neg hh0] at hok
    have halloc := ChainShape_allocated st _ _ hshape
    have hshape1 : ChainShape (setPacket st newP (some kcp.zero))
        (st.cpLists lp.list).commandPacket (x0 :: xs') := by
      refine ChainShape_congr st _ _ _ (fun x hx => ?_) hshape
      apply linkOf_setPacket_ne
      intro e
      exact (halloc x hx).2 (e ▸ hfresh)
    cases hft : findTail (setPacket st newP (some kcp.zero)) fuel
        (st.cpLists lp.list).commandPacket with
    | invalid => simp only [hft] at hok; cases hok
    | unfinished => simp only [hft] at hok; cases hok
    | ok tail =>
      simp only [hft] at hok
      have htl := findTail_shape _ xs' x0 fuel _ tail hshape1 hft
      have hlast := ChainShape_last st xs' x0 _ hshape
      rw [← htl] at hlast
      obtain ⟨ht0, kt, hkt, _⟩ := linkOf_some_packets st tail _ hlast
      have htn : tail ≠ newP := by
        intro e; rw [e, hfresh] at hkt; cases hkt
      cases ht : packetAt (setPacket st newP (some kcp.zero)) tail with
      | none => simp only [ht] at hok; cases hok
      | some t =>
        simp only [ht] at hok
        by_cases ha : u32 busAddr &&& 0x0000001F ≠ 0
        · rw [if_pos ha] at hok; cases hok; exact absurd rfl hne
        · rw [if_neg ha] at hok
          have hu : u32 busAddr = busAddr := Nat.mod_eq_of_lt hb
          rw [hu] at ha hok
          obtain ⟨hD, hbit⟩ := clear_end_bit busAddr hb (by simpa using ha)
          rw [hD] at hok
          obtain ⟨_, hcl⟩ := addDcpFill_frame _ _ _ _ _ hok
          have hpk := addDcpFill_packets _ _ _ _ _ hok hne
          have htail : linkOf r.2 tail = some (newP, busAddr) := by
            simp only [linkOf, packetAt, if_neg ht0, hpk tail htn, setPacket_packets, if_true,
              Option.map_some']
          have hother : ∀ q, q ≠ newP → q ≠ tail → linkOf r.2 q = linkOf st q := by
            intro q h1 h2
            simp only [linkOf, packetAt, hpk q h1, setPacket_packets, if_neg h2, if_neg h1]
          have hcl' : r.2.cpLists = st.cpLists := by
            rw [hcl]; simp
          refine ⟨?_, ?_, fun q hq hn => ?_⟩
          · rw [hcl']
            exact ChainShape_append st r.2 newP busAddr hfresh hnew hbit xs' x0 _ hshape
              (by rw [← htl]; exact htail) (by rw [← htl]; exact hother)
          · rw [hcl']
            simp
          · have hqt : q ≠ tail := by
              intro e; rw [e, hkt] at hn; cases hn
            rw [hpk q hq]
            simp [hq, hqt, hn]


/-- A run of successful appends on a list of a given shape. -/
theorem addRun_shape (l fuel : Nat) :
    ∀ (calls : List (list_packet_t × Nat × Nat)) (st st' : State) (xs : List (Nat × Nat)),
      ChainShape st (st.cpLists l).commandPacket xs →
      (∀ c ∈ calls, st.packets c.2.1 = none) →
      (calls.map fun c => c.2.1).Nodup →
      (∀ c ∈ calls, c.2.2 < 4294967296) →
      addRun st l fuel calls = some st' →
      ChainShape st' (st'.cpLists l).commandPacket (xs ++ calls.map fun c => (c.2.1, c.2.2)) ∧
      (xs ≠ [] → (st'.cpLists l).start = (st.cpLists l).start) ∧
      (xs = [] → ∀ c0 rest, calls = c0 :: rest → (st'.cpLists l).start = c0.2.2) := by
  intro calls
  induction calls with
  | nil =>
    intro st st' xs hshape _ _ _ hrun
    simp only [addRun, Option.some.injEq] at hrun
    subst hrun
    refine ⟨by simpa using hshape, fun _ => rfl, fun _ c0 rest h => by cases h⟩
  | cons c rest ih =>
    intro st st' xs hshape hfresh hnd hbus hrun
    simp only [addRun] at hrun
    cases hcall : IOCTL_ADD_DCP st (some { c.1 with list := l }) c.2.1 c.2.2 fuel with
    | invalid => simp only [hcall] at hrun; cases hrun
    | unfinished => simp only [hcall] at hrun; cases hrun
    | ok r =>
      simp only [hcall] at hrun
      by_cases hr : r.1 = -1
      · rw [if_pos hr] at hrun; cases hrun
      · rw [if_neg hr] at hrun
        obtain ⟨s1, s2, s3⟩ := add_dcp_step st { c.1 with list := l } c.2.1 c.2.2 fuel r xs
          hshape (hfresh c (List.mem_cons_self _ _)) (hbus c (List.mem_cons_self _ _)) hcall hr
        have hnd' : c.2.1 ∉ (rest.map fun c => c.2.1) ∧ (rest.map fun c => c.2.1).Nodup := by
          simpa using hnd
        have hfresh' : ∀ c' ∈ rest, r.2.packets c'.2.1 = none := by
          intro c' hc'
          apply s3
          · intro e
            exact hnd'.1 (List.mem_map.mpr ⟨c', hc', e⟩)
          · exact hfresh c' (List.mem_cons_of_mem _ hc')
        obtain ⟨i1, i2, _⟩ := ih r.2 st' (xs ++ [(c.2.1, c.2.2)]) s1 hfresh' hnd'.2
          (fun c' hc' => hbus c' (List.mem_cons_of_mem _ hc')) hrun
        refine ⟨?_, fun hx => ?_, fun hx c0 rest' hc => ?_⟩
        · simpa [List.append_assoc] using i1
        · rw [i2 (by simp)]
          exact s2.trans (if_neg hx)
        · rw [i2 (by simp)]
          have hc0 : c = c0 := by
            have := List.head_eq_of_cons_eq hc
            exact this
          rw [← hc0]
          exact s2.trans (if_pos hx)

/-- C25. After a run of successful `IOCTL_ADD_DCP` calls on a list that was
empty, each with a fresh node and a 32-bit bus address and with nothing else
in between, the nodes of the list are those of the calls in append order; the
last node has `next = NULL` and `dcpp = 1` (last-packet bit set), every
earlier node has `next` at its successor, `dcpp` equal to the bus address of
its successor and the last-packet bit clear; `commandPacket` is the first
node and `start` its bus address. -/
theorem add_dcp_chain_shape (st st' : State) (l fuel : Nat)
    (calls : List (list_packet_t × Nat × Nat))
    (hempty : (st.cpLists l).commandPacket = 0)
    (hfresh : ∀ c ∈ calls, st.packets c.2.1 = none)
    (hdistinct : (calls.map fun c => c.2.1).Nodup)
    (hbus : ∀ c ∈ calls, c.2.2 < 4294967296)
    (hrun : addRun st l fuel calls = some st') :
    ChainShape st' (st'.cpLists l).commandPacket (calls.map fun c => (c.2.1, c.2.2)) ∧
    (∀ c0 rest, calls = c0 :: rest →
      (st'.cpLists l).commandPacket = c0.2.1 ∧ (st'.cpLists l).start = c0.2.2) := by
  obtain ⟨h1, _, h3⟩ := addRun_shape l fuel calls st st' [] hempty hfresh hdistinct hbus hrun
  rw [List.nil_append] at h1
  refine ⟨h1, fun c0 rest hc => ⟨?_, h3 rfl c0 rest hc⟩⟩
  subst hc
  exact (ChainShape_head st' _ _ _ h1).1

/-- C25, on the list of three segments: the nodes `0x1000`, `0x2000` and
`0x3000` are linked in this order, the first two hold the bus addresses
`0x4000020` and `0x4000040` of their successors with the last-packet bit
clear, the third has `dcpp = 1`, and the list starts at the bus address
`0x4000000`. -/
theorem add_dcp_chain_shape_witness :
    addRun exampleListNew 0 8 exampleThreeCalls = some exampleListThree ∧
    ChainShape exampleListThree (exampleListThree.cpLists 0).commandPacket
      [(0x1000, 0x4000000), (0x2000, 0x4000020), (0x3000, 0x4000040)] ∧
    (exampleListThree.cpLists 0).commandPacket = 0x1000 ∧
    (exampleListThree.cpLists 0).start = 0x4000000 ∧
    linkOf exampleListThree 0x1000 = some (0x2000, 0x4000020) ∧
    linkOf exampleListThree 0x2000 = some (0x3000, 0x4000040) ∧
    linkOf exampleListThree 0x3000 = some (0, 1) :=
  ⟨rfl,
   (add_dcp_chain_shape exampleListNew exampleListThree 0 8 exampleThreeCalls (by decide)
      (fun c hc => by
        simp only [exampleThreeCalls, List.mem_cons, List.mem_singleton, List.not_mem_nil,
          or_false] at hc
        rcases hc with rfl | rfl | rfl <;> rfl)
      (by decide) (fun c hc => by
        simp only [exampleThreeCalls, List.mem_cons, List.mem_singleton, List.not_mem_nil,
          or_false] at hc
        rcases hc with rfl | rfl | rfl <;> decide) rfl).1,
   ((add_dcp_chain_shape exampleListNew exampleListThree 0 8 exampleThreeCalls (by decide)
      (fun c hc => by
        simp only [exampleThreeCalls, List.mem_cons, List.mem_singleton, List.not_mem_nil,
          or_false] at hc
        rcases hc with rfl | rfl | rfl <;> rfl)
      (by decide) (fun c hc => by
        simp only [exampleThreeCalls, List.mem_cons, List.mem_singleton, List.not_mem_nil,
          or_false] at hc
        rcases hc with rfl | rfl | rfl <;> decide) rfl).2 _ _ rfl).1,
   ((add_dcp_chain_shape exampleListNew exampleListThree 0 8 exampleThreeCalls (by decide)
      (fun c hc => by
        simp only [exampleThreeCalls, List.mem_cons, List.mem_singleton, List.not_mem_nil,
          or_false] at hc
        rcases hc with rfl | rfl | rfl <;> rfl)
      (by decide) (fun c hc => by
        simp only [exampleThreeCalls, List.mem_cons, List.mem_singleton, List.not_mem_nil,
          or_false] at hc
        rcases hc with rfl | rfl | rfl <;> decide) rfl).2 _ _ rfl).2,
   by decide, by decide, by decide⟩


/-! ### The image table and the interrupt table under the interrupt handler and the window transfers -/

/-- Function `testAndClearBERR` assigns to registers and counters only. -/
theorem testAndClearBERR_frame (st : State) :
    (testAndClearBERR st).2.image = st.image ∧ (testAndClearBERR st).2.resTree = st.resTree ∧
    (testAndClearBERR st).2.irq_device = st.irq_device := by
  simp only [testAndClearBERR]
  split_ifs <;> exact ⟨rfl, rfl, rfl⟩

/-- The read loop of an image window assigns to registers and counters
only. -/
theorem windowReadLoop_frame (run : BusRun) (w o : Nat) :
    ∀ (n i : Nat) (okc : Int) (st : State) (acc : List Nat),
      (windowReadLoop run w o n i okc st acc).2.2.1.image = st.image ∧
      (windowReadLoop run w o n i okc st acc).2.2.1.resTree = st.resTree ∧
      (windowReadLoop run w o n i okc st acc).2.2.1.irq_device = st.irq_device := by
  intro n
  induction n with
  | zero => intro i okc st acc; exact ⟨rfl, rfl, rfl⟩
  | succ n ih =>
    intro i okc st acc
    obtain ⟨f1, f2, f3⟩ := testAndClearBERR_frame (writel (run.csr i) PCI_CSR st)
    simp only [windowReadLoop]
    split_ifs
    · exact ⟨f1, f2, f3⟩
    · exact ⟨f1, f2, f3⟩
    · obtain ⟨g1, g2, g3⟩ := ih (i + 1) (okc + w)
        (testAndClearBERR (writel (run.csr i) PCI_CSR st)).2 (acc ++ [o + w * i])
      exact ⟨g1.trans f1, g2.trans f2, g3.trans f3⟩

/-- The write loop of an image window assigns to registers and counters
only. -/
theorem windowWriteLoop_frame (run : BusRun) (w o : Nat) :
    ∀ (n i : Nat) (okc : Int) (st : State) (acc : List Nat),
      (windowWriteLoop run w o n i okc st acc).2.2.1.image = st.image ∧
      (windowWriteLoop run w o n i okc st acc).2.2.1.resTree = st.resTree ∧
      (windowWriteLoop run w o n i okc st acc).2.2.1.irq_device = st.irq_device := by
  intro n
  induction n with
  | zero => intro i okc st acc; exact ⟨rfl, rfl, rfl⟩
  | succ n ih =>
    intro i okc st acc
    obtain ⟨f1, f2, f3⟩ := testAndClearBERR_frame (writel (run.csr i) PCI_CSR st)
    simp only [windowWriteLoop]
    split_ifs
    · exact ⟨rfl, rfl, rfl⟩
    · exact ⟨f1, f2, f3⟩
    · obtain ⟨g1, g2, g3⟩ := ih (i + 1) (okc + w)
        (testAndClearBERR (writel (run.csr i) PCI_CSR st)).2 (acc ++ [o + w * i])
      exact ⟨g1.trans f1, g2.trans f2, g3.trans f3⟩

/-- The state after a window loop. -/
theorem windowFinish_st (pos count : Nat) (r : Bool × Int × State × List Nat) :
    (windowFinish pos count r).st = r.2.2.1 := by
  unfold windowFinish
  split_ifs <;> rfl

/-- The interrupt handler and the transfers through an image window assign
neither to the image table nor to the resource tree nor to the interrupt
table; they keep the invariant `MasterResInv`. -/
theorem irq_window_frame (st : State) :
    ((irq_handler st).2.image = st.image ∧ (irq_handler st).2.resTree = st.resTree ∧
      (irq_handler st).2.irq_device = st.irq_device) ∧
    (∀ (minor pos count : Nat) (run : BusRun),
      ((universeII_read_window st minor pos count run).st.image = st.image ∧
        (universeII_read_window st minor pos count run).st.resTree = st.resTree ∧
        (universeII_read_window st minor pos count run).st.irq_device = st.irq_device) ∧
      ((universeII_write_window st minor pos count run).st.image = st.image ∧
        (universeII_write_window st minor pos count run).st.resTree = st.resTree ∧
        (universeII_write_window st minor pos count run).st.irq_device = st.irq_device)) ∧
    (MasterResInv st → MasterResInv (irq_handler st).2 ∧
      ∀ (minor pos count : Nat) (run : BusRun),
        MasterResInv (universeII_read_window st minor pos count run).st ∧
        MasterResInv (universeII_write_window st minor pos count run).st) := by
  have hirq : (irq_handler st).2.image = st.image ∧ (irq_handler st).2.resTree = st.resTree ∧
      (irq_handler st).2.irq_device = st.irq_device := by
    have hb : ∀ s : State, (irq_berr s).image = s.image ∧ (irq_berr s).resTree = s.resTree ∧
        (irq_berr s).irq_device = s.irq_device := by
      intro s
      simp only [irq_berr]
      refine ⟨?_, ?_, ?_⟩ <;> split_ifs <;> simp
    have hv : ∀ (s : State) (x : Nat), (irq_vme s x).1.image = s.image ∧
        (irq_vme s x).1.resTree = s.resTree ∧ (irq_vme s x).1.irq_device = s.irq_device := by
      intro s x
      simp only [irq_vme]
      refine ⟨?_, ?_, ?_⟩ <;> split_ifs <;> simp
    obtain ⟨b1, b2, b3⟩ := hv (countIrq st) (readl st LINT_STAT &&& readl st LINT_EN)
    have c1 : (countIrq st).image = st.image := rfl
    have c2 : (countIrq st).resTree = st.resTree := rfl
    have c3 : (countIrq st).irq_device = st.irq_device := rfl
    by_cases h0 : readl st LINT_STAT &&& readl st LINT_EN = 0
    · simp only [irq_handler, if_pos h0, and_self]
    · simp only [irq_handler, if_neg h0, writel_image, writel_resTree, writel_irq_device]
      by_cases hbit : (readl st LINT_STAT &&& readl st LINT_EN) &&& 0x0400 ≠ 0
      · simp only [if_pos hbit]
        obtain ⟨a1, a2, a3⟩ := hb (irq_vme (countIrq st)
          (readl st LINT_STAT &&& readl st LINT_EN)).1
        exact ⟨a1.trans (b1.trans c1), a2.trans (b2.trans c2), a3.trans (b3.trans c3)⟩
      · simp only [if_neg hbit]
        exact ⟨b1.trans c1, b2.trans c2, b3.trans c3⟩
  have hwin : ∀ (minor pos count : Nat) (run : BusRun),
      ((universeII_read_window st minor pos count run).st.image = st.image ∧
        (universeII_read_window st minor pos count run).st.resTree = st.resTree ∧
        (universeII_read_window st minor pos count run).st.irq_device = st.irq_device) ∧
      ((universeII_write_window st minor pos count run).st.image = st.image ∧
        (universeII_write_window st minor pos count run).st.resTree = st.resTree ∧
        (universeII_write_window st minor pos count run).st.irq_device = st.irq_device) := by
    intro minor pos count run
    constructor
    · simp only [universeII_read_window]
      split_ifs <;> first
        | exact ⟨rfl, rfl, rfl⟩
        | (rw [windowFinish_st]; exact windowReadLoop_frame run _ _ _ 0 0 (countRead st) [])
    · simp only [universeII_write_window]
      split_ifs <;> first
        | exact ⟨rfl, rfl, rfl⟩
        | (rw [windowFinish_st]; exact windowWriteLoop_frame run _ _ _ 0 0 (countWrite st) [])
  refine ⟨hirq, hwin, fun hinv => ⟨masterResInv_congr st _ hirq.1 hirq.2.1 hinv,
    fun minor pos count run => ⟨?_, ?_⟩⟩⟩
  · obtain ⟨⟨a1, a2, _⟩, _⟩ := hwin minor pos count run
    exact masterResInv_congr st _ a1 a2 hinv
  · obtain ⟨_, ⟨a1, a2, _⟩⟩ := hwin minor pos count run
    exact masterResInv_congr st _ a1 a2 hinv


/-! ### The slot that the interrupt handler serves, for every value of the status/ID register -/

/-- Let `L` in `1..7` be the highest level whose bit is set in
`LINT_STAT & LINT_EN`.  For every value of the status/ID register of level
`L`, `irq_handler` reads that register and no other status/ID register.  If
bit 8 of the value is set, no slot is woken.  If bit 8 is clear and the
element `irq_device[L - 1][value]` lies in the table, the handler wakes the
slot that this expression designates, the one in row `irqRow` and column
`irqCol`, if it is armed, and no other slot. -/
theorem irq_dispatch_table (st : State) (L : Nat) (h1 : 1 ≤ L) (h7 : L ≤ 7)
    (hset : (readl st LINT_STAT &&& readl st LINT_EN) &&& (1 <<< L) ≠ 0)
    (hhigh : ∀ j, L < j → j ≤ 7 →
      (readl st LINT_STAT &&& readl st LINT_EN) &&& (1 <<< j) = 0) :
    (irq_handler st).1.statidReads = [L - 1] ∧
    (readl st (aVIrq (L - 1)) &&& 0x100 ≠ 0 →
      ∀ l s, Wake.irq l s ∉ (irq_handler st).1.wakes) ∧
    (readl st (aVIrq (L - 1)) &&& 0x100 = 0 →
      256 * (L - 1) + readl st (aVIrq (L - 1)) < 7 * 256 →
      ∀ l s, Wake.irq l s ∈ (irq_handler st).1.wakes ↔
        l = irqRow (L - 1) (readl st (aVIrq (L - 1))) ∧
        s = irqCol (L - 1) (readl st (aVIrq (L - 1))) ∧ (st.irq_device l s).ok ≠ 0) := by
  generalize hsv : readl st (aVIrq (L - 1)) = sv
  generalize hstat : readl st LINT_STAT &&& readl st LINT_EN = status at hset hhigh
  have hs0 : status ≠ 0 := by
    intro h0; rw [h0] at hset; simp at hset
  have hv := irq_vme_highest (countIrq st) status L h1 h7 hset hhigh
  have hsv' : readl (countIrq st) (aVIrq (L - 1)) = sv := hsv
  rw [hsv'] at hv
  have hmb : ∀ l s, Wake.irq l s ∉
      ((if status &&& 0x0100 ≠ 0 then [Wake.dma] else []) ++
        (if status &&& 0xF0000 ≠ 0 then mbxWakeLoop status 4 0 else []) ++
        (if status &&& 0x1000 ≠ 0 then [Wake.vme] else [])) := by
    intro l s hm
    simp only [List.mem_append] at hm
    rcases hm with (hm | hm) | hm
    · by_cases c : status &&& 0x0100 ≠ 0
      · simp [if_pos c] at hm
      · simp [if_neg c] at hm
    · by_cases c : status &&& 0xF0000 ≠ 0
      · rw [if_pos c] at hm
        obtain ⟨k, hk⟩ := mbxWakeLoop_mem _ _ _ _ hm
        cases hk
      · simp [if_neg c] at hm
    · by_cases c : status &&& 0x1000 ≠ 0
      · simp [if_pos c] at hm
      · simp [if_neg c] at hm
  have hstat' : readl st LINT_STAT &&& readl st LINT_EN = status := hstat
  simp only [irq_handler, hstat', if_neg hs0, hv, List.append_assoc, countIrq_irq_device]
  refine ⟨?_, ?_, ?_⟩
  · split_ifs <;> rfl
  · intro hb l s hm
    simp only [if_pos hb, List.nil_append] at hm
    exact hmb l s (by simpa [List.append_assoc] using hm)
  · intro hb hin l s
    have hb' : ¬ (sv &&& 0x100 ≠ 0) := fun h => h hb
    have hin' : ¬ (7 * 256 ≤ 256 * (L - 1) + sv) := by omega
    simp only [if_neg hb', if_neg hin']
    by_cases hok : (st.irq_device (irqRow (L - 1) sv) (irqCol (L - 1) sv)).ok ≠ 0
    · simp only [if_pos hok, List.singleton_append, List.mem_cons, Wake.irq.injEq]
      constructor
      · rintro (h | h)
        · obtain ⟨e1, e2⟩ := h
          subst e1 e2
          exact ⟨rfl, rfl, hok⟩
        · exact absurd (by simpa [List.append_assoc] using h) (hmb l s)
      · rintro ⟨e1, e2, _⟩
        exact Or.inl ⟨e1, e2⟩
    · simp only [if_neg hok, List.nil_append]
      constructor
      · intro h
        exact absurd (by simpa [List.append_assoc] using h) (hmb l s)
      · rintro ⟨e1, e2, e3⟩
        subst e1 e2
        exact absurd e3 hok

end UniverseII
